import Mathlib

/-! TUI File Browser: widget runtime, text editor viewport and model/view
resynchronisation.

A shallow embedding of `File Browser/FileBrowser.cpp`, `FileBrowser.hpp`, `Event.h`
and `MVCApp.cpp`.

Conventions of the embedding.

* `std::string` contents are `List Char`; control identifiers are `String`.
* `std::string::size_type` (the type of `cursorPos_` and `aperature_`) and
  `unsigned long long` (`fPos_`) are 64-bit words: arithmetic on them is taken
  modulo `SIZE_MOD = 2^64`.
* A scalar member that a C++ constructor leaves unset holds an indeterminate value;
  it is `none` here.  A copy of a whole object keeps it `none`; a converting constructor
  that has to copy an indeterminate member, an expression that reads one, and the
  dereferencing of `controls_.end()` are undefined behaviour (`Outcome.undefined`).
* The Windows console is external: the calls issued on `frame.console_` are recorded,
  oldest first, as a list of `ConsoleCall`.
* The regular expression engine and the directory iterators are external: they are the
  fields of `Env`.
-/

namespace FileBrowser

/-! ## Machine words -/

/-- Number of values of a 64-bit unsigned word (`size_t`, `unsigned long long`). -/
abbrev SIZE_MOD : Nat := 18446744073709551616

/-- Unsigned subtraction `a - b` on 64-bit words. -/
def usub (a b : Nat) : Nat := (a % SIZE_MOD + SIZE_MOD - b % SIZE_MOD) % SIZE_MOD

/-- Unsigned addition `a + b` on 64-bit words. -/
def uadd (a b : Nat) : Nat := (a + b) % SIZE_MOD

/-- The operator `++x` on a 64-bit unsigned word. -/
def uinc (a : Nat) : Nat := (a + 1) % SIZE_MOD

/-- The operator `--x` on a 64-bit unsigned word. -/
def udec (a : Nat) : Nat := (a % SIZE_MOD + SIZE_MOD - 1) % SIZE_MOD

/-- Conversion of an integer to `SHORT` (16-bit two's complement). -/
def toSHORT (z : Int) : Int :=
  let r := z % 65536
  if r < 32768 then r else r - 65536

/-- Conversion of an `int` to a 64-bit unsigned word. -/
def toSize (z : Int) : Nat := (z % (SIZE_MOD : Int)).toNat

/-- A `while (cond) body;` loop run for at most `fuel` tests of the condition.
`none` means the loop is still running when the fuel is used up. -/
def whileLoop {σ : Type} (cond : σ → Bool) (body : σ → σ) : Nat → σ → Option σ
  | 0, _ => none
  | fuel + 1, s => if cond s then whileLoop cond body fuel (body s) else some s

/-! ## Colours, controls and the console -/

/-- Members of `ForegroundColour` (declared in `Color.h`) that the program names. -/
inductive ForegroundColour where
  | WHITE
  | BLACK
  deriving DecidableEq, Repr

/-- Members of `BackgroundColour` (declared in `Color.h`) that the program names. -/
inductive BackgroundColour where
  | GREY
  | WHITE
  | BLACK
  deriving DecidableEq, Repr

/-- The class `Framework::Control`: the value stored in the registry `controls_`.
A member is `none` while no constructor or assignment has given it a value. -/
structure Control where
  xPos_ : Nat
  yPos_ : Option Nat
  length_ : Option Nat
  height_ : Option Nat
  foreground_ : ForegroundColour
  background_ : BackgroundColour
  content_ : List Char
  controlID_ : String
  cursorPos_ : Option Nat
  aperature_ : Option Nat
  controlHit_ : Option Bool
  state_ : Option Bool
  deriving DecidableEq, Repr

/-- The members of a `Control::Checkbox` object that its constructors set
(`height_` stays indeterminate). -/
structure Checkbox where
  xPos_ : Nat
  yPos_ : Nat
  length_ : Nat
  foreground_ : ForegroundColour
  background_ : BackgroundColour
  content_ : List Char
  controlID_ : String
  cursorPos_ : Nat
  aperature_ : Nat
  controlHit_ : Bool
  state_ : Bool
  deriving DecidableEq, Repr

/-- The members of a `Control::Label` object that its constructor sets. -/
structure Label where
  xPos_ : Nat
  yPos_ : Nat
  foreground_ : ForegroundColour
  background_ : BackgroundColour
  content_ : List Char
  controlID_ : String
  deriving DecidableEq, Repr

/-- The members of a `Control::TextBox` object that its constructors set. -/
structure TextBox where
  xPos_ : Nat
  yPos_ : Nat
  length_ : Nat
  foreground_ : ForegroundColour
  background_ : BackgroundColour
  controlID_ : String
  content_ : List Char
  deriving DecidableEq, Repr

/-- The members of a `Control::InputTextBox` object that its constructors set
(`height_` and `state_` stay indeterminate). -/
structure InputTextBox where
  xPos_ : Nat
  yPos_ : Nat
  length_ : Nat
  foreground_ : ForegroundColour
  background_ : BackgroundColour
  controlID_ : String
  content_ : List Char
  cursorPos_ : Nat
  aperature_ : Nat
  controlHit_ : Bool
  deriving DecidableEq, Repr

/-- The members of a `Control::FileViewer` object: its constructors set `xPos_`,
`height_`, the colours and the id; `content_` is default-constructed (empty);
`yPos_` is indeterminate until it is assigned. -/
structure FileViewer where
  xPos_ : Nat
  yPos_ : Option Nat
  height_ : Nat
  foreground_ : ForegroundColour
  background_ : BackgroundColour
  controlID_ : String
  content_ : List Char
  deriving DecidableEq, Repr

/-- A call made on the `Console` wrapper owned by `frame`. -/
inductive ConsoleCall where
  | SetTitle (title : String)
  | SetSize (width height : Nat)
  | SetCursor (x y : Int) (visible : Bool)
  | SetBackgroundColour (background : BackgroundColour)
  | EnableKeyboardAndMouse
  | EnableCtrlHandler
  | Fill (startLoc layoutSize : Nat) (foreground : ForegroundColour) (background : BackgroundColour)
  | Draw (x y : Nat) (controlLength : Nat) (foreground : ForegroundColour)
      (background : BackgroundColour)
  | Write (x y : Nat) (content : List Char) (foreground : ForegroundColour)
      (background : BackgroundColour)
  deriving DecidableEq, Repr

/-- The class `Framework`: the registry `controls_` (a `std::map` from id to `Control`,
kept here as an association list with pairwise different keys) and the calls made so
far on `console_`. -/
structure Framework where
  controls_ : List (String × Control)
  console_ : List ConsoleCall
  deriving DecidableEq, Repr

/-- The class `FileModel`.  `fSize_` is a floating-point sum: it is kept as the sequence
of file sizes (in bytes) whose quotients by `BYTES_TO_MB` were added, in order. -/
structure FileModel where
  files_ : List (List Char)
  sFiles_ : Option Nat
  mFiles_ : Option Nat
  fSize_ : Option (List Nat)
  folder_ : List Char
  regex_ : List Char
  recursion_ : Bool
  fPos_ : Option Nat
  startRow_ : Option Nat
  deriving DecidableEq, Repr

/-- The implementations of `IObserver`: `FileController` is the only one, and the
program creates one instance of it per application. -/
inductive IObserver where
  | controller
  deriving DecidableEq, Repr

/-- The state the event handlers work on: the global `frame`, the controller's
`model_` and the observer set of the view (`AbstractSubject::observers_`). -/
structure World where
  frame : Framework
  model_ : FileModel
  observers_ : List IObserver
  deriving DecidableEq, Repr

/-- What a C++ exception object carries. -/
inductive Exception where
  | XError (file : String) (line : Nat)
  | out_of_range
  deriving DecidableEq, Repr

/-- How a call ends: it returns, it leaves by an exception (with the state at that
moment), it has undefined behaviour, or it does not return. -/
inductive Outcome (α : Type) where
  | ok (a : α)
  | thrown (e : Exception) (w : World)
  | undefined
  | diverges
  deriving DecidableEq, Repr

/-- Sequencing of calls: an exception, undefined behaviour or divergence ends the
sequence. -/
def Outcome.bind {α β : Type} : Outcome α → (α → Outcome β) → Outcome β
  | Outcome.ok a, f => f a
  | Outcome.thrown e w, _ => Outcome.thrown e w
  | Outcome.undefined, _ => Outcome.undefined
  | Outcome.diverges, _ => Outcome.diverges

/-- One entry met by a directory iterator. -/
structure DirEntry where
  path : List Char
  is_directory : Bool
  extension : List Char
  file_size : Nat
  deriving DecidableEq, Repr

/-- The external collaborators: `std::regex` and the directory iterators of
`std::tr2::sys`. -/
structure Env where
  /-- Whether constructing a `std::regex` from the text succeeds. -/
  regexCompiles : List Char → Bool
  /-- The function `std::regex_match(extension, r)` for the regex built from a text. -/
  regex_match : List Char → List Char → Bool
  /-- Entries produced by `directory_iterator` for a path. -/
  directory_iterator : List Char → List DirEntry
  /-- Entries produced by `recursive_directory_iterator` for a path. -/
  recursive_directory_iterator : List Char → List DirEntry
  /-- Text produced by streaming a `long double` sum of megabytes and extracting a word. -/
  showSize : List Nat → List Char

/-! ## Constructors and slicing -/

/-- The constructor `Checkbox(id, origin, length, foreground, background, state, content)`. -/
def Checkbox.new (id : String) (origin : Nat × Nat) (length : Nat)
    (foreground : ForegroundColour) (background : BackgroundColour) (state : Bool)
    (content : List Char) : Checkbox :=
  { xPos_ := origin.1, yPos_ := origin.2, length_ := length,
    foreground_ := foreground, background_ := background,
    content_ := content, controlID_ := id,
    cursorPos_ := 0, aperature_ := 0, controlHit_ := false, state_ := state }

/-- The converting constructor `Checkbox(Control const& c)`. -/
def Checkbox.ofControl (c : Control) : Option Checkbox :=
  match c.yPos_, c.length_, c.cursorPos_, c.aperature_, c.controlHit_, c.state_ with
  | some y, some l, some p, some a, some h, some s =>
    some { xPos_ := c.xPos_, yPos_ := y, length_ := l,
           foreground_ := c.foreground_, background_ := c.background_,
           content_ := c.content_, controlID_ := c.controlID_,
           cursorPos_ := p, aperature_ := a, controlHit_ := h, state_ := s }
  | _, _, _, _, _, _ => none

/-- The `Control` base of a `Checkbox` object. -/
def Checkbox.toControl (c : Checkbox) : Control :=
  { xPos_ := c.xPos_, yPos_ := some c.yPos_, length_ := some c.length_, height_ := none,
    foreground_ := c.foreground_, background_ := c.background_,
    content_ := c.content_, controlID_ := c.controlID_,
    cursorPos_ := some c.cursorPos_, aperature_ := some c.aperature_,
    controlHit_ := some c.controlHit_, state_ := some c.state_ }

/-- The constructor `Label(id, origin, content, foreground, background)`. -/
def Label.new (id : String) (origin : Nat × Nat) (content : List Char)
    (foreground : ForegroundColour) (background : BackgroundColour) : Label :=
  { xPos_ := origin.1, yPos_ := origin.2, foreground_ := foreground,
    background_ := background, content_ := content, controlID_ := id }

/-- The `Control` base of a `Label` object. -/
def Label.toControl (l : Label) : Control :=
  { xPos_ := l.xPos_, yPos_ := some l.yPos_, length_ := none, height_ := none,
    foreground_ := l.foreground_, background_ := l.background_,
    content_ := l.content_, controlID_ := l.controlID_,
    cursorPos_ := none, aperature_ := none, controlHit_ := none, state_ := none }

/-- The constructor `TextBox(id, origin, length, foreground, background, content)`. -/
def TextBox.new (id : String) (origin : Nat × Nat) (length : Nat)
    (foreground : ForegroundColour) (background : BackgroundColour)
    (content : List Char) : TextBox :=
  { xPos_ := origin.1, yPos_ := origin.2, length_ := length,
    foreground_ := foreground, background_ := background,
    controlID_ := id, content_ := content }

/-- The converting constructor `TextBox(Control const& c)`. -/
def TextBox.ofControl (c : Control) : Option TextBox :=
  match c.yPos_, c.length_ with
  | some y, some l =>
    some { xPos_ := c.xPos_, yPos_ := y, length_ := l,
           foreground_ := c.foreground_, background_ := c.background_,
           controlID_ := c.controlID_, content_ := c.content_ }
  | _, _ => none

/-- The `Control` base of a `TextBox` object. -/
def TextBox.toControl (t : TextBox) : Control :=
  { xPos_ := t.xPos_, yPos_ := some t.yPos_, length_ := some t.length_, height_ := none,
    foreground_ := t.foreground_, background_ := t.background_,
    content_ := t.content_, controlID_ := t.controlID_,
    cursorPos_ := none, aperature_ := none, controlHit_ := none, state_ := none }

/-- The constructor `InputTextBox(id, origin, length, content, foreground, background)`. -/
def InputTextBox.new (id : String) (origin : Nat × Nat) (length : Nat) (content : List Char)
    (foreground : ForegroundColour) (background : BackgroundColour) : InputTextBox :=
  { xPos_ := origin.1, yPos_ := origin.2, length_ := length,
    foreground_ := foreground, background_ := background,
    controlID_ := id, content_ := content,
    cursorPos_ := 0, aperature_ := 0, controlHit_ := false }

/-- The converting constructor `InputTextBox(Control const& c)`. -/
def InputTextBox.ofControl (c : Control) : Option InputTextBox :=
  match c.yPos_, c.length_, c.cursorPos_, c.aperature_, c.controlHit_ with
  | some y, some l, some p, some a, some h =>
    some { xPos_ := c.xPos_, yPos_ := y, length_ := l,
           foreground_ := c.foreground_, background_ := c.background_,
           controlID_ := c.controlID_, content_ := c.content_,
           cursorPos_ := p, aperature_ := a, controlHit_ := h }
  | _, _, _, _, _ => none

/-- The `Control` base of an `InputTextBox` object. -/
def InputTextBox.toControl (i : InputTextBox) : Control :=
  { xPos_ := i.xPos_, yPos_ := some i.yPos_, length_ := some i.length_, height_ := none,
    foreground_ := i.foreground_, background_ := i.background_,
    content_ := i.content_, controlID_ := i.controlID_,
    cursorPos_ := some i.cursorPos_, aperature_ := some i.aperature_,
    controlHit_ := some i.controlHit_, state_ := none }

/-- The constructor `FileViewer(id, x, height, foreground, background)`. -/
def FileViewer.new (id : String) (x height : Nat)
    (foreground : ForegroundColour) (background : BackgroundColour) : FileViewer :=
  { xPos_ := x, yPos_ := none, height_ := height,
    foreground_ := foreground, background_ := background,
    controlID_ := id, content_ := [] }

/-- The converting constructor `FileViewer(Control const& c)`. -/
def FileViewer.ofControl (c : Control) : Option FileViewer :=
  match c.height_ with
  | some h =>
    some { xPos_ := c.xPos_, yPos_ := none, height_ := h,
           foreground_ := c.foreground_, background_ := c.background_,
           controlID_ := c.controlID_, content_ := [] }
  | none => none

/-- The `Control` base of a `FileViewer` object. -/
def FileViewer.toControl (f : FileViewer) : Control :=
  { xPos_ := f.xPos_, yPos_ := f.yPos_, length_ := none, height_ := some f.height_,
    foreground_ := f.foreground_, background_ := f.background_,
    content_ := f.content_, controlID_ := f.controlID_,
    cursorPos_ := none, aperature_ := none, controlHit_ := none, state_ := none }

/-- The dynamic type of an object passed as `Control const&`. -/
inductive Widget where
  | checkbox (c : Checkbox)
  | label (l : Label)
  | textBox (t : TextBox)
  | inputTextBox (i : InputTextBox)
  | fileViewer (f : FileViewer)
  deriving DecidableEq, Repr

/-- The `Control` base of an object of any of the five classes. -/
def Widget.toControl : Widget → Control
  | Widget.checkbox c => c.toControl
  | Widget.label l => l.toControl
  | Widget.textBox t => t.toControl
  | Widget.inputTextBox i => i.toControl
  | Widget.fileViewer f => f.toControl

/-- The class `Framework::Layout`. -/
structure Layout where
  layoutID_ : String
  startLoc_ : Nat
  size_ : Nat
  foreground_ : ForegroundColour
  background_ : BackgroundColour
  deriving DecidableEq, Repr

/-! ## The registry -/

/-- The lookup `controls_.find(id)`: `none` stands for `controls_.end()`. -/
def find : List (String × Control) → String → Option Control
  | [], _ => none
  | (k, c) :: rest, id => if k = id then some c else find rest id

/-- The call `controls_.insert(std::make_pair(id, control))`: a `std::map` keeps the
entry it already has under an equal key. -/
def mapInsert (controls : List (String × Control)) (id : String) (control : Control) :
    List (String × Control) :=
  match find controls id with
  | some _ => controls
  | none => controls ++ [(id, control)]

/-- The loop of `Control::Update`: the first entry whose key equals
`control.controlID_` is assigned `control`, and the loop breaks. -/
def updateLoop (control : Control) : List (String × Control) → List (String × Control)
  | [] => []
  | (k, c) :: rest =>
    if k = control.controlID_ then (k, control) :: rest
    else (k, c) :: updateLoop control rest

/-- The object `find(id)->second` converted to a `Checkbox`. -/
def getCheckbox (fr : Framework) (id : String) : Option Checkbox :=
  (find fr.controls_ id).bind Checkbox.ofControl

/-- The object `find(id)->second` converted to an `InputTextBox`. -/
def getInputTextBox (fr : Framework) (id : String) : Option InputTextBox :=
  (find fr.controls_ id).bind InputTextBox.ofControl

/-- The object `find(id)->second` converted to a `TextBox`. -/
def getTextBox (fr : Framework) (id : String) : Option TextBox :=
  (find fr.controls_ id).bind TextBox.ofControl

/-- The object `find(id)->second` converted to a `FileViewer`. -/
def getFileViewer (fr : Framework) (id : String) : Option FileViewer :=
  (find fr.controls_ id).bind FileViewer.ofControl

/-! ## Framework operations -/

/-- The text `std::string(n, ' ')`. -/
def blanks (n : Nat) : List Char := List.replicate n ' '

/-- The method `Framework::Write`. -/
def Framework.Write (fr : Framework) (x y : Nat) (content : List Char)
    (foreground : ForegroundColour) (background : BackgroundColour) : Framework :=
  { fr with console_ := fr.console_ ++ [ConsoleCall.Write x y content foreground background] }

/-- The method `Framework::ResetCursorPosition`. -/
def Framework.ResetCursorPosition (fr : Framework) (x y : Int) (visible : Bool) : Framework :=
  { fr with console_ := fr.console_ ++ [ConsoleCall.SetCursor x y visible] }

/-- The method `Framework::EnableCtrlHandler`. -/
def Framework.EnableCtrlHandler (fr : Framework) : Framework :=
  { fr with console_ := fr.console_ ++ [ConsoleCall.EnableCtrlHandler] }

/-- The method `Framework::SetupConsole`. -/
def Framework.SetupConsole (fr : Framework) : Framework :=
  { fr with console_ := fr.console_ ++
      [ConsoleCall.SetTitle "TUI File Browser", ConsoleCall.SetSize 130 50,
       ConsoleCall.SetCursor 0 0 false,
       ConsoleCall.SetBackgroundColour BackgroundColour.WHITE,
       ConsoleCall.EnableKeyboardAndMouse] }

/-- The method `Framework::AddLayoutToConsole`. -/
def Framework.AddLayoutToConsole (fr : Framework) (l : Layout) : Framework :=
  { fr with console_ := fr.console_ ++
      [ConsoleCall.Fill l.startLoc_ l.size_ l.foreground_ l.background_] }

/-- The method `Framework::AddControlToConsole`. -/
def Framework.AddControlToConsole (fr : Framework) (control : Widget) : Outcome Framework :=
  match control with
  | Widget.fileViewer f =>
    match FileViewer.ofControl f.toControl with
    | some fv =>
      Outcome.ok
        { controls_ := mapInsert fr.controls_ fv.controlID_ control.toControl,
          console_ := fr.console_ ++
            [ConsoleCall.Fill fv.xPos_ fv.height_ fv.foreground_ fv.background_] }
    | none => Outcome.undefined
  | _ =>
    match control.toControl.yPos_, control.toControl.length_ with
    | some y, some l =>
      Outcome.ok
        { controls_ :=
            mapInsert fr.controls_ control.toControl.controlID_ control.toControl,
          console_ := fr.console_ ++
            [ConsoleCall.Draw control.toControl.xPos_ y l control.toControl.foreground_
              control.toControl.background_] }
    | _, _ => Outcome.undefined

/-- The method `Framework::AddTextToConsole`. -/
def Framework.AddTextToConsole (fr : Framework) (control : Widget) : Outcome Framework :=
  match control.toControl.yPos_ with
  | some y =>
    Outcome.ok (fr.Write control.toControl.xPos_ y control.toControl.content_
      control.toControl.foreground_ control.toControl.background_)
  | none => Outcome.undefined

/-- The method `Control::Update`, on the global `frame`. -/
def Control.Update (control : Control) (fr : Framework) : Framework :=
  { fr with controls_ := updateLoop control fr.controls_ }

/-- The method `Checkbox::UpdateCheckState`. -/
def Checkbox.UpdateCheckState (c : Checkbox) (fr : Framework) : Framework :=
  fr.Write c.xPos_ c.yPos_ c.content_ c.foreground_ c.background_

/-- The method `InputTextBox::UpdateInputContent`. -/
def InputTextBox.UpdateInputContent (itb : InputTextBox) (fr : Framework) : Framework :=
  fr.Write itb.xPos_ itb.yPos_ itb.content_ itb.foreground_ itb.background_

/-- The method `TextBox::UpdateContent`. -/
def TextBox.UpdateContent (tbx : TextBox) (fr : Framework) : Framework :=
  (fr.Write tbx.xPos_ tbx.yPos_ (blanks tbx.length_) tbx.foreground_ tbx.background_).Write
    tbx.xPos_ tbx.yPos_ tbx.content_ tbx.foreground_ tbx.background_

/-- The method `FileViewer::UpdateFileView`. -/
def FileViewer.UpdateFileView (fv : FileViewer) (fr : Framework) : Outcome Framework :=
  match fv.yPos_ with
  | some y => Outcome.ok (fr.Write fv.xPos_ y fv.content_ fv.foreground_ fv.background_)
  | none => Outcome.undefined

/-- The loop `for (auto i = 0; i <= 28; i++) frame.Write(1, row++, ...)` of
`ClearFileView`; the first argument bounds the number of tests of the condition. -/
def ClearFileView.loop : Nat → Nat → Nat → Framework → Framework
  | 0, _, _, fr => fr
  | fuel + 1, i, row, fr =>
    if i ≤ 28 then
      ClearFileView.loop fuel (i + 1) (row + 1)
        (fr.Write 1 row (blanks 200) ForegroundColour.WHITE BackgroundColour.BLACK)
    else fr

/-- The method `FileViewer::ClearFileView`: 29 tests succeed and the 30th ends the loop. -/
def FileViewer.ClearFileView (fr : Framework) : Framework :=
  ClearFileView.loop 30 0 13 fr

/-- The method `FileView::CreateTUI`. -/
def FileView.CreateTUI (fr : Framework) (folder filter : List Char) (rSearch : Bool) :
    Outcome Framework :=
  let fr := fr.AddLayoutToConsole ⟨"titleBar", 0, 5, ForegroundColour.WHITE, BackgroundColour.GREY⟩
  let fr := fr.AddLayoutToConsole ⟨"ribbonBar", 5, 7, ForegroundColour.WHITE, BackgroundColour.GREY⟩
  let fr := fr.AddLayoutToConsole ⟨"footerBar", 43, 7, ForegroundColour.WHITE, BackgroundColour.GREY⟩
  (fr.AddTextToConsole (Widget.label (Label.new "titleLabel" (60, 2) "TUI FILE BROWSER".toList
    ForegroundColour.WHITE BackgroundColour.GREY))).bind fun fr =>
  (fr.AddTextToConsole (Widget.label (Label.new "folderLabel" (1, 6) "FOLDER:".toList
    ForegroundColour.WHITE BackgroundColour.GREY))).bind fun fr =>
  (fr.AddTextToConsole (Widget.label (Label.new "filterLabel" (1, 8) "FILTER:".toList
    ForegroundColour.WHITE BackgroundColour.GREY))).bind fun fr =>
  (fr.AddTextToConsole (Widget.label (Label.new "recursiveLabel" (1, 10)
    "RECURSIVE SEARCH?".toList ForegroundColour.WHITE BackgroundColour.GREY))).bind fun fr =>
  (fr.AddTextToConsole (Widget.label (Label.new "searchedLabel" (1, 44)
    "TOTAL SEARCHED:".toList ForegroundColour.WHITE BackgroundColour.GREY))).bind fun fr =>
  (fr.AddTextToConsole (Widget.label (Label.new "matchingLabel" (1, 46)
    "TOTAL MATCHED:".toList ForegroundColour.WHITE BackgroundColour.GREY))).bind fun fr =>
  (fr.AddTextToConsole (Widget.label (Label.new "fileSizeLabel" (1, 48)
    "TOTAL FILESIZE:".toList ForegroundColour.WHITE BackgroundColour.GREY))).bind fun fr =>
  (fr.AddControlToConsole (Widget.inputTextBox (InputTextBox.new "folderInput" (10, 6) 100
    folder ForegroundColour.BLACK BackgroundColour.WHITE))).bind fun fr =>
  (fr.AddControlToConsole (Widget.inputTextBox (InputTextBox.new "filterInput" (10, 8) 50
    filter ForegroundColour.BLACK BackgroundColour.WHITE))).bind fun fr =>
  (fr.AddControlToConsole (Widget.checkbox (Checkbox.new "recursiveCheck" (20, 10) 2
    ForegroundColour.BLACK BackgroundColour.WHITE rSearch
    (if rSearch then ['X'] else [' '])))).bind fun fr =>
  (fr.AddControlToConsole (Widget.textBox (TextBox.new "tbxSearched" (17, 44) 35
    ForegroundColour.BLACK BackgroundColour.WHITE []))).bind fun fr =>
  (fr.AddControlToConsole (Widget.textBox (TextBox.new "tbxMatched" (17, 46) 35
    ForegroundColour.BLACK BackgroundColour.WHITE []))).bind fun fr =>
  (fr.AddControlToConsole (Widget.textBox (TextBox.new "tbxFileSize" (17, 48) 35
    ForegroundColour.BLACK BackgroundColour.WHITE []))).bind fun fr =>
  fr.AddControlToConsole (Widget.fileViewer (FileViewer.new "fv" 12 31
    ForegroundColour.WHITE BackgroundColour.BLACK))

/-- The constructor `FileView(folder, filter, rSearch)`. -/
def FileView.new (fr : Framework) (folder filter : List Char) (rSearch : Bool) :
    Outcome Framework :=
  FileView.CreateTUI (fr.SetupConsole.EnableCtrlHandler) folder filter rSearch

/-! ## The model and the controller -/

/-- The constructor `FileModel(f, r, recurse)`: it sets the folder, the filter and the
recursion flag; `files_` is default-constructed (empty) and the counters, the size,
`fPos_` and `startRow_` are left unset. -/
def FileModel.new (f r : List Char) (recurse : Bool) : FileModel :=
  { files_ := [], sFiles_ := none, mFiles_ := none, fSize_ := none,
    folder_ := f, regex_ := r, recursion_ := recurse, fPos_ := none, startRow_ := none }

/-- The body of the `for (; d != e; d++)` loops of `FileModel::Scan` for one entry. -/
def FileModel.scanEntry (env : Env) (r : List Char) (m : FileModel) (d : DirEntry) :
    FileModel :=
  if !d.is_directory then
    let m1 := { m with sFiles_ := m.sFiles_.map uinc }
    if env.regex_match r d.extension then
      { m1 with mFiles_ := m1.mFiles_.map uinc,
                fSize_ := m1.fSize_.map (fun l => l ++ [d.file_size]),
                files_ := m1.files_ ++ [d.path] }
    else m1
  else { m with sFiles_ := m.sFiles_.map uinc }

/-- The method `FileModel::Scan(f, r, recurse)`; `r` is the text the regex was built
from. -/
def FileModel.Scan (env : Env) (m : FileModel) (f r : List Char) (recurse : Bool) :
    FileModel :=
  let m0 := { m with sFiles_ := some 0, mFiles_ := some 0, startRow_ := some 0,
                     fPos_ := some 0, fSize_ := some [], files_ := [] }
  if recurse then
    (env.recursive_directory_iterator f).foldl (FileModel.scanEntry env r) m0
  else
    (env.directory_iterator f).foldl (FileModel.scanEntry env r) m0

/-- The local file viewer of `UpdateModel` after the assignments `fv.yPos_ = 13`,
`fv.xPos_ = 1` and `fv.content_ = "Scan in progress..."`. -/
def scanNotice (fv : FileViewer) : FileViewer :=
  { fv with yPos_ := some 13, xPos_ := 1, content_ := "Scan in progress...".toList }

/-- The method `FileController::UpdateModel`. -/
def FileController.UpdateModel (env : Env) (w : World) : Outcome World :=
  match getCheckbox w.frame "recursiveCheck", getInputTextBox w.frame "folderInput",
        getInputTextBox w.frame "filterInput", getFileViewer w.frame "fv" with
  | some cb, some itbFolder, some itbFilter, some fv =>
    let model := FileModel.new itbFolder.content_ itbFilter.content_ cb.state_
    let shown : Outcome Framework :=
      if model.recursion_ then
        let fv := scanNotice fv
        fv.UpdateFileView (Control.Update fv.toControl (FileViewer.ClearFileView w.frame))
      else Outcome.ok (FileViewer.ClearFileView w.frame)
    shown.bind fun fr =>
      if env.regexCompiles model.regex_ then
        Outcome.ok
          { w with frame := fr,
                   model_ := model.Scan env model.folder_ model.regex_ model.recursion_ }
      else
        Outcome.thrown (Exception.XError "Invalid regex." 833)
          { w with frame := fr, model_ := model }
  | _, _, _, _ => Outcome.undefined

/-- The loop that writes the first page of file names in `FileController::UpdateView`;
the first argument bounds the number of tests of the loop condition.  The result is the
final `startRow_` and the frame. -/
def UpdateView.loop (files : List (List Char)) (foreground : ForegroundColour)
    (background : BackgroundColour) : Nat → Nat → Nat → Nat → Framework → Nat × Framework
  | 0, _, _, startRow, fr => (startRow, fr)
  | fuel + 1, i, viewBound, startRow, fr =>
    if i < files.length then
      if viewBound ≤ 28 then
        UpdateView.loop files foreground background fuel (uinc i) (viewBound + 1)
          (startRow + 1)
          (fr.Write 1 startRow (files.getD (i % 4294967296) []) foreground background)
      else (startRow, fr)
    else (startRow, fr)

/-- The text produced by streaming an unsigned number and extracting a word. -/
def showNat (n : Nat) : List Char := (Nat.repr n).toList

/-- The method `FileController::UpdateView`. -/
def FileController.UpdateView (env : Env) (w : World) : Outcome World :=
  match getCheckbox w.frame "recursiveCheck", getInputTextBox w.frame "folderInput",
        getInputTextBox w.frame "filterInput", getTextBox w.frame "tbxSearched",
        getTextBox w.frame "tbxMatched", getTextBox w.frame "tbxFileSize",
        getFileViewer w.frame "fv" with
  | some cb, some itbFolder, some itbFilter, some tbxSearched, some tbxMatched,
    some tbxFileSize, some fv =>
    let cb := { cb with state_ := w.model_.recursion_,
                        content_ := if w.model_.recursion_ then ['X'] else [' '] }
    let itbFolder := { itbFolder with content_ := w.model_.folder_ }
    let itbFilter := { itbFilter with content_ := w.model_.regex_ }
    let fv := { fv with yPos_ := some 13, xPos_ := 1 }
    let fr := cb.UpdateCheckState (Control.Update cb.toControl w.frame)
    let fr := itbFolder.UpdateInputContent (Control.Update itbFolder.toControl fr)
    let fr := itbFilter.UpdateInputContent (Control.Update itbFilter.toControl fr)
    (fv.UpdateFileView (FileViewer.ClearFileView (Control.Update fv.toControl fr))).bind
      fun fr =>
      let painted := UpdateView.loop w.model_.files_ fv.foreground_ fv.background_ 30 0 0 13 fr
      match w.model_.sFiles_, w.model_.mFiles_, w.model_.fSize_ with
      | some sFiles, some mFiles, some fSize =>
        let tbxSearched := { tbxSearched with content_ := showNat sFiles }
        let tbxMatched := { tbxMatched with content_ := showNat mFiles }
        let tbxFileSize := { tbxFileSize with content_ := env.showSize fSize ++ ['M', 'B'] }
        let fr := tbxSearched.UpdateContent (Control.Update tbxSearched.toControl painted.2)
        let fr := tbxMatched.UpdateContent (Control.Update tbxMatched.toControl fr)
        let fr := tbxFileSize.UpdateContent (Control.Update tbxFileSize.toControl fr)
        Outcome.ok
          { w with frame := fr,
                   model_ := { w.model_ with startRow_ := some 0, fPos_ := some 0 } }
      | _, _, _ => Outcome.undefined
  | _, _, _, _, _, _, _ => Outcome.undefined

/-- The method `FileController::Update`. -/
def FileController.Update (env : Env) (w : World) : Outcome World :=
  (FileController.UpdateModel env w).bind fun w => FileController.UpdateView env w

/-- The virtual call `o->Update()`. -/
def IObserver.Update (env : Env) : IObserver → World → Outcome World
  | IObserver.controller, w => FileController.Update env w

/-- The loop `for (auto o : observers_) o->Update();`. -/
def Notify.loop (env : Env) : List IObserver → World → Outcome World
  | [], w => Outcome.ok w
  | o :: os, w => (o.Update env w).bind fun w => Notify.loop env os w

/-- The method `AbstractSubject::Notify`, called on the view. -/
def Notify (env : Env) (w : World) : Outcome World :=
  Notify.loop env w.observers_ w

/-- The method `AbstractSubject::Attach`, called on the view: `observers_` is a set. -/
def Attach (p : IObserver) (w : World) : World :=
  if p ∈ w.observers_ then w else { w with observers_ := w.observers_ ++ [p] }

/-! ## Input events -/

/-- The record `KEY_EVENT_RECORD` as read through `Event::Keyboard`. -/
structure Keyboard where
  bKeyDown : Bool
  AsciiChar : Char
  wVirtualKeyCode : Nat
  deriving DecidableEq, Repr

/-- The record `MOUSE_EVENT_RECORD` as read through `Event::Mouse`; the position is a
`COORD` of two `SHORT`s. -/
structure Mouse where
  dwMousePosition : Int × Int
  dwButtonState : Nat
  dwEventFlags : Nat
  deriving DecidableEq, Repr

/-- An input record: `Event::GetType()` is `KEY`, `MOUSE`, or another record type. -/
inductive Event where
  | KEY (ke : Keyboard)
  | MOUSE (me : Mouse)
  | other
  deriving DecidableEq, Repr

/-- The Windows constant of that name. -/
abbrev VK_BACK : Nat := 8
/-- The Windows constant of that name. -/
abbrev VK_RETURN : Nat := 13
/-- The Windows constant of that name. -/
abbrev VK_PRIOR : Nat := 33
/-- The Windows constant of that name. -/
abbrev VK_NEXT : Nat := 34
/-- The Windows constant of that name. -/
abbrev VK_END : Nat := 35
/-- The Windows constant of that name. -/
abbrev VK_HOME : Nat := 36
/-- The Windows constant of that name. -/
abbrev VK_LEFT : Nat := 37
/-- The Windows constant of that name. -/
abbrev VK_UP : Nat := 38
/-- The Windows constant of that name. -/
abbrev VK_RIGHT : Nat := 39
/-- The Windows constant of that name. -/
abbrev VK_DOWN : Nat := 40
/-- The Windows constant of that name. -/
abbrev VK_DELETE : Nat := 46
/-- The Windows constant of that name. -/
abbrev VK_OEM_PLUS : Nat := 187
/-- The Windows constant of that name. -/
abbrev VK_OEM_MINUS : Nat := 189
/-- The Windows constant of that name. -/
abbrev MOUSE_WHEELED : Nat := 4
/-- The Windows constant of that name. -/
abbrev FROM_LEFT_1ST_BUTTON_PRESSED : Nat := 1

/-- The Windows helper of that name: the upper 16 bits of a 32-bit value. -/
def HIWORD (x : Nat) : Nat := (x / 65536) % 65536

/-- The accessor `Event::Mouse::LeftPressed`. -/
def Mouse.LeftPressed (me : Mouse) : Bool :=
  me.dwButtonState == FROM_LEFT_1ST_BUTTON_PRESSED

/-- The accessor `Event::Mouse::MouseWheelDown`. -/
def Mouse.MouseWheelDown (me : Mouse) : Bool :=
  decide (toSHORT (HIWORD me.dwButtonState) < 0)

/-- The accessor `Event::Mouse::MouseWheelUp`. -/
def Mouse.MouseWheelUp (me : Mouse) : Bool :=
  decide (toSHORT (HIWORD me.dwButtonState) > 0)

/-- The C function `isprint` in the "C" locale. -/
def isprint (ch : Char) : Bool := decide (32 ≤ ch.toNat) && decide (ch.toNat ≤ 126)

/-! ## The text editor -/

/-- The three `while` loops that follow the key `switch` in
`FileView::ProcessKeyEvent`.  The first and the third loop decrement the aperture and
stop at zero at the latest; the second increments it and, when it stops at all, stops
before the aperture has passed the cursor: the fuel given to each loop is that bound,
so `none` means that the loop does not terminate. -/
def recomputeAperture (itb : InputTextBox) : Option InputTextBox :=
  let size := uadd itb.content_.length 1
  (whileLoop (fun a => decide (itb.cursorPos_ < a)) udec (itb.aperature_ + 1)
    itb.aperature_).bind fun a1 =>
  (whileLoop (fun a => decide (usub itb.cursorPos_ a ≥ itb.length_)) uinc
    (usub itb.cursorPos_ a1 + 1) a1).bind fun a2 =>
  (whileLoop (fun a => decide (usub size a < itb.length_) && decide (size > itb.length_))
    udec (a2 + 1) a2).bind fun a3 =>
  some { itb with aperature_ := a3 }

/-- The local input box after the assignments `cursorPos_ = 0`, `aperature_ = 0` and
`controlHit_ = false` of the `VK_RETURN` case. -/
def enterBox (itb : InputTextBox) : InputTextBox :=
  { itb with cursorPos_ := 0, aperature_ := 0, controlHit_ := false }

/-- The `switch (ke.VirtualKeyCode())` of `FileView::ProcessKeyEvent` for a focused input
box.  The result is the local box, the flag `enterHit_` and the state. -/
def keySwitch (env : Env) (ke : Keyboard) (itb : InputTextBox) (w : World) :
    Outcome (InputTextBox × Bool × World) :=
  if ke.wVirtualKeyCode = VK_BACK then
    if 0 < itb.cursorPos_ ∧ itb.cursorPos_ ≤ itb.content_.length then
      Outcome.ok ({ itb with cursorPos_ := udec itb.cursorPos_,
                             content_ := itb.content_.eraseIdx (udec itb.cursorPos_) },
                  false, w)
    else Outcome.ok (itb, false, w)
  else if ke.wVirtualKeyCode = VK_DELETE then
    if 0 ≤ itb.cursorPos_ ∧ itb.cursorPos_ < itb.content_.length then
      Outcome.ok ({ itb with content_ := itb.content_.eraseIdx itb.cursorPos_ }, false, w)
    else Outcome.ok (itb, false, w)
  else if ke.wVirtualKeyCode = VK_LEFT then
    if itb.cursorPos_ > 0 then
      Outcome.ok ({ itb with cursorPos_ := udec itb.cursorPos_ }, false, w)
    else Outcome.ok (itb, false, w)
  else if ke.wVirtualKeyCode = VK_RIGHT then
    if itb.cursorPos_ < itb.content_.length then
      Outcome.ok ({ itb with cursorPos_ := uinc itb.cursorPos_ }, false, w)
    else Outcome.ok (itb, false, w)
  else if ke.wVirtualKeyCode = VK_END then
    Outcome.ok ({ itb with cursorPos_ := itb.content_.length }, false, w)
  else if ke.wVirtualKeyCode = VK_HOME then
    Outcome.ok ({ itb with cursorPos_ := 0 }, false, w)
  else if ke.wVirtualKeyCode = VK_RETURN then
    let itb := enterBox itb
    (Notify env { w with frame := Control.Update itb.toControl w.frame }).bind fun w =>
      Outcome.ok (itb, true, w)
  else if isprint ke.AsciiChar then
    if itb.cursorPos_ ≤ itb.content_.length then
      Outcome.ok ({ itb with content_ := itb.content_.take itb.cursorPos_ ++
                                          ke.AsciiChar :: itb.content_.drop itb.cursorPos_,
                             cursorPos_ := uinc itb.cursorPos_ },
                  false, w)
    else Outcome.undefined
  else Outcome.ok (itb, false, w)

/-- The statements that follow the key `switch` for a focused input box: viewport
recomputation, redraw, cursor placement and `Update`. -/
def afterSwitch (itb : InputTextBox) (enterHit_ : Bool) (w : World) : Outcome World :=
  match recomputeAperture itb with
  | none => Outcome.diverges
  | some itb =>
    if itb.aperature_ ≤ itb.content_.length then
      let s := (itb.content_.drop itb.aperature_).take itb.length_ ++ blanks (itb.length_ / 2)
      let fr := w.frame.Write itb.xPos_ itb.yPos_ s itb.foreground_ itb.background_
      let fr := itb.UpdateInputContent fr
      let cLocX := toSHORT (uadd (toSize (toSHORT itb.xPos_))
        (usub itb.cursorPos_ itb.aperature_))
      let fr := fr.ResetCursorPosition cLocX (toSHORT itb.yPos_) (!enterHit_)
      Outcome.ok { w with frame := Control.Update itb.toControl fr }
    else Outcome.thrown Exception.out_of_range w

/-- The branch of `FileView::ProcessKeyEvent` taken for a focused input box. -/
def focusedKey (env : Env) (ke : Keyboard) (itb : InputTextBox) (w : World) :
    Outcome World :=
  (keySwitch env ke itb w).bind fun r => afterSwitch r.1 r.2.1 r.2.2

/-- The repaint loop of the scroll handlers; the first argument bounds the number of
tests of the loop condition.  The result is the final `startRow_` and the frame. -/
def scrollLoop (files : List (List Char)) : Nat → Nat → Nat → Nat → Framework →
    Nat × Framework
  | 0, _, _, startRow, fr => (startRow, fr)
  | fuel + 1, i, viewBound, startRow, fr =>
    if i < files.length then
      if viewBound ≤ 28 then
        scrollLoop files fuel (uinc i) (viewBound + 1) (startRow + 1)
          ((fr.Write 1 startRow (blanks 200) ForegroundColour.WHITE
              BackgroundColour.BLACK).Write 1 startRow (files.getD (i % 4294967296) [])
            ForegroundColour.WHITE BackgroundColour.BLACK)
      else (startRow, fr)
    else (startRow, fr)

/-- The statements under "Reset and output." of the scroll handlers, run with the new
offset `fPos`. -/
def scrollRepaint (fPos : Nat) (w : World) : World :=
  let painted := scrollLoop w.model_.files_ 30 fPos 0 13 w.frame
  { w with frame := painted.2,
           model_ := { w.model_ with fPos_ := some fPos, startRow_ := some painted.1 } }

/-- The scroll-up handler (keys `VK_PRIOR`, `VK_OEM_PLUS`, `VK_UP` and wheel up). -/
def scrollUp (w : World) : Outcome World :=
  match w.model_.fPos_ with
  | some fPos => Outcome.ok (scrollRepaint (if fPos > 0 then udec fPos else fPos) w)
  | none => Outcome.undefined

/-- The scroll-down handler (keys `VK_NEXT`, `VK_OEM_MINUS`, `VK_DOWN` and wheel down). -/
def scrollDown (w : World) : Outcome World :=
  match w.model_.fPos_ with
  | some fPos =>
    Outcome.ok (scrollRepaint
      (if uadd fPos 28 < w.model_.files_.length then uinc fPos else fPos) w)
  | none => Outcome.undefined

/-- The method `FileView::ProcessKeyEvent`. -/
def FileView.ProcessKeyEvent (env : Env) (ke : Keyboard) (w : World) : Outcome World :=
  if ke.bKeyDown then
    match getInputTextBox w.frame "folderInput", getInputTextBox w.frame "filterInput" with
    | some itbFolder, some itbFilter =>
      if itbFolder.controlHit_ then focusedKey env ke itbFolder w
      else if itbFilter.controlHit_ then focusedKey env ke itbFilter w
      else if ke.wVirtualKeyCode = VK_PRIOR ∨ ke.wVirtualKeyCode = VK_OEM_PLUS ∨
              ke.wVirtualKeyCode = VK_UP then scrollUp w
      else if ke.wVirtualKeyCode = VK_NEXT ∨ ke.wVirtualKeyCode = VK_OEM_MINUS ∨
              ke.wVirtualKeyCode = VK_DOWN then scrollDown w
      else Outcome.ok w
    | _, _ => Outcome.undefined
  else Outcome.ok w

/-- The click handling of one input box in `FileView::ProcessMouseEvent`: the new
`cursorPos_` and the cursor placement. -/
def clickInput (me : Mouse) (itb : InputTextBox) (fr : Framework) :
    InputTextBox × Framework :=
  let a := uadd (toSize (me.dwMousePosition.1 - (itb.xPos_ : Int))) itb.aperature_
  let itb := { itb with cursorPos_ := if a < itb.content_.length then a
                                      else itb.content_.length }
  let mLocX := toSHORT (uadd (usub itb.cursorPos_ itb.aperature_) itb.xPos_)
  (itb, fr.ResetCursorPosition mLocX (toSHORT itb.yPos_) true)

/-- The block "Test for change to recursion." of the `BUTTON` case, for the check box
`cb` read from the registry. -/
def checkStep (env : Env) (me : Mouse) (cb : Checkbox) (w : World) : Outcome World :=
  let cb := { cb with controlHit_ := decide (me.dwMousePosition.1 = 20) &&
                                      decide (me.dwMousePosition.2 = 10) }
  if cb.controlHit_ && me.LeftPressed then
    let cb := { cb with state_ := !cb.state_ }
    let cb := { cb with content_ := if cb.state_ then ['X'] else [' '] }
    let cb := { cb with controlHit_ := !cb.controlHit_ }
    Notify env { w with frame := cb.UpdateCheckState (Control.Update cb.toControl w.frame) }
  else Outcome.ok w

/-- The assignment `itb.controlHit_ = h` on a local input box. -/
def setHit (itb : InputTextBox) (h : Bool) : InputTextBox :=
  { itb with controlHit_ := h }

/-- The block "Test for click on folder textbox." of the `BUTTON` case: the result is the
two local boxes and the frame. -/
def folderStep (me : Mouse) (itbFolder itbFilter : InputTextBox) (fr : Framework) :
    InputTextBox × InputTextBox × Framework :=
  let itbFolder := setHit itbFolder
    (decide (me.dwMousePosition.1 ≥ 10) && decide (me.dwMousePosition.1 ≤ 185) &&
      decide (me.dwMousePosition.2 = 6))
  if itbFolder.controlHit_ && me.LeftPressed then
    let c := clickInput me itbFolder fr
    let itbFilter := setHit itbFilter false
    (c.1, itbFilter, Control.Update itbFilter.toControl (Control.Update c.1.toControl c.2))
  else (itbFolder, itbFilter, fr)

/-- The block "Test for click on filter textbox." of the `BUTTON` case: the result is the
frame. -/
def filterStep (me : Mouse) (itbFolder itbFilter : InputTextBox) (fr : Framework) :
    Framework :=
  let itbFilter := setHit itbFilter
    (decide (me.dwMousePosition.1 ≥ 10) && decide (me.dwMousePosition.1 ≤ 185) &&
      decide (me.dwMousePosition.2 = 8))
  if itbFilter.controlHit_ && me.LeftPressed then
    let c := clickInput me itbFilter fr
    let itbFolder := setHit itbFolder false
    Control.Update itbFolder.toControl (Control.Update c.1.toControl c.2)
  else fr

/-- The `BUTTON` case of `FileView::ProcessMouseEvent`: the three controls are read from
the registry, then the three blocks run in order. -/
def buttonCase (env : Env) (me : Mouse) (w : World) : Outcome World :=
  match getCheckbox w.frame "recursiveCheck", getInputTextBox w.frame "folderInput",
        getInputTextBox w.frame "filterInput" with
  | some cb, some itbFolder, some itbFilter =>
    (checkStep env me cb w).bind fun w =>
      let r := folderStep me itbFolder itbFilter w.frame
      Outcome.ok { w with frame := filterStep me r.1 r.2.1 r.2.2 }
  | _, _, _ => Outcome.undefined

/-- The method `FileView::ProcessMouseEvent`. -/
def FileView.ProcessMouseEvent (env : Env) (me : Mouse) (w : World) : Outcome World :=
  if me.dwEventFlags = MOUSE_WHEELED then
    if me.MouseWheelUp then scrollUp w
    else if me.MouseWheelDown then scrollDown w
    else Outcome.ok w
  else if me.dwEventFlags = 0 then buttonCase env me w
  else Outcome.ok w

/-- The function `ProcessEvents`, run on the input records that `GetEvent` returns
before `GetQuitState()` is found true. -/
def ProcessEvents (env : Env) : List Event → World → Outcome World
  | [], w => Outcome.ok w
  | Event.KEY ke :: es, w =>
    (FileView.ProcessKeyEvent env ke w).bind fun w => ProcessEvents env es w
  | Event.MOUSE me :: es, w =>
    (FileView.ProcessMouseEvent env me w).bind fun w => ProcessEvents env es w
  | Event.other :: es, w => ProcessEvents env es w

/-- The state of an application once its view is built on the frame `fr`, its model is
constructed from the arguments, and the controller holding a copy of that model is
attached to the view; the first `Notify` has not run yet. -/
def initialWorld (fr : Framework) (folder filter : List Char) (rSearch : Bool) : World :=
  Attach IObserver.controller
    { frame := fr, model_ := FileModel.new folder filter rSearch, observers_ := [] }

/-- The statements of the `try` block of `MyApp::execute` that precede the event loop:
the view is built on the global `frame`, the controller copies the model and is attached
to the model and to the view, and the model's `Notify` runs the controller's `Update`. -/
def startApplication (env : Env) (startPath regexFilter : List Char) (recursive : Bool)
    (fr : Framework) : Outcome World :=
  (FileView.new fr startPath regexFilter recursive).bind fun fr =>
    Notify.loop env [IObserver.controller]
      (initialWorld fr startPath regexFilter recursive)

/-- The statements of the `try` block of `MyApp::execute` for one application. -/
def applicationBody (env : Env) (startPath regexFilter : List Char) (recursive : Bool)
    (events : List Event) (fr : Framework) : Outcome World :=
  (startApplication env startPath regexFilter recursive fr).bind fun w =>
    ProcessEvents env events w

/-- The `try`/`catch (ConsoleAPI::XError& e)` statement of `MyApp::execute` for one
application: the result is the frame left behind and the text of the message box, if
one was shown. -/
def tryApplication (env : Env) (startPath regexFilter : List Char) (recursive : Bool)
    (events : List Event) (fr : Framework) : Outcome (Framework × Option String) :=
  match applicationBody env startPath regexFilter recursive events fr with
  | Outcome.ok w => Outcome.ok (w.frame, none)
  | Outcome.thrown (Exception.XError file _) w => Outcome.ok (w.frame, some file)
  | Outcome.thrown Exception.out_of_range w => Outcome.thrown Exception.out_of_range w
  | Outcome.undefined => Outcome.undefined
  | Outcome.diverges => Outcome.diverges

/-! ## Well-formed registries and reachable states -/

/-- What the registry holds under the key `id` when the entry was stored by the class the
layout uses for that key: the members that class sets have values, the entry carries
its own key as `controlID_`, only an input box can hold a true `controlHit_`, and the
cursor of an input box is inside its content. -/
def kindOK (id : String) (c : Control) : Prop :=
  c.controlID_ = id ∧
  (c.controlHit_ = some true → id = "folderInput" ∨ id = "filterInput") ∧
  (id = "folderInput" ∨ id = "filterInput" →
    ∃ itb, InputTextBox.ofControl c = some itb ∧ itb.cursorPos_ ≤ itb.content_.length) ∧
  (id = "recursiveCheck" → ∃ cb, Checkbox.ofControl c = some cb) ∧
  (id = "tbxSearched" ∨ id = "tbxMatched" ∨ id = "tbxFileSize" →
    ∃ tbx, TextBox.ofControl c = some tbx) ∧
  (id = "fv" → ∃ fv, FileViewer.ofControl c = some fv)

/-- A registry as `CreateTUI` lays it out: pairwise different keys, the seven controls
present, and every entry of the kind of its key. -/
structure Base (controls : List (String × Control)) : Prop where
  nodup : (controls.map Prod.fst).Nodup
  kinds : ∀ k c, (k, c) ∈ controls → kindOK k c
  folderInput : ∃ c, find controls "folderInput" = some c
  filterInput : ∃ c, find controls "filterInput" = some c
  recursiveCheck : ∃ c, find controls "recursiveCheck" = some c
  tbxSearched : ∃ c, find controls "tbxSearched" = some c
  tbxMatched : ∃ c, find controls "tbxMatched" = some c
  tbxFileSize : ∃ c, find controls "tbxFileSize" = some c
  fv : ∃ c, find controls "fv" = some c

/-- The input box `itb` is stored under `id` with that id and is the one
`ProcessKeyEvent` routes key events to: `folderInput` when it is hit, else `filterInput`
when that one is hit.  Both lookups of `ProcessKeyEvent` succeed. -/
def FocusedInput (w : World) (id : String) (itb : InputTextBox) : Prop :=
  getInputTextBox w.frame id = some itb ∧ itb.controlHit_ = true ∧ itb.controlID_ = id ∧
  ((id = "folderInput" ∧ ∃ g, getInputTextBox w.frame "filterInput" = some g) ∨
    (id = "filterInput" ∧
      ∃ f, getInputTextBox w.frame "folderInput" = some f ∧ f.controlHit_ = false))

/-- Number of controls stored in the registry whose `controlHit_` is true. -/
def focusedCount (controls : List (String × Control)) : Nat :=
  (controls.filter (fun kc => kc.2.controlHit_ == some true)).length

/-- States the program passes through: the initial layout, then any sequence of key
events, mouse events and `Notify` runs.  A handler that leaves by an exception leaves the
state it had reached. -/
inductive Reachable (env : Env) : World → Prop where
  | init (folder filter : List Char) (rSearch : Bool) (fr : Framework) :
      FileView.new ⟨[], []⟩ folder filter rSearch = Outcome.ok fr →
      Reachable env (initialWorld fr folder filter rSearch)
  | key (w w' : World) (ke : Keyboard) :
      Reachable env w → FileView.ProcessKeyEvent env ke w = Outcome.ok w' → Reachable env w'
  | keyThrown (w w' : World) (ke : Keyboard) (e : Exception) :
      Reachable env w → FileView.ProcessKeyEvent env ke w = Outcome.thrown e w' →
      Reachable env w'
  | mouse (w w' : World) (me : Mouse) :
      Reachable env w → FileView.ProcessMouseEvent env me w = Outcome.ok w' →
      Reachable env w'
  | mouseThrown (w w' : World) (me : Mouse) (e : Exception) :
      Reachable env w → FileView.ProcessMouseEvent env me w = Outcome.thrown e w' →
      Reachable env w'
  | notify (w w' : World) :
      Reachable env w → Notify env w = Outcome.ok w' → Reachable env w'
  | notifyThrown (w w' : World) (e : Exception) :
      Reachable env w → Notify env w = Outcome.thrown e w' → Reachable env w'

/-- The frame `UpdateModel` leaves when it reaches the construction of the regex: the
viewer rows blanked and, for a recursive search, the notice written by the file viewer
`fv` read from the registry. -/
def UpdateModel.frame (recursive : Bool) (fv : FileViewer) (fr : Framework) : Framework :=
  if recursive then
    (Control.Update (scanNotice fv).toControl (FileViewer.ClearFileView fr)).Write 1 13
      "Scan in progress...".toList fv.foreground_ fv.background_
  else FileViewer.ClearFileView fr

/-- What every run of the controller's `Update` keeps: a well-formed registry, the two
input boxes and the observers. -/
def Kept (w w' : World) : Prop :=
  Base w'.frame.controls_ ∧
  getInputTextBox w'.frame "folderInput" = getInputTextBox w.frame "folderInput" ∧
  getInputTextBox w'.frame "filterInput" = getInputTextBox w.frame "filterInput" ∧
  w'.observers_ = w.observers_

/-- A property of the result of a call: `Q` for the value it returns, `P` for the state
it leaves when it throws. -/
def Outcome.sat {α : Type} (Q : α → Prop) (P : World → Prop) : Outcome α → Prop
  | Outcome.ok a => Q a
  | Outcome.thrown _ w => P w
  | Outcome.undefined => True
  | Outcome.diverges => True

/-- The two input boxes are not both hit. -/
def Exclusive (fr : Framework) : Prop :=
  ∀ f g, getInputTextBox fr "folderInput" = some f →
    getInputTextBox fr "filterInput" = some g →
    ¬ (f.controlHit_ = true ∧ g.controlHit_ = true)

/-- The aperture as the design document describes the recomputation, for a prior
aperture `a`, cursor position `c`, content length `n` and width `W`: first bring the
aperture down to the cursor, then up until the cursor is inside the window, then down
again while the window reaches beyond the insertion slot after the content. -/
def closedFormAperture (a c n W : Nat) : Nat :=
  let a1 := min a c
  let a2 := max a1 (c + 1 - W)
  if n + 1 > W then min a2 (n + 1 - W) else a2

/-- The frame left by the statements that follow the key `switch`, for the local box
`itb` after the viewport recomputation: the redraw string and then the content are
written at the origin of the box, the cursor is placed, and the box is stored. -/
def afterSwitch.frame (itb : InputTextBox) (enterHit_ : Bool) (fr : Framework) : Framework :=
  Control.Update itb.toControl
    (((fr.Write itb.xPos_ itb.yPos_
          ((itb.content_.drop itb.aperature_).take itb.length_ ++ blanks (itb.length_ / 2))
          itb.foreground_ itb.background_).Write itb.xPos_ itb.yPos_ itb.content_
        itb.foreground_ itb.background_).ResetCursorPosition
      (toSHORT (uadd (toSize (toSHORT itb.xPos_)) (usub itb.cursorPos_ itb.aperature_)))
      (toSHORT itb.yPos_) (!enterHit_))

/-! ## Concrete states -/

/-- The value a call returns, or `d` when it does not return one. -/
def Outcome.getD {α : Type} (o : Outcome α) (d : α) : α :=
  match o with
  | Outcome.ok a => a
  | _ => d

/-- An environment for concrete runs: every text but `[invalid` compiles, the filter `.*`
matches every extension and any other filter matches the extension equal to it, and
both iterators meet two files and one directory. -/
def exampleEnv : Env :=
  { regexCompiles := fun r => decide (r ≠ "[invalid".toList),
    regex_match := fun r ext => decide (r = ".*".toList) || decide (r = ext),
    directory_iterator := fun _ =>
      [⟨"a.txt".toList, false, ".txt".toList, 2097152⟩, ⟨"sub".toList, true, [], 0⟩,
       ⟨"b.h".toList, false, ".h".toList, 1048576⟩],
    recursive_directory_iterator := fun _ =>
      [⟨"a.txt".toList, false, ".txt".toList, 2097152⟩, ⟨"sub".toList, true, [], 0⟩,
       ⟨"b.h".toList, false, ".h".toList, 1048576⟩],
    showSize := fun l => showNat (l.sum / 1048576) }

/-- The frame after `FileView("C:/src", ".*", false)` was constructed on an empty frame. -/
def exampleLayout : Framework :=
  (FileView.new ⟨[], []⟩ "C:/src".toList ".*".toList false).getD ⟨[], []⟩

/-- The state in which the event loop starts for that view: the controller is attached
and the first `Notify` has run. -/
def exampleStarted : World :=
  (Notify exampleEnv (initialWorld exampleLayout "C:/src".toList ".*".toList false)).getD
    (initialWorld exampleLayout "C:/src".toList ".*".toList false)

/-- A left-button press at column 12 of the row of the folder input. -/
def clickFolder : Mouse :=
  { dwMousePosition := (12, 6), dwButtonState := FROM_LEFT_1ST_BUTTON_PRESSED,
    dwEventFlags := 0 }

/-- The started state after a left click into the folder input: that box has the focus. -/
def exampleFocused : World :=
  (FileView.ProcessMouseEvent exampleEnv clickFolder exampleStarted).getD exampleStarted

/-- The folder input as stored in `exampleFocused`. -/
def exampleFolderBox : InputTextBox :=
  { (InputTextBox.new "folderInput" (10, 6) 100 "C:/src".toList ForegroundColour.BLACK
      BackgroundColour.WHITE) with cursorPos_ := 2, controlHit_ := true }

/-- The key-down event of a key with the given virtual key code and character. -/
def keyDown (vk : Nat) (ch : Char) : Keyboard :=
  { bKeyDown := true, AsciiChar := ch, wVirtualKeyCode := vk }

/-- The field of Scenario A of the design document: content `hello`, cursor at 5,
aperture 0, width 3. -/
def scenarioA : InputTextBox :=
  { (InputTextBox.new "folderInput" (10, 6) 3 "hello".toList ForegroundColour.BLACK
      BackgroundColour.WHITE) with cursorPos_ := 5 }

/-- What a key event handled for the input box `itb` stored under `id` leaves behind,
whether it returns or throws: a well-formed registry, under `id` a box that is hit only
if `itb` was, and the other input box as it was. -/
def KeyPost (w : World) (id : String) (itb : InputTextBox) (w' : World) : Prop :=
  Base w'.frame.controls_ ∧
  (∃ itb', getInputTextBox w'.frame id = some itb' ∧
    (itb'.controlHit_ = true → itb.controlHit_ = true)) ∧
  (∀ id', id' ≠ id → id' = "folderInput" ∨ id' = "filterInput" →
    getInputTextBox w'.frame id' = getInputTextBox w.frame id')

/-- The invariant of the registry: it is well formed and the two input boxes are not
both hit. -/
def Inv (w : World) : Prop :=
  Base w.frame.controls_ ∧ Exclusive w.frame

/-- The registry `CreateTUI` builds on an empty frame, in insertion order. -/
def layoutControls (folder filter : List Char) (rSearch : Bool) : List (String × Control) :=
  [("folderInput", (InputTextBox.new "folderInput" (10, 6) 100 folder ForegroundColour.BLACK
      BackgroundColour.WHITE).toControl),
   ("filterInput", (InputTextBox.new "filterInput" (10, 8) 50 filter ForegroundColour.BLACK
      BackgroundColour.WHITE).toControl),
   ("recursiveCheck", (Checkbox.new "recursiveCheck" (20, 10) 2 ForegroundColour.BLACK
      BackgroundColour.WHITE rSearch (if rSearch then ['X'] else [' '])).toControl),
   ("tbxSearched", (TextBox.new "tbxSearched" (17, 44) 35 ForegroundColour.BLACK
      BackgroundColour.WHITE []).toControl),
   ("tbxMatched", (TextBox.new "tbxMatched" (17, 46) 35 ForegroundColour.BLACK
      BackgroundColour.WHITE []).toControl),
   ("tbxFileSize", (TextBox.new "tbxFileSize" (17, 48) 35 ForegroundColour.BLACK
      BackgroundColour.WHITE []).toControl),
   ("fv", (FileViewer.new "fv" 12 31 ForegroundColour.WHITE
      BackgroundColour.BLACK).toControl)]

/-! ## Scroll events -/

/-- The input records that scroll the file list up or down: a key-down event of one of
the six scroll keys, or a mouse-wheel event. -/
def isScrollEvent : Event → Bool
  | Event.KEY ke =>
    ke.bKeyDown &&
      (decide (ke.wVirtualKeyCode = VK_PRIOR) || decide (ke.wVirtualKeyCode = VK_OEM_PLUS) ||
        decide (ke.wVirtualKeyCode = VK_UP) || decide (ke.wVirtualKeyCode = VK_NEXT) ||
        decide (ke.wVirtualKeyCode = VK_OEM_MINUS) || decide (ke.wVirtualKeyCode = VK_DOWN))
  | Event.MOUSE me => decide (me.dwEventFlags = MOUSE_WHEELED)
  | Event.other => false

/-- The input records that scroll the file list down: a key-down event of Page Down,
the minus key or the down arrow, or a wheel-down event. -/
def isScrollDown : Event → Bool
  | Event.KEY ke =>
    ke.bKeyDown &&
      (decide (ke.wVirtualKeyCode = VK_NEXT) || decide (ke.wVirtualKeyCode = VK_OEM_MINUS) ||
        decide (ke.wVirtualKeyCode = VK_DOWN))
  | Event.MOUSE me =>
    decide (me.dwEventFlags = MOUSE_WHEELED) && !me.MouseWheelUp && me.MouseWheelDown
  | Event.other => false

/-- States reached from `w0` by input records that scroll, each handled by
`ProcessEvents`. -/
inductive ScrollReachable (env : Env) (w0 : World) : World → Prop where
  | start : ScrollReachable env w0 w0
  | step (w w' : World) (ev : Event) :
      ScrollReachable env w0 w → isScrollEvent ev = true →
      ProcessEvents env [ev] w = Outcome.ok w' → ScrollReachable env w0 w'

/-- An environment whose directory holds fifty files `0.txt` to `49.txt`. -/
def fiftyEnv : Env :=
  { exampleEnv with
    directory_iterator := fun _ =>
      (List.range 50).map fun i => ⟨showNat i ++ ".txt".toList, false, ".txt".toList, 1⟩ }

/-- The state in which the event loop starts for the example layout when the directory
holds fifty files: Scenario D of the design document. -/
def scenarioD : World :=
  (Notify fiftyEnv (initialWorld exampleLayout "C:/src".toList ".*".toList false)).getD
    (initialWorld exampleLayout "C:/src".toList ".*".toList false)

/-- Scenario D after one key-down event of the down arrow. -/
def scenarioD1 : World :=
  (ProcessEvents fiftyEnv [Event.KEY (keyDown VK_DOWN (Char.ofNat 0))] scenarioD).getD
    scenarioD

/-- Thirty key-down events of the down arrow. -/
def thirtyDowns : List Event :=
  List.replicate 30 (Event.KEY (keyDown VK_DOWN (Char.ofNat 0)))

/-- A left-button press at column 12 of the row of the filter input. -/
def clickFilter : Mouse :=
  { dwMousePosition := (12, 8), dwButtonState := FROM_LEFT_1ST_BUTTON_PRESSED,
    dwEventFlags := 0 }

/-- The input records of a user who clicks into the filter input, removes the two
characters of `.*` with Backspace and types `[invalid` (Scenario C of the design
document, before Enter). -/
def typeInvalid : List Event :=
  [Event.MOUSE clickFilter, Event.KEY (keyDown VK_BACK (Char.ofNat 8)),
   Event.KEY (keyDown VK_BACK (Char.ofNat 8)), Event.KEY (keyDown 219 '['),
   Event.KEY (keyDown 73 'i'), Event.KEY (keyDown 78 'n'), Event.KEY (keyDown 86 'v'),
   Event.KEY (keyDown 65 'a'), Event.KEY (keyDown 76 'l'), Event.KEY (keyDown 73 'i'),
   Event.KEY (keyDown 68 'd')]

/-- The started example after those input records: the filter input is focused and holds
`[invalid`; the model still holds the two files of the first scan. -/
def invalidTyped : World :=
  (ProcessEvents exampleEnv typeInvalid exampleStarted).getD exampleStarted

/-- The filter input as stored in `invalidTyped`. -/
def invalidBox : InputTextBox :=
  { (InputTextBox.new "filterInput" (10, 8) 50 "[invalid".toList ForegroundColour.BLACK
      BackgroundColour.WHITE) with cursorPos_ := 8, controlHit_ := true }

/-- The 29 calls by which `ClearFileView` blanks the viewer rows 13 to 41. -/
def clearCalls : List ConsoleCall :=
  (List.range 29).map fun i =>
    ConsoleCall.Write 1 (13 + i) (blanks 200) ForegroundColour.WHITE BackgroundColour.BLACK

/-! ## Redraw and clicks -/

/-- The string `s` that the statements after the key `switch` build for the redraw of the
local box `itb`: `content_.substr(aperature_, length_)` followed by `length_ / 2`
blanks. -/
def redrawString (itb : InputTextBox) : List Char :=
  (itb.content_.drop itb.aperature_).take itb.length_ ++ blanks (itb.length_ / 2)

/-- The three console calls of the statements after the key `switch`, for the local box
`itb` after the viewport recomputation: the redraw string is written at the origin of
the box, `UpdateInputContent` writes `content_` at the same place, and the cursor is
placed. -/
def redrawCalls (itb : InputTextBox) (enterHit_ : Bool) : List ConsoleCall :=
  [ConsoleCall.Write itb.xPos_ itb.yPos_ (redrawString itb) itb.foreground_ itb.background_,
   ConsoleCall.Write itb.xPos_ itb.yPos_ itb.content_ itb.foreground_ itb.background_,
   ConsoleCall.SetCursor
    (toSHORT (uadd (toSize (toSHORT itb.xPos_)) (usub itb.cursorPos_ itb.aperature_)))
    (toSHORT itb.yPos_) (!enterHit_)]

/-- A filter text of sixty characters, longer than the filter input is wide. -/
def longFilter : List Char :=
  "aaaaaaaaaabbbbbbbbbbccccccccccddddddddddeeeeeeeeeeffffffffff".toList

/-- The state in which the event loop starts when the program is given the folder
`C:/src` and the filter `longFilter`. -/
def longStarted : World :=
  (startApplication exampleEnv "C:/src".toList longFilter false ⟨[], []⟩).getD
    (initialWorld ⟨[], []⟩ "C:/src".toList longFilter false)

/-- That state after a left click at column 12 of the filter input. -/
def longFocused : World :=
  (FileView.ProcessMouseEvent exampleEnv clickFilter longStarted).getD longStarted

/-- The filter input as stored in `longFocused`. -/
def longBox : InputTextBox :=
  { (InputTextBox.new "filterInput" (10, 8) 50 longFilter ForegroundColour.BLACK
      BackgroundColour.WHITE) with cursorPos_ := 2, controlHit_ := true }

/-- A left-button press at the given cell. -/
def leftPress (x y : Int) : Mouse :=
  { dwMousePosition := (x, y), dwButtonState := FROM_LEFT_1ST_BUTTON_PRESSED,
    dwEventFlags := 0 }

/-- The test `clickPos.X == 20 && clickPos.Y == 10` of the `BUTTON` case. -/
def hitCheck (me : Mouse) : Bool :=
  decide (me.dwMousePosition.1 = 20) && decide (me.dwMousePosition.2 = 10)

/-- The test `clickPos.X >= 10 && clickPos.X <= 185 && clickPos.Y == 6` of the `BUTTON`
case. -/
def hitFolder (me : Mouse) : Bool :=
  decide (me.dwMousePosition.1 ≥ 10) && decide (me.dwMousePosition.1 ≤ 185) &&
    decide (me.dwMousePosition.2 = 6)

/-- The test `clickPos.X >= 10 && clickPos.X <= 185 && clickPos.Y == 8` of the `BUTTON`
case. -/
def hitFilter (me : Mouse) : Bool :=
  decide (me.dwMousePosition.1 ≥ 10) && decide (me.dwMousePosition.1 ≤ 185) &&
    decide (me.dwMousePosition.2 = 8)

/-- The local check box after the assignments of the block "Change state and content
according to the press.": the state is flipped, the content follows it, and the hit flag,
which the test had set, is negated. -/
def toggleBox (cb : Checkbox) : Checkbox :=
  { cb with state_ := !cb.state_, content_ := if !cb.state_ then ['X'] else [' '],
            controlHit_ := false }

/-- Scenario D after a left click into the folder input: fifty files are listed from
offset 0 and the folder input is hit. -/
def fiftyFocused : World :=
  (FileView.ProcessMouseEvent fiftyEnv clickFolder scenarioD).getD scenarioD

/-- The started example after a left-button press at column 150 of the row of the folder
input, forty columns to the right of the end of that box. -/
def farClicked : World :=
  (FileView.ProcessMouseEvent exampleEnv (leftPress 150 6) exampleStarted).getD exampleStarted

/-! ## Scans, arguments and the screen -/

/-- The directory entries the loop of `FileModel::Scan(f, r, recurse)` visits, in order:
those of the recursive iterator when `recurse` is set, else those of the plain one. -/
def visited (env : Env) (f : List Char) (recurse : Bool) : List DirEntry :=
  if recurse then env.recursive_directory_iterator f else env.directory_iterator f

/-- The test under which the loop of `FileModel::Scan` adds an entry to the file list:
it is not a directory and its extension is matched by the regex. -/
def isMatch (env : Env) (r : List Char) (d : DirEntry) : Bool :=
  !d.is_directory && env.regex_match r d.extension

/-- The search `regex_search(args[i], regex("^[a-z]|[A-Z]"))` of the argument parser, for
a token without line terminators.  The pattern is the alternation of `^[a-z]` and
`[A-Z]`: a match exists when the token starts with a lowercase letter or holds an
uppercase letter anywhere. -/
def pathSearch (arg : List Char) : Bool :=
  (match arg with
    | c :: _ => decide (97 ≤ c.toNat) && decide (c.toNat ≤ 122)
    | [] => false) ||
  arg.any (fun c => decide (65 ≤ c.toNat) && decide (c.toNat ≤ 90))

/-- The local variables `recursive`, `startPath` and `regexFilter` of `MyApp::execute`. -/
structure Arguments where
  recursive : Bool
  startPath : List Char
  regexFilter : List Char
  deriving DecidableEq, Repr

/-- The statement `if (i != 0) { ... }` at the head of the body of the parsing loop of
`MyApp::execute`, for the token `arg = args[i]`. -/
def parseArg (i : Nat) (arg : List Char) (p : Arguments) : Arguments :=
  if i ≠ 0 then
    if arg = "-r".toList ∧ p.recursive = false then { p with recursive := true }
    else if pathSearch arg then { p with startPath := arg }
    else { p with regexFilter := arg }
  else p

/-- The `try` statement of one iteration of the loop of `MyApp::execute`, for the values
`p` of the three variables, the way `o` in which the `try` block with its `catch` clause
ends, and the rest `k` of the loop.  The result lists the values with which applications
were constructed from this iteration on, and tells how the loop ends: an exception that
is not an `XError`, undefined behaviour or divergence ends it at once. -/
def MyApp.execute.next (p : Arguments) (o : Outcome (Framework × Option String))
    (k : Framework → List Arguments × Outcome Framework) :
    List Arguments × Outcome Framework :=
  match o with
  | Outcome.ok r => (p :: (k r.1).1, (k r.1).2)
  | Outcome.thrown e w => ([p], Outcome.thrown e w)
  | Outcome.undefined => ([p], Outcome.undefined)
  | Outcome.diverges => ([p], Outcome.diverges)

/-- The loop `for (unsigned i = 0; i < args.size(); ++i)` of `MyApp::execute` from index
`i` on: the parse statement, then the `try` block that builds and runs an application on
the global `frame` and the `catch` clause.  `events i` is the sequence of input records
the event loop of the application at index `i` reads before it finds the quit flag
set. -/
def MyApp.execute.loop (env : Env) (events : Nat → List Event) :
    List (List Char) → Nat → Arguments → Framework → List Arguments × Outcome Framework
  | [], _, _, fr => ([], Outcome.ok fr)
  | arg :: rest, i, p, fr =>
    MyApp.execute.next (parseArg i arg p)
      (tryApplication env (parseArg i arg p).startPath (parseArg i arg p).regexFilter
        (parseArg i arg p).recursive (events i) fr)
      (fun fr' => MyApp.execute.loop env events rest (i + 1) (parseArg i arg p) fr')

/-- The method `MyApp::execute(argc, argv)` for the tokens `args` (`args[0]` is the
program name); `cwd` is the text `GetCurrentDir()` returns. -/
def MyApp.execute (env : Env) (events : Nat → List Event) (cwd : List Char)
    (args : List (List Char)) (fr : Framework) : List Arguments × Outcome Framework :=
  MyApp.execute.loop env events args 0 ⟨false, cwd, ".*".toList⟩ fr

/-- The values of the three variables after the parse statements for the tokens `args`,
the first of which has the index `i`. -/
def parseFrom : Nat → List (List Char) → Arguments → Arguments
  | _, [], p => p
  | i, arg :: rest, p => parseFrom (i + 1) rest (parseArg i arg p)

/-- The console calls of `k` iterations of the repaint loop of the scroll handlers that
start with the file index `i` and the row `row`: each iteration writes 200 blanks and
then the file name at column 1 of its row. -/
def repaintCalls (files : List (List Char)) : Nat → Nat → Nat → List ConsoleCall
  | _, _, 0 => []
  | i, row, k + 1 =>
    ConsoleCall.Write 1 row (blanks 200) ForegroundColour.WHITE BackgroundColour.BLACK ::
    ConsoleCall.Write 1 row (files.getD (i % 4294967296) []) ForegroundColour.WHITE
      BackgroundColour.BLACK ::
    repaintCalls files (i + 1) (row + 1) k

/-- The number of characters `ConsoleAPI::Write(x, y, content, ...)` passes on to
`WriteConsoleOutputCharacterA`: `min(content.size(), unsigned(0 - x))`. -/
def nToWrite (x : Nat) (content : List Char) : Nat :=
  min content.length ((4294967296 - x % 4294967296) % 4294967296)

/-- The character a console call puts into the cell at column `x` of row `y` of a screen
buffer that is `cols` cells wide, if it puts one there.  `WriteConsoleOutputCharacterA`
puts its characters into consecutive cells from the given cell on and goes on in the
next row at the end of a row; `FillConsoleOutputCharacterA` does so with blanks (`Fill`
from the start of a row for `cols * layoutSize` cells, `SetBackgroundColour` over the
whole buffer); the other calls put no character. -/
def ConsoleCall.charAt (cols x y : Nat) : ConsoleCall → Option Char
  | ConsoleCall.Write x0 y0 content _ _ =>
    if y0 * cols + x0 ≤ y * cols + x ∧
        y * cols + x < y0 * cols + x0 + nToWrite x0 content then
      content.get? (y * cols + x - (y0 * cols + x0))
    else none
  | ConsoleCall.Fill startLoc layoutSize _ _ =>
    if startLoc * cols ≤ y * cols + x ∧ y * cols + x < startLoc * cols + cols * layoutSize
    then some ' ' else none
  | ConsoleCall.SetBackgroundColour _ => some ' '
  | _ => none

/-- The character the cell at column `x` of row `y` shows after the console calls, on a
buffer `cols` cells wide: the one put there by the last call that put one there, `none`
if no call did. -/
def shown (cols x y : Nat) (calls : List ConsoleCall) : Option Char :=
  calls.foldl (fun acc c => (c.charAt cols x y).orElse (fun _ => acc)) none

/-- An environment whose directory holds the 29 files `0.txt` to `28.txt`. -/
def twentyNineEnv : Env :=
  { exampleEnv with
    directory_iterator := fun _ =>
      (List.range 29).map fun i => ⟨showNat i ++ ".txt".toList, false, ".txt".toList, 1⟩ }

/-- The state in which the event loop starts for the example layout when the directory
holds those 29 files: they are listed on the rows 13 to 41, from offset 0. -/
def started29 : World :=
  (Notify twentyNineEnv (initialWorld exampleLayout "C:/src".toList ".*".toList false)).getD
    (initialWorld exampleLayout "C:/src".toList ".*".toList false)

/-- That state after one key-down event of the down arrow: the offset is 1, the largest
the handler allows for 29 files. -/
def scrolled29 : World :=
  (FileView.ProcessKeyEvent twentyNineEnv (keyDown VK_DOWN (Char.ofNat 0)) started29).getD
    started29

/-- The state `started29` with the file list replaced by a single name of 130
characters: 129 times `a`, then `z`. -/
def longNamed : World :=
  { started29 with
    model_ := { started29.model_ with files_ := [List.replicate 129 'a' ++ ['z']] } }

theorem udec_pos {a : Nat} (h0 : 0 < a) (ha : a < SIZE_MOD) : udec a = a - 1 := by
  simp only [udec, SIZE_MOD] at *
  omega

theorem uinc_lt {a : Nat} (ha : a + 1 < SIZE_MOD) : uinc a = a + 1 := by
  simp only [uinc, SIZE_MOD] at *
  omega

theorem uinc_le (a : Nat) : uinc a ≤ a + 1 := by
  simp only [uinc, SIZE_MOD] at *
  omega

theorem usub_le {a b : Nat} (hb : b ≤ a) (ha : a < SIZE_MOD) : usub a b = a - b := by
  simp only [usub, SIZE_MOD] at *
  omega

theorem uadd_lt {a b : Nat} (h : a + b < SIZE_MOD) : uadd a b = a + b := by
  simp only [uadd, SIZE_MOD] at *
  omega

theorem whileLoop_true {σ : Type} (cond : σ → Bool) (body : σ → σ) (fuel : Nat) (s : σ)
    (h : cond s = true) :
    whileLoop cond body (fuel + 1) s = whileLoop cond body fuel (body s) := by
  rw [whileLoop, if_pos h]

theorem whileLoop_false {σ : Type} (cond : σ → Bool) (body : σ → σ) (fuel : Nat) (s : σ)
    (h : cond s = false) :
    whileLoop cond body (fuel + 1) s = some s := by
  rw [whileLoop, if_neg (by simp [h])]

/-- A loop that has ended within some fuel ends with the same state within more fuel. -/
theorem whileLoop_mono {σ : Type} (cond : σ → Bool) (body : σ → σ) (k : Nat) :
    ∀ (fuel : Nat) (s r : σ), whileLoop cond body fuel s = some r →
      whileLoop cond body (fuel + k) s = some r := by
  intro fuel
  induction fuel with
  | zero => intro s r h; simp [whileLoop] at h
  | succ n ih =>
    intro s r h
    have e : n + 1 + k = (n + k) + 1 := by omega
    rw [e]
    cases hc : cond s with
    | true =>
      rw [whileLoop_true _ _ _ _ hc] at h ⊢
      exact ih _ _ h
    | false =>
      rw [whileLoop_false _ _ _ _ hc] at h ⊢
      exact h

/-- First loop, `while (cursorPos_ < aperature_) --aperature_;`: it ends with the
smaller of the aperture and the cursor position. -/
theorem loop1_eq (c : Nat) : ∀ a : Nat, a < SIZE_MOD →
    whileLoop (fun a => decide (c < a)) udec (a + 1) a = some (min a c) := by
  intro a
  induction a with
  | zero =>
    intro _
    rw [whileLoop_false (fun a => decide (c < a)) udec 0 0 (by simp)]
    simp
  | succ n ih =>
    intro h
    by_cases hc : c < n + 1
    · have hu : udec (n + 1) = n := by rw [udec_pos (by omega) h]; rfl
      rw [whileLoop_true (fun a => decide (c < a)) udec (n + 1) (n + 1) (by simpa using hc)]
      rw [hu, ih (by omega)]
      simp only [Option.some.injEq]
      omega
    · rw [whileLoop_false (fun a => decide (c < a)) udec (n + 1) (n + 1) (by simpa using hc)]
      simp only [Option.some.injEq]
      omega

/-- Second loop, `while (cursorPos_ - aperature_ >= length_) ++aperature_;`, started
with the aperture at or below the cursor and a width of at least one. -/
theorem loop2_eq (c W : Nat) (hW : 1 ≤ W) (hc : c < SIZE_MOD) : ∀ (d a : Nat), a + d = c →
    whileLoop (fun a => decide (usub c a ≥ W)) uinc (usub c a + 1) a
      = some (max a (c + 1 - W)) := by
  intro d
  induction d with
  | zero =>
    intro a h
    have e : usub c a = 0 := by rw [usub_le (by omega) hc]; omega
    rw [e, whileLoop_false (fun a => decide (usub c a ≥ W)) uinc 0 a
      (by simp only [e]; simp; omega)]
    simp only [Option.some.injEq]
    omega
  | succ n ih =>
    intro a h
    have e : usub c a = n + 1 := by rw [usub_le (by omega) hc]; omega
    rw [e]
    by_cases hw : n + 1 ≥ W
    · have hi : uinc a = a + 1 := uinc_lt (by omega)
      have e2 : usub c (a + 1) = n := by rw [usub_le (by omega) hc]; omega
      rw [whileLoop_true (fun a => decide (usub c a ≥ W)) uinc (n + 1) a
        (by simp only [e]; simpa using hw), hi]
      have := ih (a + 1) (by omega)
      rw [e2] at this
      rw [this]
      simp only [Option.some.injEq]
      omega
    · rw [whileLoop_false (fun a => decide (usub c a ≥ W)) uinc (n + 1) a
        (by simp only [e]; simpa using hw)]
      simp only [Option.some.injEq]
      omega

/-- Third loop, `while (size - aperature_ < length_ && size > length_) --aperature_;`,
started with the aperture at or below `size`. -/
theorem loop3_eq (size W : Nat) (hs : size < SIZE_MOD) : ∀ a : Nat, a ≤ size →
    whileLoop (fun a => decide (usub size a < W) && decide (size > W)) udec (a + 1) a
      = some (if size > W then min a (size - W) else a) := by
  intro a
  induction a with
  | zero =>
    intro _
    have e : usub size 0 = size := by rw [usub_le (by omega) hs]; omega
    rw [whileLoop_false (fun a => decide (usub size a < W) && decide (size > W)) udec 0 0
      (by simp only [e]; simp; omega)]
    simp
  | succ n ih =>
    intro h
    have e : usub size (n + 1) = size - (n + 1) := usub_le h hs
    by_cases h1 : size > W
    · by_cases h2 : size - (n + 1) < W
      · have hu : udec (n + 1) = n := by rw [udec_pos (by omega) (by omega)]; rfl
        rw [whileLoop_true (fun a => decide (usub size a < W) && decide (size > W)) udec
          (n + 1) (n + 1) (by simp only [e]; simp [h1, h2])]
        rw [hu, ih (by omega)]
        simp only [h1, if_true]
        simp only [Option.some.injEq]
        omega
      · rw [whileLoop_false (fun a => decide (usub size a < W) && decide (size > W)) udec
          (n + 1) (n + 1) (by simp only [e]; simp [h1, h2])]
        simp only [h1, if_true]
        simp only [Option.some.injEq]
        omega
    · rw [whileLoop_false (fun a => decide (usub size a < W) && decide (size > W)) udec
        (n + 1) (n + 1) (by simp [h1])]
      simp only [h1, if_false]

/-- Closed form of the viewport recomputation for a width of at least one and a cursor
inside the content. -/
theorem recomputeAperture_eq (itb : InputTextBox) (hW : 1 ≤ itb.length_)
    (hc : itb.cursorPos_ ≤ itb.content_.length)
    (hn : itb.content_.length + 1 < SIZE_MOD) (ha : itb.aperature_ < SIZE_MOD) :
    recomputeAperture itb = some { itb with aperature_ :=
      (closedFormAperture itb.aperature_ itb.cursorPos_ itb.content_.length itb.length_) } := by
  unfold recomputeAperture closedFormAperture
  have hsz : uadd itb.content_.length 1 = itb.content_.length + 1 := uadd_lt hn
  simp only [hsz]
  rw [loop1_eq itb.cursorPos_ itb.aperature_ ha]
  simp only [Option.some_bind]
  have hlt : itb.cursorPos_ < SIZE_MOD := by
    simp only [SIZE_MOD] at *
    omega
  rw [loop2_eq itb.cursorPos_ itb.length_ hW hlt
    (itb.cursorPos_ - min itb.aperature_ itb.cursorPos_) (min itb.aperature_ itb.cursorPos_)
    (by omega)]
  simp only [Option.some_bind]
  rw [loop3_eq (itb.content_.length + 1) itb.length_ hn _ (by omega)]
  simp only [Option.some_bind]

theorem closedFormAperture_le (a c n W : Nat) (hW : 1 ≤ W) (hc : c ≤ n) :
    closedFormAperture a c n W ≤ c ∧ c - closedFormAperture a c n W < W ∧
      (n + 1 > W → n + 1 - closedFormAperture a c n W ≥ W) := by
  unfold closedFormAperture
  simp only
  split <;> omega

/-- The recomputation changes the aperture only. -/
theorem recomputeAperture_some {itb itb2 : InputTextBox}
    (h : recomputeAperture itb = some itb2) :
    itb2 = { itb with aperature_ := itb2.aperature_ } := by
  unfold recomputeAperture at h
  simp only [Option.bind_eq_some] at h
  obtain ⟨a1, _, a2, _, a3, _, h⟩ := h
  injection h with h
  subst h
  rfl

/-! ## The registry -/

theorem find_updateLoop (control : Control) (id : String) :
    ∀ controls : List (String × Control),
      find (updateLoop control controls) id =
        if control.controlID_ = id then (find controls id).map (fun _ => control)
        else find controls id := by
  intro controls
  induction controls with
  | nil => simp [updateLoop, find]
  | cons kc rest ih =>
    obtain ⟨k, c⟩ := kc
    by_cases hk : k = control.controlID_
    · subst hk
      by_cases hid : control.controlID_ = id
      · simp [updateLoop, find, hid]
      · simp [updateLoop, find, hid]
    · by_cases hid : control.controlID_ = id
      · have hk2 : ¬ k = id := by rw [← hid]; exact hk
        simp only [updateLoop, hk, if_false, find, hk2, hid, if_true]
        rw [ih]
        simp [hid]
      · by_cases hk2 : k = id
        · subst hk2
          have hid2 : ¬ k = control.controlID_ := hk
          simp [updateLoop, find, hid, hid2]
        · simp only [updateLoop, hk, if_false, find, hk2, hid]
          rw [ih]
          simp [hid]

theorem updateLoop_keys (control : Control) :
    ∀ controls : List (String × Control),
      (updateLoop control controls).map Prod.fst = controls.map Prod.fst := by
  intro controls
  induction controls with
  | nil => rfl
  | cons kc rest ih =>
    obtain ⟨k, c⟩ := kc
    by_cases hk : k = control.controlID_
    · simp [updateLoop, hk]
    · simp [updateLoop, hk, ih]

theorem mem_updateLoop (control : Control) (k : String) (c : Control) :
    ∀ controls : List (String × Control), (k, c) ∈ updateLoop control controls →
      (k, c) ∈ controls ∨ (k = control.controlID_ ∧ c = control) := by
  intro controls
  induction controls with
  | nil => intro h; simp [updateLoop] at h
  | cons kc rest ih =>
    obtain ⟨k0, c0⟩ := kc
    intro h
    by_cases hk : k0 = control.controlID_
    · simp only [updateLoop, hk, if_true, List.mem_cons, Prod.mk.injEq] at h
      rcases h with ⟨h1, h2⟩ | h
      · exact Or.inr ⟨h1, h2⟩
      · exact Or.inl (List.mem_cons_of_mem _ h)
    · simp only [updateLoop, hk, if_false, List.mem_cons, Prod.mk.injEq] at h
      rcases h with ⟨h1, h2⟩ | h
      · left
        simp [h1, h2]
      · rcases ih h with h | h
        · exact Or.inl (List.mem_cons_of_mem _ h)
        · exact Or.inr h

theorem find_mem : ∀ (controls : List (String × Control)) (id : String) (c : Control),
    find controls id = some c → (id, c) ∈ controls := by
  intro controls
  induction controls with
  | nil => intro id c h; simp [find] at h
  | cons kc rest ih =>
    obtain ⟨k0, c0⟩ := kc
    intro id c h
    by_cases hk : k0 = id
    · simp only [find, hk, if_true, Option.some.injEq] at h
      simp [hk, h]
    · simp only [find, hk, if_false] at h
      exact List.mem_cons_of_mem _ (ih id c h)

theorem find_none_of_not_mem : ∀ (controls : List (String × Control)) (id : String),
    id ∉ controls.map Prod.fst → find controls id = none := by
  intro controls
  induction controls with
  | nil => intro id _; rfl
  | cons kc rest ih =>
    obtain ⟨k0, c0⟩ := kc
    intro id h
    simp only [List.map_cons, List.mem_cons, not_or] at h
    have hk : ¬ k0 = id := fun e => h.1 e.symm
    simp only [find, hk, if_false]
    exact ih id h.2

theorem inputTextBox_ofControl_toControl (i : InputTextBox) :
    InputTextBox.ofControl i.toControl = some i := rfl

theorem checkbox_ofControl_toControl (c : Checkbox) :
    Checkbox.ofControl c.toControl = some c := rfl

theorem textBox_ofControl_toControl (t : TextBox) :
    TextBox.ofControl t.toControl = some t := rfl

theorem inputTextBox_ofControl_some {c : Control} {i : InputTextBox}
    (h : InputTextBox.ofControl c = some i) :
    c.controlID_ = i.controlID_ ∧ c.controlHit_ = some i.controlHit_ ∧
      c.cursorPos_ = some i.cursorPos_ ∧ c.aperature_ = some i.aperature_ ∧
      c.content_ = i.content_ ∧ c.length_ = some i.length_ := by
  unfold InputTextBox.ofControl at h
  split at h
  · rename_i y l p a hh e1 e2 e3 e4 e5
    simp only [Option.some.injEq] at h
    subst h
    simp [e2, e3, e4, e5]
  · simp at h

theorem checkbox_ofControl_some {c : Control} {b : Checkbox}
    (h : Checkbox.ofControl c = some b) :
    c.controlID_ = b.controlID_ ∧ c.controlHit_ = some b.controlHit_ ∧
      c.state_ = some b.state_ ∧ c.content_ = b.content_ := by
  unfold Checkbox.ofControl at h
  split at h
  · rename_i y l p a hh st e1 e2 e3 e4 e5 e6
    simp only [Option.some.injEq] at h
    subst h
    simp [e5, e6]
  · simp at h

theorem textBox_ofControl_some {c : Control} {t : TextBox}
    (h : TextBox.ofControl c = some t) : c.controlID_ = t.controlID_ := by
  unfold TextBox.ofControl at h
  split at h
  · simp only [Option.some.injEq] at h
    subst h
    rfl
  · simp at h

theorem fileViewer_ofControl_some {c : Control} {f : FileViewer}
    (h : FileViewer.ofControl c = some f) : c.controlID_ = f.controlID_ := by
  unfold FileViewer.ofControl at h
  split at h
  · simp only [Option.some.injEq] at h
    subst h
    rfl
  · simp at h

/-! ## Console calls leave the registry alone -/

@[simp] theorem Write_controls (fr : Framework) (x y : Nat) (content : List Char)
    (fg : ForegroundColour) (bg : BackgroundColour) :
    (fr.Write x y content fg bg).controls_ = fr.controls_ := rfl

@[simp] theorem ResetCursorPosition_controls (fr : Framework) (x y : Int) (v : Bool) :
    (fr.ResetCursorPosition x y v).controls_ = fr.controls_ := rfl

@[simp] theorem UpdateCheckState_controls (c : Checkbox) (fr : Framework) :
    (c.UpdateCheckState fr).controls_ = fr.controls_ := rfl

@[simp] theorem UpdateInputContent_controls (i : InputTextBox) (fr : Framework) :
    (i.UpdateInputContent fr).controls_ = fr.controls_ := rfl

@[simp] theorem UpdateContent_controls (t : TextBox) (fr : Framework) :
    (t.UpdateContent fr).controls_ = fr.controls_ := rfl

@[simp] theorem Update_controls (c : Control) (fr : Framework) :
    (Control.Update c fr).controls_ = updateLoop c fr.controls_ := rfl

theorem ClearFileView_loop_controls : ∀ (fuel i row : Nat) (fr : Framework),
    (ClearFileView.loop fuel i row fr).controls_ = fr.controls_ := by
  intro fuel
  induction fuel with
  | zero => intro i row fr; rfl
  | succ n ih =>
    intro i row fr
    unfold ClearFileView.loop
    split
    · rw [ih]; rfl
    · rfl

@[simp] theorem ClearFileView_controls (fr : Framework) :
    (FileViewer.ClearFileView fr).controls_ = fr.controls_ :=
  ClearFileView_loop_controls 30 0 13 fr

@[simp] theorem UpdateView_loop_controls (files : List (List Char)) (fg : ForegroundColour)
    (bg : BackgroundColour) : ∀ (fuel i v row : Nat) (fr : Framework),
    (UpdateView.loop files fg bg fuel i v row fr).2.controls_ = fr.controls_ := by
  intro fuel
  induction fuel with
  | zero => intro i v row fr; rfl
  | succ n ih =>
    intro i v row fr
    unfold UpdateView.loop
    split
    · split
      · rw [ih]; rfl
      · rfl
    · rfl

@[simp] theorem scrollLoop_controls (files : List (List Char)) :
    ∀ (fuel i v row : Nat) (fr : Framework),
    (scrollLoop files fuel i v row fr).2.controls_ = fr.controls_ := by
  intro fuel
  induction fuel with
  | zero => intro i v row fr; rfl
  | succ n ih =>
    intro i v row fr
    unfold scrollLoop
    split
    · split
      · rw [ih]; rfl
      · rfl
    · rfl

theorem UpdateFileView_ok (fv : FileViewer) (fr fr' : Framework)
    (h : fv.UpdateFileView fr = Outcome.ok fr') : fr'.controls_ = fr.controls_ := by
  unfold FileViewer.UpdateFileView at h
  split at h
  · injection h with h
    subst h
    rfl
  · exact absurd h (by simp)

@[simp] theorem inputTextBox_toControl_controlID (i : InputTextBox) :
    i.toControl.controlID_ = i.controlID_ := rfl

@[simp] theorem checkbox_toControl_controlID (c : Checkbox) :
    c.toControl.controlID_ = c.controlID_ := rfl

@[simp] theorem textBox_toControl_controlID (t : TextBox) :
    t.toControl.controlID_ = t.controlID_ := rfl

@[simp] theorem fileViewer_toControl_controlID (f : FileViewer) :
    f.toControl.controlID_ = f.controlID_ := rfl

theorem getInputTextBox_some {fr : Framework} {id : String} {i : InputTextBox}
    (h : getInputTextBox fr id = some i) :
    ∃ c, find fr.controls_ id = some c ∧ InputTextBox.ofControl c = some i := by
  unfold getInputTextBox at h
  cases hc : find fr.controls_ id with
  | none => rw [hc] at h; simp at h
  | some c => rw [hc] at h; exact ⟨c, rfl, h⟩

theorem getCheckbox_some {fr : Framework} {id : String} {b : Checkbox}
    (h : getCheckbox fr id = some b) :
    ∃ c, find fr.controls_ id = some c ∧ Checkbox.ofControl c = some b := by
  unfold getCheckbox at h
  cases hc : find fr.controls_ id with
  | none => rw [hc] at h; simp at h
  | some c => rw [hc] at h; exact ⟨c, rfl, h⟩

/-! ## Well-formed registries -/

theorem Base.update {controls : List (String × Control)} (hb : Base controls) (c : Control)
    (hk : kindOK c.controlID_ c) : Base (updateLoop c controls) := by
  have hfind : ∀ id, (∃ c0, find controls id = some c0) →
      ∃ c1, find (updateLoop c controls) id = some c1 := by
    intro id ⟨c0, h0⟩
    rw [find_updateLoop]
    by_cases e : c.controlID_ = id
    · exact ⟨c, by simp [e, h0]⟩
    · exact ⟨c0, by simp [e, h0]⟩
  refine ⟨?_, ?_, hfind _ hb.folderInput, hfind _ hb.filterInput, hfind _ hb.recursiveCheck,
    hfind _ hb.tbxSearched, hfind _ hb.tbxMatched, hfind _ hb.tbxFileSize, hfind _ hb.fv⟩
  · rw [updateLoop_keys]
    exact hb.nodup
  · intro k c1 hm
    rcases mem_updateLoop c k c1 controls hm with h | ⟨h1, h2⟩
    · exact hb.kinds k c1 h
    · subst h1
      subst h2
      exact hk

theorem Base.kind_of_find {controls : List (String × Control)} (hb : Base controls)
    {id : String} {c : Control} (h : find controls id = some c) : kindOK id c :=
  hb.kinds id c (find_mem controls id c h)

theorem Base.getInput {fr : Framework} (hb : Base fr.controls_) (id : String)
    (hid : id = "folderInput" ∨ id = "filterInput") :
    ∃ itb, getInputTextBox fr id = some itb ∧ itb.controlID_ = id ∧
      itb.cursorPos_ ≤ itb.content_.length := by
  have hex : ∃ c, find fr.controls_ id = some c := by
    rcases hid with h | h
    · rw [h]; exact hb.folderInput
    · rw [h]; exact hb.filterInput
  obtain ⟨c, hc⟩ := hex
  have hk := hb.kind_of_find hc
  obtain ⟨itb, h1, h2⟩ := hk.2.2.1 hid
  refine ⟨itb, ?_, ?_, h2⟩
  · simp [getInputTextBox, hc, h1]
  · rw [← (inputTextBox_ofControl_some h1).1]
    exact hk.1

theorem Base.getCheckbox {fr : Framework} (hb : Base fr.controls_) :
    ∃ cb, getCheckbox fr "recursiveCheck" = some cb ∧ cb.controlID_ = "recursiveCheck" ∧
      cb.controlHit_ = false := by
  obtain ⟨c, hc⟩ := hb.recursiveCheck
  have hk := hb.kind_of_find hc
  obtain ⟨cb, h1⟩ := hk.2.2.2.1 rfl
  have h2 := checkbox_ofControl_some h1
  refine ⟨cb, ?_, ?_, ?_⟩
  · simp [FileBrowser.getCheckbox, hc, h1]
  · rw [← h2.1]
    exact hk.1
  · cases hh : cb.controlHit_ with
    | false => rfl
    | true =>
      have := hk.2.1 (by rw [h2.2.1, hh])
      simp at this

theorem Base.getTextBox {fr : Framework} (hb : Base fr.controls_) (id : String)
    (hid : id = "tbxSearched" ∨ id = "tbxMatched" ∨ id = "tbxFileSize") :
    ∃ tbx, getTextBox fr id = some tbx ∧ tbx.controlID_ = id := by
  have hex : ∃ c, find fr.controls_ id = some c := by
    rcases hid with h | h | h
    · rw [h]; exact hb.tbxSearched
    · rw [h]; exact hb.tbxMatched
    · rw [h]; exact hb.tbxFileSize
  obtain ⟨c, hc⟩ := hex
  have hk := hb.kind_of_find hc
  obtain ⟨tbx, h1⟩ := hk.2.2.2.2.1 hid
  refine ⟨tbx, ?_, ?_⟩
  · simp [FileBrowser.getTextBox, hc, h1]
  · rw [← textBox_ofControl_some h1]
    exact hk.1

theorem Base.getFileViewer {fr : Framework} (hb : Base fr.controls_) :
    ∃ fv, getFileViewer fr "fv" = some fv ∧ fv.controlID_ = "fv" := by
  obtain ⟨c, hc⟩ := hb.fv
  have hk := hb.kind_of_find hc
  obtain ⟨fv, h1⟩ := hk.2.2.2.2.2 rfl
  refine ⟨fv, ?_, ?_⟩
  · simp [FileBrowser.getFileViewer, hc, h1]
  · rw [← fileViewer_ofControl_some h1]
    exact hk.1

/-- An input box with its cursor inside its content is of the kind of its key. -/
theorem kindOK_input (itb : InputTextBox)
    (hid : itb.controlID_ = "folderInput" ∨ itb.controlID_ = "filterInput")
    (hc : itb.cursorPos_ ≤ itb.content_.length) :
    kindOK itb.toControl.controlID_ itb.toControl := by
  have e : itb.toControl.controlID_ = itb.controlID_ := rfl
  rw [e]
  refine ⟨rfl, fun _ => hid, fun _ => ⟨itb, rfl, hc⟩, ?_, ?_, ?_⟩
  · intro h
    rcases hid with h1 | h1 <;> rw [h1] at h <;> simp at h
  · intro h
    rcases hid with h1 | h1 <;> rw [h1] at h <;> simp at h
  · intro h
    rcases hid with h1 | h1 <;> rw [h1] at h <;> simp at h

/-- A check box that is not hit is of the kind of its key. -/
theorem kindOK_checkbox (cb : Checkbox) (hid : cb.controlID_ = "recursiveCheck")
    (hh : cb.controlHit_ = false) : kindOK cb.toControl.controlID_ cb.toControl := by
  have e : cb.toControl.controlID_ = cb.controlID_ := rfl
  rw [e, hid]
  refine ⟨hid, ?_, ?_, fun _ => ⟨cb, rfl⟩, ?_, ?_⟩
  · intro h
    have : cb.toControl.controlHit_ = some cb.controlHit_ := rfl
    rw [this, hh] at h
    simp at h
  · intro h; simp at h
  · intro h; simp at h
  · intro h; simp at h

/-- A text box stored under one of the three statistics keys is of the kind of its key. -/
theorem kindOK_textBox (t : TextBox)
    (hid : t.controlID_ = "tbxSearched" ∨ t.controlID_ = "tbxMatched" ∨
      t.controlID_ = "tbxFileSize") : kindOK t.toControl.controlID_ t.toControl := by
  have e : t.toControl.controlID_ = t.controlID_ := rfl
  rw [e]
  refine ⟨rfl, ?_, ?_, ?_, fun _ => ⟨t, rfl⟩, ?_⟩
  · intro h
    have : t.toControl.controlHit_ = none := rfl
    rw [this] at h
    simp at h
  · intro h
    rcases hid with h1 | h1 | h1 <;> rw [h1] at h <;> simp at h
  · intro h
    rcases hid with h1 | h1 | h1 <;> rw [h1] at h <;> simp at h
  · intro h
    rcases hid with h1 | h1 | h1 <;> rw [h1] at h <;> simp at h

/-- A file viewer stored under `fv` is of the kind of its key. -/
theorem kindOK_fileViewer (f : FileViewer) (hid : f.controlID_ = "fv") :
    kindOK f.toControl.controlID_ f.toControl := by
  have e : f.toControl.controlID_ = f.controlID_ := rfl
  rw [e, hid]
  refine ⟨hid, ?_, ?_, ?_, ?_, fun _ => ⟨_, rfl⟩⟩
  · intro h
    have : f.toControl.controlHit_ = none := rfl
    rw [this] at h
    simp at h
  · intro h; simp at h
  · intro h; simp at h
  · intro h; simp at h

theorem Base.update_input {controls : List (String × Control)} (itb : InputTextBox)
    (hid : itb.controlID_ = "folderInput" ∨ itb.controlID_ = "filterInput")
    (hc : itb.cursorPos_ ≤ itb.content_.length) (hb : Base controls) :
    Base (updateLoop itb.toControl controls) :=
  hb.update _ (kindOK_input itb hid hc)

theorem Base.update_checkbox {controls : List (String × Control)} (cb : Checkbox)
    (hid : cb.controlID_ = "recursiveCheck") (hh : cb.controlHit_ = false)
    (hb : Base controls) : Base (updateLoop cb.toControl controls) :=
  hb.update _ (kindOK_checkbox cb hid hh)

theorem Base.update_textBox {controls : List (String × Control)} (t : TextBox)
    (hid : t.controlID_ = "tbxSearched" ∨ t.controlID_ = "tbxMatched" ∨
      t.controlID_ = "tbxFileSize") (hb : Base controls) :
    Base (updateLoop t.toControl controls) :=
  hb.update _ (kindOK_textBox t hid)

theorem Base.update_fileViewer {controls : List (String × Control)} (f : FileViewer)
    (hid : f.controlID_ = "fv") (hb : Base controls) :
    Base (updateLoop f.toControl controls) :=
  hb.update _ (kindOK_fileViewer f hid)

/-! ## The controller -/

theorem scanEntry_fold (env : Env) (r : List Char) : ∀ (entries : List DirEntry)
    (m : FileModel),
    (entries.foldl (FileModel.scanEntry env r) m).folder_ = m.folder_ ∧
    (entries.foldl (FileModel.scanEntry env r) m).regex_ = m.regex_ ∧
    (entries.foldl (FileModel.scanEntry env r) m).recursion_ = m.recursion_ ∧
    (entries.foldl (FileModel.scanEntry env r) m).fPos_ = m.fPos_ ∧
    (entries.foldl (FileModel.scanEntry env r) m).startRow_ = m.startRow_ ∧
    (m.sFiles_.isSome → (entries.foldl (FileModel.scanEntry env r) m).sFiles_.isSome) ∧
    (m.mFiles_.isSome → (entries.foldl (FileModel.scanEntry env r) m).mFiles_.isSome) ∧
    (m.fSize_.isSome → (entries.foldl (FileModel.scanEntry env r) m).fSize_.isSome) := by
  intro entries
  induction entries with
  | nil => intro m; simp
  | cons d rest ih =>
    intro m
    simp only [List.foldl_cons]
    have h := ih (FileModel.scanEntry env r m d)
    have e : (FileModel.scanEntry env r m d).folder_ = m.folder_ ∧
        (FileModel.scanEntry env r m d).regex_ = m.regex_ ∧
        (FileModel.scanEntry env r m d).recursion_ = m.recursion_ ∧
        (FileModel.scanEntry env r m d).fPos_ = m.fPos_ ∧
        (FileModel.scanEntry env r m d).startRow_ = m.startRow_ ∧
        (m.sFiles_.isSome → (FileModel.scanEntry env r m d).sFiles_.isSome) ∧
        (m.mFiles_.isSome → (FileModel.scanEntry env r m d).mFiles_.isSome) ∧
        (m.fSize_.isSome → (FileModel.scanEntry env r m d).fSize_.isSome) := by
      unfold FileModel.scanEntry
      split
      · split <;> simp
      · simp
    obtain ⟨e1, e2, e3, e4, e5, e6, e7, e8⟩ := e
    obtain ⟨h1, h2, h3, h4, h5, h6, h7, h8⟩ := h
    refine ⟨h1.trans e1, h2.trans e2, h3.trans e3, h4.trans e4, h5.trans e5,
      fun x => h6 (e6 x), fun x => h7 (e7 x), fun x => h8 (e8 x)⟩

theorem Scan_fields (env : Env) (m : FileModel) (f r : List Char) (recurse : Bool) :
    (m.Scan env f r recurse).folder_ = m.folder_ ∧
    (m.Scan env f r recurse).regex_ = m.regex_ ∧
    (m.Scan env f r recurse).recursion_ = m.recursion_ ∧
    (m.Scan env f r recurse).fPos_ = some 0 ∧
    (m.Scan env f r recurse).startRow_ = some 0 ∧
    (m.Scan env f r recurse).sFiles_.isSome ∧
    (m.Scan env f r recurse).mFiles_.isSome ∧
    (m.Scan env f r recurse).fSize_.isSome := by
  unfold FileModel.Scan
  split
  · have h := scanEntry_fold env r (env.recursive_directory_iterator f)
      { m with sFiles_ := some 0, mFiles_ := some 0, startRow_ := some 0,
               fPos_ := some 0, fSize_ := some [], files_ := [] }
    obtain ⟨h1, h2, h3, h4, h5, h6, h7, h8⟩ := h
    exact ⟨h1, h2, h3, h4, h5, h6 rfl, h7 rfl, h8 rfl⟩
  · have h := scanEntry_fold env r (env.directory_iterator f)
      { m with sFiles_ := some 0, mFiles_ := some 0, startRow_ := some 0,
               fPos_ := some 0, fSize_ := some [], files_ := [] }
    obtain ⟨h1, h2, h3, h4, h5, h6, h7, h8⟩ := h
    exact ⟨h1, h2, h3, h4, h5, h6 rfl, h7 rfl, h8 rfl⟩

/-- What `UpdateModel` does when its four lookups succeed. -/
theorem UpdateModel_eq (env : Env) (w : World) (cb : Checkbox) (f g : InputTextBox)
    (fv : FileViewer)
    (hcb : getCheckbox w.frame "recursiveCheck" = some cb)
    (hf : getInputTextBox w.frame "folderInput" = some f)
    (hg : getInputTextBox w.frame "filterInput" = some g)
    (hfv : getFileViewer w.frame "fv" = some fv) :
    FileController.UpdateModel env w =
      if env.regexCompiles g.content_ then
        Outcome.ok
          { w with frame := UpdateModel.frame cb.state_ fv w.frame,
                   model_ := (FileModel.new f.content_ g.content_ cb.state_).Scan env
                      f.content_ g.content_ cb.state_ }
      else
        Outcome.thrown (Exception.XError "Invalid regex." 833)
          { w with frame := UpdateModel.frame cb.state_ fv w.frame,
                   model_ := FileModel.new f.content_ g.content_ cb.state_ } := by
  unfold FileController.UpdateModel
  simp only [hcb, hf, hg, hfv]
  cases hs : cb.state_ <;>
    simp [FileModel.new, UpdateModel.frame, FileViewer.UpdateFileView, Outcome.bind,
      scanNotice]

theorem getInputTextBox_update_ne (c : Control) (fr : Framework) (id : String)
    (h : c.controlID_ ≠ id) :
    getInputTextBox (Control.Update c fr) id = getInputTextBox fr id := by
  simp [getInputTextBox, find_updateLoop, h]

theorem getInputTextBox_update_same (i : InputTextBox) (fr : Framework) (id : String)
    (h : i.controlID_ = id) (hex : ∃ c, find fr.controls_ id = some c) :
    getInputTextBox (Control.Update i.toControl fr) id = some i := by
  obtain ⟨c, hc⟩ := hex
  simp [getInputTextBox, find_updateLoop, h, hc, inputTextBox_ofControl_toControl]

theorem getCheckbox_update_ne (c : Control) (fr : Framework) (id : String)
    (h : c.controlID_ ≠ id) :
    getCheckbox (Control.Update c fr) id = getCheckbox fr id := by
  simp [getCheckbox, find_updateLoop, h]

theorem getCheckbox_update_same (b : Checkbox) (fr : Framework) (id : String)
    (h : b.controlID_ = id) (hex : ∃ c, find fr.controls_ id = some c) :
    getCheckbox (Control.Update b.toControl fr) id = some b := by
  obtain ⟨c, hc⟩ := hex
  simp [getCheckbox, find_updateLoop, h, hc, checkbox_ofControl_toControl]

theorem getInputTextBox_congr {fr fr' : Framework} (h : fr'.controls_ = fr.controls_)
    (id : String) : getInputTextBox fr' id = getInputTextBox fr id := by
  simp [getInputTextBox, h]

theorem getCheckbox_congr {fr fr' : Framework} (h : fr'.controls_ = fr.controls_)
    (id : String) : getCheckbox fr' id = getCheckbox fr id := by
  simp [getCheckbox, h]

/-- The frame `UpdateModel` leaves is well formed and holds the same input boxes and
check box. -/
theorem UpdateModel_frame_spec (recursive : Bool) (fv : FileViewer) (fr : Framework)
    (hb : Base fr.controls_) (hfv : fv.controlID_ = "fv") :
    Base (UpdateModel.frame recursive fv fr).controls_ ∧
    (∀ id, id ≠ "fv" →
      getInputTextBox (UpdateModel.frame recursive fv fr) id = getInputTextBox fr id) ∧
    (∀ id, id ≠ "fv" →
      getCheckbox (UpdateModel.frame recursive fv fr) id = getCheckbox fr id) := by
  cases recursive with
  | false =>
    have e : (UpdateModel.frame false fv fr).controls_ = fr.controls_ := by
      simp [UpdateModel.frame]
    exact ⟨by rw [e]; exact hb, fun id _ => getInputTextBox_congr e id,
      fun id _ => getCheckbox_congr e id⟩
  | true =>
    have e : (UpdateModel.frame true fv fr).controls_ =
        updateLoop (scanNotice fv).toControl fr.controls_ := by
      simp [UpdateModel.frame]
    have e2 : ∀ id, id ≠ "fv" → ¬ (scanNotice fv).toControl.controlID_ = id := by
      intro id hid h
      exact hid (h.symm.trans hfv)
    refine ⟨?_, ?_, ?_⟩
    · rw [e]
      exact hb.update _ (kindOK_fileViewer _ hfv)
    · intro id hid
      unfold getInputTextBox
      rw [e, find_updateLoop, if_neg (e2 id hid)]
    · intro id hid
      unfold getCheckbox
      rw [e, find_updateLoop, if_neg (e2 id hid)]

/-- What `UpdateView` does on a well-formed registry when the model holds the counters
of a scan and the texts of the two input boxes. -/
theorem UpdateView_spec (env : Env) (w : World) (hb : Base w.frame.controls_)
    (cb : Checkbox) (f g : InputTextBox)
    (hcb : getCheckbox w.frame "recursiveCheck" = some cb)
    (hf : getInputTextBox w.frame "folderInput" = some f)
    (hg : getInputTextBox w.frame "filterInput" = some g)
    (hs : w.model_.sFiles_.isSome) (hm : w.model_.mFiles_.isSome)
    (hz : w.model_.fSize_.isSome)
    (hfold : w.model_.folder_ = f.content_) (hreg : w.model_.regex_ = g.content_) :
    ∃ fr2, FileController.UpdateView env w =
        Outcome.ok { w with frame := fr2,
                            model_ := { w.model_ with startRow_ := some 0, fPos_ := some 0 } } ∧
      Base fr2.controls_ ∧
      getInputTextBox fr2 "folderInput" = some f ∧
      getInputTextBox fr2 "filterInput" = some g ∧
      getCheckbox fr2 "recursiveCheck" =
        some { cb with state_ := w.model_.recursion_,
                       content_ := if w.model_.recursion_ then ['X'] else [' '] } := by
  obtain ⟨cb0, hcb0, hcbid, hcbhit⟩ := hb.getCheckbox
  obtain ⟨f0, hf0, hfid, hfc⟩ := hb.getInput "folderInput" (Or.inl rfl)
  obtain ⟨g0, hg0, hgid, hgc⟩ := hb.getInput "filterInput" (Or.inr rfl)
  obtain ⟨t1, ht1, ht1id⟩ := hb.getTextBox "tbxSearched" (Or.inl rfl)
  obtain ⟨t2, ht2, ht2id⟩ := hb.getTextBox "tbxMatched" (Or.inr (Or.inl rfl))
  obtain ⟨t3, ht3, ht3id⟩ := hb.getTextBox "tbxFileSize" (Or.inr (Or.inr rfl))
  obtain ⟨fv, hfv, hfvid⟩ := hb.getFileViewer
  rw [hcb] at hcb0
  rw [hf] at hf0
  rw [hg] at hg0
  injection hcb0 with hcb0
  injection hf0 with hf0
  injection hg0 with hg0
  subst hcb0
  subst hf0
  subst hg0
  obtain ⟨sF, hs⟩ := Option.isSome_iff_exists.mp hs
  obtain ⟨mF, hm⟩ := Option.isSome_iff_exists.mp hm
  obtain ⟨fS, hz⟩ := Option.isSome_iff_exists.mp hz
  have hfeq : ({ f with content_ := w.model_.folder_ } : InputTextBox) = f := by
    rw [hfold]
  have hgeq : ({ g with content_ := w.model_.regex_ } : InputTextBox) = g := by
    rw [hreg]
  unfold FileController.UpdateView
  simp only [hcb, hf, hg, ht1, ht2, ht3, hfv, hfeq, hgeq, FileViewer.UpdateFileView,
    Outcome.bind, hs, hm, hz]
  refine ⟨_, rfl, ?_, ?_, ?_, ?_⟩
  · simp only [UpdateContent_controls, Update_controls, UpdateView_loop_controls,
      Write_controls, ClearFileView_controls, UpdateInputContent_controls,
      UpdateCheckState_controls]
    refine Base.update_textBox _ (Or.inr (Or.inr ht3id)) ?_
    refine Base.update_textBox _ (Or.inr (Or.inl ht2id)) ?_
    refine Base.update_textBox _ (Or.inl ht1id) ?_
    refine Base.update_fileViewer _ hfvid ?_
    refine Base.update_input _ (Or.inr hgid) hgc ?_
    refine Base.update_input _ (Or.inl hfid) hfc ?_
    exact Base.update_checkbox _ hcbid hcbhit hb
  · obtain ⟨c, hc1, hc2⟩ := getInputTextBox_some hf
    simp [getInputTextBox, find_updateLoop, ht1id, ht2id, ht3id, hfvid, hgid, hfid, hcbid,
      hc1, inputTextBox_ofControl_toControl]
  · obtain ⟨c, hc1, hc2⟩ := getInputTextBox_some hg
    simp [getInputTextBox, find_updateLoop, ht1id, ht2id, ht3id, hfvid, hgid, hfid, hcbid,
      hc1, inputTextBox_ofControl_toControl]
  · obtain ⟨c, hc1, hc2⟩ := getCheckbox_some hcb
    simp [getCheckbox, find_updateLoop, ht1id, ht2id, ht3id, hfvid, hgid, hfid, hcbid,
      hc1, checkbox_ofControl_toControl]

/-- The method `Update` of the controller when the filter compiles: the model is rebuilt
from the widgets and scanned, and the view is refreshed from it. -/
theorem Update_ok_spec (env : Env) (w : World) (hb : Base w.frame.controls_)
    (cb : Checkbox) (f g : InputTextBox)
    (hcb : getCheckbox w.frame "recursiveCheck" = some cb)
    (hf : getInputTextBox w.frame "folderInput" = some f)
    (hg : getInputTextBox w.frame "filterInput" = some g)
    (hre : env.regexCompiles g.content_ = true) :
    ∃ fr2, FileController.Update env w =
        Outcome.ok
          { w with frame := fr2,
                   model_ :=
                    { (FileModel.new f.content_ g.content_ cb.state_).Scan env f.content_
                        g.content_ cb.state_ with startRow_ := some 0, fPos_ := some 0 } } ∧
      Base fr2.controls_ ∧
      getInputTextBox fr2 "folderInput" = some f ∧
      getInputTextBox fr2 "filterInput" = some g ∧
      getCheckbox fr2 "recursiveCheck" =
        some { cb with content_ := if cb.state_ then ['X'] else [' '] } := by
  obtain ⟨fv, hfv, hfvid⟩ := hb.getFileViewer
  obtain ⟨hb1, hin, hck⟩ := UpdateModel_frame_spec cb.state_ fv w.frame hb hfvid
  have hsc := Scan_fields env (FileModel.new f.content_ g.content_ cb.state_) f.content_
    g.content_ cb.state_
  obtain ⟨s1, s2, s3, _, _, s6, s7, s8⟩ := hsc
  have hf1 := (hin "folderInput" (by decide)).trans hf
  have hg1 := (hin "filterInput" (by decide)).trans hg
  have hc1 := (hck "recursiveCheck" (by decide)).trans hcb
  obtain ⟨fr2, h1, h2, h3, h4, h5⟩ := UpdateView_spec env
    { w with frame := UpdateModel.frame cb.state_ fv w.frame,
             model_ := (FileModel.new f.content_ g.content_ cb.state_).Scan env f.content_
                g.content_ cb.state_ }
    hb1 cb f g hc1 hf1 hg1 s6 s7 s8 (s1.trans rfl) (s2.trans rfl)
  refine ⟨fr2, ?_, h2, h3, h4, ?_⟩
  · unfold FileController.Update
    rw [UpdateModel_eq env w cb f g fv hcb hf hg hfv, if_pos hre]
    simp only [Outcome.bind]
    rw [h1]
  · rw [h5]
    have e : ((FileModel.new f.content_ g.content_ cb.state_).Scan env f.content_
        g.content_ cb.state_).recursion_ = cb.state_ := s3.trans rfl
    simp only [e]

/-- The method `Update` of the controller when the filter does not compile: `UpdateModel`
leaves by an exception and `UpdateView` is not run. -/
theorem Update_thrown_spec (env : Env) (w : World) (hb : Base w.frame.controls_)
    (cb : Checkbox) (f g : InputTextBox)
    (hcb : getCheckbox w.frame "recursiveCheck" = some cb)
    (hf : getInputTextBox w.frame "folderInput" = some f)
    (hg : getInputTextBox w.frame "filterInput" = some g)
    (hre : env.regexCompiles g.content_ = false) :
    ∃ fr1, FileController.Update env w =
        Outcome.thrown (Exception.XError "Invalid regex." 833)
          { w with frame := fr1,
                   model_ := FileModel.new f.content_ g.content_ cb.state_ } ∧
      Base fr1.controls_ ∧
      getInputTextBox fr1 "folderInput" = some f ∧
      getInputTextBox fr1 "filterInput" = some g ∧
      getCheckbox fr1 "recursiveCheck" = some cb := by
  obtain ⟨fv, hfv, hfvid⟩ := hb.getFileViewer
  obtain ⟨hb1, hin, hck⟩ := UpdateModel_frame_spec cb.state_ fv w.frame hb hfvid
  refine ⟨UpdateModel.frame cb.state_ fv w.frame, ?_, hb1,
    (hin "folderInput" (by decide)).trans hf, (hin "filterInput" (by decide)).trans hg,
    (hck "recursiveCheck" (by decide)).trans hcb⟩
  unfold FileController.Update
  rw [UpdateModel_eq env w cb f g fv hcb hf hg hfv, hre]
  simp [Outcome.bind]

theorem Kept.same {w : World} (hb : Base w.frame.controls_) : Kept w w :=
  ⟨hb, rfl, rfl, rfl⟩

theorem Kept.then {w1 w2 w3 : World} (h1 : Kept w1 w2) (h2 : Kept w2 w3) : Kept w1 w3 :=
  ⟨h2.1, h2.2.1.trans h1.2.1, h2.2.2.1.trans h1.2.2.1, h2.2.2.2.trans h1.2.2.2⟩

/-- On a well-formed registry `Update` returns or throws; either way the registry stays
well formed and the input boxes are kept. -/
theorem Update_kept (env : Env) (w : World) (hb : Base w.frame.controls_) :
    ∃ w', Kept w w' ∧
      (FileController.Update env w = Outcome.ok w' ∨
        ∃ e, FileController.Update env w = Outcome.thrown e w') := by
  obtain ⟨cb, hcb, _, _⟩ := hb.getCheckbox
  obtain ⟨f, hf, _, _⟩ := hb.getInput "folderInput" (Or.inl rfl)
  obtain ⟨g, hg, _, _⟩ := hb.getInput "filterInput" (Or.inr rfl)
  cases hre : env.regexCompiles g.content_ with
  | true =>
    obtain ⟨fr2, h1, h2, h3, h4, _⟩ := Update_ok_spec env w hb cb f g hcb hf hg hre
    refine ⟨_, ?_, Or.inl h1⟩
    exact ⟨h2, h3.trans hf.symm, h4.trans hg.symm, rfl⟩
  | false =>
    obtain ⟨fr1, h1, h2, h3, h4, _⟩ := Update_thrown_spec env w hb cb f g hcb hf hg hre
    refine ⟨_, ?_, Or.inr ⟨_, h1⟩⟩
    exact ⟨h2, h3.trans hf.symm, h4.trans hg.symm, rfl⟩

theorem Notify_loop_kept (env : Env) : ∀ (obs : List IObserver) (w : World),
    Base w.frame.controls_ →
    ∃ w', Kept w w' ∧
      (Notify.loop env obs w = Outcome.ok w' ∨
        ∃ e, Notify.loop env obs w = Outcome.thrown e w') := by
  intro obs
  induction obs with
  | nil =>
    intro w hb
    exact ⟨w, Kept.same hb, Or.inl rfl⟩
  | cons o os ih =>
    intro w hb
    cases o
    obtain ⟨w1, hk, h⟩ := Update_kept env w hb
    rcases h with h | ⟨e, h⟩
    · obtain ⟨w2, hk2, h2⟩ := ih w1 hk.1
      refine ⟨w2, hk.then hk2, ?_⟩
      simp only [Notify.loop, IObserver.Update, h, Outcome.bind]
      exact h2
    · refine ⟨w1, hk, Or.inr ⟨e, ?_⟩⟩
      simp only [Notify.loop, IObserver.Update, h, Outcome.bind]

theorem Notify_kept (env : Env) (w : World) (hb : Base w.frame.controls_) :
    ∃ w', Kept w w' ∧
      (Notify env w = Outcome.ok w' ∨ ∃ e, Notify env w = Outcome.thrown e w') :=
  Notify_loop_kept env w.observers_ w hb

/-! ## Key events on a focused input box -/

theorem udec_le_pred {a : Nat} (h0 : 0 < a) : udec a ≤ a - 1 := by
  simp only [udec, SIZE_MOD] at *
  omega

theorem Outcome.sat_bind {α β : Type} (o : Outcome α) (f : α → Outcome β)
    (Q : β → Prop) (P : World → Prop)
    (h : o.sat (fun a => (f a).sat Q P) P) : (o.bind f).sat Q P := by
  cases o with
  | ok a => exact h
  | thrown e w => exact h
  | undefined => trivial
  | diverges => trivial

theorem Outcome.sat_mono {α : Type} (o : Outcome α) (Q Q' : α → Prop) (P P' : World → Prop)
    (hq : ∀ a, Q a → Q' a) (hp : ∀ w, P w → P' w) (h : o.sat Q P) : o.sat Q' P' := by
  cases o with
  | ok a => exact hq a h
  | thrown e w => exact hp w h
  | undefined => trivial
  | diverges => trivial

/-- A key other than Enter edits the content and the cursor of the local box only, and
keeps the cursor inside the content. -/
theorem keySwitch_edit (env : Env) (ke : Keyboard) (itb : InputTextBox) (w : World)
    (hkey : ke.wVirtualKeyCode ≠ VK_RETURN) (hc : itb.cursorPos_ ≤ itb.content_.length) :
    ∃ c' s', keySwitch env ke itb w =
        Outcome.ok ({ itb with cursorPos_ := c', content_ := s' }, false, w) ∧
      c' ≤ s'.length ∧ s'.length ≤ itb.content_.length + 1 := by
  unfold keySwitch
  by_cases h1 : ke.wVirtualKeyCode = VK_BACK
  · simp only [h1, if_true]
    by_cases h : 0 < itb.cursorPos_ ∧ itb.cursorPos_ ≤ itb.content_.length
    · have hu := udec_le_pred h.1
      refine ⟨udec itb.cursorPos_, itb.content_.eraseIdx (udec itb.cursorPos_), ?_, ?_, ?_⟩
      · simp only [h, and_self, if_true]
      · have hl : udec itb.cursorPos_ < itb.content_.length := by omega
        rw [List.length_eraseIdx_of_lt hl]
        omega
      · have hl : udec itb.cursorPos_ < itb.content_.length := by omega
        rw [List.length_eraseIdx_of_lt hl]
        omega
    · exact ⟨itb.cursorPos_, itb.content_, by simp only [h, if_false], hc, by omega⟩
  · simp only [h1, if_false]
    by_cases h2 : ke.wVirtualKeyCode = VK_DELETE
    · simp only [h2, if_true]
      by_cases h : 0 ≤ itb.cursorPos_ ∧ itb.cursorPos_ < itb.content_.length
      · refine ⟨itb.cursorPos_, itb.content_.eraseIdx itb.cursorPos_, ?_, ?_, ?_⟩
        · simp only [h, and_self, if_true]
        · rw [List.length_eraseIdx_of_lt h.2]
          omega
        · rw [List.length_eraseIdx_of_lt h.2]
          omega
      · exact ⟨itb.cursorPos_, itb.content_, by simp only [h, if_false], hc, by omega⟩
    · simp only [h2, if_false]
      by_cases h3 : ke.wVirtualKeyCode = VK_LEFT
      · simp only [h3, if_true]
        by_cases h : itb.cursorPos_ > 0
        · have hu := udec_le_pred h
          exact ⟨udec itb.cursorPos_, itb.content_, by simp only [h, if_true], by omega,
            by omega⟩
        · exact ⟨itb.cursorPos_, itb.content_, by simp only [h, if_false], hc, by omega⟩
      · simp only [h3, if_false]
        by_cases h4 : ke.wVirtualKeyCode = VK_RIGHT
        · simp only [h4, if_true]
          by_cases h : itb.cursorPos_ < itb.content_.length
          · have hu := uinc_le itb.cursorPos_
            exact ⟨uinc itb.cursorPos_, itb.content_, by simp only [h, if_true], by omega,
              by omega⟩
          · exact ⟨itb.cursorPos_, itb.content_, by simp only [h, if_false], hc, by omega⟩
        · simp only [h4, if_false]
          by_cases h5 : ke.wVirtualKeyCode = VK_END
          · simp only [h5, if_true]
            exact ⟨itb.content_.length, itb.content_, rfl, by omega, by omega⟩
          · simp only [h5, if_false]
            by_cases h6 : ke.wVirtualKeyCode = VK_HOME
            · simp only [h6, if_true]
              exact ⟨0, itb.content_, rfl, by omega, by omega⟩
            · simp only [h6, if_false, hkey]
              by_cases h7 : isprint ke.AsciiChar = true
              · have hu := uinc_le itb.cursorPos_
                refine ⟨uinc itb.cursorPos_, itb.content_.take itb.cursorPos_ ++
                  ke.AsciiChar :: itb.content_.drop itb.cursorPos_, ?_, ?_, ?_⟩
                · simp only [h7, if_true, hc]
                · simp only [List.length_append, List.length_take, List.length_cons,
                    List.length_drop]
                  omega
                · simp only [List.length_append, List.length_take, List.length_cons,
                    List.length_drop]
                  omega
              · exact ⟨itb.cursorPos_, itb.content_, by simp only [h7]; rfl, hc,
                  by omega⟩

/-- The statements after the key `switch` return for a width of at least one and a cursor
inside the content: the aperture becomes the closed form and the box is stored. -/
theorem afterSwitch_eq (itb : InputTextBox) (enterHit_ : Bool) (w : World)
    (hW : 1 ≤ itb.length_) (hc : itb.cursorPos_ ≤ itb.content_.length)
    (hn : itb.content_.length + 1 < SIZE_MOD) (ha : itb.aperature_ < SIZE_MOD) :
    afterSwitch itb enterHit_ w =
      Outcome.ok { w with frame := (afterSwitch.frame
        { itb with aperature_ :=
          (closedFormAperture itb.aperature_ itb.cursorPos_ itb.content_.length itb.length_) }
        enterHit_ w.frame) } := by
  unfold afterSwitch
  rw [recomputeAperture_eq itb hW hc hn ha]
  have h := (closedFormAperture_le itb.aperature_ itb.cursorPos_ itb.content_.length
    itb.length_ hW hc).1
  have h2 : closedFormAperture itb.aperature_ itb.cursorPos_ itb.content_.length
      itb.length_ ≤ itb.content_.length := by omega
  simp only [h2, if_true]
  rfl

/-- Whatever the statements after the key `switch` return, they store the local box with
a new aperture and change nothing else but the console; when they throw, nothing has
changed. -/
theorem afterSwitch_sat (itb : InputTextBox) (enterHit_ : Bool) (w : World) :
    (afterSwitch itb enterHit_ w).sat
      (fun w' => ∃ a, w'.frame.controls_ =
          updateLoop ({ itb with aperature_ := a } : InputTextBox).toControl w.frame.controls_ ∧
        w'.model_ = w.model_ ∧ w'.observers_ = w.observers_)
      (fun w' => w' = w) := by
  unfold afterSwitch
  cases h : recomputeAperture itb with
  | none => trivial
  | some itb2 =>
    have e := recomputeAperture_some h
    simp only
    split
    · refine ⟨itb2.aperature_, ?_, rfl, rfl⟩
      simp only [Update_controls, ResetCursorPosition_controls, UpdateInputContent_controls,
        Write_controls]
      rw [← e]
    · rfl

/-- A key-down event is handled by the branch of the focused input box. -/
theorem ProcessKeyEvent_focused (env : Env) (ke : Keyboard) (w : World) (id : String)
    (itb : InputTextBox) (hfi : FocusedInput w id itb) (hdown : ke.bKeyDown = true) :
    FileView.ProcessKeyEvent env ke w = focusedKey env ke itb w := by
  obtain ⟨hget, hhit, _, h⟩ := hfi
  unfold FileView.ProcessKeyEvent
  rcases h with ⟨hid, g, hg⟩ | ⟨hid, f, hf, hfh⟩
  · subst hid
    simp only [hdown, if_true, hget, hg, hhit]
  · subst hid
    simp only [hdown, if_true, hget, hf, hfh, hhit]
    simp

/-- The box stored by the statements after the key `switch` is found again under its id. -/
theorem afterSwitch_frame_get (itb : InputTextBox) (enterHit_ : Bool) (fr : Framework)
    (id : String) (hid : itb.controlID_ = id) (hex : ∃ c, find fr.controls_ id = some c) :
    getInputTextBox (afterSwitch.frame itb enterHit_ fr) id = some itb := by
  unfold afterSwitch.frame
  exact getInputTextBox_update_same itb _ id hid hex

/-- The branch of a focused input box, once the result of the key `switch` is known. -/
theorem focusedKey_of_keySwitch (env : Env) (ke : Keyboard) (itb itb1 : InputTextBox)
    (enterHit_ : Bool) (w w1 : World)
    (hk : keySwitch env ke itb w = Outcome.ok (itb1, enterHit_, w1))
    (hW : 1 ≤ itb1.length_) (hc : itb1.cursorPos_ ≤ itb1.content_.length)
    (hn : itb1.content_.length + 1 < SIZE_MOD) (ha : itb1.aperature_ < SIZE_MOD) :
    focusedKey env ke itb w =
      Outcome.ok { w1 with frame := (afterSwitch.frame
        { itb1 with aperature_ :=
          (closedFormAperture itb1.aperature_ itb1.cursorPos_ itb1.content_.length
            itb1.length_) }
        enterHit_ w1.frame) } := by
  unfold focusedKey
  rw [hk]
  simp only [Outcome.bind]
  exact afterSwitch_eq itb1 enterHit_ w1 hW hc hn ha

/-- C1. Viewport invariant: for an input box of width at least one whose cursor is inside
its content, whatever its aperture, every key-down event other than Enter that
`ProcessKeyEvent` handles for the focused box returns, and the box it stores satisfies
`aperature_ <= cursorPos_` and `cursorPos_ - aperature_ < length_`; the unsigned
difference `cursorPos_ - aperature_` does not wrap. -/
theorem viewport_invariant (env : Env) (ke : Keyboard) (w : World) (id : String)
    (itb : InputTextBox) (hfi : FocusedInput w id itb) (hdown : ke.bKeyDown = true)
    (hkey : ke.wVirtualKeyCode ≠ VK_RETURN) (hW : 1 ≤ itb.length_)
    (hc : itb.cursorPos_ ≤ itb.content_.length)
    (hn : itb.content_.length + 2 < SIZE_MOD) (ha : itb.aperature_ < SIZE_MOD) :
    ∃ w' itb', FileView.ProcessKeyEvent env ke w = Outcome.ok w' ∧
      getInputTextBox w'.frame id = some itb' ∧
      itb'.length_ = itb.length_ ∧
      itb'.cursorPos_ ≤ itb'.content_.length ∧
      itb'.aperature_ ≤ itb'.cursorPos_ ∧
      itb'.cursorPos_ - itb'.aperature_ < itb'.length_ ∧
      usub itb'.cursorPos_ itb'.aperature_ = itb'.cursorPos_ - itb'.aperature_ := by
  obtain ⟨c', s', hk, h1, h2⟩ := keySwitch_edit env ke itb w hkey hc
  have hn1 : s'.length + 1 < SIZE_MOD := by
    simp only [SIZE_MOD] at *
    omega
  have hfk := focusedKey_of_keySwitch env ke itb _ false w w hk hW h1 hn1 ha
  obtain ⟨c0, hc0, _⟩ := getInputTextBox_some hfi.1
  have hcf := closedFormAperture_le itb.aperature_ c' s'.length itb.length_ hW h1
  refine ⟨_, _, (ProcessKeyEvent_focused env ke w id itb hfi hdown).trans hfk,
    afterSwitch_frame_get _ false w.frame id hfi.2.2.1 ⟨c0, hc0⟩, rfl, h1, hcf.1, hcf.2.1, ?_⟩
  apply usub_le hcf.1
  simp only [SIZE_MOD] at *
  omega

theorem exampleFocused_focused :
    FocusedInput exampleFocused "folderInput" exampleFolderBox :=
  ⟨by decide, rfl, rfl, Or.inl ⟨rfl, _, rfl⟩⟩

/-- C1, at a concrete state: the key `x` typed into the focused folder input of the
example layout. -/
theorem viewport_invariant_witness :
    FocusedInput exampleFocused "folderInput" exampleFolderBox ∧
    ∃ w' itb', FileView.ProcessKeyEvent exampleEnv (keyDown 88 'x') exampleFocused =
        Outcome.ok w' ∧
      getInputTextBox w'.frame "folderInput" = some itb' ∧
      itb'.length_ = exampleFolderBox.length_ ∧
      itb'.cursorPos_ ≤ itb'.content_.length ∧
      itb'.aperature_ ≤ itb'.cursorPos_ ∧
      itb'.cursorPos_ - itb'.aperature_ < itb'.length_ ∧
      usub itb'.cursorPos_ itb'.aperature_ = itb'.cursorPos_ - itb'.aperature_ :=
  ⟨exampleFocused_focused,
    viewport_invariant exampleEnv (keyDown 88 'x') exampleFocused "folderInput"
      exampleFolderBox exampleFocused_focused rfl (by decide) (by decide) (by decide)
      (by decide) (by decide)⟩

/-- C2. Right-saturation: for an input box of width `W >= 1` whose cursor is inside its
content and whose content has at least `W` characters, the viewport recomputation
terminates and the aperture it produces satisfies `len(content) + 1 - aperture >= W`
(the unsigned difference `size - aperature_` does not wrap). -/
theorem right_saturation (itb : InputTextBox) (hW : 1 ≤ itb.length_)
    (hc : itb.cursorPos_ ≤ itb.content_.length)
    (hlen : itb.length_ ≤ itb.content_.length)
    (hn : itb.content_.length + 1 < SIZE_MOD) (ha : itb.aperature_ < SIZE_MOD) :
    ∃ itb', recomputeAperture itb = some itb' ∧
      itb'.content_ = itb.content_ ∧ itb'.length_ = itb.length_ ∧
      itb'.cursorPos_ = itb.cursorPos_ ∧
      itb'.content_.length + 1 - itb'.aperature_ ≥ itb'.length_ ∧
      usub (uadd itb'.content_.length 1) itb'.aperature_ =
        itb'.content_.length + 1 - itb'.aperature_ := by
  have hcf := closedFormAperture_le itb.aperature_ itb.cursorPos_ itb.content_.length
    itb.length_ hW hc
  refine ⟨_, recomputeAperture_eq itb hW hc hn ha, rfl, rfl, rfl, hcf.2.2 (by omega), ?_⟩
  have e : uadd itb.content_.length 1 = itb.content_.length + 1 := uadd_lt hn
  simp only [e]
  exact usub_le (by omega) hn

/-- C2, at the field of Scenario A: content `hello`, cursor 5, aperture 0, width 3. -/
theorem right_saturation_witness :
    ∃ itb', recomputeAperture scenarioA = some itb' ∧
      itb'.content_ = scenarioA.content_ ∧ itb'.length_ = scenarioA.length_ ∧
      itb'.cursorPos_ = scenarioA.cursorPos_ ∧
      itb'.content_.length + 1 - itb'.aperature_ ≥ itb'.length_ ∧
      usub (uadd itb'.content_.length 1) itb'.aperature_ =
        itb'.content_.length + 1 - itb'.aperature_ :=
  right_saturation scenarioA (by decide) (by decide) (by decide) (by decide) (by decide)

/-- A printable character whose key is not one of the editing keys is inserted at the
cursor, and the cursor moves one place to the right. -/
theorem keySwitch_insert (env : Env) (ke : Keyboard) (itb : InputTextBox) (w : World)
    (hp : isprint ke.AsciiChar = true)
    (hvk : ke.wVirtualKeyCode ≠ VK_BACK ∧ ke.wVirtualKeyCode ≠ VK_DELETE ∧
      ke.wVirtualKeyCode ≠ VK_LEFT ∧ ke.wVirtualKeyCode ≠ VK_RIGHT ∧
      ke.wVirtualKeyCode ≠ VK_END ∧ ke.wVirtualKeyCode ≠ VK_HOME ∧
      ke.wVirtualKeyCode ≠ VK_RETURN)
    (hc : itb.cursorPos_ ≤ itb.content_.length) :
    keySwitch env ke itb w =
      Outcome.ok ({ itb with content_ := itb.content_.take itb.cursorPos_ ++
                                          ke.AsciiChar :: itb.content_.drop itb.cursorPos_,
                             cursorPos_ := uinc itb.cursorPos_ },
                  false, w) := by
  obtain ⟨h1, h2, h3, h4, h5, h6, h7⟩ := hvk
  unfold keySwitch
  simp only [h1, h2, h3, h4, h5, h6, h7, if_false, hp, if_true, hc]

/-- Backspace with the cursor behind at least one character removes the character before
the cursor and moves the cursor one place to the left. -/
theorem keySwitch_back (env : Env) (ke : Keyboard) (itb : InputTextBox) (w : World)
    (hvk : ke.wVirtualKeyCode = VK_BACK) (h0 : 0 < itb.cursorPos_)
    (hc : itb.cursorPos_ ≤ itb.content_.length) :
    keySwitch env ke itb w =
      Outcome.ok ({ itb with cursorPos_ := udec itb.cursorPos_,
                             content_ := itb.content_.eraseIdx (udec itb.cursorPos_) },
                  false, w) := by
  unfold keySwitch
  simp only [hvk, if_true, h0, hc, and_self]

/-- After the statements that follow the key `switch` have stored a hit box under the id
of the focused box, that box is the focused one. -/
theorem FocusedInput_afterSwitch (w : World) (id : String) (itb itb' : InputTextBox)
    (enterHit_ : Bool) (hfi : FocusedInput w id itb) (hid : itb'.controlID_ = id)
    (hh : itb'.controlHit_ = true) :
    FocusedInput { w with frame := afterSwitch.frame itb' enterHit_ w.frame } id itb' := by
  obtain ⟨hget, hhit, hid0, h⟩ := hfi
  obtain ⟨c0, hc0, _⟩ := getInputTextBox_some hget
  refine ⟨afterSwitch_frame_get itb' enterHit_ w.frame id hid ⟨c0, hc0⟩, hh, hid, ?_⟩
  rcases h with ⟨e, g, hg⟩ | ⟨e, f, hf, hfh⟩
  · refine Or.inl ⟨e, g, ?_⟩
    unfold afterSwitch.frame
    rw [getInputTextBox_update_ne _ _ _ (by simp [hid, e])]
    exact (getInputTextBox_congr rfl _).trans hg
  · refine Or.inr ⟨e, f, ?_, hfh⟩
    unfold afterSwitch.frame
    rw [getInputTextBox_update_ne _ _ _ (by simp [hid, e])]
    exact (getInputTextBox_congr rfl _).trans hf

theorem eraseIdx_insert (l : List Char) (c : Nat) (ch : Char) (hc : c ≤ l.length) :
    (l.take c ++ ch :: l.drop c).eraseIdx c = l := by
  have hl : (l.take c).length = c := by simp [List.length_take]; omega
  rw [List.eraseIdx_append_of_length_le (by omega)]
  simp [hl]

/-- One key event on the focused box, given what the key `switch` returns for it: the
event returns, the box stays the focused one, and it holds the content and the cursor
of the `switch` and the closed-form aperture. -/
theorem focused_step (env : Env) (ke : Keyboard) (w : World) (id : String)
    (itb itb1 : InputTextBox) (hfi : FocusedInput w id itb) (hdown : ke.bKeyDown = true)
    (hk : keySwitch env ke itb w = Outcome.ok (itb1, false, w))
    (hid : itb1.controlID_ = id) (hh : itb1.controlHit_ = true)
    (hW : 1 ≤ itb1.length_) (hc : itb1.cursorPos_ ≤ itb1.content_.length)
    (hn : itb1.content_.length + 1 < SIZE_MOD) (ha : itb1.aperature_ < SIZE_MOD) :
    ∃ w1 itb2, FileView.ProcessKeyEvent env ke w = Outcome.ok w1 ∧
      FocusedInput w1 id itb2 ∧
      itb2.content_ = itb1.content_ ∧ itb2.cursorPos_ = itb1.cursorPos_ ∧
      itb2.length_ = itb1.length_ ∧
      itb2.aperature_ = closedFormAperture itb1.aperature_ itb1.cursorPos_
        itb1.content_.length itb1.length_ ∧
      w1.model_ = w.model_ ∧ w1.observers_ = w.observers_ := by
  have hfk := focusedKey_of_keySwitch env ke itb itb1 false w w hk hW hc hn ha
  refine ⟨_, _, (ProcessKeyEvent_focused env ke w id itb hfi hdown).trans hfk,
    FocusedInput_afterSwitch w id itb _ false hfi hid hh, rfl, rfl, rfl, rfl, rfl, rfl⟩

/-- C3. Round-trip: on a focused input box (width at least one, cursor inside the
content), the key of a printable character followed by Backspace gives back the
original content and the original cursor position. -/
theorem insert_backspace_roundtrip (env : Env) (w : World) (id : String)
    (itb : InputTextBox) (ke1 ke2 : Keyboard) (hfi : FocusedInput w id itb)
    (hd1 : ke1.bKeyDown = true) (hp : isprint ke1.AsciiChar = true)
    (hvk : ke1.wVirtualKeyCode ≠ VK_BACK ∧ ke1.wVirtualKeyCode ≠ VK_DELETE ∧
      ke1.wVirtualKeyCode ≠ VK_LEFT ∧ ke1.wVirtualKeyCode ≠ VK_RIGHT ∧
      ke1.wVirtualKeyCode ≠ VK_END ∧ ke1.wVirtualKeyCode ≠ VK_HOME ∧
      ke1.wVirtualKeyCode ≠ VK_RETURN)
    (hd2 : ke2.bKeyDown = true) (hb : ke2.wVirtualKeyCode = VK_BACK)
    (hW : 1 ≤ itb.length_) (hc : itb.cursorPos_ ≤ itb.content_.length)
    (hn : itb.content_.length + 2 < SIZE_MOD) (ha : itb.aperature_ < SIZE_MOD) :
    ∃ w1 w2 itb1 itb2, FileView.ProcessKeyEvent env ke1 w = Outcome.ok w1 ∧
      getInputTextBox w1.frame id = some itb1 ∧
      itb1.content_ = itb.content_.take itb.cursorPos_ ++
        ke1.AsciiChar :: itb.content_.drop itb.cursorPos_ ∧
      itb1.cursorPos_ = itb.cursorPos_ + 1 ∧
      FileView.ProcessKeyEvent env ke2 w1 = Outcome.ok w2 ∧
      getInputTextBox w2.frame id = some itb2 ∧
      itb2.content_ = itb.content_ ∧ itb2.cursorPos_ = itb.cursorPos_ := by
  have hM : itb.content_.length + 2 < 18446744073709551616 := hn
  have hM2 : itb.aperature_ < 18446744073709551616 := ha
  have hi : uinc itb.cursorPos_ = itb.cursorPos_ + 1 := uinc_lt (by
    simp only [SIZE_MOD]
    omega)
  have hlen1 : (itb.content_.take itb.cursorPos_ ++
      ke1.AsciiChar :: itb.content_.drop itb.cursorPos_).length = itb.content_.length + 1 := by
    simp only [List.length_append, List.length_take, List.length_cons, List.length_drop]
    omega
  have hd : udec (itb.cursorPos_ + 1) = itb.cursorPos_ := by
    rw [udec_pos (by omega) (by simp only [SIZE_MOD]; omega)]
    rfl
  -- the printable key
  have hk1 := keySwitch_insert env ke1 itb w hp hvk hc
  obtain ⟨w1, itb1, hp1, hfi1, hs1, hc1, hl1, ha1, _, _⟩ :=
    focused_step env ke1 w id itb _ hfi hd1 hk1 hfi.2.2.1 hfi.2.1 hW
      (by simp only [hlen1, hi]; omega) (by simp only [hlen1, SIZE_MOD]; omega) ha
  simp only [hi, hlen1] at hs1 hc1 ha1
  have hl1 : itb1.length_ = itb.length_ := hl1
  have hcf1 := closedFormAperture_le itb.aperature_ (itb.cursorPos_ + 1)
    (itb.content_.length + 1) itb.length_ hW (by omega)
  rw [← ha1] at hcf1
  have hlen2 : itb1.content_.length = itb.content_.length + 1 := by rw [hs1, hlen1]
  -- Backspace
  have hk2 := keySwitch_back env ke2 itb1 w1 hb (by omega) (by omega)
  have hlt : udec itb1.cursorPos_ < itb1.content_.length := by
    rw [hc1, hd]
    omega
  have hW2 : 1 ≤ itb1.length_ := by omega
  have hle2 : udec itb1.cursorPos_ ≤ (itb1.content_.eraseIdx (udec itb1.cursorPos_)).length := by
    rw [List.length_eraseIdx_of_lt hlt, hc1, hd]
    omega
  have hn2 : (itb1.content_.eraseIdx (udec itb1.cursorPos_)).length + 1 < SIZE_MOD := by
    rw [List.length_eraseIdx_of_lt hlt]
    simp only [SIZE_MOD]
    omega
  have ha2 : itb1.aperature_ < SIZE_MOD := by
    simp only [SIZE_MOD]
    omega
  obtain ⟨w2, itb2, hp2, hfi2, hs2, hc2, _, _, _, _⟩ :=
    focused_step env ke2 w1 id itb1 _ hfi1 hd2 hk2 hfi1.2.2.1 hfi1.2.1 hW2 hle2 hn2 ha2
  simp only [hc1, hd] at hs2 hc2
  refine ⟨w1, w2, itb1, itb2, hp1, hfi1.1, hs1, hc1, hp2, hfi2.1, ?_, hc2⟩
  rw [hs2, hs1]
  exact eraseIdx_insert itb.content_ itb.cursorPos_ ke1.AsciiChar hc

/-- C3, at a concrete state: `x` typed into the focused folder input of the example
layout, then Backspace. -/
theorem insert_backspace_roundtrip_witness :
    ∃ w1 w2 itb1 itb2,
      FileView.ProcessKeyEvent exampleEnv (keyDown 88 'x') exampleFocused = Outcome.ok w1 ∧
      getInputTextBox w1.frame "folderInput" = some itb1 ∧
      itb1.content_ = exampleFolderBox.content_.take exampleFolderBox.cursorPos_ ++
        (keyDown 88 'x').AsciiChar :: exampleFolderBox.content_.drop
          exampleFolderBox.cursorPos_ ∧
      itb1.cursorPos_ = exampleFolderBox.cursorPos_ + 1 ∧
      FileView.ProcessKeyEvent exampleEnv (keyDown VK_BACK (Char.ofNat 8)) w1 =
        Outcome.ok w2 ∧
      getInputTextBox w2.frame "folderInput" = some itb2 ∧
      itb2.content_ = exampleFolderBox.content_ ∧
      itb2.cursorPos_ = exampleFolderBox.cursorPos_ :=
  insert_backspace_roundtrip exampleEnv exampleFocused "folderInput" exampleFolderBox
    (keyDown 88 'x') (keyDown VK_BACK (Char.ofNat 8)) exampleFocused_focused rfl
    (by decide) (by decide) rfl rfl (by decide) (by decide) (by decide) (by decide)

/-! ## Invariants of the registry -/

theorem keySwitch_enter (env : Env) (ke : Keyboard) (itb : InputTextBox) (w : World)
    (hkey : ke.wVirtualKeyCode = VK_RETURN) :
    keySwitch env ke itb w =
      (Notify env { w with frame := Control.Update (enterBox itb).toControl w.frame }).bind
        fun w => Outcome.ok (enterBox itb, true, w) := by
  unfold keySwitch
  simp [hkey]

theorem Exclusive_congr {fr fr' : Framework}
    (h1 : getInputTextBox fr' "folderInput" = getInputTextBox fr "folderInput")
    (h2 : getInputTextBox fr' "filterInput" = getInputTextBox fr "filterInput")
    (h : Exclusive fr) : Exclusive fr' := by
  intro f g hf hg
  exact h f g (h1 ▸ hf) (h2 ▸ hg)

theorem Base.input_id {fr : Framework} (hb : Base fr.controls_) {id : String}
    {itb : InputTextBox} (hid : id = "folderInput" ∨ id = "filterInput")
    (hget : getInputTextBox fr id = some itb) :
    itb.controlID_ = id ∧ itb.cursorPos_ ≤ itb.content_.length ∧
      ∃ c, find fr.controls_ id = some c := by
  obtain ⟨itb0, h0, h1, h2⟩ := hb.getInput id hid
  rw [hget] at h0
  injection h0 with h0
  subst h0
  obtain ⟨c, hc, _⟩ := getInputTextBox_some hget
  exact ⟨h1, h2, c, hc⟩

/-- Storing a box under the id of an input box of a well-formed registry. -/
theorem KeyPost_update (w : World) (id : String) (itb itb' : InputTextBox) (fr : Framework)
    (hb : Base w.frame.controls_) (hid : id = "folderInput" ∨ id = "filterInput")
    (hget : getInputTextBox w.frame id = some itb)
    (hfr : fr.controls_ = updateLoop itb'.toControl w.frame.controls_)
    (hid' : itb'.controlID_ = id) (hc : itb'.cursorPos_ ≤ itb'.content_.length)
    (hh : itb'.controlHit_ = true → itb.controlHit_ = true) (m : FileModel)
    (obs : List IObserver) :
    KeyPost w id itb { frame := fr, model_ := m, observers_ := obs } := by
  obtain ⟨_, _, hex⟩ := hb.input_id hid hget
  have e : getInputTextBox fr = getInputTextBox (Control.Update itb'.toControl w.frame) := by
    funext i
    exact getInputTextBox_congr hfr i
  refine ⟨?_, ⟨itb', ?_, hh⟩, ?_⟩
  · show Base fr.controls_
    rw [hfr]
    exact Base.update_input itb' (by rw [hid']; exact hid) hc hb
  · show getInputTextBox fr id = some itb'
    rw [e]
    exact getInputTextBox_update_same itb' w.frame id hid' hex
  · intro id' hne _
    show getInputTextBox fr id' = _
    rw [e]
    exact getInputTextBox_update_ne _ _ _ (by simp [hid', Ne.symm hne])

theorem KeyPost.here {w : World} {id : String} {itb : InputTextBox}
    (hb : Base w.frame.controls_) (hget : getInputTextBox w.frame id = some itb) :
    KeyPost w id itb w :=
  ⟨hb, ⟨itb, hget, fun h => h⟩, fun _ _ _ => rfl⟩

theorem KeyPost.next {w w2 w3 : World} {id : String} {itb itb2 : InputTextBox}
    (h1 : KeyPost w id itb w2) (hget : getInputTextBox w2.frame id = some itb2)
    (h2 : KeyPost w2 id itb2 w3) : KeyPost w id itb w3 := by
  obtain ⟨_, ⟨i2, hi2, hh2⟩, ho2⟩ := h1
  obtain ⟨hb3, ⟨i3, hi3, hh3⟩, ho3⟩ := h2
  rw [hget] at hi2
  injection hi2 with hi2
  subst hi2
  exact ⟨hb3, ⟨i3, hi3, fun h => hh2 (hh3 h)⟩,
    fun id' hne hid' => (ho3 id' hne hid').trans (ho2 id' hne hid')⟩

theorem KeyPost_kept {w w' : World} {id : String} {itb : InputTextBox}
    (hid : id = "folderInput" ∨ id = "filterInput")
    (hget : getInputTextBox w.frame id = some itb) (hk : Kept w w') :
    KeyPost w id itb w' := by
  obtain ⟨hb, h1, h2, _⟩ := hk
  refine ⟨hb, ⟨itb, ?_, fun h => h⟩, ?_⟩
  · rcases hid with e | e
    · subst e; exact h1.trans hget
    · subst e; exact h2.trans hget
  · intro id' _ hid'
    rcases hid' with e | e
    · subst e; exact h1
    · subst e; exact h2

/-- Whatever a key event does for the input box stored under `id`, it leaves the
registry well formed, the box hit only if it was, and the other input box untouched. -/
theorem focusedKey_sat (env : Env) (ke : Keyboard) (itb : InputTextBox) (w : World)
    (id : String) (hb : Base w.frame.controls_)
    (hid : id = "folderInput" ∨ id = "filterInput")
    (hget : getInputTextBox w.frame id = some itb) :
    (focusedKey env ke itb w).sat (KeyPost w id itb) (KeyPost w id itb) := by
  obtain ⟨hidc, hcur, hex⟩ := hb.input_id hid hget
  unfold focusedKey
  by_cases hkey : ke.wVirtualKeyCode = VK_RETURN
  · rw [keySwitch_enter env ke itb w hkey]
    have hp1 : KeyPost w id itb
        { w with frame := Control.Update (enterBox itb).toControl w.frame } :=
      KeyPost_update w id itb (enterBox itb) _ hb hid hget rfl hidc (Nat.zero_le _)
        (fun h => by simp [enterBox] at h) _ _
    have hg1 : getInputTextBox
        ({ w with frame := Control.Update (enterBox itb).toControl w.frame } : World).frame id
        = some (enterBox itb) :=
      getInputTextBox_update_same (enterBox itb) w.frame id hidc hex
    obtain ⟨w2, hk2, hres⟩ := Notify_kept env _ hp1.1
    have hp2 : KeyPost w id itb w2 := hp1.next hg1 (KeyPost_kept hid hg1 hk2)
    have hg2 : getInputTextBox w2.frame id = some (enterBox itb) := by
      rcases hid with e | e
      · subst e; exact hk2.2.1.trans hg1
      · subst e; exact hk2.2.2.1.trans hg1
    rcases hres with h | ⟨e, h⟩
    · rw [h]
      simp only [Outcome.bind]
      refine Outcome.sat_mono _ _ _ _ _ ?_ ?_ (afterSwitch_sat (enterBox itb) true w2)
      · intro w3 ⟨a, h1, _, _⟩
        refine hp2.next hg2 ?_
        exact KeyPost_update w2 id (enterBox itb) _ w3.frame hp2.1 hid hg2 h1 hidc
          (Nat.zero_le _) (fun h => by simp [enterBox] at h) _ _
      · intro w3 h3
        rw [h3]
        exact hp2
    · rw [h]
      exact hp2
  · obtain ⟨c', s', hk, h1, _⟩ := keySwitch_edit env ke itb w hkey hcur
    rw [hk]
    simp only [Outcome.bind]
    refine Outcome.sat_mono _ _ _ _ _ ?_ ?_ (afterSwitch_sat _ false w)
    · intro w3 ⟨a, h3, _, _⟩
      exact KeyPost_update w id itb _ w3.frame hb hid hget h3 hidc h1 (fun h => h) _ _
    · intro w3 h3
      rw [h3]
      exact KeyPost.here hb hget

theorem Inv_of_KeyPost {w w' : World} {id : String} {itb : InputTextBox} (hi : Inv w)
    (hid : id = "folderInput" ∨ id = "filterInput")
    (hget : getInputTextBox w.frame id = some itb) (hp : KeyPost w id itb w') : Inv w' := by
  obtain ⟨hb', ⟨itb', hget', hh⟩, ho⟩ := hp
  refine ⟨hb', ?_⟩
  intro f g hf hg ⟨h1, h2⟩
  rcases hid with e | e
  · subst e
    rw [hget'] at hf
    injection hf with hf
    subst hf
    have hg0 := (ho "filterInput" (by decide) (Or.inr rfl)).symm.trans hg
    exact hi.2 itb g hget hg0 ⟨hh h1, h2⟩
  · subst e
    rw [hget'] at hg
    injection hg with hg
    subst hg
    have hf0 := (ho "folderInput" (by decide) (Or.inl rfl)).symm.trans hf
    exact hi.2 f itb hf0 hget ⟨h1, hh h2⟩

theorem Inv_congr {w w' : World} (h : w'.frame.controls_ = w.frame.controls_) (hi : Inv w) :
    Inv w' :=
  ⟨h ▸ hi.1, Exclusive_congr (getInputTextBox_congr h _) (getInputTextBox_congr h _) hi.2⟩

@[simp] theorem scrollRepaint_controls (q : Nat) (w : World) :
    (scrollRepaint q w).frame.controls_ = w.frame.controls_ := by
  simp [scrollRepaint]

theorem scrollUp_sat (w : World) (Q : World → Prop)
    (h : ∀ p, w.model_.fPos_ = some p → Q (scrollRepaint (if p > 0 then udec p else p) w)) :
    (scrollUp w).sat Q Q := by
  unfold scrollUp
  cases hp : w.model_.fPos_ with
  | none => trivial
  | some p => exact h p hp

theorem scrollDown_sat (w : World) (Q : World → Prop)
    (h : ∀ p, w.model_.fPos_ = some p →
      Q (scrollRepaint (if uadd p 28 < w.model_.files_.length then uinc p else p) w)) :
    (scrollDown w).sat Q Q := by
  unfold scrollDown
  cases hp : w.model_.fPos_ with
  | none => trivial
  | some p => exact h p hp

/-- Key events keep the registry invariant, whether they return or throw. -/
theorem ProcessKeyEvent_inv (env : Env) (ke : Keyboard) (w : World) (hi : Inv w) :
    (FileView.ProcessKeyEvent env ke w).sat Inv Inv := by
  obtain ⟨f, hf, _, _⟩ := hi.1.getInput "folderInput" (Or.inl rfl)
  obtain ⟨g, hg, _, _⟩ := hi.1.getInput "filterInput" (Or.inr rfl)
  unfold FileView.ProcessKeyEvent
  by_cases hdown : ke.bKeyDown = true
  · simp only [hdown, if_true, hf, hg]
    by_cases h1 : f.controlHit_ = true
    · simp only [h1, if_true]
      exact Outcome.sat_mono _ _ _ _ _ (fun w' h => Inv_of_KeyPost hi (Or.inl rfl) hf h)
        (fun w' h => Inv_of_KeyPost hi (Or.inl rfl) hf h)
        (focusedKey_sat env ke f w "folderInput" hi.1 (Or.inl rfl) hf)
    · simp only [h1]
      by_cases h2 : g.controlHit_ = true
      · simp only [h2, if_true]
        exact Outcome.sat_mono _ _ _ _ _ (fun w' h => Inv_of_KeyPost hi (Or.inr rfl) hg h)
          (fun w' h => Inv_of_KeyPost hi (Or.inr rfl) hg h)
          (focusedKey_sat env ke g w "filterInput" hi.1 (Or.inr rfl) hg)
      · simp only [h2]
        simp only [Bool.false_eq_true, if_false]
        split
        · exact scrollUp_sat w Inv (fun p _ => Inv_congr (scrollRepaint_controls _ w) hi)
        · split
          · exact scrollDown_sat w Inv (fun p _ => Inv_congr (scrollRepaint_controls _ w) hi)
          · exact hi
  · simp only [hdown]
    exact hi

/-- A run of `Notify` keeps the registry invariant, whether it returns or throws. -/
theorem Notify_inv (env : Env) (w : World) (hi : Inv w) : (Notify env w).sat Inv Inv := by
  obtain ⟨w', hk, h⟩ := Notify_kept env w hi.1
  have hi' : Inv w' := ⟨hk.1, Exclusive_congr hk.2.1 hk.2.2.1 hi.2⟩
  rcases h with h | ⟨e, h⟩
  · rw [h]; exact hi'
  · rw [h]; exact hi'

/-! ## Mouse events -/

theorem clickInput_spec (me : Mouse) (itb : InputTextBox) (fr : Framework) :
    (clickInput me itb fr).1.controlID_ = itb.controlID_ ∧
    (clickInput me itb fr).1.controlHit_ = itb.controlHit_ ∧
    (clickInput me itb fr).1.content_ = itb.content_ ∧
    (clickInput me itb fr).1.aperature_ = itb.aperature_ ∧
    (clickInput me itb fr).1.length_ = itb.length_ ∧
    (clickInput me itb fr).1.cursorPos_ ≤ (clickInput me itb fr).1.content_.length ∧
    (clickInput me itb fr).2.controls_ = fr.controls_ := by
  refine ⟨rfl, rfl, rfl, rfl, rfl, ?_, rfl⟩
  unfold clickInput
  simp only
  split
  · omega
  · omega

/-- Two input boxes with different ids, not both hit, stored one after the other in a
well-formed registry leave the registry invariant. -/
theorem Inv_update2 (fr fr' : Framework) (hb : Base fr.controls_) (x y : InputTextBox)
    (hid : (x.controlID_ = "folderInput" ∧ y.controlID_ = "filterInput") ∨
      (x.controlID_ = "filterInput" ∧ y.controlID_ = "folderInput"))
    (hx : x.cursorPos_ ≤ x.content_.length) (hy : y.cursorPos_ ≤ y.content_.length)
    (hex : ¬ (x.controlHit_ = true ∧ y.controlHit_ = true))
    (h : fr'.controls_ = updateLoop y.toControl (updateLoop x.toControl fr.controls_)) :
    Base fr'.controls_ ∧ Exclusive fr' := by
  have hidx : x.controlID_ = "folderInput" ∨ x.controlID_ = "filterInput" := by
    rcases hid with h | h
    · exact Or.inl h.1
    · exact Or.inr h.1
  have hidy : y.controlID_ = "folderInput" ∨ y.controlID_ = "filterInput" := by
    rcases hid with h | h
    · exact Or.inr h.2
    · exact Or.inl h.2
  have hb1 : Base (updateLoop x.toControl fr.controls_) := Base.update_input x hidx hx hb
  have hb2 : Base fr'.controls_ := by
    rw [h]
    exact Base.update_input y hidy hy hb1
  have e : ∀ i, getInputTextBox fr' i =
      getInputTextBox (Control.Update y.toControl (Control.Update x.toControl fr)) i :=
    fun i => getInputTextBox_congr h i
  have hexx : ∃ c, find fr.controls_ x.controlID_ = some c := by
    rcases hidx with h | h
    · rw [h]; exact hb.folderInput
    · rw [h]; exact hb.filterInput
  have hexy : ∃ c, find (Control.Update x.toControl fr).controls_ y.controlID_ = some c := by
    rcases hidy with h | h
    · rw [h]; exact hb1.folderInput
    · rw [h]; exact hb1.filterInput
  have hne : x.controlID_ ≠ y.controlID_ := by
    rcases hid with ⟨h1, h2⟩ | ⟨h1, h2⟩ <;> rw [h1, h2] <;> decide
  have gy : getInputTextBox fr' y.controlID_ = some y := by
    rw [e]
    exact getInputTextBox_update_same y _ _ rfl hexy
  have gx : getInputTextBox fr' x.controlID_ = some x := by
    rw [e, getInputTextBox_update_ne _ _ _ (by simpa using Ne.symm hne)]
    exact getInputTextBox_update_same x _ _ rfl hexx
  refine ⟨hb2, ?_⟩
  intro f g hf hg ⟨h1, h2⟩
  rcases hid with ⟨i1, i2⟩ | ⟨i1, i2⟩
  · rw [i1] at gx
    rw [i2] at gy
    rw [gx] at hf
    rw [gy] at hg
    injection hf with hf
    injection hg with hg
    subst hf
    subst hg
    exact hex ⟨h1, h2⟩
  · rw [i1] at gx
    rw [i2] at gy
    rw [gy] at hf
    rw [gx] at hg
    injection hf with hf
    injection hg with hg
    subst hf
    subst hg
    exact hex ⟨h2, h1⟩

theorem Notify_checkbox_kept (env : Env) (w : World) (cb : Checkbox)
    (hb : Base w.frame.controls_) (hid : cb.controlID_ = "recursiveCheck")
    (hh : cb.controlHit_ = false) :
    (Notify env (World.mk (cb.UpdateCheckState (Control.Update cb.toControl w.frame))
      w.model_ w.observers_)).sat (Kept w) (Kept w) := by
  have hb1 : Base (World.mk (cb.UpdateCheckState (Control.Update cb.toControl w.frame))
      w.model_ w.observers_).frame.controls_ := Base.update_checkbox cb hid hh hb
  have hk1 : Kept w (World.mk (cb.UpdateCheckState (Control.Update cb.toControl w.frame))
      w.model_ w.observers_) := by
    refine ⟨hb1, ?_, ?_, rfl⟩
    · exact (getInputTextBox_congr rfl _).trans
        (getInputTextBox_update_ne _ _ _ (by simp [hid]))
    · exact (getInputTextBox_congr rfl _).trans
        (getInputTextBox_update_ne _ _ _ (by simp [hid]))
  obtain ⟨w2, hk2, h⟩ := Notify_kept env _ hb1
  rcases h with h | ⟨e, h⟩
  · rw [h]; exact hk1.then hk2
  · rw [h]; exact hk1.then hk2

theorem checkStep_kept (env : Env) (me : Mouse) (cb : Checkbox) (w : World)
    (hb : Base w.frame.controls_) (hid : cb.controlID_ = "recursiveCheck") :
    (checkStep env me cb w).sat (Kept w) (Kept w) := by
  unfold checkStep
  simp only
  split
  · rename_i hc
    simp only [Bool.and_eq_true] at hc
    exact Notify_checkbox_kept env w _ hb hid (by simp [hc.1])
  · exact Kept.same hb

theorem folderStep_spec (me : Mouse) (f g : InputTextBox) (fr : Framework)
    (hb : Base fr.controls_) (hfid : f.controlID_ = "folderInput")
    (hgid : g.controlID_ = "filterInput") (hfc : f.cursorPos_ ≤ f.content_.length)
    (hgc : g.cursorPos_ ≤ g.content_.length) (hex : Exclusive fr) :
    Base (folderStep me f g fr).2.2.controls_ ∧ Exclusive (folderStep me f g fr).2.2 ∧
    (folderStep me f g fr).1.controlID_ = "folderInput" ∧
    (folderStep me f g fr).2.1.controlID_ = "filterInput" ∧
    (folderStep me f g fr).1.cursorPos_ ≤ (folderStep me f g fr).1.content_.length ∧
    (folderStep me f g fr).2.1.cursorPos_ ≤ (folderStep me f g fr).2.1.content_.length ∧
    (me.dwMousePosition.2 = 8 → (folderStep me f g fr).2.2 = fr) := by
  unfold folderStep
  simp only
  split
  · rename_i hc
    have hy : me.dwMousePosition.2 = 6 := by
      simp only [setHit, Bool.and_eq_true, decide_eq_true_eq] at hc
      exact hc.1.2
    obtain ⟨c1, c2, c3, c4, c5, c6, c7⟩ := clickInput_spec me (setHit f
      (decide (me.dwMousePosition.1 ≥ 10) && decide (me.dwMousePosition.1 ≤ 185) &&
        decide (me.dwMousePosition.2 = 6))) fr
    have h2 := Inv_update2 fr
      (Control.Update (setHit g false).toControl (Control.Update (clickInput me (setHit f
        (decide (me.dwMousePosition.1 ≥ 10) && decide (me.dwMousePosition.1 ≤ 185) &&
          decide (me.dwMousePosition.2 = 6))) fr).1.toControl (clickInput me (setHit f
        (decide (me.dwMousePosition.1 ≥ 10) && decide (me.dwMousePosition.1 ≤ 185) &&
          decide (me.dwMousePosition.2 = 6))) fr).2))
      hb _ (setHit g false) (Or.inl ⟨c1.trans hfid, hgid⟩) c6 hgc (by simp [setHit])
      (by rw [Update_controls, Update_controls, c7])
    refine ⟨h2.1, h2.2, c1.trans hfid, hgid, c6, hgc, ?_⟩
    intro h8
    rw [hy] at h8
    exact absurd h8 (by decide)
  · exact ⟨hb, hex, hfid, hgid, hfc, hgc, fun _ => rfl⟩

theorem filterStep_spec (me : Mouse) (f g : InputTextBox) (fr : Framework)
    (hb : Base fr.controls_) (hfid : f.controlID_ = "folderInput")
    (hgid : g.controlID_ = "filterInput") (hfc : f.cursorPos_ ≤ f.content_.length)
    (hex : Exclusive fr) :
    Base (filterStep me f g fr).controls_ ∧ Exclusive (filterStep me f g fr) ∧
    (me.dwMousePosition.2 ≠ 8 → filterStep me f g fr = fr) := by
  unfold filterStep
  simp only
  split
  · rename_i hc
    have hy : me.dwMousePosition.2 = 8 := by
      simp only [setHit, Bool.and_eq_true, decide_eq_true_eq] at hc
      exact hc.1.2
    obtain ⟨c1, c2, c3, c4, c5, c6, c7⟩ := clickInput_spec me (setHit g
      (decide (me.dwMousePosition.1 ≥ 10) && decide (me.dwMousePosition.1 ≤ 185) &&
        decide (me.dwMousePosition.2 = 8))) fr
    have h2 := Inv_update2 fr
      (Control.Update (setHit f false).toControl (Control.Update (clickInput me (setHit g
        (decide (me.dwMousePosition.1 ≥ 10) && decide (me.dwMousePosition.1 ≤ 185) &&
          decide (me.dwMousePosition.2 = 8))) fr).1.toControl (clickInput me (setHit g
        (decide (me.dwMousePosition.1 ≥ 10) && decide (me.dwMousePosition.1 ≤ 185) &&
          decide (me.dwMousePosition.2 = 8))) fr).2))
      hb _ (setHit f false) (Or.inr ⟨c1.trans hgid, hfid⟩) c6 hfc (by simp [setHit])
      (by rw [Update_controls, Update_controls, c7])
    exact ⟨h2.1, h2.2, fun h => absurd hy h⟩
  · exact ⟨hb, hex, fun _ => rfl⟩

/-- Mouse button events keep the registry invariant, whether they return or throw. -/
theorem buttonCase_inv (env : Env) (me : Mouse) (w : World) (hi : Inv w) :
    (buttonCase env me w).sat Inv Inv := by
  obtain ⟨cb, hcb, hcbid, hcbh⟩ := hi.1.getCheckbox
  obtain ⟨f, hf, hfid, hfc⟩ := hi.1.getInput "folderInput" (Or.inl rfl)
  obtain ⟨g, hg, hgid, hgc⟩ := hi.1.getInput "filterInput" (Or.inr rfl)
  unfold buttonCase
  simp only [hcb, hf, hg]
  apply Outcome.sat_bind
  refine Outcome.sat_mono _ _ _ _ _ ?_ ?_ (checkStep_kept env me cb w hi.1 hcbid)
  · intro wA hk
    have hexA : Exclusive wA.frame := Exclusive_congr hk.2.1 hk.2.2.1 hi.2
    obtain ⟨s1, s2, s3, s4, s5, s6, _⟩ :=
      folderStep_spec me f g wA.frame hk.1 hfid hgid hfc hgc hexA
    obtain ⟨t1, t2, _⟩ := filterStep_spec me _ _ _ s1 s3 s4 s5 s2
    exact ⟨t1, t2⟩
  · intro wA hk
    exact ⟨hk.1, Exclusive_congr hk.2.1 hk.2.2.1 hi.2⟩

/-- Mouse events keep the registry invariant, whether they return or throw. -/
theorem ProcessMouseEvent_inv (env : Env) (me : Mouse) (w : World) (hi : Inv w) :
    (FileView.ProcessMouseEvent env me w).sat Inv Inv := by
  unfold FileView.ProcessMouseEvent
  by_cases h1 : me.dwEventFlags = MOUSE_WHEELED
  · rw [if_pos h1]
    generalize me.MouseWheelUp = up
    generalize me.MouseWheelDown = down
    cases up with
    | true =>
      rw [if_pos rfl]
      exact scrollUp_sat w Inv (fun p _ => Inv_congr (scrollRepaint_controls _ w) hi)
    | false =>
      rw [if_neg (by simp)]
      cases down with
      | true =>
        rw [if_pos rfl]
        exact scrollDown_sat w Inv (fun p _ => Inv_congr (scrollRepaint_controls _ w) hi)
      | false =>
        rw [if_neg (by simp)]
        exact hi
  · rw [if_neg h1]
    by_cases h2 : me.dwEventFlags = 0
    · rw [if_pos h2]
      exact buttonCase_inv env me w hi
    · rw [if_neg h2]
      exact hi

/-! ## The initial layout -/

/-- On an empty frame the constructor of the view returns, and the registry it leaves is
the layout of the seven controls. -/
theorem FileView_new_empty (folder filter : List Char) (rSearch : Bool) :
    ∃ fr, FileView.new ⟨[], []⟩ folder filter rSearch = Outcome.ok fr ∧
      fr.controls_ = layoutControls folder filter rSearch :=
  ⟨_, rfl, rfl⟩

theorem layoutControls_base (folder filter : List Char) (rSearch : Bool) :
    Base (layoutControls folder filter rSearch) := by
  have hn : (layoutControls folder filter rSearch).map Prod.fst =
      ["folderInput", "filterInput", "recursiveCheck", "tbxSearched", "tbxMatched",
        "tbxFileSize", "fv"] := rfl
  refine ⟨by rw [hn]; decide, ?_, ⟨_, rfl⟩, ⟨_, rfl⟩, ⟨_, rfl⟩, ⟨_, rfl⟩, ⟨_, rfl⟩,
    ⟨_, rfl⟩, ⟨_, rfl⟩⟩
  intro k c hm
  simp only [layoutControls, List.mem_cons, Prod.mk.injEq, List.mem_singleton,
    List.not_mem_nil, or_false] at hm
  rcases hm with ⟨h1, h2⟩ | ⟨h1, h2⟩ | ⟨h1, h2⟩ | ⟨h1, h2⟩ | ⟨h1, h2⟩ | ⟨h1, h2⟩ | ⟨h1, h2⟩
  · subst h1; subst h2
    exact kindOK_input _ (Or.inl rfl) (Nat.zero_le _)
  · subst h1; subst h2
    exact kindOK_input _ (Or.inr rfl) (Nat.zero_le _)
  · subst h1; subst h2
    exact kindOK_checkbox _ rfl rfl
  · subst h1; subst h2
    exact kindOK_textBox _ (Or.inl rfl)
  · subst h1; subst h2
    exact kindOK_textBox _ (Or.inr (Or.inl rfl))
  · subst h1; subst h2
    exact kindOK_textBox _ (Or.inr (Or.inr rfl))
  · subst h1; subst h2
    exact kindOK_fileViewer _ rfl

theorem initialWorld_inv (fr : Framework) (folder filter : List Char) (rSearch : Bool)
    (h : FileView.new ⟨[], []⟩ folder filter rSearch = Outcome.ok fr) :
    Inv (initialWorld fr folder filter rSearch) := by
  obtain ⟨fr0, h0, hc⟩ := FileView_new_empty folder filter rSearch
  rw [h] at h0
  injection h0 with h0
  subst h0
  have e : (initialWorld fr folder filter rSearch).frame.controls_ =
      layoutControls folder filter rSearch := by
    rw [← hc]
    rfl
  refine ⟨?_, ?_⟩
  · rw [e]
    exact layoutControls_base folder filter rSearch
  · intro f g hf hg ⟨h1, _⟩
    have hf' : getInputTextBox (initialWorld fr folder filter rSearch).frame "folderInput" =
        some (InputTextBox.new "folderInput" (10, 6) 100 folder ForegroundColour.BLACK
          BackgroundColour.WHITE) := by
      unfold getInputTextBox
      rw [e]
      rfl
    rw [hf'] at hf
    injection hf with hf
    subst hf
    exact absurd h1 (by simp [InputTextBox.new])

/-- Every reachable state satisfies the registry invariant. -/
theorem reachable_inv (env : Env) (w : World) (h : Reachable env w) : Inv w := by
  induction h with
  | init folder filter rSearch fr h => exact initialWorld_inv fr folder filter rSearch h
  | key w w' ke _ h ih =>
    have := ProcessKeyEvent_inv env ke w ih
    rw [h] at this
    exact this
  | keyThrown w w' ke e _ h ih =>
    have := ProcessKeyEvent_inv env ke w ih
    rw [h] at this
    exact this
  | mouse w w' me _ h ih =>
    have := ProcessMouseEvent_inv env me w ih
    rw [h] at this
    exact this
  | mouseThrown w w' me e _ h ih =>
    have := ProcessMouseEvent_inv env me w ih
    rw [h] at this
    exact this
  | notify w w' _ h ih =>
    have := Notify_inv env w ih
    rw [h] at this
    exact this
  | notifyThrown w w' e _ h ih =>
    have := Notify_inv env w ih
    rw [h] at this
    exact this

theorem exampleLayout_eq :
    FileView.new ⟨[], []⟩ "C:/src".toList ".*".toList false = Outcome.ok exampleLayout := by
  decide

theorem exampleStarted_eq :
    Notify exampleEnv (initialWorld exampleLayout "C:/src".toList ".*".toList false) =
      Outcome.ok exampleStarted := by
  rfl

theorem exampleFocused_eq :
    FileView.ProcessMouseEvent exampleEnv clickFolder exampleStarted =
      Outcome.ok exampleFocused := by
  rfl

theorem exampleFocused_reachable : Reachable exampleEnv exampleFocused :=
  Reachable.mouse _ _ clickFolder
    (Reachable.notify _ _ (Reachable.init _ _ _ _ exampleLayout_eq) exampleStarted_eq)
    exampleFocused_eq

/-- C4. Cursor-range invariant: in every state reachable from the initial layout by key
events, mouse events and `Notify` runs, the two input boxes are stored in the registry
with a cursor position and it is at most the length of their content. -/
theorem cursor_range_invariant (env : Env) (w : World) (h : Reachable env w) :
    (∃ c p, find w.frame.controls_ "folderInput" = some c ∧ c.cursorPos_ = some p ∧
      p ≤ c.content_.length) ∧
    (∃ c p, find w.frame.controls_ "filterInput" = some c ∧ c.cursorPos_ = some p ∧
      p ≤ c.content_.length) := by
  have hi := reachable_inv env w h
  obtain ⟨f, hf, _, hfc⟩ := hi.1.getInput "folderInput" (Or.inl rfl)
  obtain ⟨g, hg, _, hgc⟩ := hi.1.getInput "filterInput" (Or.inr rfl)
  obtain ⟨c1, hc1, ho1⟩ := getInputTextBox_some hf
  obtain ⟨c2, hc2, ho2⟩ := getInputTextBox_some hg
  obtain ⟨_, _, p1, _, s1, _⟩ := inputTextBox_ofControl_some ho1
  obtain ⟨_, _, p2, _, s2, _⟩ := inputTextBox_ofControl_some ho2
  exact ⟨⟨c1, f.cursorPos_, hc1, p1, by rw [s1]; exact hfc⟩,
    ⟨c2, g.cursorPos_, hc2, p2, by rw [s2]; exact hgc⟩⟩

/-- C4, at a concrete reachable state: the example layout after the first `Notify` and a
click into the folder input. -/
theorem cursor_range_invariant_witness :
    (∃ c p, find exampleFocused.frame.controls_ "folderInput" = some c ∧
      c.cursorPos_ = some p ∧ p ≤ c.content_.length) ∧
    (∃ c p, find exampleFocused.frame.controls_ "filterInput" = some c ∧
      c.cursorPos_ = some p ∧ p ≤ c.content_.length) :=
  cursor_range_invariant exampleEnv exampleFocused exampleFocused_reachable

/-- In a registry with pairwise different keys where only the two input boxes can be hit,
the number of hit controls is at most the number of hit input boxes. -/
theorem focusedCount_le : ∀ (l : List (String × Control)), (l.map Prod.fst).Nodup →
    (∀ k c, (k, c) ∈ l → c.controlHit_ = some true →
      k = "folderInput" ∨ k = "filterInput") →
    focusedCount l ≤
      (if (find l "folderInput").bind (fun c => c.controlHit_) = some true then 1 else 0) +
      (if (find l "filterInput").bind (fun c => c.controlHit_) = some true then 1 else 0) := by
  intro l
  induction l with
  | nil => intro _ _; simp [focusedCount]
  | cons kc rest ih =>
    obtain ⟨k, c⟩ := kc
    intro hn hk
    simp only [List.map_cons, List.nodup_cons] at hn
    have ih' := ih hn.2 (fun k' c' hm => hk k' c' (List.mem_cons_of_mem _ hm))
    have hnone := find_none_of_not_mem rest k hn.1
    by_cases hh : c.controlHit_ = some true
    · have hcount : focusedCount ((k, c) :: rest) = focusedCount rest + 1 := by
        simp [focusedCount, hh]
      rcases hk k c (List.mem_cons_self _ _) hh with e | e
      · subst e
        rw [hnone] at ih'
        have e2 : ¬ ("folderInput" = "filterInput") := by decide
        simp only [find, if_true, e2, if_false, Option.some_bind, hh] at ih' ⊢
        rw [hcount]
        simp only [Option.none_bind] at ih'
        simp at ih'
        omega
      · subst e
        rw [hnone] at ih'
        have e2 : ¬ ("filterInput" = "folderInput") := by decide
        simp only [find, if_true, e2, if_false, Option.some_bind, hh] at ih' ⊢
        rw [hcount]
        simp only [Option.none_bind] at ih'
        simp at ih'
        omega
    · have hcount : focusedCount ((k, c) :: rest) = focusedCount rest := by
        simp [focusedCount, hh]
      rw [hcount]
      by_cases e1 : k = "folderInput"
      · subst e1
        rw [hnone] at ih'
        have e2 : ¬ ("folderInput" = "filterInput") := by decide
        simp only [find, if_true, e2, if_false, Option.some_bind, hh] at ih' ⊢
        simp only [Option.none_bind] at ih'
        simp at ih'
        omega
      · by_cases e2 : k = "filterInput"
        · subst e2
          rw [hnone] at ih'
          have e3 : ¬ ("filterInput" = "folderInput") := by decide
          simp only [find, if_true, e3, if_false, Option.some_bind, hh] at ih' ⊢
          simp only [Option.none_bind] at ih'
          simp at ih'
          omega
        · simp only [find, e1, e2, if_false]
          exact ih'

/-- C5. Mutual exclusion of focus: in every state reachable from the initial layout by
key events, mouse events and `Notify` runs (also those that end by an exception), at
most one control stored in the registry has `controlHit_ == true`; so after every mouse
click the number of focused controls is 0 or 1. -/
theorem focus_mutual_exclusion (env : Env) (w : World) (h : Reachable env w) :
    focusedCount w.frame.controls_ ≤ 1 := by
  have hi := reachable_inv env w h
  have hle := focusedCount_le w.frame.controls_ hi.1.nodup
    (fun k c hm hh => (hi.1.kinds k c hm).2.1 hh)
  obtain ⟨f, hf, _, _⟩ := hi.1.getInput "folderInput" (Or.inl rfl)
  obtain ⟨g, hg, _, _⟩ := hi.1.getInput "filterInput" (Or.inr rfl)
  obtain ⟨c1, hc1, ho1⟩ := getInputTextBox_some hf
  obtain ⟨c2, hc2, ho2⟩ := getInputTextBox_some hg
  obtain ⟨_, k1, _⟩ := inputTextBox_ofControl_some ho1
  obtain ⟨_, k2, _⟩ := inputTextBox_ofControl_some ho2
  have hex := hi.2 f g hf hg
  simp only [hc1, hc2, Option.some_bind, k1, k2, Option.some.injEq] at hle
  by_cases h1 : f.controlHit_ = true
  · by_cases h2 : g.controlHit_ = true
    · exact absurd ⟨h1, h2⟩ hex
    · simp only [h1, h2, if_true] at hle
      simpa using hle
  · simp only [h1] at hle
    by_cases h2 : g.controlHit_ = true
    · simp only [h2, if_true] at hle
      simpa using hle
    · simp only [h2] at hle
      have : focusedCount w.frame.controls_ ≤ 0 := by simpa using hle
      omega

/-- C5, at a concrete reachable state: the example layout after the first `Notify` and a
click into the folder input. -/
theorem focus_mutual_exclusion_witness : focusedCount exampleFocused.frame.controls_ ≤ 1 :=
  focus_mutual_exclusion exampleEnv exampleFocused exampleFocused_reachable

/-! ## Scrolling -/

/-- A key other than Enter leaves the state to the statements after the `switch` as it
was, and does not throw. -/
theorem keySwitch_nonEnter_sat (env : Env) (ke : Keyboard) (itb : InputTextBox) (w : World)
    (hkey : ke.wVirtualKeyCode ≠ VK_RETURN) :
    (keySwitch env ke itb w).sat (fun r => r.2.2 = w) (fun _ => False) := by
  unfold keySwitch
  split_ifs <;> first | rfl | trivial

/-- A key other than Enter handled for a focused box leaves the model as it was. -/
theorem focusedKey_model (env : Env) (ke : Keyboard) (itb : InputTextBox) (w w' : World)
    (hkey : ke.wVirtualKeyCode ≠ VK_RETURN)
    (h : focusedKey env ke itb w = Outcome.ok w') : w'.model_ = w.model_ := by
  unfold focusedKey at h
  have h1 := keySwitch_nonEnter_sat env ke itb w hkey
  cases hk : keySwitch env ke itb w with
  | ok r =>
    rw [hk] at h h1
    simp only [Outcome.bind] at h
    have h2 := afterSwitch_sat r.1 r.2.1 r.2.2
    rw [h] at h2
    obtain ⟨_, _, hm, _⟩ := h2
    rw [hm]
    exact congrArg World.model_ h1
  | thrown e w2 => rw [hk] at h; simp [Outcome.bind] at h
  | undefined => rw [hk] at h; simp [Outcome.bind] at h
  | diverges => rw [hk] at h; simp [Outcome.bind] at h

theorem scrollRepaint_model (q : Nat) (w : World) :
    (scrollRepaint q w).model_.fPos_ = some q ∧
      (scrollRepaint q w).model_.files_ = w.model_.files_ :=
  ⟨rfl, rfl⟩

theorem Outcome.bind_ok_eq {α : Type} (o : Outcome α) (a : α)
    (h : o.bind (fun x => Outcome.ok x) = Outcome.ok a) : o = Outcome.ok a := by
  cases o with
  | ok b => exact h
  | thrown e w => simp [Outcome.bind] at h
  | undefined => simp [Outcome.bind] at h
  | diverges => simp [Outcome.bind] at h

theorem scrollUp_ok (w w' : World) (h : scrollUp w = Outcome.ok w') :
    ∃ p, w.model_.fPos_ = some p ∧ w' = scrollRepaint (if p > 0 then udec p else p) w := by
  unfold scrollUp at h
  cases hp : w.model_.fPos_ with
  | none => rw [hp] at h; simp at h
  | some p =>
    rw [hp] at h
    injection h with h
    exact ⟨p, rfl, h.symm⟩

theorem scrollDown_ok (w w' : World) (h : scrollDown w = Outcome.ok w') :
    ∃ p, w.model_.fPos_ = some p ∧
      w' = scrollRepaint (if uadd p 28 < w.model_.files_.length then uinc p else p) w := by
  unfold scrollDown at h
  cases hp : w.model_.fPos_ with
  | none => rw [hp] at h; simp at h
  | some p =>
    rw [hp] at h
    injection h with h
    exact ⟨p, rfl, h.symm⟩

/-- What one scroll event does to the model: nothing (a text field has the focus, or the
wheel did not turn), or one step up or down with the file list kept. -/
theorem scroll_event_model (env : Env) (ev : Event) (w w' : World)
    (hs : isScrollEvent ev = true) (h : ProcessEvents env [ev] w = Outcome.ok w') :
    w'.model_ = w.model_ ∨
    ∃ p, w.model_.fPos_ = some p ∧ w'.model_.files_ = w.model_.files_ ∧
      (w'.model_.fPos_ = some (if p > 0 then udec p else p) ∨
       w'.model_.fPos_ =
        some (if uadd p 28 < w.model_.files_.length then uinc p else p)) := by
  cases ev with
  | other => simp [isScrollEvent] at hs
  | KEY ke =>
    simp only [ProcessEvents] at h
    have h := Outcome.bind_ok_eq _ _ h
    simp only [isScrollEvent, Bool.and_eq_true, Bool.or_eq_true, decide_eq_true_eq] at hs
    obtain ⟨hdown, hvk⟩ := hs
    have hne : ke.wVirtualKeyCode ≠ VK_RETURN := by
      intro e
      rw [e] at hvk
      revert hvk
      decide
    unfold FileView.ProcessKeyEvent at h
    simp only [hdown, if_true] at h
    cases hf : getInputTextBox w.frame "folderInput" with
    | none => rw [hf] at h; simp at h
    | some f =>
      cases hg : getInputTextBox w.frame "filterInput" with
      | none => rw [hf, hg] at h; simp at h
      | some g =>
        rw [hf, hg] at h
        simp only at h
        by_cases h1 : f.controlHit_ = true
        · rw [if_pos h1] at h
          exact Or.inl (focusedKey_model env ke f w w' hne h)
        · rw [if_neg h1] at h
          by_cases h2 : g.controlHit_ = true
          · rw [if_pos h2] at h
            exact Or.inl (focusedKey_model env ke g w w' hne h)
          · rw [if_neg h2] at h
            by_cases h3 : ke.wVirtualKeyCode = VK_PRIOR ∨ ke.wVirtualKeyCode = VK_OEM_PLUS ∨
                ke.wVirtualKeyCode = VK_UP
            · rw [if_pos h3] at h
              obtain ⟨p, hp, e⟩ := scrollUp_ok w w' h
              subst e
              exact Or.inr ⟨p, hp, rfl, Or.inl rfl⟩
            · rw [if_neg h3] at h
              by_cases h4 : ke.wVirtualKeyCode = VK_NEXT ∨
                  ke.wVirtualKeyCode = VK_OEM_MINUS ∨ ke.wVirtualKeyCode = VK_DOWN
              · rw [if_pos h4] at h
                obtain ⟨p, hp, e⟩ := scrollDown_ok w w' h
                subst e
                exact Or.inr ⟨p, hp, rfl, Or.inr rfl⟩
              · rw [if_neg h4] at h
                injection h with h
                subst h
                exact Or.inl rfl
  | MOUSE me =>
    simp only [ProcessEvents] at h
    have h := Outcome.bind_ok_eq _ _ h
    simp only [isScrollEvent, decide_eq_true_eq] at hs
    unfold FileView.ProcessMouseEvent at h
    rw [if_pos hs] at h
    revert h
    generalize me.MouseWheelUp = up
    generalize me.MouseWheelDown = down
    intro h
    cases up with
    | true =>
      rw [if_pos rfl] at h
      obtain ⟨p, hp, e⟩ := scrollUp_ok w w' h
      subst e
      exact Or.inr ⟨p, hp, rfl, Or.inl rfl⟩
    | false =>
      rw [if_neg (by simp)] at h
      cases down with
      | true =>
        rw [if_pos rfl] at h
        obtain ⟨p, hp, e⟩ := scrollDown_ok w w' h
        subst e
        exact Or.inr ⟨p, hp, rfl, Or.inr rfl⟩
      | false =>
        rw [if_neg (by simp)] at h
        injection h with h
        subst h
        exact Or.inl rfl

/-- C6. Clamped scrolling: from a state whose offset `fPos_` is 0 (as left by a scan),
after any sequence of scroll-up and scroll-down events (keys or wheel) that
`ProcessEvents` handles, the file list is the same, and the offset is at most
`totalItems - 28` when `totalItems > 28` and is 0 when `totalItems <= 28`; in particular
it never wraps below zero. -/
theorem clamped_scrolling (env : Env) (w0 w : World) (h0 : w0.model_.fPos_ = some 0)
    (hn : w0.model_.files_.length < SIZE_MOD) (h : ScrollReachable env w0 w) :
    ∃ p, w.model_.fPos_ = some p ∧ w.model_.files_ = w0.model_.files_ ∧
      (w0.model_.files_.length > 28 → p ≤ w0.model_.files_.length - 28) ∧
      (w0.model_.files_.length ≤ 28 → p = 0) := by
  induction h with
  | start => exact ⟨0, h0, rfl, fun _ => Nat.zero_le _, fun _ => rfl⟩
  | step w w' ev _ hs hstep ih =>
    obtain ⟨p, hp, hfiles, hb1, hb2⟩ := ih
    have hM : w0.model_.files_.length < 18446744073709551616 := hn
    rcases scroll_event_model env ev w w' hs hstep with e | ⟨q, hq, hf', hcase⟩
    · rw [e]
      exact ⟨p, hp, hfiles, hb1, hb2⟩
    · rw [hp] at hq
      injection hq with hq
      subst hq
      rw [hfiles] at hf' hcase
      rcases hcase with e | e
      · refine ⟨_, e, hf', ?_, ?_⟩
        · intro h28
          have := hb1 h28
          split
          · rw [udec_pos (by omega) (by simp only [SIZE_MOD]; omega)]
            omega
          · exact this
        · intro h28
          have := hb2 h28
          subst this
          simp
      · refine ⟨_, e, hf', ?_, ?_⟩
        · intro h28
          have := hb1 h28
          have ha : uadd p 28 = p + 28 := uadd_lt (by simp only [SIZE_MOD]; omega)
          rw [ha]
          split
          · rw [uinc_lt (by simp only [SIZE_MOD]; omega)]
            omega
          · exact this
        · intro h28
          have := hb2 h28
          subst this
          have ha : uadd 0 28 = 28 := by decide
          rw [ha]
          rw [if_neg (by omega)]

/-- C6, at a concrete run: Scenario D (fifty files) after one down-arrow key. -/
theorem clamped_scrolling_witness :
    ∃ p, scenarioD1.model_.fPos_ = some p ∧
      scenarioD1.model_.files_ = scenarioD.model_.files_ ∧
      (scenarioD.model_.files_.length > 28 → p ≤ scenarioD.model_.files_.length - 28) ∧
      (scenarioD.model_.files_.length ≤ 28 → p = 0) :=
  clamped_scrolling fiftyEnv scenarioD scenarioD1 (by rfl) (by decide)
    (ScrollReachable.step _ _ (Event.KEY (keyDown VK_DOWN (Char.ofNat 0)))
      ScrollReachable.start (by rfl) (by rfl))

/-- One scroll-down event, with no input box focused, moves the offset by the clamped
step and repaints. -/
theorem scrollDown_event (env : Env) (ev : Event) (es : List Event) (w : World)
    (f g : InputTextBox) (p : Nat) (hs : isScrollDown ev = true)
    (hf : getInputTextBox w.frame "folderInput" = some f)
    (hg : getInputTextBox w.frame "filterInput" = some g)
    (hfh : f.controlHit_ = false) (hgh : g.controlHit_ = false)
    (hp : w.model_.fPos_ = some p) :
    ProcessEvents env (ev :: es) w =
      ProcessEvents env es
        (scrollRepaint (if uadd p 28 < w.model_.files_.length then uinc p else p) w) := by
  cases ev with
  | other => simp [isScrollDown] at hs
  | KEY ke =>
    simp only [isScrollDown, Bool.and_eq_true, Bool.or_eq_true, decide_eq_true_eq] at hs
    obtain ⟨hdown, hvk⟩ := hs
    have hnot : ¬ (ke.wVirtualKeyCode = VK_PRIOR ∨ ke.wVirtualKeyCode = VK_OEM_PLUS ∨
        ke.wVirtualKeyCode = VK_UP) := by
      intro h
      rcases hvk with (e | e) | e <;> rw [e] at h <;> revert h <;> decide
    have hyes : ke.wVirtualKeyCode = VK_NEXT ∨ ke.wVirtualKeyCode = VK_OEM_MINUS ∨
        ke.wVirtualKeyCode = VK_DOWN := by
      rcases hvk with (e | e) | e
      · exact Or.inl e
      · exact Or.inr (Or.inl e)
      · exact Or.inr (Or.inr e)
    have hk : FileView.ProcessKeyEvent env ke w = Outcome.ok
        (scrollRepaint (if uadd p 28 < w.model_.files_.length then uinc p else p) w) := by
      unfold FileView.ProcessKeyEvent
      simp only [hdown, if_true, hf, hg, hfh, hgh, Bool.false_eq_true, if_false]
      rw [if_neg hnot, if_pos hyes]
      unfold scrollDown
      rw [hp]
    simp only [ProcessEvents, hk, Outcome.bind]
  | MOUSE me =>
    simp only [isScrollDown, Bool.and_eq_true, decide_eq_true_eq, Bool.not_eq_true'] at hs
    obtain ⟨⟨h1, h2⟩, h3⟩ := hs
    have hk : FileView.ProcessMouseEvent env me w = Outcome.ok
        (scrollRepaint (if uadd p 28 < w.model_.files_.length then uinc p else p) w) := by
      unfold FileView.ProcessMouseEvent
      rw [if_pos h1, h2, h3]
      rw [if_neg (by simp), if_pos rfl]
      unfold scrollDown
      rw [hp]
    simp only [ProcessEvents, hk, Outcome.bind]

/-- Scroll-down events from any offset within the clamp: the offset grows by one per
event until it reaches `n - 28`. -/
theorem scroll_saturation_from (env : Env) : ∀ (evs : List Event) (w : World)
    (f g : InputTextBox) (p : Nat),
    getInputTextBox w.frame "folderInput" = some f →
    getInputTextBox w.frame "filterInput" = some g →
    f.controlHit_ = false → g.controlHit_ = false →
    w.model_.fPos_ = some p → w.model_.files_.length < SIZE_MOD →
    (w.model_.files_.length > 28 → p ≤ w.model_.files_.length - 28) →
    (w.model_.files_.length ≤ 28 → p = 0) →
    (∀ ev ∈ evs, isScrollDown ev = true) →
    ∃ w', ProcessEvents env evs w = Outcome.ok w' ∧
      w'.model_.files_ = w.model_.files_ ∧
      w'.model_.fPos_ = some (if w.model_.files_.length > 28 then
        min (p + evs.length) (w.model_.files_.length - 28) else 0) := by
  intro evs
  induction evs with
  | nil =>
    intro w f g p _ _ _ _ hp _ hb1 hb2 _
    refine ⟨w, rfl, rfl, ?_⟩
    rw [hp]
    split
    · rename_i h
      have := hb1 h
      simp only [List.length_nil, Nat.add_zero, Option.some.injEq]
      omega
    · rename_i h
      rw [hb2 (by omega)]
  | cons ev es ih =>
    intro w f g p hf hg hfh hgh hp hn hb1 hb2 hev
    have hM : w.model_.files_.length < 18446744073709551616 := hn
    rw [scrollDown_event env ev es w f g p (hev ev (List.mem_cons_self _ _)) hf hg hfh hgh hp]
    have hctl := scrollRepaint_controls
      (if uadd p 28 < w.model_.files_.length then uinc p else p) w
    obtain ⟨w', h1, h2, h3⟩ := ih
      (scrollRepaint (if uadd p 28 < w.model_.files_.length then uinc p else p) w) f g
      (if uadd p 28 < w.model_.files_.length then uinc p else p)
      ((getInputTextBox_congr hctl _).trans hf) ((getInputTextBox_congr hctl _).trans hg)
      hfh hgh rfl hn
      (by
        intro h28
        have h28 : w.model_.files_.length > 28 := h28
        have := hb1 h28
        have ha : uadd p 28 = p + 28 := uadd_lt (by simp only [SIZE_MOD]; omega)
        show (if uadd p 28 < w.model_.files_.length then uinc p else p) ≤
          w.model_.files_.length - 28
        rw [ha]
        split
        · rw [uinc_lt (by simp only [SIZE_MOD]; omega)]
          omega
        · exact this)
      (by
        intro h28
        have h28 : w.model_.files_.length ≤ 28 := h28
        have := hb2 h28
        subst this
        have ha : uadd 0 28 = 28 := by decide
        show (if uadd 0 28 < w.model_.files_.length then uinc 0 else 0) = 0
        rw [ha, if_neg (by omega)])
      (fun ev' hm => hev ev' (List.mem_cons_of_mem _ hm))
    refine ⟨w', h1, h2, ?_⟩
    rw [h3]
    have hfl : (scrollRepaint (if uadd p 28 < w.model_.files_.length then uinc p else p)
        w).model_.files_ = w.model_.files_ := rfl
    rw [hfl]
    by_cases h28 : w.model_.files_.length > 28
    · have := hb1 h28
      have ha : uadd p 28 = p + 28 := uadd_lt (by simp only [SIZE_MOD]; omega)
      simp only [h28, if_true, ha, List.length_cons, Option.some.injEq]
      split
      · rw [uinc_lt (by simp only [SIZE_MOD]; omega)]
        omega
      · omega
    · simp only [h28, if_false]

/-- C7. Scroll saturation: from offset 0 with no input box focused, `k` scroll-down
events (keys or wheel) over a list of `n` files leave the offset at `min(k, n - 28)`
when `n > 28` and at 0 otherwise. -/
theorem scroll_saturation (env : Env) (evs : List Event) (w : World) (f g : InputTextBox)
    (hf : getInputTextBox w.frame "folderInput" = some f)
    (hg : getInputTextBox w.frame "filterInput" = some g)
    (hfh : f.controlHit_ = false) (hgh : g.controlHit_ = false)
    (h0 : w.model_.fPos_ = some 0) (hn : w.model_.files_.length < SIZE_MOD)
    (hev : ∀ ev ∈ evs, isScrollDown ev = true) :
    ∃ w', ProcessEvents env evs w = Outcome.ok w' ∧
      w'.model_.files_ = w.model_.files_ ∧
      w'.model_.fPos_ = some (if w.model_.files_.length > 28 then
        min evs.length (w.model_.files_.length - 28) else 0) := by
  obtain ⟨w', h1, h2, h3⟩ := scroll_saturation_from env evs w f g 0 hf hg hfh hgh h0 hn
    (fun _ => Nat.zero_le _) (fun _ => rfl) hev
  refine ⟨w', h1, h2, ?_⟩
  rw [h3]
  simp

/-- C7, at Scenario D: fifty files, thirty down-arrow keys, the offset ends at 22. -/
theorem scroll_saturation_witness :
    ∃ w', ProcessEvents fiftyEnv thirtyDowns scenarioD = Outcome.ok w' ∧
      w'.model_.files_.length = 50 ∧ w'.model_.fPos_ = some 22 := by
  obtain ⟨w', h1, h2, h3⟩ := scroll_saturation fiftyEnv thirtyDowns scenarioD
    (InputTextBox.new "folderInput" (10, 6) 100 "C:/src".toList ForegroundColour.BLACK
      BackgroundColour.WHITE)
    (InputTextBox.new "filterInput" (10, 8) 50 ".*".toList ForegroundColour.BLACK
      BackgroundColour.WHITE)
    (by rfl) (by rfl) rfl rfl (by rfl) (by decide)
    (fun ev hm => by rw [List.eq_of_mem_replicate hm]; rfl)
  have hlen : scenarioD.model_.files_.length = 50 := by decide
  exact ⟨w', h1, (congrArg List.length h2).trans hlen, h3.trans (by decide)⟩

/-! ## The commit key -/

theorem closedFormAperture_zero (n W : Nat) (hW : 1 ≤ W) : closedFormAperture 0 0 n W = 0 := by
  unfold closedFormAperture
  simp only
  split <;> omega

/-- With the controller as only observer, `Notify` is one run of its `Update`. -/
theorem Notify_single (env : Env) (w w' : World) (hobs : w.observers_ = [IObserver.controller])
    (h : FileController.Update env w = Outcome.ok w') : Notify env w = Outcome.ok w' := by
  unfold Notify
  rw [hobs]
  simp only [Notify.loop, IObserver.Update, h, Outcome.bind]

/-- A run of `Update` that returns is a run of `UpdateModel` that returns followed by a
run of `UpdateView` that returns. -/
theorem Update_ok_split (env : Env) (w w2 : World)
    (h : FileController.Update env w = Outcome.ok w2) :
    ∃ wm, FileController.UpdateModel env w = Outcome.ok wm ∧
      FileController.UpdateView env wm = Outcome.ok w2 := by
  unfold FileController.Update at h
  cases hm : FileController.UpdateModel env w with
  | ok wm => rw [hm] at h; exact ⟨wm, rfl, h⟩
  | thrown e w1 => rw [hm] at h; simp [Outcome.bind] at h
  | undefined => rw [hm] at h; simp [Outcome.bind] at h
  | diverges => rw [hm] at h; simp [Outcome.bind] at h

/-- C10. Commit key: on a well-formed registry whose filter text compiles, with the
controller as the only observer of the view, Enter on the focused input box (width at
least one) first stores the box with cursor 0, aperture 0 and no focus, then runs the
controller's `Update` once (`UpdateModel`, then `UpdateView`), then runs the statements
after the `switch`; the event returns, and the box stored in the end has
`cursorPos_ = 0`, `aperature_ = 0`, `controlHit_ = false` and the content it had. -/
theorem commit_key (env : Env) (ke : Keyboard) (w : World) (id : String)
    (itb g : InputTextBox) (hb : Base w.frame.controls_) (hfi : FocusedInput w id itb)
    (hdown : ke.bKeyDown = true) (hkey : ke.wVirtualKeyCode = VK_RETURN)
    (hW : 1 ≤ itb.length_) (hn : itb.content_.length + 1 < SIZE_MOD)
    (hobs : w.observers_ = [IObserver.controller])
    (hg : getInputTextBox w.frame "filterInput" = some g)
    (hre : env.regexCompiles g.content_ = true) :
    ∃ wm w2 w' itb',
      FileController.UpdateModel env
        (World.mk (Control.Update (enterBox itb).toControl w.frame) w.model_ w.observers_)
        = Outcome.ok wm ∧
      FileController.UpdateView env wm = Outcome.ok w2 ∧
      Notify env
        (World.mk (Control.Update (enterBox itb).toControl w.frame) w.model_ w.observers_)
        = Outcome.ok w2 ∧
      afterSwitch (enterBox itb) true w2 = Outcome.ok w' ∧
      FileView.ProcessKeyEvent env ke w = Outcome.ok w' ∧
      getInputTextBox w'.frame id = some itb' ∧
      itb'.cursorPos_ = 0 ∧ itb'.aperature_ = 0 ∧ itb'.controlHit_ = false ∧
      itb'.content_ = itb.content_ := by
  have hid : id = "folderInput" ∨ id = "filterInput" := by
    rcases hfi.2.2.2 with h | h
    · exact Or.inl h.1
    · exact Or.inr h.1
  obtain ⟨hidc, _, hex⟩ := hb.input_id hid hfi.1
  -- the state in which Notify is called
  have hp1 : KeyPost w id itb
      (World.mk (Control.Update (enterBox itb).toControl w.frame) w.model_ w.observers_) :=
    KeyPost_update w id itb (enterBox itb) _ hb hid hfi.1 rfl hidc (Nat.zero_le _)
      (fun h => by simp [enterBox] at h) _ _
  have hb1 := hp1.1
  obtain ⟨cb, hcb, _, _⟩ := Base.getCheckbox hb1
  obtain ⟨f1, hf1, _, _⟩ := Base.getInput hb1 "folderInput" (Or.inl rfl)
  obtain ⟨g1, hg1, _, _⟩ := Base.getInput hb1 "filterInput" (Or.inr rfl)
  have hg1c : g1.content_ = g.content_ := by
    by_cases e : id = "filterInput"
    · subst e
      have e1 : getInputTextBox (World.mk (Control.Update (enterBox itb).toControl w.frame)
          w.model_ w.observers_).frame "filterInput" = some (enterBox itb) :=
        getInputTextBox_update_same (enterBox itb) w.frame _ hidc hex
      rw [e1] at hg1
      injection hg1 with hg1
      rw [hfi.1] at hg
      injection hg with hg
      rw [← hg1, ← hg]
      rfl
    · have e1 := hp1.2.2 "filterInput" (fun h => e h.symm) (Or.inr rfl)
      rw [e1, hg] at hg1
      injection hg1 with hg1
      rw [hg1]
  -- one run of Update
  obtain ⟨fr2, hu, hb2, _, _, _⟩ := Update_ok_spec env _ hb1 cb f1 g1 hcb hf1 hg1
    (by rw [hg1c]; exact hre)
  obtain ⟨wm, hum, huv⟩ := Update_ok_split env _ _ hu
  have hnot := Notify_single env
    (World.mk (Control.Update (enterBox itb).toControl w.frame) w.model_ w.observers_) _
    hobs hu
  -- the statements after the switch
  have hzero : closedFormAperture (enterBox itb).aperature_ (enterBox itb).cursorPos_
      (enterBox itb).content_.length (enterBox itb).length_ = 0 :=
    closedFormAperture_zero _ _ hW
  have ha0 : (enterBox itb).aperature_ < SIZE_MOD := by
    show 0 < SIZE_MOD
    decide
  have has := fun w2 => afterSwitch_eq (enterBox itb) true w2 hW (Nat.zero_le _) hn ha0
  simp only [hzero] at has
  have hex2 : ∃ c, find fr2.controls_ id = some c := by
    rcases hid with e | e
    · rw [e]; exact hb2.folderInput
    · rw [e]; exact hb2.filterInput
  refine ⟨wm, _, _, _, hum, huv, hnot, has _, ?_,
    afterSwitch_frame_get _ true fr2 id hidc hex2, rfl, rfl, rfl, rfl⟩
  rw [ProcessKeyEvent_focused env ke w id itb hfi hdown]
  unfold focusedKey
  rw [keySwitch_enter env ke itb w hkey, hnot]
  simp only [Outcome.bind]
  exact has _

/-- C10, at a concrete state: Enter in the focused folder input of the example layout. -/
theorem commit_key_witness :
    ∃ wm w2 w' itb',
      FileController.UpdateModel exampleEnv
        (World.mk (Control.Update (enterBox exampleFolderBox).toControl exampleFocused.frame)
          exampleFocused.model_ exampleFocused.observers_) = Outcome.ok wm ∧
      FileController.UpdateView exampleEnv wm = Outcome.ok w2 ∧
      Notify exampleEnv
        (World.mk (Control.Update (enterBox exampleFolderBox).toControl exampleFocused.frame)
          exampleFocused.model_ exampleFocused.observers_) = Outcome.ok w2 ∧
      afterSwitch (enterBox exampleFolderBox) true w2 = Outcome.ok w' ∧
      FileView.ProcessKeyEvent exampleEnv (keyDown VK_RETURN (Char.ofNat 13)) exampleFocused =
        Outcome.ok w' ∧
      getInputTextBox w'.frame "folderInput" = some itb' ∧
      itb'.cursorPos_ = 0 ∧ itb'.aperature_ = 0 ∧ itb'.controlHit_ = false ∧
      itb'.content_ = exampleFolderBox.content_ :=
  commit_key exampleEnv (keyDown VK_RETURN (Char.ofNat 13)) exampleFocused "folderInput"
    exampleFolderBox
    (InputTextBox.new "filterInput" (10, 8) 50 ".*".toList ForegroundColour.BLACK
      BackgroundColour.WHITE)
    (reachable_inv exampleEnv exampleFocused exampleFocused_reachable).1
    exampleFocused_focused rfl rfl (by decide) (by decide) (by rfl) (by rfl) (by decide)

/-! ## An invalid filter -/

theorem ClearFileView_console (fr : Framework) :
    (FileViewer.ClearFileView fr).console_ = fr.console_ ++ clearCalls := by
  simp [FileViewer.ClearFileView, ClearFileView.loop, Framework.Write, clearCalls,
    List.range, List.range.loop]

theorem invalidTyped_eq :
    ProcessEvents exampleEnv typeInvalid exampleStarted = Outcome.ok invalidTyped := by
  rfl

theorem invalidTyped_reachable : Reachable exampleEnv invalidTyped := by
  have h0 : Reachable exampleEnv exampleStarted :=
    Reachable.notify _ _ (Reachable.init _ _ _ _ exampleLayout_eq) exampleStarted_eq
  have step : ∀ (es : List Event) (w w' : World), Reachable exampleEnv w →
      ProcessEvents exampleEnv es w = Outcome.ok w' → Reachable exampleEnv w' := by
    intro es
    induction es with
    | nil =>
      intro w w' hr h
      injection h with h
      rw [← h]
      exact hr
    | cons e es ih =>
      intro w w' hr h
      cases e with
      | KEY ke =>
        simp only [ProcessEvents] at h
        cases hk : FileView.ProcessKeyEvent exampleEnv ke w with
        | ok w1 =>
          rw [hk] at h
          exact ih w1 w' (Reachable.key _ _ ke hr hk) h
        | thrown e w1 => rw [hk] at h; simp [Outcome.bind] at h
        | undefined => rw [hk] at h; simp [Outcome.bind] at h
        | diverges => rw [hk] at h; simp [Outcome.bind] at h
      | MOUSE me =>
        simp only [ProcessEvents] at h
        cases hk : FileView.ProcessMouseEvent exampleEnv me w with
        | ok w1 =>
          rw [hk] at h
          exact ih w1 w' (Reachable.mouse _ _ me hr hk) h
        | thrown e w1 => rw [hk] at h; simp [Outcome.bind] at h
        | undefined => rw [hk] at h; simp [Outcome.bind] at h
        | diverges => rw [hk] at h; simp [Outcome.bind] at h
      | other =>
        simp only [ProcessEvents] at h
        exact ih w w' hr h
  exact step typeInvalid exampleStarted invalidTyped h0 invalidTyped_eq

theorem invalidTyped_focused : FocusedInput invalidTyped "filterInput" invalidBox :=
  ⟨by rfl, rfl, rfl, Or.inr ⟨rfl, _, by rfl, rfl⟩⟩

/-- C8 as stated fails: in the example, after `[invalid` was typed into the filter input,
`UpdateModel` throws without scanning, but the controller's model, which held the two
files and the counters of the previous scan, now holds an empty file list and no
counters, and the calls that blank the viewer rows have been issued. -/
theorem atomicity_on_invalid_filter_counterexample :
    exampleEnv.regexCompiles "[invalid".toList = false ∧
    getInputTextBox invalidTyped.frame "filterInput" = some invalidBox ∧
    invalidTyped.model_.files_ = ["a.txt".toList, "b.h".toList] ∧
    invalidTyped.model_.sFiles_ = some 3 ∧ invalidTyped.model_.mFiles_ = some 2 ∧
    invalidTyped.model_.regex_ = ".*".toList ∧
    ∃ w', FileController.UpdateModel exampleEnv invalidTyped =
        Outcome.thrown (Exception.XError "Invalid regex." 833) w' ∧
      w'.model_.files_ = [] ∧ w'.model_.sFiles_ = none ∧ w'.model_.mFiles_ = none ∧
      w'.model_.regex_ = "[invalid".toList ∧
      w'.model_ ≠ invalidTyped.model_ ∧
      w'.frame.console_ = invalidTyped.frame.console_ ++ clearCalls := by
  refine ⟨by decide, by rfl, by rfl, by rfl, by rfl, by rfl, _, by rfl, by rfl, by rfl,
    by rfl, by rfl, ?_, ?_⟩
  · decide
  · exact ClearFileView_console invalidTyped.frame

/-- C8, amended. When the four lookups of `UpdateModel` succeed and the filter text does
not compile, `UpdateModel` does not scan and leaves by the exception
`XError("Invalid regex.", 833)`.  By then the controller's model has been replaced by
`FileModel(folder text, filter text, check box state)`, whose file list is empty and
whose counters are unset, the viewer rows have been blanked by `ClearFileView`, and for
a recursive search the notice "Scan in progress..." has been stored and written; the
registry entries of the other controls and the observers are as before. -/
theorem invalid_filter_aborts_scan (env : Env) (w : World) (cb : Checkbox)
    (f g : InputTextBox) (fv : FileViewer)
    (hcb : getCheckbox w.frame "recursiveCheck" = some cb)
    (hf : getInputTextBox w.frame "folderInput" = some f)
    (hg : getInputTextBox w.frame "filterInput" = some g)
    (hfv : getFileViewer w.frame "fv" = some fv)
    (hre : env.regexCompiles g.content_ = false) :
    ∃ w', FileController.UpdateModel env w =
        Outcome.thrown (Exception.XError "Invalid regex." 833) w' ∧
      w'.model_ = FileModel.new f.content_ g.content_ cb.state_ ∧
      w'.model_.files_ = [] ∧ w'.model_.sFiles_ = none ∧ w'.model_.mFiles_ = none ∧
      w'.model_.fSize_ = none ∧ w'.model_.fPos_ = none ∧
      w'.model_.folder_ = f.content_ ∧ w'.model_.regex_ = g.content_ ∧
      w'.model_.recursion_ = cb.state_ ∧
      w'.observers_ = w.observers_ ∧
      w'.frame.controls_ =
        (if cb.state_ then updateLoop (scanNotice fv).toControl w.frame.controls_
         else w.frame.controls_) ∧
      w'.frame.console_ = w.frame.console_ ++ clearCalls ++
        (if cb.state_ then
          [ConsoleCall.Write 1 13 "Scan in progress...".toList fv.foreground_ fv.background_]
         else []) := by
  refine ⟨World.mk (UpdateModel.frame cb.state_ fv w.frame)
    (FileModel.new f.content_ g.content_ cb.state_) w.observers_,
    ?_, rfl, rfl, rfl, rfl, rfl, rfl, rfl, rfl, rfl, rfl, ?_, ?_⟩
  · rw [UpdateModel_eq env w cb f g fv hcb hf hg hfv, hre]
    rfl
  · cases cb.state_ <;> simp [UpdateModel.frame]
  · cases cb.state_
    · simp [UpdateModel.frame, ClearFileView_console]
    · simp only [UpdateModel.frame, if_true]
      show (FileViewer.ClearFileView w.frame).console_ ++ _ = _
      rw [ClearFileView_console]

/-- C8 amended, at the example state in which `[invalid` was typed into the filter. -/
theorem invalid_filter_aborts_scan_witness :
    ∃ w', FileController.UpdateModel exampleEnv invalidTyped =
        Outcome.thrown (Exception.XError "Invalid regex." 833) w' ∧
      w'.model_ = FileModel.new "C:/src".toList "[invalid".toList false ∧
      w'.model_.files_ = [] ∧ w'.model_.sFiles_ = none ∧ w'.model_.mFiles_ = none ∧
      w'.model_.fSize_ = none ∧ w'.model_.fPos_ = none ∧
      w'.model_.folder_ = "C:/src".toList ∧ w'.model_.regex_ = "[invalid".toList ∧
      w'.model_.recursion_ = false ∧
      w'.observers_ = invalidTyped.observers_ ∧
      w'.frame.controls_ = invalidTyped.frame.controls_ ∧
      w'.frame.console_ = invalidTyped.frame.console_ ++ clearCalls ++ [] :=
  invalid_filter_aborts_scan exampleEnv invalidTyped
    (Checkbox.new "recursiveCheck" (20, 10) 2 ForegroundColour.BLACK BackgroundColour.WHITE
      false [' '])
    (InputTextBox.new "folderInput" (10, 6) 100 "C:/src".toList ForegroundColour.BLACK
      BackgroundColour.WHITE)
    invalidBox
    { (FileViewer.new "fv" 12 31 ForegroundColour.WHITE BackgroundColour.BLACK) with
      xPos_ := 1 }
    (by rfl) (by rfl) (by rfl) (by rfl) (by decide)

theorem Outcome.bind_assoc {α β γ : Type} (o : Outcome α) (f : α → Outcome β)
    (k : β → Outcome γ) : (o.bind f).bind k = o.bind (fun a => (f a).bind k) := by
  cases o <;> rfl

theorem ProcessEvents_append (env : Env) : ∀ (pre es : List Event) (w : World),
    ProcessEvents env (pre ++ es) w =
      (ProcessEvents env pre w).bind (fun w => ProcessEvents env es w) := by
  intro pre
  induction pre with
  | nil => intro es w; rfl
  | cons e pre ih =>
    intro es w
    cases e with
    | KEY ke =>
      simp only [List.cons_append, ProcessEvents, Outcome.bind_assoc]
      congr 1
      funext w1
      exact ih es w1
    | MOUSE me =>
      simp only [List.cons_append, ProcessEvents, Outcome.bind_assoc]
      congr 1
      funext w1
      exact ih es w1
    | other =>
      simp only [List.cons_append, ProcessEvents]
      exact ih es w

/-- With the controller as only observer, a run of `Update` that throws makes `Notify`
throw. -/
theorem Notify_single_thrown (env : Env) (w w' : World) (e : Exception)
    (hobs : w.observers_ = [IObserver.controller])
    (h : FileController.Update env w = Outcome.thrown e w') :
    Notify env w = Outcome.thrown e w' := by
  unfold Notify
  rw [hobs]
  simp only [Notify.loop, IObserver.Update, h, Outcome.bind]

/-- C9, amended. When the filter text does not compile, the error raised in `UpdateModel`
is not handled inside the Sync protocol: for Enter on the focused input box of a
well-formed registry (the controller being the only observer), `Notify` and
`ProcessKeyEvent` leave by the exception `XError("Invalid regex.", 833)`, `ProcessEvents`
leaves by it without handling any further input record, and it is the `catch` clause of
`MyApp::execute` that ends it, by a message box with the text "Invalid regex."; the
event loop of that application is not resumed. -/
theorem invalid_filter_reaches_execute (env : Env) (ke : Keyboard) (w : World) (id : String)
    (itb g : InputTextBox) (hb : Base w.frame.controls_) (hfi : FocusedInput w id itb)
    (hdown : ke.bKeyDown = true) (hkey : ke.wVirtualKeyCode = VK_RETURN)
    (hobs : w.observers_ = [IObserver.controller])
    (hg : getInputTextBox w.frame "filterInput" = some g)
    (hre : env.regexCompiles g.content_ = false) :
    ∃ w',
      Notify env
        (World.mk (Control.Update (enterBox itb).toControl w.frame) w.model_ w.observers_)
        = Outcome.thrown (Exception.XError "Invalid regex." 833) w' ∧
      FileView.ProcessKeyEvent env ke w =
        Outcome.thrown (Exception.XError "Invalid regex." 833) w' ∧
      (∀ rest, ProcessEvents env (Event.KEY ke :: rest) w =
        Outcome.thrown (Exception.XError "Invalid regex." 833) w') ∧
      (∀ startPath regexFilter recursive fr0 pre rest,
        (startApplication env startPath regexFilter recursive fr0).bind
            (fun w0 => ProcessEvents env pre w0) = Outcome.ok w →
        applicationBody env startPath regexFilter recursive (pre ++ Event.KEY ke :: rest) fr0
            = Outcome.thrown (Exception.XError "Invalid regex." 833) w' ∧
        tryApplication env startPath regexFilter recursive (pre ++ Event.KEY ke :: rest) fr0
            = Outcome.ok (w'.frame, some "Invalid regex.")) := by
  have hid : id = "folderInput" ∨ id = "filterInput" := by
    rcases hfi.2.2.2 with h | h
    · exact Or.inl h.1
    · exact Or.inr h.1
  obtain ⟨hidc, _, hex⟩ := hb.input_id hid hfi.1
  have hp1 : KeyPost w id itb
      (World.mk (Control.Update (enterBox itb).toControl w.frame) w.model_ w.observers_) :=
    KeyPost_update w id itb (enterBox itb) _ hb hid hfi.1 rfl hidc (Nat.zero_le _)
      (fun h => by simp [enterBox] at h) _ _
  have hb1 := hp1.1
  obtain ⟨cb, hcb, _, _⟩ := Base.getCheckbox hb1
  obtain ⟨f1, hf1, _, _⟩ := Base.getInput hb1 "folderInput" (Or.inl rfl)
  obtain ⟨g1, hg1, _, _⟩ := Base.getInput hb1 "filterInput" (Or.inr rfl)
  have hg1c : g1.content_ = g.content_ := by
    by_cases e : id = "filterInput"
    · subst e
      have e1 : getInputTextBox (World.mk (Control.Update (enterBox itb).toControl w.frame)
          w.model_ w.observers_).frame "filterInput" = some (enterBox itb) :=
        getInputTextBox_update_same (enterBox itb) w.frame _ hidc hex
      rw [e1] at hg1
      injection hg1 with hg1
      rw [hfi.1] at hg
      injection hg with hg
      rw [← hg1, ← hg]
      rfl
    · have e1 := hp1.2.2 "filterInput" (fun h => e h.symm) (Or.inr rfl)
      rw [e1, hg] at hg1
      injection hg1 with hg1
      rw [hg1]
  obtain ⟨fr1, hu, _⟩ := Update_thrown_spec env _ hb1 cb f1 g1 hcb hf1 hg1
    (by rw [hg1c]; exact hre)
  have hnot := Notify_single_thrown env
    (World.mk (Control.Update (enterBox itb).toControl w.frame) w.model_ w.observers_) _ _
    hobs hu
  have hpk : FileView.ProcessKeyEvent env ke w = Outcome.thrown
      (Exception.XError "Invalid regex." 833)
      (World.mk fr1 (FileModel.new f1.content_ g1.content_ cb.state_) w.observers_) := by
    rw [ProcessKeyEvent_focused env ke w id itb hfi hdown]
    unfold focusedKey
    rw [keySwitch_enter env ke itb w hkey, hnot]
    rfl
  have hpe : ∀ rest, ProcessEvents env (Event.KEY ke :: rest) w = Outcome.thrown
      (Exception.XError "Invalid regex." 833)
      (World.mk fr1 (FileModel.new f1.content_ g1.content_ cb.state_) w.observers_) := by
    intro rest
    simp only [ProcessEvents, hpk, Outcome.bind]
  refine ⟨_, hnot, hpk, hpe, ?_⟩
  intro startPath regexFilter recursive fr0 pre rest hstart
  have hbody : applicationBody env startPath regexFilter recursive
      (pre ++ Event.KEY ke :: rest) fr0 = Outcome.thrown
      (Exception.XError "Invalid regex." 833)
      (World.mk fr1 (FileModel.new f1.content_ g1.content_ cb.state_) w.observers_) := by
    unfold applicationBody
    have e : (fun w0 => ProcessEvents env (pre ++ Event.KEY ke :: rest) w0) =
        fun w0 => (ProcessEvents env pre w0).bind
          (fun w1 => ProcessEvents env (Event.KEY ke :: rest) w1) := by
      funext w0
      exact ProcessEvents_append env pre _ w0
    rw [e, ← Outcome.bind_assoc, hstart]
    exact hpe rest
  refine ⟨hbody, ?_⟩
  unfold tryApplication
  rw [hbody]

/-- C9, amended, at the example state in which `[invalid` was typed into the filter: Enter
makes `Notify`, `ProcessKeyEvent` and `ProcessEvents` throw, and the application started
on an empty frame that reads the typed records, Enter and one more key ends in the
`catch` clause with the message box "Invalid regex.". -/
theorem invalid_filter_reaches_execute_witness :
    ∃ w',
      Notify exampleEnv
        (World.mk (Control.Update (enterBox invalidBox).toControl invalidTyped.frame)
          invalidTyped.model_ invalidTyped.observers_)
        = Outcome.thrown (Exception.XError "Invalid regex." 833) w' ∧
      FileView.ProcessKeyEvent exampleEnv (keyDown VK_RETURN (Char.ofNat 13)) invalidTyped =
        Outcome.thrown (Exception.XError "Invalid regex." 833) w' ∧
      ProcessEvents exampleEnv
          [Event.KEY (keyDown VK_RETURN (Char.ofNat 13)), Event.KEY (keyDown 88 'x')]
          invalidTyped =
        Outcome.thrown (Exception.XError "Invalid regex." 833) w' ∧
      tryApplication exampleEnv "C:/src".toList ".*".toList false
          (typeInvalid ++
            [Event.KEY (keyDown VK_RETURN (Char.ofNat 13)), Event.KEY (keyDown 88 'x')])
          ⟨[], []⟩
        = Outcome.ok (w'.frame, some "Invalid regex.") := by
  obtain ⟨w', h1, h2, h3, h4⟩ :=
    invalid_filter_reaches_execute exampleEnv (keyDown VK_RETURN (Char.ofNat 13))
      invalidTyped "filterInput" invalidBox invalidBox
      (reachable_inv exampleEnv invalidTyped invalidTyped_reachable).1
      invalidTyped_focused rfl rfl (by rfl) (by rfl) (by decide)
  exact ⟨w', h1, h2, h3 _,
    (h4 "C:/src".toList ".*".toList false ⟨[], []⟩ typeInvalid
      [Event.KEY (keyDown 88 'x')] (by rfl)).2⟩

/-- C9 as stated fails: in the example, after `[invalid` was typed into the filter input,
Enter makes `Notify` and `ProcessKeyEvent` leave by the exception instead of returning,
`ProcessEvents` does not handle the key record that follows, and the application ends
in the `catch` clause of `MyApp::execute` with a message box. -/
theorem local_recovery_counterexample :
    exampleEnv.regexCompiles "[invalid".toList = false ∧
    getInputTextBox invalidTyped.frame "filterInput" = some invalidBox ∧
    (∃ w', Notify exampleEnv
        (World.mk (Control.Update (enterBox invalidBox).toControl invalidTyped.frame)
          invalidTyped.model_ invalidTyped.observers_)
        = Outcome.thrown (Exception.XError "Invalid regex." 833) w') ∧
    (∃ w', FileView.ProcessKeyEvent exampleEnv (keyDown VK_RETURN (Char.ofNat 13))
        invalidTyped = Outcome.thrown (Exception.XError "Invalid regex." 833) w') ∧
    (∀ w', FileView.ProcessKeyEvent exampleEnv (keyDown VK_RETURN (Char.ofNat 13))
        invalidTyped ≠ Outcome.ok w') ∧
    (∃ w', ProcessEvents exampleEnv
        [Event.KEY (keyDown VK_RETURN (Char.ofNat 13)), Event.KEY (keyDown 88 'x')]
        invalidTyped = Outcome.thrown (Exception.XError "Invalid regex." 833) w') ∧
    (∃ fr, tryApplication exampleEnv "C:/src".toList ".*".toList false
        (typeInvalid ++
          [Event.KEY (keyDown VK_RETURN (Char.ofNat 13)), Event.KEY (keyDown 88 'x')])
        ⟨[], []⟩ = Outcome.ok (fr, some "Invalid regex.")) := by
  have hk : ∃ w', FileView.ProcessKeyEvent exampleEnv (keyDown VK_RETURN (Char.ofNat 13))
      invalidTyped = Outcome.thrown (Exception.XError "Invalid regex." 833) w' :=
    ⟨_, by rfl⟩
  refine ⟨by decide, by rfl, ⟨_, by rfl⟩, hk, ?_, ⟨_, by rfl⟩, ⟨_, by rfl⟩⟩
  intro w' h
  obtain ⟨w1, h1⟩ := hk
  rw [h1] at h
  cases h

/-! ## Redraw of a focused input box -/

theorem afterSwitch_frame_console (itb : InputTextBox) (enterHit_ : Bool) (fr : Framework) :
    (afterSwitch.frame itb enterHit_ fr).console_ =
      fr.console_ ++ redrawCalls itb enterHit_ := by
  simp [afterSwitch.frame, redrawCalls, redrawString, Control.Update, Framework.Write,
    Framework.ResetCursorPosition]

theorem afterSwitch_frame_controls (itb : InputTextBox) (enterHit_ : Bool) (fr : Framework) :
    (afterSwitch.frame itb enterHit_ fr).controls_ =
      updateLoop itb.toControl fr.controls_ := by
  simp [afterSwitch.frame, Control.Update, Framework.Write, Framework.ResetCursorPosition]

/-- A key-down event other than Enter handled for the focused box: the event returns, the
box it stores keeps origin, width and colours, satisfies the viewport invariant, the
three console calls of the redraw are appended, the model and the observers are as
before, and no other registry entry changes. -/
theorem focused_key_trace (env : Env) (ke : Keyboard) (w : World) (id : String)
    (itb : InputTextBox) (hfi : FocusedInput w id itb) (hdown : ke.bKeyDown = true)
    (hkey : ke.wVirtualKeyCode ≠ VK_RETURN) (hW : 1 ≤ itb.length_)
    (hc : itb.cursorPos_ ≤ itb.content_.length)
    (hn : itb.content_.length + 2 < SIZE_MOD) (ha : itb.aperature_ < SIZE_MOD) :
    ∃ w' itb', FileView.ProcessKeyEvent env ke w = Outcome.ok w' ∧
      getInputTextBox w'.frame id = some itb' ∧
      (itb'.xPos_ = itb.xPos_ ∧ itb'.yPos_ = itb.yPos_ ∧ itb'.length_ = itb.length_ ∧
        itb'.controlHit_ = true ∧ itb'.controlID_ = itb.controlID_) ∧
      (itb'.cursorPos_ ≤ itb'.content_.length ∧ itb'.aperature_ ≤ itb'.cursorPos_ ∧
        itb'.cursorPos_ - itb'.aperature_ < itb'.length_ ∧
        itb'.content_.length ≤ itb.content_.length + 1) ∧
      w'.frame.console_ = w.frame.console_ ++ redrawCalls itb' false ∧
      w'.frame.controls_ = updateLoop itb'.toControl w.frame.controls_ ∧
      w'.model_ = w.model_ ∧ w'.observers_ = w.observers_ := by
  obtain ⟨c', s', hk, h1, h2⟩ := keySwitch_edit env ke itb w hkey hc
  have hn1 : s'.length + 1 < SIZE_MOD := by
    simp only [SIZE_MOD] at *
    omega
  have hfk := focusedKey_of_keySwitch env ke itb _ false w w hk hW h1 hn1 ha
  obtain ⟨c0, hc0, _⟩ := getInputTextBox_some hfi.1
  have hcf := closedFormAperture_le itb.aperature_ c' s'.length itb.length_ hW h1
  exact ⟨_, _, (ProcessKeyEvent_focused env ke w id itb hfi hdown).trans hfk,
    afterSwitch_frame_get _ false w.frame id hfi.2.2.1 ⟨c0, hc0⟩,
    ⟨rfl, rfl, rfl, hfi.2.1, rfl⟩, ⟨h1, hcf.1, hcf.2.1, h2⟩,
    afterSwitch_frame_console _ false w.frame, afterSwitch_frame_controls _ false w.frame,
    rfl, rfl⟩

theorem redrawString_length (itb : InputTextBox) :
    (redrawString itb).length =
      min itb.length_ (itb.content_.length - itb.aperature_) + itb.length_ / 2 := by
  simp [redrawString, blanks]

/-- C11, amended. For a key-down event other than Enter handled for the focused input box
(width at least one, cursor inside the content), the string written first at the origin
of the box is `content[aperture : aperture + W]` followed by exactly `W / 2` blanks,
whatever the length of that window: it has `min(W, len - aperture) + W / 2` characters,
which is `W` only when the window holds `W - W / 2` characters. -/
theorem redraw_string (env : Env) (ke : Keyboard) (w : World) (id : String)
    (itb : InputTextBox) (hfi : FocusedInput w id itb) (hdown : ke.bKeyDown = true)
    (hkey : ke.wVirtualKeyCode ≠ VK_RETURN) (hW : 1 ≤ itb.length_)
    (hc : itb.cursorPos_ ≤ itb.content_.length)
    (hn : itb.content_.length + 2 < SIZE_MOD) (ha : itb.aperature_ < SIZE_MOD) :
    ∃ w' itb' rest, FileView.ProcessKeyEvent env ke w = Outcome.ok w' ∧
      getInputTextBox w'.frame id = some itb' ∧ itb'.length_ = itb.length_ ∧
      itb'.aperature_ ≤ itb'.cursorPos_ ∧ itb'.cursorPos_ ≤ itb'.content_.length ∧
      w'.frame.console_ = w.frame.console_ ++
        ConsoleCall.Write itb'.xPos_ itb'.yPos_ (redrawString itb') itb'.foreground_
          itb'.background_ :: rest ∧
      redrawString itb' =
        (itb'.content_.drop itb'.aperature_).take itb'.length_ ++
          List.replicate (itb'.length_ / 2) ' ' ∧
      (redrawString itb').length =
        min itb'.length_ (itb'.content_.length - itb'.aperature_) + itb'.length_ / 2 ∧
      ((redrawString itb').length = itb'.length_ ↔
        min itb'.length_ (itb'.content_.length - itb'.aperature_) =
          itb'.length_ - itb'.length_ / 2) := by
  obtain ⟨w', itb', h1, h2, h3, h4, h5, _⟩ :=
    focused_key_trace env ke w id itb hfi hdown hkey hW hc hn ha
  refine ⟨w', itb', _, h1, h2, h3.2.2.1, h4.2.1, h4.1, h5, rfl, redrawString_length itb', ?_⟩
  rw [redrawString_length]
  omega

/-- C11 amended, at a concrete state: the key `x` typed into the focused folder input of
the example layout, whose width is 100: the string has 7 + 50 characters. -/
theorem redraw_string_witness :
    ∃ w' itb' rest,
      FileView.ProcessKeyEvent exampleEnv (keyDown 88 'x') exampleFocused = Outcome.ok w' ∧
      getInputTextBox w'.frame "folderInput" = some itb' ∧
      itb'.length_ = exampleFolderBox.length_ ∧
      itb'.aperature_ ≤ itb'.cursorPos_ ∧ itb'.cursorPos_ ≤ itb'.content_.length ∧
      w'.frame.console_ = exampleFocused.frame.console_ ++
        ConsoleCall.Write itb'.xPos_ itb'.yPos_ (redrawString itb') itb'.foreground_
          itb'.background_ :: rest ∧
      redrawString itb' =
        (itb'.content_.drop itb'.aperature_).take itb'.length_ ++
          List.replicate (itb'.length_ / 2) ' ' ∧
      (redrawString itb').length =
        min itb'.length_ (itb'.content_.length - itb'.aperature_) + itb'.length_ / 2 ∧
      ((redrawString itb').length = itb'.length_ ↔
        min itb'.length_ (itb'.content_.length - itb'.aperature_) =
          itb'.length_ - itb'.length_ / 2) :=
  redraw_string exampleEnv (keyDown 88 'x') exampleFocused "folderInput"
    exampleFolderBox exampleFocused_focused rfl (by decide) (by decide) (by decide)
    (by decide) (by decide)

/-- C11 as stated fails: when `x` is typed into the focused folder input of the example
layout (width 100, content `C:/src`, cursor 2, aperture 0), the box stored has width 100,
aperture 0 and cursor 3, and the string written for the redraw is `C:x/src` followed by
50 blanks: 57 characters, not 100. -/
theorem redraw_string_counterexample :
    ∃ w' itb' rest,
      FileView.ProcessKeyEvent exampleEnv (keyDown 88 'x') exampleFocused = Outcome.ok w' ∧
      getInputTextBox w'.frame "folderInput" = some itb' ∧
      itb'.length_ = 100 ∧ itb'.aperature_ = 0 ∧ itb'.cursorPos_ = 3 ∧
      itb'.content_ = "C:x/src".toList ∧
      w'.frame.console_ = exampleFocused.frame.console_ ++
        ConsoleCall.Write 10 6 (redrawString itb') ForegroundColour.BLACK
          BackgroundColour.WHITE :: rest ∧
      redrawString itb' = "C:x/src".toList ++ List.replicate 50 ' ' ∧
      (redrawString itb').length = 57 ∧ (redrawString itb').length ≠ itb'.length_ ∧
      redrawString itb' ≠
        (itb'.content_.drop itb'.aperature_).take itb'.length_ ++
          List.replicate (itb'.length_ -
            ((itb'.content_.drop itb'.aperature_).take itb'.length_).length) ' ' := by
  refine ⟨_, { exampleFolderBox with content_ := "C:x/src".toList, cursorPos_ := 3 }, _,
    by rfl, by rfl, rfl, rfl, rfl, rfl, by rfl, by rfl, by rfl, by decide, by decide⟩

theorem longFocused_eq :
    FileView.ProcessMouseEvent exampleEnv clickFilter longStarted = Outcome.ok longFocused := by
  rfl

theorem longFocused_focused : FocusedInput longFocused "filterInput" longBox :=
  ⟨by rfl, rfl, rfl, Or.inr ⟨rfl, _, by rfl, rfl⟩⟩

/-- C12. The statements after the key `switch` write the window string at the origin of
the box and then, through `UpdateInputContent`, the whole of `content_` at the same
origin: for every key-down event other than Enter handled for the focused input box,
the console calls appended are `Write(x, y, s)`, `Write(x, y, content_)` and the cursor
placement, in this order, so the text written last at the origin is the full content. -/
theorem redraw_writes_full_content (env : Env) (ke : Keyboard) (w : World) (id : String)
    (itb : InputTextBox) (hfi : FocusedInput w id itb) (hdown : ke.bKeyDown = true)
    (hkey : ke.wVirtualKeyCode ≠ VK_RETURN) (hW : 1 ≤ itb.length_)
    (hc : itb.cursorPos_ ≤ itb.content_.length)
    (hn : itb.content_.length + 2 < SIZE_MOD) (ha : itb.aperature_ < SIZE_MOD) :
    ∃ w' itb', FileView.ProcessKeyEvent env ke w = Outcome.ok w' ∧
      getInputTextBox w'.frame id = some itb' ∧
      itb'.xPos_ = itb.xPos_ ∧ itb'.yPos_ = itb.yPos_ ∧ itb'.length_ = itb.length_ ∧
      w'.frame.console_ = w.frame.console_ ++
        [ConsoleCall.Write itb'.xPos_ itb'.yPos_ (redrawString itb') itb'.foreground_
          itb'.background_,
         ConsoleCall.Write itb'.xPos_ itb'.yPos_ itb'.content_ itb'.foreground_
          itb'.background_,
         ConsoleCall.SetCursor
          (toSHORT (uadd (toSize (toSHORT itb'.xPos_))
            (usub itb'.cursorPos_ itb'.aperature_)))
          (toSHORT itb'.yPos_) true] := by
  obtain ⟨w', itb', h1, h2, h3, _, h5, _⟩ :=
    focused_key_trace env ke w id itb hfi hdown hkey hW hc hn ha
  exact ⟨w', itb', h1, h2, h3.1, h3.2.1, h3.2.2.1, h5⟩

/-- C12, at a concrete state: the End key in the focused filter input (width 50) that
holds the sixty characters of `longFilter`. -/
theorem redraw_writes_full_content_witness :
    ∃ w' itb',
      FileView.ProcessKeyEvent exampleEnv (keyDown VK_END (Char.ofNat 0)) longFocused =
        Outcome.ok w' ∧
      getInputTextBox w'.frame "filterInput" = some itb' ∧
      itb'.xPos_ = longBox.xPos_ ∧ itb'.yPos_ = longBox.yPos_ ∧
      itb'.length_ = longBox.length_ ∧
      w'.frame.console_ = longFocused.frame.console_ ++
        [ConsoleCall.Write itb'.xPos_ itb'.yPos_ (redrawString itb') itb'.foreground_
          itb'.background_,
         ConsoleCall.Write itb'.xPos_ itb'.yPos_ itb'.content_ itb'.foreground_
          itb'.background_,
         ConsoleCall.SetCursor
          (toSHORT (uadd (toSize (toSHORT itb'.xPos_))
            (usub itb'.cursorPos_ itb'.aperature_)))
          (toSHORT itb'.yPos_) true] :=
  redraw_writes_full_content exampleEnv (keyDown VK_END (Char.ofNat 0)) longFocused
    "filterInput" longBox longFocused_focused rfl (by decide) (by decide) (by decide)
    (by decide) (by decide)

/-- C12 as stated fails: the program is started with the sixty characters of `longFilter`
as filter, the filter input (origin (10, 8), width 50) is clicked and End is pressed.
The box stored has cursor 60 and aperture 11; the window string, which starts with
`content[11] = b`, is written at (10, 8), then the whole content, which starts with
`content[0] = a`, is written at (10, 8), and the cursor is put at column 59 = 10 + 60 -
11. -/
theorem redraw_writes_window_counterexample :
    ∃ w' itb',
      FileView.ProcessKeyEvent exampleEnv (keyDown VK_END (Char.ofNat 0)) longFocused =
        Outcome.ok w' ∧
      getInputTextBox w'.frame "filterInput" = some itb' ∧
      itb'.content_ = longFilter ∧ itb'.cursorPos_ = 60 ∧ itb'.aperature_ = 11 ∧
      w'.frame.console_ = longFocused.frame.console_ ++
        [ConsoleCall.Write 10 8 (redrawString itb') ForegroundColour.BLACK
          BackgroundColour.WHITE,
         ConsoleCall.Write 10 8 longFilter ForegroundColour.BLACK BackgroundColour.WHITE,
         ConsoleCall.SetCursor 59 8 true] ∧
      redrawString itb' = (longFilter.drop 11).take 50 ++ List.replicate 25 ' ' ∧
      (redrawString itb').head? = some 'b' ∧ itb'.content_.get? itb'.aperature_ = some 'b' ∧
      longFilter.head? = some 'a' ∧ longFilter ≠ redrawString itb' := by
  refine ⟨_, { longBox with cursorPos_ := 60, aperature_ := 11 }, by rfl, by rfl, rfl, rfl,
    rfl, by rfl, by rfl, by rfl, by rfl, by rfl, by decide⟩

/-! ## The cursor after a key event -/

theorem toSHORT_natCast (n : Nat) (h : n < 32768) : toSHORT (n : Int) = (n : Int) := by
  unfold toSHORT
  simp only
  split <;> omega

theorem toSize_natCast (n : Nat) (h : n < SIZE_MOD) : toSize (n : Int) = n := by
  unfold toSize
  simp only [SIZE_MOD] at *
  omega

/-- The column computed by `cLoc.X += cursorPos_ - aperature_` when it fits a `SHORT`. -/
theorem cursor_column (x d : Nat) (h : x + d < 32768) :
    toSHORT (uadd (toSize (toSHORT x)) d) = ((x + d : Nat) : Int) := by
  rw [toSHORT_natCast x (by omega), toSize_natCast x (by simp only [SIZE_MOD]; omega)]
  have e : uadd x d = x + d := by
    unfold uadd
    simp only [SIZE_MOD]
    omega
  rw [e, toSHORT_natCast _ h]

/-- Enter handled for the focused input box of a well-formed registry whose filter text
compiles, the controller being the only observer: `Notify` returns a state `w2`, the
event returns, and the statements after the `switch` run on `w2` with the box reset by
the `VK_RETURN` case. -/
theorem focused_enter_trace (env : Env) (ke : Keyboard) (w : World) (id : String)
    (itb g : InputTextBox) (hb : Base w.frame.controls_) (hfi : FocusedInput w id itb)
    (hdown : ke.bKeyDown = true) (hkey : ke.wVirtualKeyCode = VK_RETURN)
    (hW : 1 ≤ itb.length_) (hn : itb.content_.length + 1 < SIZE_MOD)
    (hobs : w.observers_ = [IObserver.controller])
    (hg : getInputTextBox w.frame "filterInput" = some g)
    (hre : env.regexCompiles g.content_ = true) :
    ∃ w2 w',
      Notify env
        (World.mk (Control.Update (enterBox itb).toControl w.frame) w.model_ w.observers_)
        = Outcome.ok w2 ∧
      Base w2.frame.controls_ ∧
      FileView.ProcessKeyEvent env ke w = Outcome.ok w' ∧
      w'.frame.console_ = w2.frame.console_ ++ redrawCalls (enterBox itb) true ∧
      w'.frame.controls_ = updateLoop (enterBox itb).toControl w2.frame.controls_ ∧
      getInputTextBox w'.frame id = some (enterBox itb) ∧
      w'.model_ = w2.model_ ∧ w'.observers_ = w2.observers_ := by
  have hid : id = "folderInput" ∨ id = "filterInput" := by
    rcases hfi.2.2.2 with h | h
    · exact Or.inl h.1
    · exact Or.inr h.1
  obtain ⟨hidc, _, hex⟩ := hb.input_id hid hfi.1
  have hp1 : KeyPost w id itb
      (World.mk (Control.Update (enterBox itb).toControl w.frame) w.model_ w.observers_) :=
    KeyPost_update w id itb (enterBox itb) _ hb hid hfi.1 rfl hidc (Nat.zero_le _)
      (fun h => by simp [enterBox] at h) _ _
  have hb1 := hp1.1
  obtain ⟨cb, hcb, _, _⟩ := Base.getCheckbox hb1
  obtain ⟨f1, hf1, _, _⟩ := Base.getInput hb1 "folderInput" (Or.inl rfl)
  obtain ⟨g1, hg1, _, _⟩ := Base.getInput hb1 "filterInput" (Or.inr rfl)
  have hg1c : g1.content_ = g.content_ := by
    by_cases e : id = "filterInput"
    · subst e
      have e1 : getInputTextBox (World.mk (Control.Update (enterBox itb).toControl w.frame)
          w.model_ w.observers_).frame "filterInput" = some (enterBox itb) :=
        getInputTextBox_update_same (enterBox itb) w.frame _ hidc hex
      rw [e1] at hg1
      injection hg1 with hg1
      rw [hfi.1] at hg
      injection hg with hg
      rw [← hg1, ← hg]
      rfl
    · have e1 := hp1.2.2 "filterInput" (fun h => e h.symm) (Or.inr rfl)
      rw [e1, hg] at hg1
      injection hg1 with hg1
      rw [hg1]
  obtain ⟨fr2, hu, hb2, _, _, _⟩ := Update_ok_spec env _ hb1 cb f1 g1 hcb hf1 hg1
    (by rw [hg1c]; exact hre)
  have hnot := Notify_single env
    (World.mk (Control.Update (enterBox itb).toControl w.frame) w.model_ w.observers_) _
    hobs hu
  have hzero : closedFormAperture (enterBox itb).aperature_ (enterBox itb).cursorPos_
      (enterBox itb).content_.length (enterBox itb).length_ = 0 :=
    closedFormAperture_zero _ _ hW
  have ha0 : (enterBox itb).aperature_ < SIZE_MOD := by
    show 0 < SIZE_MOD
    decide
  have has := fun w2 => afterSwitch_eq (enterBox itb) true w2 hW (Nat.zero_le _) hn ha0
  simp only [hzero] at has
  have hex2 : ∃ c, find fr2.controls_ id = some c := by
    rcases hid with e | e
    · rw [e]; exact hb2.folderInput
    · rw [e]; exact hb2.filterInput
  refine ⟨_, World.mk (afterSwitch.frame (enterBox itb) true fr2) _ _, hnot, hb2, ?_,
    afterSwitch_frame_console (enterBox itb) true fr2,
    afterSwitch_frame_controls (enterBox itb) true fr2,
    afterSwitch_frame_get (enterBox itb) true fr2 id hidc hex2, rfl, rfl⟩
  rw [ProcessKeyEvent_focused env ke w id itb hfi hdown]
  unfold focusedKey
  rw [keySwitch_enter env ke itb w hkey, hnot]
  simp only [Outcome.bind]
  exact has _

theorem getLast_redrawCalls (l : List ConsoleCall) (itb : InputTextBox) (enterHit_ : Bool) :
    (l ++ redrawCalls itb enterHit_).getLast? =
      some (ConsoleCall.SetCursor
        (toSHORT (uadd (toSize (toSHORT itb.xPos_)) (usub itb.cursorPos_ itb.aperature_)))
        (toSHORT itb.yPos_) (!enterHit_)) := by
  simp [redrawCalls]

theorem getFileViewer_update_ne (c : Control) (fr : Framework) (id : String)
    (h : c.controlID_ ≠ id) :
    getFileViewer (Control.Update c fr) id = getFileViewer fr id := by
  simp [getFileViewer, find_updateLoop, h]

/-- The console calls of `UpdateModel` up to the construction of the regex: the 29 blank
rows of `ClearFileView` and, for a recursive search, the notice. -/
theorem UpdateModel_frame_console (recursive : Bool) (fv : FileViewer) (fr : Framework) :
    (UpdateModel.frame recursive fv fr).console_ = fr.console_ ++ clearCalls ++
      (if recursive then
        [ConsoleCall.Write 1 13 "Scan in progress...".toList fv.foreground_ fv.background_]
       else []) := by
  cases recursive
  · simp [UpdateModel.frame, ClearFileView_console]
  · simp only [UpdateModel.frame, if_true]
    show (FileViewer.ClearFileView fr).console_ ++ _ = _
    rw [ClearFileView_console]

theorem no_cursor_call_in_update (recursive : Bool) (fv : FileViewer) (x y : Int)
    (v : Bool) :
    ConsoleCall.SetCursor x y v ∉ clearCalls ++
      (if recursive then
        [ConsoleCall.Write 1 13 "Scan in progress...".toList fv.foreground_ fv.background_]
       else []) := by
  intro h
  rcases List.mem_append.1 h with h | h
  · simp [clearCalls] at h
  · cases recursive <;> simp at h

/-- Enter handled for the focused input box of a well-formed registry whose filter text
does not compile, the controller being the only observer: the `VK_RETURN` case stores
the reset box, `Notify` leaves by the exception raised in `UpdateModel`, and the
statements after the `switch` are not run: the state left is the one `UpdateModel` had
reached. -/
theorem focused_enter_thrown (env : Env) (ke : Keyboard) (w : World) (id : String)
    (itb g : InputTextBox) (cb : Checkbox) (fv : FileViewer)
    (hb : Base w.frame.controls_) (hfi : FocusedInput w id itb)
    (hdown : ke.bKeyDown = true) (hkey : ke.wVirtualKeyCode = VK_RETURN)
    (hobs : w.observers_ = [IObserver.controller])
    (hg : getInputTextBox w.frame "filterInput" = some g)
    (hcb : getCheckbox w.frame "recursiveCheck" = some cb)
    (hfv : getFileViewer w.frame "fv" = some fv)
    (hre : env.regexCompiles g.content_ = false) :
    ∃ m, FileView.ProcessKeyEvent env ke w =
        Outcome.thrown (Exception.XError "Invalid regex." 833)
          (World.mk
            (UpdateModel.frame cb.state_ fv (Control.Update (enterBox itb).toControl w.frame))
            m w.observers_) ∧
      getInputTextBox
        (UpdateModel.frame cb.state_ fv (Control.Update (enterBox itb).toControl w.frame)) id
        = some (enterBox itb) := by
  have hid : id = "folderInput" ∨ id = "filterInput" := by
    rcases hfi.2.2.2 with h | h
    · exact Or.inl h.1
    · exact Or.inr h.1
  obtain ⟨hidc, _, hex⟩ := hb.input_id hid hfi.1
  have hidc' : (enterBox itb).toControl.controlID_ = id := hidc
  have hp1 : KeyPost w id itb
      (World.mk (Control.Update (enterBox itb).toControl w.frame) w.model_ w.observers_) :=
    KeyPost_update w id itb (enterBox itb) _ hb hid hfi.1 rfl hidc (Nat.zero_le _)
      (fun h => by simp [enterBox] at h) _ _
  have hb1 := hp1.1
  have hne1 : (enterBox itb).toControl.controlID_ ≠ "recursiveCheck" := by
    rw [hidc']
    rcases hid with e | e <;> rw [e] <;> decide
  have hne2 : (enterBox itb).toControl.controlID_ ≠ "fv" := by
    rw [hidc']
    rcases hid with e | e <;> rw [e] <;> decide
  have hcb1 : getCheckbox (World.mk (Control.Update (enterBox itb).toControl w.frame)
      w.model_ w.observers_).frame "recursiveCheck" = some cb :=
    (getCheckbox_update_ne _ w.frame _ hne1).trans hcb
  have hfv1 : getFileViewer (World.mk (Control.Update (enterBox itb).toControl w.frame)
      w.model_ w.observers_).frame "fv" = some fv :=
    (getFileViewer_update_ne _ w.frame _ hne2).trans hfv
  obtain ⟨f1, hf1, _, _⟩ := Base.getInput hb1 "folderInput" (Or.inl rfl)
  obtain ⟨g1, hg1, _, _⟩ := Base.getInput hb1 "filterInput" (Or.inr rfl)
  have hsame : getInputTextBox (Control.Update (enterBox itb).toControl w.frame) id =
      some (enterBox itb) :=
    getInputTextBox_update_same (enterBox itb) w.frame _ hidc hex
  have hg1c : g1.content_ = g.content_ := by
    by_cases e : id = "filterInput"
    · subst e
      have e1 : getInputTextBox (World.mk (Control.Update (enterBox itb).toControl w.frame)
          w.model_ w.observers_).frame "filterInput" = some (enterBox itb) := hsame
      rw [e1] at hg1
      injection hg1 with hg1
      rw [hfi.1] at hg
      injection hg with hg
      rw [← hg1, ← hg]
      rfl
    · have e1 := hp1.2.2 "filterInput" (fun h => e h.symm) (Or.inr rfl)
      rw [e1, hg] at hg1
      injection hg1 with hg1
      rw [hg1]
  have hfvid : fv.controlID_ = "fv" := by
    obtain ⟨fv0, h0, h1⟩ := hb.getFileViewer
    rw [hfv] at h0
    injection h0 with h0
    rw [h0]
    exact h1
  have hu : FileController.Update env
      (World.mk (Control.Update (enterBox itb).toControl w.frame) w.model_ w.observers_) =
      Outcome.thrown (Exception.XError "Invalid regex." 833)
        (World.mk
          (UpdateModel.frame cb.state_ fv (Control.Update (enterBox itb).toControl w.frame))
          (FileModel.new f1.content_ g1.content_ cb.state_) w.observers_) := by
    unfold FileController.Update
    rw [UpdateModel_eq env _ cb f1 g1 fv hcb1 hf1 hg1 hfv1, hg1c, hre]
    rfl
  have hnot := Notify_single_thrown env
    (World.mk (Control.Update (enterBox itb).toControl w.frame) w.model_ w.observers_) _ _
    hobs hu
  refine ⟨FileModel.new f1.content_ g1.content_ cb.state_, ?_, ?_⟩
  · rw [ProcessKeyEvent_focused env ke w id itb hfi hdown]
    unfold focusedKey
    rw [keySwitch_enter env ke itb w hkey, hnot]
    rfl
  · have hidfv : id ≠ "fv" := by
      rcases hid with e | e <;> rw [e] <;> decide
    exact ((UpdateModel_frame_spec cb.state_ fv _ hb1 hfvid).2.1 id hidfv).trans hsame

/-- C13 as stated fails for Enter when the filter text does not compile.  In the example
state in which `[invalid` was typed into the focused filter input (origin (10, 8), width
50, cursor 8 within the 8 characters), Enter does not return: the handler leaves by
`XError("Invalid regex.", 833)`, the only console calls it made are the 29 blank rows
of `ClearFileView`, none of them a cursor call, and the last call on the console is the
blank write of row 41, not a cursor placement at (10, 8). -/
theorem enter_cursor_counterexample :
    FocusedInput invalidTyped "filterInput" invalidBox ∧
    invalidBox.xPos_ = 10 ∧ invalidBox.yPos_ = 8 ∧ invalidBox.length_ = 50 ∧
    invalidBox.cursorPos_ ≤ invalidBox.content_.length ∧
    exampleEnv.regexCompiles invalidBox.content_ = false ∧
    ∃ w', FileView.ProcessKeyEvent exampleEnv (keyDown VK_RETURN (Char.ofNat 13))
        invalidTyped = Outcome.thrown (Exception.XError "Invalid regex." 833) w' ∧
      w'.frame.console_ = invalidTyped.frame.console_ ++ clearCalls ∧
      (∀ x y v, ConsoleCall.SetCursor x y v ∉ clearCalls) ∧
      w'.frame.console_.getLast? =
        some (ConsoleCall.Write 1 41 (blanks 200) ForegroundColour.WHITE
          BackgroundColour.BLACK) ∧
      w'.frame.console_.getLast? ≠ some (ConsoleCall.SetCursor 10 8 false) := by
  have hc : (FileViewer.ClearFileView (Control.Update (enterBox invalidBox).toControl
      invalidTyped.frame)).console_ = invalidTyped.frame.console_ ++ clearCalls :=
    ClearFileView_console _
  have hl : (invalidTyped.frame.console_ ++ clearCalls).getLast? =
      some (ConsoleCall.Write 1 41 (blanks 200) ForegroundColour.WHITE
        BackgroundColour.BLACK) := by
    have e : clearCalls = (List.range 28).map (fun i =>
        ConsoleCall.Write 1 (13 + i) (blanks 200) ForegroundColour.WHITE
          BackgroundColour.BLACK) ++
        [ConsoleCall.Write 1 41 (blanks 200) ForegroundColour.WHITE
          BackgroundColour.BLACK] := by
      simp [clearCalls, List.range_succ]
    rw [e, ← List.append_assoc, List.getLast?_append]
    rfl
  refine ⟨invalidTyped_focused, rfl, rfl, rfl, by decide, by decide,
    World.mk (FileViewer.ClearFileView (Control.Update (enterBox invalidBox).toControl
      invalidTyped.frame)) _ _, by rfl, hc, ?_, ?_, ?_⟩
  · intro x y v h
    simp [clearCalls] at h
  · show (FileViewer.ClearFileView _).console_.getLast? = _
    rw [hc]
    exact hl
  · show (FileViewer.ClearFileView _).console_.getLast? ≠ _
    rw [hc, hl]
    simp

/-- C13, amended. Cursor repositioning: for the focused input box of a well-formed
registry (width at least one, the field inside the range of `SHORT` coordinates, the
controller being the only observer), a key-down event other than Enter returns and the
last console call places the cursor, visible, at column
`xPos_ + cursorPos_ - aperature_` of row `yPos_`, computed from the values stored by the
event, and that column lies in `[xPos_, xPos_ + length_ - 1]`.  Enter returns only when
the text of the filter input compiles, and then the last console call places the
cursor, invisible, at `(xPos_, yPos_)`.  When the text of the filter input does not
compile, Enter leaves by `XError("Invalid regex.", 833)` after the reset box has been
stored; the console calls made are the 29 blank rows of `ClearFileView` and, for a
recursive search, the notice: no cursor call is made. -/
theorem cursor_repositioning (env : Env) (ke : Keyboard) (w : World) (id : String)
    (itb g : InputTextBox) (hb : Base w.frame.controls_) (hfi : FocusedInput w id itb)
    (hdown : ke.bKeyDown = true) (hW : 1 ≤ itb.length_)
    (hn : itb.content_.length + 2 < SIZE_MOD) (ha : itb.aperature_ < SIZE_MOD)
    (hx : itb.xPos_ + itb.length_ ≤ 32768) (hy : itb.yPos_ < 32768)
    (hobs : w.observers_ = [IObserver.controller])
    (hg : getInputTextBox w.frame "filterInput" = some g) :
    (ke.wVirtualKeyCode ≠ VK_RETURN →
      ∃ w' itb', FileView.ProcessKeyEvent env ke w = Outcome.ok w' ∧
        getInputTextBox w'.frame id = some itb' ∧
        itb'.xPos_ = itb.xPos_ ∧ itb'.yPos_ = itb.yPos_ ∧ itb'.length_ = itb.length_ ∧
        itb'.aperature_ ≤ itb'.cursorPos_ ∧
        w'.frame.console_.getLast? =
          some (ConsoleCall.SetCursor
            ((itb'.xPos_ + (itb'.cursorPos_ - itb'.aperature_) : Nat) : Int)
            ((itb'.yPos_ : Nat) : Int) true) ∧
        itb'.xPos_ ≤ itb'.xPos_ + (itb'.cursorPos_ - itb'.aperature_) ∧
        itb'.xPos_ + (itb'.cursorPos_ - itb'.aperature_) ≤ itb'.xPos_ + itb'.length_ - 1) ∧
    (ke.wVirtualKeyCode = VK_RETURN → env.regexCompiles g.content_ = true →
      ∃ w', FileView.ProcessKeyEvent env ke w = Outcome.ok w' ∧
        w'.frame.console_.getLast? =
          some (ConsoleCall.SetCursor ((itb.xPos_ : Nat) : Int) ((itb.yPos_ : Nat) : Int)
            false)) ∧
    (ke.wVirtualKeyCode = VK_RETURN → env.regexCompiles g.content_ = false →
      ∃ cb fv w', getCheckbox w.frame "recursiveCheck" = some cb ∧
        getFileViewer w.frame "fv" = some fv ∧
        FileView.ProcessKeyEvent env ke w =
          Outcome.thrown (Exception.XError "Invalid regex." 833) w' ∧
        getInputTextBox w'.frame id = some (enterBox itb) ∧
        w'.frame.console_ = w.frame.console_ ++ (clearCalls ++
          (if cb.state_ then
            [ConsoleCall.Write 1 13 "Scan in progress...".toList fv.foreground_
              fv.background_]
           else [])) ∧
        ∀ x y v, ConsoleCall.SetCursor x y v ∉ clearCalls ++
          (if cb.state_ then
            [ConsoleCall.Write 1 13 "Scan in progress...".toList fv.foreground_
              fv.background_]
           else [])) := by
  have hid : id = "folderInput" ∨ id = "filterInput" := by
    rcases hfi.2.2.2 with h | h
    · exact Or.inl h.1
    · exact Or.inr h.1
  obtain ⟨_, hc, _⟩ := hb.input_id hid hfi.1
  refine ⟨?_, ?_, ?_⟩
  · intro hkey
    obtain ⟨w', itb', h1, h2, h3, h4, h5, _⟩ :=
      focused_key_trace env ke w id itb hfi hdown hkey hW hc hn ha
    have hlt : itb'.cursorPos_ < SIZE_MOD := by
      have := h4.1
      have := h4.2.2.2
      simp only [SIZE_MOD] at *
      omega
    have hsub : usub itb'.cursorPos_ itb'.aperature_ = itb'.cursorPos_ - itb'.aperature_ :=
      usub_le h4.2.1 hlt
    have hcol : itb'.xPos_ + (itb'.cursorPos_ - itb'.aperature_) < 32768 := by
      have := h4.2.2.1
      have := h3.1
      have := h3.2.2.1
      omega
    have hrow : toSHORT (itb'.yPos_ : Int) = ((itb'.yPos_ : Nat) : Int) :=
      toSHORT_natCast _ (by rw [h3.2.1]; exact hy)
    refine ⟨w', itb', h1, h2, h3.1, h3.2.1, h3.2.2.1, h4.2.1, ?_, Nat.le_add_right _ _, ?_⟩
    · rw [h5, getLast_redrawCalls, hsub, cursor_column _ _ hcol, hrow]
      rfl
    · have := h4.2.2.1
      omega
  · intro hkey hre
    have hn1 : itb.content_.length + 1 < SIZE_MOD := by
      simp only [SIZE_MOD] at *
      omega
    obtain ⟨w2, w', _, _, h3, h4, _⟩ :=
      focused_enter_trace env ke w id itb g hb hfi hdown hkey hW hn1 hobs hg hre
    refine ⟨w', h3, ?_⟩
    rw [h4, getLast_redrawCalls]
    have e0 : usub (enterBox itb).cursorPos_ (enterBox itb).aperature_ = 0 := by
      show usub 0 0 = 0
      decide
    have ex : (enterBox itb).xPos_ = itb.xPos_ := rfl
    have ey : (enterBox itb).yPos_ = itb.yPos_ := rfl
    rw [e0, ex, ey, cursor_column _ 0 (by omega), toSHORT_natCast _ hy]
    rfl
  · intro hkey hre
    obtain ⟨cb, hcb, _, _⟩ := Base.getCheckbox hb
    obtain ⟨fv, hfv, _⟩ := hb.getFileViewer
    obtain ⟨m, h1, h2⟩ :=
      focused_enter_thrown env ke w id itb g cb fv hb hfi hdown hkey hobs hg hcb hfv hre
    refine ⟨cb, fv, _, hcb, hfv, h1, h2, ?_, no_cursor_call_in_update cb.state_ fv⟩
    show (UpdateModel.frame cb.state_ fv _).console_ = _
    rw [UpdateModel_frame_console, List.append_assoc]
    rfl

/-- C13 amended, at concrete states: the key `x`, and Enter, in the focused folder input
of the example layout (origin (10, 6), width 100, filter `.*`), and Enter in the focused
filter input into which `[invalid` was typed. -/
theorem cursor_repositioning_witness :
    (∃ w' itb',
        FileView.ProcessKeyEvent exampleEnv (keyDown 88 'x') exampleFocused = Outcome.ok w' ∧
        getInputTextBox w'.frame "folderInput" = some itb' ∧
        itb'.xPos_ = exampleFolderBox.xPos_ ∧ itb'.yPos_ = exampleFolderBox.yPos_ ∧
        itb'.length_ = exampleFolderBox.length_ ∧
        itb'.aperature_ ≤ itb'.cursorPos_ ∧
        w'.frame.console_.getLast? =
          some (ConsoleCall.SetCursor
            ((itb'.xPos_ + (itb'.cursorPos_ - itb'.aperature_) : Nat) : Int)
            ((itb'.yPos_ : Nat) : Int) true) ∧
        itb'.xPos_ ≤ itb'.xPos_ + (itb'.cursorPos_ - itb'.aperature_) ∧
        itb'.xPos_ + (itb'.cursorPos_ - itb'.aperature_) ≤ itb'.xPos_ + itb'.length_ - 1) ∧
    (∃ w',
        FileView.ProcessKeyEvent exampleEnv (keyDown VK_RETURN (Char.ofNat 13))
          exampleFocused = Outcome.ok w' ∧
        w'.frame.console_.getLast? = some (ConsoleCall.SetCursor 10 6 false)) ∧
    (∃ cb fv w', getCheckbox invalidTyped.frame "recursiveCheck" = some cb ∧
        getFileViewer invalidTyped.frame "fv" = some fv ∧
        FileView.ProcessKeyEvent exampleEnv (keyDown VK_RETURN (Char.ofNat 13))
          invalidTyped = Outcome.thrown (Exception.XError "Invalid regex." 833) w' ∧
        getInputTextBox w'.frame "filterInput" = some (enterBox invalidBox) ∧
        w'.frame.console_ = invalidTyped.frame.console_ ++ (clearCalls ++
          (if cb.state_ then
            [ConsoleCall.Write 1 13 "Scan in progress...".toList fv.foreground_
              fv.background_]
           else [])) ∧
        ∀ x y v, ConsoleCall.SetCursor x y v ∉ clearCalls ++
          (if cb.state_ then
            [ConsoleCall.Write 1 13 "Scan in progress...".toList fv.foreground_
              fv.background_]
           else [])) :=
  ⟨(cursor_repositioning exampleEnv (keyDown 88 'x') exampleFocused "folderInput"
      exampleFolderBox
      (InputTextBox.new "filterInput" (10, 8) 50 ".*".toList ForegroundColour.BLACK
        BackgroundColour.WHITE)
      (reachable_inv exampleEnv exampleFocused exampleFocused_reachable).1
      exampleFocused_focused rfl (by decide) (by decide) (by decide) (by decide)
      (by decide) (by rfl) (by rfl)).1 (by decide),
   (cursor_repositioning exampleEnv (keyDown VK_RETURN (Char.ofNat 13)) exampleFocused
      "folderInput" exampleFolderBox
      (InputTextBox.new "filterInput" (10, 8) 50 ".*".toList ForegroundColour.BLACK
        BackgroundColour.WHITE)
      (reachable_inv exampleEnv exampleFocused exampleFocused_reachable).1
      exampleFocused_focused rfl (by decide) (by decide) (by decide) (by decide)
      (by decide) (by rfl) (by rfl)).2.1 rfl (by decide),
   (cursor_repositioning exampleEnv (keyDown VK_RETURN (Char.ofNat 13)) invalidTyped
      "filterInput" invalidBox invalidBox
      (reachable_inv exampleEnv invalidTyped invalidTyped_reachable).1
      invalidTyped_focused rfl (by decide) (by decide) (by decide) (by decide)
      (by decide) (by rfl) (by rfl)).2.2 rfl (by decide)⟩

/-! ## Left-button presses -/

theorem Outcome.bind_ok {α : Type} (o : Outcome α) : o.bind (fun a => Outcome.ok a) = o := by
  cases o <;> rfl

theorem hit_rows (me : Mouse) :
    (hitCheck me = true → hitFolder me = false ∧ hitFilter me = false) ∧
    (hitFolder me = true → hitCheck me = false ∧ hitFilter me = false) ∧
    (hitFilter me = true → hitCheck me = false ∧ hitFolder me = false) := by
  simp only [hitCheck, hitFolder, hitFilter, Bool.and_eq_true, decide_eq_true_eq,
    Bool.and_eq_false_iff, decide_eq_false_iff_not]
  omega

theorem checkStep_miss (env : Env) (me : Mouse) (cb : Checkbox) (w : World)
    (h : hitCheck me = false ∨ me.LeftPressed = false) : checkStep env me cb w = Outcome.ok w := by
  unfold checkStep
  simp only
  rw [if_neg]
  unfold hitCheck at h
  rcases h with h | h
  · rw [h]; simp
  · rw [h]; simp

theorem checkStep_hit (env : Env) (me : Mouse) (cb : Checkbox) (w : World)
    (h : hitCheck me = true) (hl : me.LeftPressed = true) :
    checkStep env me cb w =
      Notify env (World.mk ((toggleBox cb).UpdateCheckState
        (Control.Update (toggleBox cb).toControl w.frame)) w.model_ w.observers_) := by
  unfold checkStep
  unfold hitCheck at h
  simp only [h, hl, Bool.and_self, if_true]
  rfl

theorem folderStep_miss (me : Mouse) (f g : InputTextBox) (fr : Framework)
    (h : hitFolder me = false ∨ me.LeftPressed = false) :
    folderStep me f g fr = (setHit f (hitFolder me), g, fr) := by
  unfold folderStep
  simp only
  rw [if_neg]
  · rfl
  · unfold hitFolder at h
    rcases h with h | h
    · simp [setHit, h]
    · simp [setHit, h]

theorem folderStep_hit (me : Mouse) (f g : InputTextBox) (fr : Framework)
    (h : hitFolder me = true) (hl : me.LeftPressed = true) :
    folderStep me f g fr =
      ((clickInput me (setHit f true) fr).1, setHit g false,
        Control.Update (setHit g false).toControl
          (Control.Update (clickInput me (setHit f true) fr).1.toControl
            (clickInput me (setHit f true) fr).2)) := by
  unfold folderStep
  unfold hitFolder at h
  simp only [h, hl, setHit, Bool.and_self, if_true]

theorem filterStep_miss (me : Mouse) (f g : InputTextBox) (fr : Framework)
    (h : hitFilter me = false ∨ me.LeftPressed = false) : filterStep me f g fr = fr := by
  unfold filterStep
  simp only
  rw [if_neg]
  unfold hitFilter at h
  rcases h with h | h
  · simp [setHit, h]
  · simp [setHit, h]

theorem filterStep_hit (me : Mouse) (f g : InputTextBox) (fr : Framework)
    (h : hitFilter me = true) (hl : me.LeftPressed = true) :
    filterStep me f g fr =
      Control.Update (setHit f false).toControl
        (Control.Update (clickInput me (setHit g true) fr).1.toControl
          (clickInput me (setHit g true) fr).2) := by
  unfold filterStep
  unfold hitFilter at h
  simp only [h, hl, setHit, Bool.and_self, if_true]

theorem ProcessMouseEvent_button (env : Env) (me : Mouse) (w : World)
    (hflags : me.dwEventFlags = 0) :
    FileView.ProcessMouseEvent env me w = buttonCase env me w := by
  unfold FileView.ProcessMouseEvent
  rw [hflags]
  simp

/-- A left-button press that passes the test of the folder input: the folder box with the
new cursor is stored, hit, and the filter box is stored, not hit. -/
theorem click_folder_eq (env : Env) (me : Mouse) (w : World) (cb : Checkbox)
    (f g : InputTextBox)
    (hcb : getCheckbox w.frame "recursiveCheck" = some cb)
    (hf : getInputTextBox w.frame "folderInput" = some f)
    (hg : getInputTextBox w.frame "filterInput" = some g)
    (hflags : me.dwEventFlags = 0) (hl : me.LeftPressed = true)
    (h : hitFolder me = true) :
    FileView.ProcessMouseEvent env me w =
      Outcome.ok (World.mk
        (Control.Update (setHit g false).toControl
          (Control.Update (clickInput me (setHit f true) w.frame).1.toControl
            (clickInput me (setHit f true) w.frame).2)) w.model_ w.observers_) := by
  rw [ProcessMouseEvent_button env me w hflags]
  unfold buttonCase
  rw [hcb, hf, hg]
  simp only
  rw [checkStep_miss env me cb w (Or.inl ((hit_rows me).2.1 h).1)]
  simp only [Outcome.bind]
  rw [folderStep_hit me f g w.frame h hl]
  simp only
  rw [filterStep_miss _ _ _ _ (Or.inl ((hit_rows me).2.1 h).2)]

/-- A left-button press that passes the test of the filter input: the filter box with the
new cursor is stored, hit, and the folder box is stored, not hit. -/
theorem click_filter_eq (env : Env) (me : Mouse) (w : World) (cb : Checkbox)
    (f g : InputTextBox)
    (hcb : getCheckbox w.frame "recursiveCheck" = some cb)
    (hf : getInputTextBox w.frame "folderInput" = some f)
    (hg : getInputTextBox w.frame "filterInput" = some g)
    (hflags : me.dwEventFlags = 0) (hl : me.LeftPressed = true)
    (h : hitFilter me = true) :
    FileView.ProcessMouseEvent env me w =
      Outcome.ok (World.mk
        (Control.Update (setHit f false).toControl
          (Control.Update (clickInput me (setHit g true) w.frame).1.toControl
            (clickInput me (setHit g true) w.frame).2)) w.model_ w.observers_) := by
  rw [ProcessMouseEvent_button env me w hflags]
  unfold buttonCase
  rw [hcb, hf, hg]
  simp only
  rw [checkStep_miss env me cb w (Or.inl ((hit_rows me).2.2 h).1)]
  simp only [Outcome.bind]
  rw [folderStep_miss me f g w.frame (Or.inl ((hit_rows me).2.2 h).2)]
  simp only
  rw [filterStep_hit _ _ _ _ h hl]
  rfl

/-- A left-button press that passes the test of the check box: the toggled box is stored
and written, `Notify` runs, and the two later blocks of the `BUTTON` case store
nothing. -/
theorem click_check_eq (env : Env) (me : Mouse) (w : World) (cb : Checkbox)
    (f g : InputTextBox)
    (hcb : getCheckbox w.frame "recursiveCheck" = some cb)
    (hf : getInputTextBox w.frame "folderInput" = some f)
    (hg : getInputTextBox w.frame "filterInput" = some g)
    (hflags : me.dwEventFlags = 0) (hl : me.LeftPressed = true)
    (h : hitCheck me = true) :
    FileView.ProcessMouseEvent env me w =
      Notify env (World.mk ((toggleBox cb).UpdateCheckState
        (Control.Update (toggleBox cb).toControl w.frame)) w.model_ w.observers_) := by
  rw [ProcessMouseEvent_button env me w hflags]
  unfold buttonCase
  rw [hcb, hf, hg]
  simp only
  rw [checkStep_hit env me cb w h hl]
  have e : ∀ fr : Framework,
      filterStep me (folderStep me f g fr).1 (folderStep me f g fr).2.1
        (folderStep me f g fr).2.2 = fr := by
    intro fr
    rw [folderStep_miss me f g fr (Or.inl ((hit_rows me).1 h).1)]
    exact filterStep_miss _ _ _ _ (Or.inl ((hit_rows me).1 h).2)
  simp only [e]
  exact Outcome.bind_ok _

/-- A button event that passes none of the three tests, or whose left button is not
pressed, stores nothing and makes no console call. -/
theorem click_none_eq (env : Env) (me : Mouse) (w : World) (cb : Checkbox)
    (f g : InputTextBox)
    (hcb : getCheckbox w.frame "recursiveCheck" = some cb)
    (hf : getInputTextBox w.frame "folderInput" = some f)
    (hg : getInputTextBox w.frame "filterInput" = some g)
    (hflags : me.dwEventFlags = 0)
    (h : (hitCheck me = false ∧ hitFolder me = false ∧ hitFilter me = false) ∨
      me.LeftPressed = false) :
    FileView.ProcessMouseEvent env me w = Outcome.ok w := by
  rw [ProcessMouseEvent_button env me w hflags]
  unfold buttonCase
  rw [hcb, hf, hg]
  simp only
  rw [checkStep_miss env me cb w (h.imp (fun x => x.1) id)]
  simp only [Outcome.bind]
  rw [folderStep_miss me f g w.frame (h.imp (fun x => x.2.1) id)]
  simp only
  rw [filterStep_miss _ _ _ _ (h.imp (fun x => x.2.2) id)]

/-- Two input boxes with different ids stored one after the other: both are found
afterwards, and the entries under other keys are as before. -/
theorem get_update2 (x y : InputTextBox) (fr : Framework) (idx idy : String)
    (hx : x.controlID_ = idx) (hy : y.controlID_ = idy) (hne : idx ≠ idy)
    (hex : ∃ c, find fr.controls_ idx = some c) (hey : ∃ c, find fr.controls_ idy = some c) :
    getInputTextBox (Control.Update y.toControl (Control.Update x.toControl fr)) idx =
      some x ∧
    getInputTextBox (Control.Update y.toControl (Control.Update x.toControl fr)) idy =
      some y ∧
    (∀ id, id ≠ idx → id ≠ idy →
      find (Control.Update y.toControl (Control.Update x.toControl fr)).controls_ id =
        find fr.controls_ id) := by
  refine ⟨?_, ?_, ?_⟩
  · rw [getInputTextBox_update_ne _ _ _ (by simpa [hy] using fun h => hne h.symm)]
    exact getInputTextBox_update_same x fr idx hx hex
  · apply getInputTextBox_update_same y _ idy hy
    obtain ⟨c, hc⟩ := hey
    refine ⟨c, ?_⟩
    show find (updateLoop x.toControl fr.controls_) idy = some c
    rw [find_updateLoop, if_neg (by simpa [hx] using hne), hc]
  · intro id h1 h2
    show find (updateLoop y.toControl (updateLoop x.toControl fr.controls_)) id = _
    rw [find_updateLoop, if_neg (by simpa [hy] using fun h => h2 h.symm), find_updateLoop,
      if_neg (by simpa [hx] using fun h => h1 h.symm)]

theorem getCheckbox_of_find {fr fr' : Framework} (id : String)
    (h : find fr'.controls_ id = find fr.controls_ id) :
    getCheckbox fr' id = getCheckbox fr id := by
  unfold getCheckbox
  rw [h]

/-- What is stored after a left-button press that passes the test of the folder input. -/
theorem click_folder_stored (env : Env) (me : Mouse) (w : World)
    (hb : Base w.frame.controls_) (f g : InputTextBox)
    (hf : getInputTextBox w.frame "folderInput" = some f)
    (hg : getInputTextBox w.frame "filterInput" = some g)
    (hflags : me.dwEventFlags = 0) (hl : me.LeftPressed = true)
    (h : hitFolder me = true) :
    ∃ w', FileView.ProcessMouseEvent env me w = Outcome.ok w' ∧
      getInputTextBox w'.frame "folderInput" =
        some (clickInput me (setHit f true) w.frame).1 ∧
      getInputTextBox w'.frame "filterInput" = some (setHit g false) ∧
      getCheckbox w'.frame "recursiveCheck" = getCheckbox w.frame "recursiveCheck" ∧
      w'.model_ = w.model_ ∧ w'.observers_ = w.observers_ := by
  obtain ⟨cb, hcb, _, _⟩ := Base.getCheckbox hb
  obtain ⟨hfid, _, hfex⟩ := hb.input_id (Or.inl rfl) hf
  obtain ⟨hgid, _, hgex⟩ := hb.input_id (Or.inr rfl) hg
  have hsp := clickInput_spec me (setHit f true) w.frame
  have hcid : (clickInput me (setHit f true) w.frame).1.controlID_ = "folderInput" := by
    rw [hsp.1]; exact hfid
  have hex1 : ∃ c, find (clickInput me (setHit f true) w.frame).2.controls_ "folderInput"
      = some c := by rw [hsp.2.2.2.2.2.2]; exact hfex
  have hex2 : ∃ c, find (clickInput me (setHit f true) w.frame).2.controls_ "filterInput"
      = some c := by rw [hsp.2.2.2.2.2.2]; exact hgex
  have h2 := get_update2 (clickInput me (setHit f true) w.frame).1 (setHit g false)
    (clickInput me (setHit f true) w.frame).2 "folderInput" "filterInput" hcid hgid
    (by decide) hex1 hex2
  refine ⟨_, click_folder_eq env me w cb f g hcb hf hg hflags hl h, h2.1, h2.2.1, ?_, rfl, rfl⟩
  apply getCheckbox_of_find
  rw [h2.2.2 "recursiveCheck" (by decide) (by decide), hsp.2.2.2.2.2.2]

/-- What is stored after a left-button press that passes the test of the filter input. -/
theorem click_filter_stored (env : Env) (me : Mouse) (w : World)
    (hb : Base w.frame.controls_) (f g : InputTextBox)
    (hf : getInputTextBox w.frame "folderInput" = some f)
    (hg : getInputTextBox w.frame "filterInput" = some g)
    (hflags : me.dwEventFlags = 0) (hl : me.LeftPressed = true)
    (h : hitFilter me = true) :
    ∃ w', FileView.ProcessMouseEvent env me w = Outcome.ok w' ∧
      getInputTextBox w'.frame "filterInput" =
        some (clickInput me (setHit g true) w.frame).1 ∧
      getInputTextBox w'.frame "folderInput" = some (setHit f false) ∧
      getCheckbox w'.frame "recursiveCheck" = getCheckbox w.frame "recursiveCheck" ∧
      w'.model_ = w.model_ ∧ w'.observers_ = w.observers_ := by
  obtain ⟨cb, hcb, _, _⟩ := Base.getCheckbox hb
  obtain ⟨hfid, _, hfex⟩ := hb.input_id (Or.inl rfl) hf
  obtain ⟨hgid, _, hgex⟩ := hb.input_id (Or.inr rfl) hg
  have hsp := clickInput_spec me (setHit g true) w.frame
  have hcid : (clickInput me (setHit g true) w.frame).1.controlID_ = "filterInput" := by
    rw [hsp.1]; exact hgid
  have hex1 : ∃ c, find (clickInput me (setHit g true) w.frame).2.controls_ "folderInput"
      = some c := by rw [hsp.2.2.2.2.2.2]; exact hfex
  have hex2 : ∃ c, find (clickInput me (setHit g true) w.frame).2.controls_ "filterInput"
      = some c := by rw [hsp.2.2.2.2.2.2]; exact hgex
  have h2 := get_update2 (clickInput me (setHit g true) w.frame).1 (setHit f false)
    (clickInput me (setHit g true) w.frame).2 "filterInput" "folderInput" hcid hfid
    (by decide) hex2 hex1
  refine ⟨_, click_filter_eq env me w cb f g hcb hf hg hflags hl h, h2.1, h2.2.1, ?_, rfl, rfl⟩
  apply getCheckbox_of_find
  rw [h2.2.2 "recursiveCheck" (by decide) (by decide), hsp.2.2.2.2.2.2]

/-- What is stored after a left-button press that passes the test of the check box,
whether `Notify` returns or throws: the two input boxes as they were, and a check box
that is not hit. -/
theorem click_check_stored (env : Env) (me : Mouse) (w : World)
    (hb : Base w.frame.controls_)
    (hflags : me.dwEventFlags = 0) (hl : me.LeftPressed = true)
    (h : hitCheck me = true) :
    ∃ w', (FileView.ProcessMouseEvent env me w = Outcome.ok w' ∨
        ∃ e, FileView.ProcessMouseEvent env me w = Outcome.thrown e w') ∧
      Base w'.frame.controls_ ∧
      getInputTextBox w'.frame "folderInput" = getInputTextBox w.frame "folderInput" ∧
      getInputTextBox w'.frame "filterInput" = getInputTextBox w.frame "filterInput" ∧
      ∃ cb', getCheckbox w'.frame "recursiveCheck" = some cb' ∧ cb'.controlHit_ = false := by
  obtain ⟨cb, hcb, hcid, _⟩ := Base.getCheckbox hb
  obtain ⟨f, hf, _, _⟩ := Base.getInput hb "folderInput" (Or.inl rfl)
  obtain ⟨g, hg, _, _⟩ := Base.getInput hb "filterInput" (Or.inr rfl)
  have hb1 : Base (World.mk ((toggleBox cb).UpdateCheckState
      (Control.Update (toggleBox cb).toControl w.frame)) w.model_ w.observers_).frame.controls_ :=
    Base.update_checkbox (toggleBox cb) hcid rfl hb
  obtain ⟨w', hk, hn⟩ := Notify_kept env _ hb1
  have e1 : ∀ id, id ≠ "recursiveCheck" →
      getInputTextBox ((toggleBox cb).UpdateCheckState
        (Control.Update (toggleBox cb).toControl w.frame)) id = getInputTextBox w.frame id := by
    intro id hid
    have e0 : getInputTextBox ((toggleBox cb).UpdateCheckState
        (Control.Update (toggleBox cb).toControl w.frame)) id =
        getInputTextBox (Control.Update (toggleBox cb).toControl w.frame) id :=
      getInputTextBox_congr rfl id
    rw [e0]
    exact getInputTextBox_update_ne _ _ _ (by
      show cb.controlID_ ≠ id
      rw [hcid]
      exact fun h => hid h.symm)
  obtain ⟨cb', hcb', _, hh'⟩ := Base.getCheckbox hk.1
  refine ⟨w', ?_, hk.1, hk.2.1.trans (e1 _ (by decide)), hk.2.2.1.trans (e1 _ (by decide)),
    cb', hcb', hh'⟩
  rw [click_check_eq env me w cb f g hcb hf hg hflags hl h]
  exact hn

theorem exampleStarted_base : Base exampleStarted.frame.controls_ :=
  (reachable_inv exampleEnv exampleStarted
    (Reachable.notify _ _ (Reachable.init _ _ _ _ exampleLayout_eq) exampleStarted_eq)).1

theorem exampleFocused_base : Base exampleFocused.frame.controls_ :=
  (reachable_inv exampleEnv exampleFocused exampleFocused_reachable).1

/-- C14, amended. On a well-formed registry, a left-button press that passes the test of
the folder input (`10 <= X <= 185`, `Y == 6`) returns with the folder input stored hit
and the filter input and the check box stored not hit; one that passes the test of the
filter input (`10 <= X <= 185`, `Y == 8`) returns with the filter input stored hit and
the two others not hit; one that passes the test of the check box (`X == 20`,
`Y == 10`) leaves, whether `Notify` returns or throws, the check box stored not hit and
the two input boxes stored as they were, so an input box that was hit stays hit. -/
theorem click_focus (env : Env) (me : Mouse) (w : World) (hb : Base w.frame.controls_)
    (hflags : me.dwEventFlags = 0) (hl : me.LeftPressed = true) :
    (hitFolder me = true →
      ∃ w' f' g' cb', FileView.ProcessMouseEvent env me w = Outcome.ok w' ∧
        getInputTextBox w'.frame "folderInput" = some f' ∧
        getInputTextBox w'.frame "filterInput" = some g' ∧
        getCheckbox w'.frame "recursiveCheck" = some cb' ∧
        f'.controlHit_ = true ∧ g'.controlHit_ = false ∧ cb'.controlHit_ = false) ∧
    (hitFilter me = true →
      ∃ w' f' g' cb', FileView.ProcessMouseEvent env me w = Outcome.ok w' ∧
        getInputTextBox w'.frame "folderInput" = some f' ∧
        getInputTextBox w'.frame "filterInput" = some g' ∧
        getCheckbox w'.frame "recursiveCheck" = some cb' ∧
        f'.controlHit_ = false ∧ g'.controlHit_ = true ∧ cb'.controlHit_ = false) ∧
    (hitCheck me = true →
      ∃ w' cb', (FileView.ProcessMouseEvent env me w = Outcome.ok w' ∨
          ∃ e, FileView.ProcessMouseEvent env me w = Outcome.thrown e w') ∧
        getInputTextBox w'.frame "folderInput" = getInputTextBox w.frame "folderInput" ∧
        getInputTextBox w'.frame "filterInput" = getInputTextBox w.frame "filterInput" ∧
        getCheckbox w'.frame "recursiveCheck" = some cb' ∧ cb'.controlHit_ = false) := by
  obtain ⟨cb, hcb, _, hcbh⟩ := Base.getCheckbox hb
  obtain ⟨f, hf, _, _⟩ := Base.getInput hb "folderInput" (Or.inl rfl)
  obtain ⟨g, hg, _, _⟩ := Base.getInput hb "filterInput" (Or.inr rfl)
  refine ⟨?_, ?_, ?_⟩
  · intro h
    obtain ⟨w', h1, h2, h3, h4, _⟩ := click_folder_stored env me w hb f g hf hg hflags hl h
    exact ⟨w', _, _, cb, h1, h2, h3, h4.trans hcb,
      (clickInput_spec me (setHit f true) w.frame).2.1, rfl, hcbh⟩
  · intro h
    obtain ⟨w', h1, h2, h3, h4, _⟩ := click_filter_stored env me w hb f g hf hg hflags hl h
    exact ⟨w', _, _, cb, h1, h3, h2, h4.trans hcb, rfl,
      (clickInput_spec me (setHit g true) w.frame).2.1, hcbh⟩
  · intro h
    obtain ⟨w', h1, _, h3, h4, cb', h5, h6⟩ := click_check_stored env me w hb hflags hl h
    exact ⟨w', cb', h1, h3, h4, h5, h6⟩

/-- C14 amended, at concrete states of the example layout: a press in the folder input, a
press in the filter input while the folder input is hit, and a press on the check box
while the folder input is hit. -/
theorem click_focus_witness :
    (∃ w' f' g' cb',
        FileView.ProcessMouseEvent exampleEnv (leftPress 12 6) exampleStarted = Outcome.ok w' ∧
        getInputTextBox w'.frame "folderInput" = some f' ∧
        getInputTextBox w'.frame "filterInput" = some g' ∧
        getCheckbox w'.frame "recursiveCheck" = some cb' ∧
        f'.controlHit_ = true ∧ g'.controlHit_ = false ∧ cb'.controlHit_ = false) ∧
    (∃ w' f' g' cb',
        FileView.ProcessMouseEvent exampleEnv (leftPress 12 8) exampleFocused = Outcome.ok w' ∧
        getInputTextBox w'.frame "folderInput" = some f' ∧
        getInputTextBox w'.frame "filterInput" = some g' ∧
        getCheckbox w'.frame "recursiveCheck" = some cb' ∧
        f'.controlHit_ = false ∧ g'.controlHit_ = true ∧ cb'.controlHit_ = false) ∧
    (∃ w' cb',
        (FileView.ProcessMouseEvent exampleEnv (leftPress 20 10) exampleFocused =
            Outcome.ok w' ∨
          ∃ e, FileView.ProcessMouseEvent exampleEnv (leftPress 20 10) exampleFocused =
            Outcome.thrown e w') ∧
        getInputTextBox w'.frame "folderInput" =
          getInputTextBox exampleFocused.frame "folderInput" ∧
        getInputTextBox w'.frame "filterInput" =
          getInputTextBox exampleFocused.frame "filterInput" ∧
        getCheckbox w'.frame "recursiveCheck" = some cb' ∧ cb'.controlHit_ = false) :=
  ⟨(click_focus exampleEnv (leftPress 12 6) exampleStarted exampleStarted_base rfl rfl).1
      (by decide),
   (click_focus exampleEnv (leftPress 12 8) exampleFocused exampleFocused_base rfl rfl).2.1
      (by decide),
   (click_focus exampleEnv (leftPress 20 10) exampleFocused exampleFocused_base rfl rfl).2.2
      (by decide)⟩

/-- C14 as stated fails: in the example layout with the folder input hit, a left-button
press on the check box at (20, 10) returns; afterwards the folder input is still stored
hit, and the check box, whose state was flipped to true, is stored not hit. -/
theorem exclusive_focus_on_click_counterexample :
    (∃ f, getInputTextBox exampleFocused.frame "folderInput" = some f ∧
      f.controlHit_ = true) ∧
    hitCheck (leftPress 20 10) = true ∧ hitFolder (leftPress 20 10) = false ∧
    hitFilter (leftPress 20 10) = false ∧ (leftPress 20 10).LeftPressed = true ∧
    ∃ w' f' cb',
      FileView.ProcessMouseEvent exampleEnv (leftPress 20 10) exampleFocused = Outcome.ok w' ∧
      getInputTextBox w'.frame "folderInput" = some f' ∧ f'.controlHit_ = true ∧
      getCheckbox w'.frame "recursiveCheck" = some cb' ∧ cb'.state_ = true ∧
      cb'.content_ = ['X'] ∧ cb'.controlHit_ = false := by
  refine ⟨⟨_, by rfl, by rfl⟩, by decide, by decide, by decide, by decide, _, _, _, by rfl,
    by rfl, by rfl, by rfl, by rfl, by rfl, by rfl⟩

theorem fiftyFocused_base : Base fiftyFocused.frame.controls_ :=
  (reachable_inv fiftyEnv fiftyFocused
    (Reachable.mouse _ _ clickFolder
      (Reachable.notify _ scenarioD (Reachable.init _ _ _ _ exampleLayout_eq) (by rfl))
      (by rfl))).1

theorem fiftyFocused_focused : FocusedInput fiftyFocused "folderInput" exampleFolderBox :=
  ⟨by rfl, rfl, rfl, Or.inl ⟨rfl, _, by rfl⟩⟩

/-- C15, amended. On a well-formed registry, a button event that passes none of the three
tests of the `BUTTON` case returns and changes nothing: registry, console calls and
model are as before.  An input box that was hit therefore stays hit: the next key-down
event is handled for that box, and unless it is Enter it leaves the model, and so the
offset `fPos_` of the file list, as it was. -/
theorem click_outside_keeps_focus (env : Env) (me : Mouse) (w : World)
    (hb : Base w.frame.controls_) (hflags : me.dwEventFlags = 0)
    (hout : hitCheck me = false ∧ hitFolder me = false ∧ hitFilter me = false) :
    FileView.ProcessMouseEvent env me w = Outcome.ok w ∧
    ∀ id itb ke, FocusedInput w id itb → ke.bKeyDown = true →
      FileView.ProcessKeyEvent env ke w = focusedKey env ke itb w ∧
      (ke.wVirtualKeyCode ≠ VK_RETURN → ∀ w', FileView.ProcessKeyEvent env ke w = Outcome.ok w' →
        w'.model_ = w.model_) := by
  obtain ⟨cb, hcb, _, _⟩ := Base.getCheckbox hb
  obtain ⟨f, hf, _, _⟩ := Base.getInput hb "folderInput" (Or.inl rfl)
  obtain ⟨g, hg, _, _⟩ := Base.getInput hb "filterInput" (Or.inr rfl)
  refine ⟨click_none_eq env me w cb f g hcb hf hg hflags (Or.inl hout), ?_⟩
  intro id itb ke hfi hdown
  have e := ProcessKeyEvent_focused env ke w id itb hfi hdown
  refine ⟨e, ?_⟩
  intro hkey w' h
  rw [e] at h
  exact focusedKey_model env ke itb w w' hkey h

/-- C15 amended, at a concrete state: a left-button press at (0, 0) in Scenario D with
the folder input hit. -/
theorem click_outside_keeps_focus_witness :
    FileView.ProcessMouseEvent fiftyEnv (leftPress 0 0) fiftyFocused =
      Outcome.ok fiftyFocused ∧
    ∀ id itb ke, FocusedInput fiftyFocused id itb → ke.bKeyDown = true →
      FileView.ProcessKeyEvent fiftyEnv ke fiftyFocused = focusedKey fiftyEnv ke itb
        fiftyFocused ∧
      (ke.wVirtualKeyCode ≠ VK_RETURN →
        ∀ w', FileView.ProcessKeyEvent fiftyEnv ke fiftyFocused = Outcome.ok w' →
          w'.model_ = fiftyFocused.model_) :=
  click_outside_keeps_focus fiftyEnv (leftPress 0 0) fiftyFocused fiftyFocused_base rfl
    (by decide)

/-- C15 as stated fails: in Scenario D (fifty files, offset 0) with the folder input hit,
a left-button press at (0, 0), which passes none of the three tests, leaves the state as
it was, the folder input still stored hit; the down arrow that follows is handled for
the folder input and leaves the offset at 0, while the same key in Scenario D with no
input box hit moves the offset to 1. -/
theorem click_outside_counterexample :
    hitCheck (leftPress 0 0) = false ∧ hitFolder (leftPress 0 0) = false ∧
    hitFilter (leftPress 0 0) = false ∧ (leftPress 0 0).LeftPressed = true ∧
    FocusedInput fiftyFocused "folderInput" exampleFolderBox ∧
    fiftyFocused.model_.files_.length = 50 ∧ fiftyFocused.model_.fPos_ = some 0 ∧
    ∃ w', FileView.ProcessMouseEvent fiftyEnv (leftPress 0 0) fiftyFocused = Outcome.ok w' ∧
      (∃ f', getInputTextBox w'.frame "folderInput" = some f' ∧ f'.controlHit_ = true) ∧
      focusedCount w'.frame.controls_ = 1 ∧
      (∃ w'', FileView.ProcessKeyEvent fiftyEnv (keyDown VK_DOWN (Char.ofNat 0)) w' =
          Outcome.ok w'' ∧ w''.model_.fPos_ = some 0) ∧
      (∃ w1, FileView.ProcessKeyEvent fiftyEnv (keyDown VK_DOWN (Char.ofNat 0)) scenarioD =
          Outcome.ok w1 ∧ w1.model_.fPos_ = some 1) := by
  refine ⟨by decide, by decide, by decide, by decide, fiftyFocused_focused, by rfl, by rfl,
    fiftyFocused, by rfl, ⟨_, by rfl, by rfl⟩, by rfl, ⟨_, by rfl, by rfl⟩,
    ⟨_, by rfl, by rfl⟩⟩

theorem hitFolder_iff (me : Mouse) :
    hitFolder me = true ↔
      10 ≤ me.dwMousePosition.1 ∧ me.dwMousePosition.1 ≤ 185 ∧ me.dwMousePosition.2 = 6 := by
  simp [hitFolder, and_assoc]

theorem hitFilter_iff (me : Mouse) :
    hitFilter me = true ↔
      10 ≤ me.dwMousePosition.1 ∧ me.dwMousePosition.1 ≤ 185 ∧ me.dwMousePosition.2 = 8 := by
  simp [hitFilter, and_assoc]

/-- The hit flags stored by a left-button press that returns, in terms of the three
tests. -/
theorem click_flags (env : Env) (me : Mouse) (w w' : World) (hb : Base w.frame.controls_)
    (f g : InputTextBox)
    (hf : getInputTextBox w.frame "folderInput" = some f)
    (hg : getInputTextBox w.frame "filterInput" = some g)
    (hflags : me.dwEventFlags = 0) (hl : me.LeftPressed = true)
    (h : FileView.ProcessMouseEvent env me w = Outcome.ok w') :
    ∃ f' g', getInputTextBox w'.frame "folderInput" = some f' ∧
      getInputTextBox w'.frame "filterInput" = some g' ∧
      f'.controlHit_ = (hitFolder me || (f.controlHit_ && !hitFilter me)) ∧
      g'.controlHit_ = (hitFilter me || (g.controlHit_ && !hitFolder me)) := by
  obtain ⟨cb, hcb, _, _⟩ := Base.getCheckbox hb
  cases h6 : hitFolder me with
  | true =>
    obtain ⟨w1, h1, h2, h3, _⟩ := click_folder_stored env me w hb f g hf hg hflags hl h6
    rw [h1] at h
    injection h with h
    subst h
    refine ⟨_, _, h2, h3, ?_, ?_⟩
    · rw [(clickInput_spec me (setHit f true) w.frame).2.1]
      rfl
    · rw [((hit_rows me).2.1 h6).2]
      simp [setHit]
  | false =>
    cases h8 : hitFilter me with
    | true =>
      obtain ⟨w1, h1, h2, h3, _⟩ := click_filter_stored env me w hb f g hf hg hflags hl h8
      rw [h1] at h
      injection h with h
      subst h
      refine ⟨_, _, h3, h2, ?_, ?_⟩
      · simp [setHit]
      · rw [(clickInput_spec me (setHit g true) w.frame).2.1]
        rfl
    | false =>
      cases h10 : hitCheck me with
      | true =>
        obtain ⟨w1, h1, _, h3, h4, _⟩ := click_check_stored env me w hb hflags hl h10
        have e : w1 = w' := by
          rcases h1 with h1 | ⟨e, h1⟩
          · rw [h1] at h
            injection h
          · rw [h1] at h
            cases h
        subst e
        exact ⟨f, g, h3.trans hf, h4.trans hg, by simp, by simp⟩
      | false =>
        rw [click_none_eq env me w cb f g hcb hf hg hflags (Or.inl ⟨h10, h6, h8⟩)] at h
        injection h with h
        subst h
        exact ⟨f, g, hf, hg, by simp, by simp⟩

/-- C16, amended. The hit test of the `BUTTON` case does not use the origin or the length
stored for a box: on a well-formed registry, after a left-button press at `(X, Y)` that
returns, the folder input is stored hit if and only if `10 <= X <= 185` and `Y == 6`, or
it was hit before and the press does not pass the test of the filter input; the filter
input is stored hit if and only if `10 <= X <= 185` and `Y == 8`, or it was hit before
and the press does not pass the test of the folder input. -/
theorem hit_test_range (env : Env) (me : Mouse) (w w' : World) (hb : Base w.frame.controls_)
    (f g : InputTextBox)
    (hf : getInputTextBox w.frame "folderInput" = some f)
    (hg : getInputTextBox w.frame "filterInput" = some g)
    (hflags : me.dwEventFlags = 0) (hl : me.LeftPressed = true)
    (h : FileView.ProcessMouseEvent env me w = Outcome.ok w') :
    ∃ f' g', getInputTextBox w'.frame "folderInput" = some f' ∧
      getInputTextBox w'.frame "filterInput" = some g' ∧
      (f'.controlHit_ = true ↔
        (10 ≤ me.dwMousePosition.1 ∧ me.dwMousePosition.1 ≤ 185 ∧ me.dwMousePosition.2 = 6) ∨
        (f.controlHit_ = true ∧
          ¬ (10 ≤ me.dwMousePosition.1 ∧ me.dwMousePosition.1 ≤ 185 ∧
            me.dwMousePosition.2 = 8))) ∧
      (g'.controlHit_ = true ↔
        (10 ≤ me.dwMousePosition.1 ∧ me.dwMousePosition.1 ≤ 185 ∧ me.dwMousePosition.2 = 8) ∨
        (g.controlHit_ = true ∧
          ¬ (10 ≤ me.dwMousePosition.1 ∧ me.dwMousePosition.1 ≤ 185 ∧
            me.dwMousePosition.2 = 6))) := by
  obtain ⟨f', g', h1, h2, h3, h4⟩ := click_flags env me w w' hb f g hf hg hflags hl h
  refine ⟨f', g', h1, h2, ?_, ?_⟩
  · rw [h3, ← hitFolder_iff, ← hitFilter_iff]
    simp
  · rw [h4, ← hitFolder_iff, ← hitFilter_iff]
    simp

/-- C16 amended, at a concrete state: a left-button press at (150, 6) in the started
example. -/
theorem hit_test_range_witness :
    ∃ f' g', getInputTextBox farClicked.frame "folderInput" = some f' ∧
      getInputTextBox farClicked.frame "filterInput" = some g' ∧
      (f'.controlHit_ = true ↔
        (10 ≤ (leftPress 150 6).dwMousePosition.1 ∧
          (leftPress 150 6).dwMousePosition.1 ≤ 185 ∧
          (leftPress 150 6).dwMousePosition.2 = 6) ∨
        ((InputTextBox.new "folderInput" (10, 6) 100 "C:/src".toList ForegroundColour.BLACK
            BackgroundColour.WHITE).controlHit_ = true ∧
          ¬ (10 ≤ (leftPress 150 6).dwMousePosition.1 ∧
            (leftPress 150 6).dwMousePosition.1 ≤ 185 ∧
            (leftPress 150 6).dwMousePosition.2 = 8))) ∧
      (g'.controlHit_ = true ↔
        (10 ≤ (leftPress 150 6).dwMousePosition.1 ∧
          (leftPress 150 6).dwMousePosition.1 ≤ 185 ∧
          (leftPress 150 6).dwMousePosition.2 = 8) ∨
        ((InputTextBox.new "filterInput" (10, 8) 50 ".*".toList ForegroundColour.BLACK
            BackgroundColour.WHITE).controlHit_ = true ∧
          ¬ (10 ≤ (leftPress 150 6).dwMousePosition.1 ∧
            (leftPress 150 6).dwMousePosition.1 ≤ 185 ∧
            (leftPress 150 6).dwMousePosition.2 = 6))) :=
  hit_test_range exampleEnv (leftPress 150 6) exampleStarted farClicked exampleStarted_base
    (InputTextBox.new "folderInput" (10, 6) 100 "C:/src".toList ForegroundColour.BLACK
      BackgroundColour.WHITE)
    (InputTextBox.new "filterInput" (10, 8) 50 ".*".toList ForegroundColour.BLACK
      BackgroundColour.WHITE)
    (by rfl) (by rfl) rfl rfl (by rfl)

/-- C16 as stated fails: in the started example the folder input has origin (10, 6) and
length 100 and is not hit; a left-button press at (150, 6), to the right of
`10 + 100`, stores it hit.  Likewise a press at (100, 8), to the right of `10 + 50`,
stores the filter input (origin (10, 8), length 50) hit. -/
theorem hit_test_box_counterexample :
    (∃ f, getInputTextBox exampleStarted.frame "folderInput" = some f ∧ f.xPos_ = 10 ∧
      f.yPos_ = 6 ∧ f.length_ = 100 ∧ f.controlHit_ = false ∧
      ¬ ((150 : Int) ≤ f.xPos_ + f.length_)) ∧
    (∃ w' f', FileView.ProcessMouseEvent exampleEnv (leftPress 150 6) exampleStarted =
        Outcome.ok w' ∧
      getInputTextBox w'.frame "folderInput" = some f' ∧ f'.controlHit_ = true) ∧
    (∃ g, getInputTextBox exampleStarted.frame "filterInput" = some g ∧ g.xPos_ = 10 ∧
      g.yPos_ = 8 ∧ g.length_ = 50 ∧ g.controlHit_ = false ∧
      ¬ ((100 : Int) ≤ g.xPos_ + g.length_)) ∧
    (∃ w' g', FileView.ProcessMouseEvent exampleEnv (leftPress 100 8) exampleStarted =
        Outcome.ok w' ∧
      getInputTextBox w'.frame "filterInput" = some g' ∧ g'.controlHit_ = true) := by
  refine ⟨⟨_, by rfl, by rfl, by rfl, by rfl, by rfl, by decide⟩, ⟨_, _, by rfl, by rfl, by rfl⟩,
    ⟨_, by rfl, by rfl, by rfl, by rfl, by rfl, by decide⟩, ⟨_, _, by rfl, by rfl, by rfl⟩⟩

theorem longStarted_base : Base longStarted.frame.controls_ :=
  (reachable_inv exampleEnv longStarted
    (Reachable.notify _ _
      (Reachable.init "C:/src".toList longFilter false
        ((FileView.new ⟨[], []⟩ "C:/src".toList longFilter false).getD ⟨[], []⟩) (by rfl))
      (by rfl))).1

/-- The cursor position `clickInput` computes, when the press is not to the left of the
box: the offset of the press in the box plus the aperture, clamped to the length of the
content. -/
theorem clickInput_cursor (me : Mouse) (itb : InputTextBox) (fr : Framework)
    (hx : (itb.xPos_ : Int) ≤ me.dwMousePosition.1) (hx2 : me.dwMousePosition.1 ≤ 185)
    (ha : itb.aperature_ + 185 < SIZE_MOD) :
    (clickInput me itb fr).1.cursorPos_ =
      min ((me.dwMousePosition.1 - (itb.xPos_ : Int)).toNat + itb.aperature_)
        itb.content_.length := by
  have e1 : toSize (me.dwMousePosition.1 - (itb.xPos_ : Int)) =
      (me.dwMousePosition.1 - (itb.xPos_ : Int)).toNat := by
    unfold toSize
    simp only [SIZE_MOD] at *
    omega
  have e2 : uadd (me.dwMousePosition.1 - (itb.xPos_ : Int)).toNat itb.aperature_ =
      (me.dwMousePosition.1 - (itb.xPos_ : Int)).toNat + itb.aperature_ := by
    apply uadd_lt
    simp only [SIZE_MOD] at *
    omega
  show (if uadd (toSize (me.dwMousePosition.1 - (itb.xPos_ : Int))) itb.aperature_ <
      itb.content_.length then
        uadd (toSize (me.dwMousePosition.1 - (itb.xPos_ : Int))) itb.aperature_
      else itb.content_.length) = _
  rw [e1, e2]
  split <;> omega

/-- C17, amended. On a well-formed registry, for an input box whose aperture is not beyond
its cursor, a left-button press at `(X, Y)` that passes the test of that box and is not
to the left of its origin returns and stores the box hit, with content, length and
aperture unchanged and `cursorPos_ = min(X - xPos_ + aperature_, len(content))`.  The
stored box satisfies `aperature_ <= cursorPos_ <= len(content)` and
`cursorPos_ - aperature_ <= X - xPos_`; so `cursorPos_ - aperature_ < length_` holds when
`X - xPos_ < length_`. -/
theorem click_viewport (env : Env) (me : Mouse) (w : World) (hb : Base w.frame.controls_)
    (id : String) (itb : InputTextBox)
    (hget : getInputTextBox w.frame id = some itb)
    (hsel : (id = "folderInput" ∧ hitFolder me = true) ∨
      (id = "filterInput" ∧ hitFilter me = true))
    (hflags : me.dwEventFlags = 0) (hl : me.LeftPressed = true)
    (hx : (itb.xPos_ : Int) ≤ me.dwMousePosition.1)
    (hap : itb.aperature_ ≤ itb.cursorPos_)
    (hn : itb.content_.length + 185 < SIZE_MOD) :
    ∃ w' itb', FileView.ProcessMouseEvent env me w = Outcome.ok w' ∧
      getInputTextBox w'.frame id = some itb' ∧ itb'.controlHit_ = true ∧
      itb'.content_ = itb.content_ ∧ itb'.length_ = itb.length_ ∧
      itb'.aperature_ = itb.aperature_ ∧
      itb'.cursorPos_ =
        min ((me.dwMousePosition.1 - (itb.xPos_ : Int)).toNat + itb.aperature_)
          itb.content_.length ∧
      itb'.aperature_ ≤ itb'.cursorPos_ ∧ itb'.cursorPos_ ≤ itb'.content_.length ∧
      itb'.cursorPos_ - itb'.aperature_ ≤ (me.dwMousePosition.1 - (itb.xPos_ : Int)).toNat ∧
      ((me.dwMousePosition.1 - (itb.xPos_ : Int)).toNat < itb'.length_ →
        itb'.cursorPos_ - itb'.aperature_ < itb'.length_) := by
  have hid : id = "folderInput" ∨ id = "filterInput" := hsel.imp (fun h => h.1) (fun h => h.1)
  obtain ⟨_, hc, _⟩ := hb.input_id hid hget
  have hx2 : me.dwMousePosition.1 ≤ 185 := by
    rcases hsel with h | h
    · exact ((hitFolder_iff me).1 h.2).2.1
    · exact ((hitFilter_iff me).1 h.2).2.1
  have ha : itb.aperature_ + 185 < SIZE_MOD := by
    simp only [SIZE_MOD] at *
    omega
  have hcur := clickInput_cursor me (setHit itb true) w.frame hx hx2 ha
  have hsp := clickInput_spec me (setHit itb true) w.frame
  have key : ∃ w', FileView.ProcessMouseEvent env me w = Outcome.ok w' ∧
      getInputTextBox w'.frame id = some (clickInput me (setHit itb true) w.frame).1 := by
    rcases hsel with ⟨e, h⟩ | ⟨e, h⟩
    · subst e
      obtain ⟨g, hg, _, _⟩ := Base.getInput hb "filterInput" (Or.inr rfl)
      obtain ⟨w', h1, h2, _⟩ := click_folder_stored env me w hb itb g hget hg hflags hl h
      exact ⟨w', h1, h2⟩
    · subst e
      obtain ⟨f, hf, _, _⟩ := Base.getInput hb "folderInput" (Or.inl rfl)
      obtain ⟨w', h1, h2, _⟩ := click_filter_stored env me w hb f itb hf hget hflags hl h
      exact ⟨w', h1, h2⟩
  obtain ⟨w', h1, h2⟩ := key
  have e3 : (clickInput me (setHit itb true) w.frame).1.content_ = itb.content_ := hsp.2.2.1
  have e4 : (clickInput me (setHit itb true) w.frame).1.aperature_ = itb.aperature_ :=
    hsp.2.2.2.1
  have e5 : (clickInput me (setHit itb true) w.frame).1.length_ = itb.length_ :=
    hsp.2.2.2.2.1
  have hcur2 : (clickInput me (setHit itb true) w.frame).1.cursorPos_ =
      min ((me.dwMousePosition.1 - (itb.xPos_ : Int)).toNat + itb.aperature_)
        itb.content_.length := hcur
  refine ⟨w', _, h1, h2, hsp.2.1, e3, e5, e4, hcur2, ?_, ?_, ?_, ?_⟩
  · rw [e4, hcur2]; omega
  · rw [e3, hcur2]; omega
  · rw [e4, hcur2]; omega
  · rw [e4, e5, hcur2]; omega

/-- C17 amended, at a concrete state: a left-button press at (60, 8) when the filter input
(origin (10, 8), width 50) holds the sixty characters of `longFilter`. -/
theorem click_viewport_witness :
    ∃ w' itb', FileView.ProcessMouseEvent exampleEnv (leftPress 60 8) longStarted =
        Outcome.ok w' ∧
      getInputTextBox w'.frame "filterInput" = some itb' ∧ itb'.controlHit_ = true ∧
      itb'.content_ = longFilter ∧ itb'.length_ = 50 ∧ itb'.aperature_ = 0 ∧
      itb'.cursorPos_ = min ((60 - 10 : Int).toNat + 0) longFilter.length ∧
      itb'.aperature_ ≤ itb'.cursorPos_ ∧ itb'.cursorPos_ ≤ itb'.content_.length ∧
      itb'.cursorPos_ - itb'.aperature_ ≤ (60 - 10 : Int).toNat ∧
      ((60 - 10 : Int).toNat < itb'.length_ →
        itb'.cursorPos_ - itb'.aperature_ < itb'.length_) :=
  click_viewport exampleEnv (leftPress 60 8) longStarted longStarted_base "filterInput"
    (InputTextBox.new "filterInput" (10, 8) 50 longFilter ForegroundColour.BLACK
      BackgroundColour.WHITE)
    (by rfl) (Or.inr ⟨rfl, by decide⟩) rfl rfl (by decide) (by decide) (by decide)

/-- C17 as stated fails: the program is started with the sixty characters of `longFilter`
as filter; the filter input (origin (10, 8), length 50) is stored with cursor 0 and
aperture 0, which satisfies the invariants.  A left-button press at (60, 8), which lies
in `[10, 10 + 50]` and passes the test of the filter input, returns and stores the box
with aperture 0 and cursor 50: `cursorPos_ - aperature_ < length_` does not hold. -/
theorem click_invariant_counterexample :
    (∃ g, getInputTextBox longStarted.frame "filterInput" = some g ∧
      g.xPos_ = 10 ∧ g.yPos_ = 8 ∧ g.length_ = 50 ∧ g.content_.length = 60 ∧
      g.aperature_ ≤ g.cursorPos_ ∧ g.cursorPos_ ≤ g.content_.length ∧
      g.cursorPos_ - g.aperature_ < g.length_) ∧
    hitFilter (leftPress 60 8) = true ∧
    ∃ w' g', FileView.ProcessMouseEvent exampleEnv (leftPress 60 8) longStarted =
        Outcome.ok w' ∧
      getInputTextBox w'.frame "filterInput" = some g' ∧ g'.controlHit_ = true ∧
      g'.length_ = 50 ∧ g'.aperature_ = 0 ∧ g'.cursorPos_ = 50 ∧
      ¬ (g'.cursorPos_ - g'.aperature_ < g'.length_) := by
  refine ⟨⟨_, by rfl, by rfl, by rfl, by rfl, by rfl, by decide, by decide, by decide⟩,
    by decide, _, _, by rfl, by rfl, by rfl, by rfl, by rfl, by rfl, by decide⟩

/-! ## The check box -/

/-- A left-button press on the check box of a well-formed registry whose filter text
compiles, the controller being the only observer: the toggled box is stored, `Update`
runs once (`UpdateModel`, then `UpdateView`), and the event returns the state `Update`
left, in which the toggled box is still stored. -/
theorem click_check_ok (env : Env) (me : Mouse) (w : World) (hb : Base w.frame.controls_)
    (cb : Checkbox) (g : InputTextBox)
    (hcb : getCheckbox w.frame "recursiveCheck" = some cb)
    (hg : getInputTextBox w.frame "filterInput" = some g)
    (hre : env.regexCompiles g.content_ = true)
    (hobs : w.observers_ = [IObserver.controller])
    (hflags : me.dwEventFlags = 0) (hl : me.LeftPressed = true)
    (h : hitCheck me = true) :
    ∃ wm w',
      getCheckbox ((toggleBox cb).UpdateCheckState
        (Control.Update (toggleBox cb).toControl w.frame)) "recursiveCheck" =
          some (toggleBox cb) ∧
      FileController.UpdateModel env (World.mk ((toggleBox cb).UpdateCheckState
        (Control.Update (toggleBox cb).toControl w.frame)) w.model_ w.observers_) =
          Outcome.ok wm ∧
      FileController.UpdateView env wm = Outcome.ok w' ∧
      Notify env (World.mk ((toggleBox cb).UpdateCheckState
        (Control.Update (toggleBox cb).toControl w.frame)) w.model_ w.observers_) =
          Outcome.ok w' ∧
      FileView.ProcessMouseEvent env me w = Outcome.ok w' ∧
      Base w'.frame.controls_ ∧ w'.observers_ = w.observers_ ∧
      getInputTextBox w'.frame "filterInput" = some g ∧
      getCheckbox w'.frame "recursiveCheck" = some (toggleBox cb) ∧
      w'.model_.recursion_ = (toggleBox cb).state_ := by
  obtain ⟨cb0, hcb0, hcid0, _⟩ := Base.getCheckbox hb
  have ecb : cb0 = cb := by
    rw [hcb] at hcb0
    injection hcb0 with e
    exact e.symm
  subst ecb
  obtain ⟨f, hf, _, _⟩ := Base.getInput hb "folderInput" (Or.inl rfl)
  have hb1 : Base (World.mk ((toggleBox cb0).UpdateCheckState
      (Control.Update (toggleBox cb0).toControl w.frame)) w.model_ w.observers_).frame.controls_ :=
    Base.update_checkbox (toggleBox cb0) hcid0 rfl hb
  have e1 : ∀ id, id ≠ "recursiveCheck" →
      getInputTextBox ((toggleBox cb0).UpdateCheckState
        (Control.Update (toggleBox cb0).toControl w.frame)) id = getInputTextBox w.frame id := by
    intro id hid
    have e0 : getInputTextBox ((toggleBox cb0).UpdateCheckState
        (Control.Update (toggleBox cb0).toControl w.frame)) id =
        getInputTextBox (Control.Update (toggleBox cb0).toControl w.frame) id :=
      getInputTextBox_congr rfl id
    rw [e0]
    exact getInputTextBox_update_ne _ _ _ (by
      show cb0.controlID_ ≠ id
      rw [hcid0]
      exact fun h => hid h.symm)
  have hcb1 : getCheckbox ((toggleBox cb0).UpdateCheckState
      (Control.Update (toggleBox cb0).toControl w.frame)) "recursiveCheck" =
      some (toggleBox cb0) := by
    have e0 : getCheckbox ((toggleBox cb0).UpdateCheckState
        (Control.Update (toggleBox cb0).toControl w.frame)) "recursiveCheck" =
        getCheckbox (Control.Update (toggleBox cb0).toControl w.frame) "recursiveCheck" :=
      getCheckbox_congr rfl _
    rw [e0]
    exact getCheckbox_update_same (toggleBox cb0) w.frame _ hcid0 hb.recursiveCheck
  obtain ⟨fr2, hu, hb2, _, hg2, hcb2⟩ := Update_ok_spec env _ hb1 (toggleBox cb0) f g hcb1
    ((e1 _ (by decide)).trans hf) ((e1 _ (by decide)).trans hg) hre
  obtain ⟨wm, hum, huv⟩ := Update_ok_split env _ _ hu
  have hnot := Notify_single env (World.mk ((toggleBox cb0).UpdateCheckState
      (Control.Update (toggleBox cb0).toControl w.frame)) w.model_ w.observers_) _ hobs hu
  refine ⟨wm, _, hcb1, hum, huv, hnot, ?_, hb2, rfl, hg2, hcb2, ?_⟩
  · rw [click_check_eq env me w cb0 f g hcb hf hg hflags hl h]
    exact hnot
  · exact (Scan_fields env _ _ _ _).2.2.1

/-- C18. Check box toggle: on a well-formed registry whose filter text compiles, with the
controller as the only observer, a left-button press at (20, 10) stores the check box
with its state flipped and the content `X` exactly when the new state is true (a blank
otherwise), then runs the controller's `UpdateModel` and `UpdateView` once each, in that
order, and returns; the check box stored afterwards is that flipped box and the model's
recursive flag is the new state.  A second such press returns and stores the original
state again. -/
theorem checkbox_toggle (env : Env) (me : Mouse) (w : World) (hb : Base w.frame.controls_)
    (cb : Checkbox) (g : InputTextBox)
    (hcb : getCheckbox w.frame "recursiveCheck" = some cb)
    (hg : getInputTextBox w.frame "filterInput" = some g)
    (hre : env.regexCompiles g.content_ = true)
    (hobs : w.observers_ = [IObserver.controller])
    (hflags : me.dwEventFlags = 0) (hl : me.LeftPressed = true)
    (hx : me.dwMousePosition.1 = 20) (hy : me.dwMousePosition.2 = 10) :
    ∃ wm w' cb' w'' cb'',
      getCheckbox (Control.Update (toggleBox cb).toControl w.frame) "recursiveCheck" =
        some (toggleBox cb) ∧
      FileController.UpdateModel env (World.mk ((toggleBox cb).UpdateCheckState
        (Control.Update (toggleBox cb).toControl w.frame)) w.model_ w.observers_) =
          Outcome.ok wm ∧
      FileController.UpdateView env wm = Outcome.ok w' ∧
      FileView.ProcessMouseEvent env me w = Outcome.ok w' ∧
      getCheckbox w'.frame "recursiveCheck" = some cb' ∧
      cb'.state_ = (!cb.state_) ∧
      cb'.content_ = (if cb'.state_ then ['X'] else [' ']) ∧
      w'.model_.recursion_ = (!cb.state_) ∧
      FileView.ProcessMouseEvent env me w' = Outcome.ok w'' ∧
      getCheckbox w''.frame "recursiveCheck" = some cb'' ∧
      cb''.state_ = cb.state_ ∧
      cb''.content_ = (if cb.state_ then ['X'] else [' ']) := by
  have h : hitCheck me = true := by
    simp [hitCheck, hx, hy]
  obtain ⟨wm, w', h1, h2, h3, _, h5, hb', hobs', hg', hcb', hrec⟩ :=
    click_check_ok env me w hb cb g hcb hg hre hobs hflags hl h
  obtain ⟨_, w'', _, _, _, _, k5, _, _, _, kcb, _⟩ :=
    click_check_ok env me w' hb' (toggleBox cb) g hcb' hg' hre (hobs'.trans hobs) hflags hl h
  refine ⟨wm, w', toggleBox cb, w'', toggleBox (toggleBox cb), ?_, h2, h3, h5, hcb', rfl, rfl,
    hrec, k5, kcb, ?_, ?_⟩
  · have e0 : getCheckbox ((toggleBox cb).UpdateCheckState
        (Control.Update (toggleBox cb).toControl w.frame)) "recursiveCheck" =
        getCheckbox (Control.Update (toggleBox cb).toControl w.frame) "recursiveCheck" :=
      getCheckbox_congr rfl _
    exact e0.symm.trans h1
  · simp [toggleBox]
  · simp [toggleBox]

/-- C18, at a concrete state: the check box of the started example (state false) is
pressed. -/
theorem checkbox_toggle_witness :
    ∃ wm w' cb' w'' cb'',
      getCheckbox (Control.Update (toggleBox (Checkbox.new "recursiveCheck" (20, 10) 2
        ForegroundColour.BLACK BackgroundColour.WHITE false [' '])).toControl
        exampleStarted.frame) "recursiveCheck" =
        some (toggleBox (Checkbox.new "recursiveCheck" (20, 10) 2
          ForegroundColour.BLACK BackgroundColour.WHITE false [' '])) ∧
      FileController.UpdateModel exampleEnv (World.mk
        ((toggleBox (Checkbox.new "recursiveCheck" (20, 10) 2
          ForegroundColour.BLACK BackgroundColour.WHITE false [' '])).UpdateCheckState
        (Control.Update (toggleBox (Checkbox.new "recursiveCheck" (20, 10) 2
          ForegroundColour.BLACK BackgroundColour.WHITE false [' '])).toControl
          exampleStarted.frame)) exampleStarted.model_ exampleStarted.observers_) =
          Outcome.ok wm ∧
      FileController.UpdateView exampleEnv wm = Outcome.ok w' ∧
      FileView.ProcessMouseEvent exampleEnv (leftPress 20 10) exampleStarted = Outcome.ok w' ∧
      getCheckbox w'.frame "recursiveCheck" = some cb' ∧
      cb'.state_ = (!false) ∧
      cb'.content_ = (if cb'.state_ then ['X'] else [' ']) ∧
      w'.model_.recursion_ = (!false) ∧
      FileView.ProcessMouseEvent exampleEnv (leftPress 20 10) w' = Outcome.ok w'' ∧
      getCheckbox w''.frame "recursiveCheck" = some cb'' ∧
      cb''.state_ = false ∧
      cb''.content_ = (if false then ['X'] else [' ']) :=
  checkbox_toggle exampleEnv (leftPress 20 10) exampleStarted exampleStarted_base
    (Checkbox.new "recursiveCheck" (20, 10) 2 ForegroundColour.BLACK BackgroundColour.WHITE
      false [' '])
    (InputTextBox.new "filterInput" (10, 8) 50 ".*".toList ForegroundColour.BLACK
      BackgroundColour.WHITE)
    (by rfl) (by rfl) (by decide) (by rfl) rfl rfl rfl rfl

/-! ## Routing of key events -/

theorem ProcessKeyEvent_unfocused (env : Env) (ke : Keyboard) (w : World)
    (f g : InputTextBox) (hdown : ke.bKeyDown = true)
    (hf : getInputTextBox w.frame "folderInput" = some f)
    (hg : getInputTextBox w.frame "filterInput" = some g)
    (hfh : f.controlHit_ = false) (hgh : g.controlHit_ = false) :
    FileView.ProcessKeyEvent env ke w =
      if ke.wVirtualKeyCode = VK_PRIOR ∨ ke.wVirtualKeyCode = VK_OEM_PLUS ∨
          ke.wVirtualKeyCode = VK_UP then scrollUp w
      else if ke.wVirtualKeyCode = VK_NEXT ∨ ke.wVirtualKeyCode = VK_OEM_MINUS ∨
          ke.wVirtualKeyCode = VK_DOWN then scrollDown w
      else Outcome.ok w := by
  unfold FileView.ProcessKeyEvent
  simp only [hdown, hf, hg, hfh, hgh, if_true, Bool.false_eq_true, if_false]

theorem scrollUp_eq (w : World) (p : Nat) (hp : w.model_.fPos_ = some p) :
    scrollUp w = Outcome.ok (scrollRepaint (if p > 0 then udec p else p) w) := by
  unfold scrollUp
  rw [hp]

theorem scrollDown_eq (w : World) (p : Nat) (hp : w.model_.fPos_ = some p) :
    scrollDown w =
      Outcome.ok (scrollRepaint
        (if uadd p 28 < w.model_.files_.length then uinc p else p) w) := by
  unfold scrollDown
  rw [hp]

/-- C19. Keyboard routing.  A key-down event is handled for the input box that is hit:
unless the key is Enter, the event returns (box of width at least one, cursor inside
the content), stores that box only, every other registry entry staying as it was, and
leaves the model, hence the offset `fPos_`, unchanged.  When neither input box is hit,
every key-down event returns and leaves the registry unchanged; Up and Page Up decrease
`fPos_` by exactly one unless it is 0, Down and Page Down increase it by exactly one
unless `fPos_ + 28 >= size` of the file list, and the file list is unchanged. -/
theorem keyboard_routing (env : Env) (ke : Keyboard) (w : World)
    (hdown : ke.bKeyDown = true) :
    (∀ id itb, FocusedInput w id itb →
      FileView.ProcessKeyEvent env ke w = focusedKey env ke itb w ∧
      (ke.wVirtualKeyCode ≠ VK_RETURN → 1 ≤ itb.length_ →
        itb.cursorPos_ ≤ itb.content_.length → itb.content_.length + 2 < SIZE_MOD →
        itb.aperature_ < SIZE_MOD →
        ∃ w' itb', FileView.ProcessKeyEvent env ke w = Outcome.ok w' ∧
          getInputTextBox w'.frame id = some itb' ∧
          w'.model_ = w.model_ ∧ w'.model_.fPos_ = w.model_.fPos_ ∧
          ∀ id', id' ≠ id → find w'.frame.controls_ id' = find w.frame.controls_ id')) ∧
    (∀ f g p, getInputTextBox w.frame "folderInput" = some f →
      getInputTextBox w.frame "filterInput" = some g →
      f.controlHit_ = false → g.controlHit_ = false →
      w.model_.fPos_ = some p → p + 28 < SIZE_MOD →
      ∃ w', FileView.ProcessKeyEvent env ke w = Outcome.ok w' ∧
        w'.frame.controls_ = w.frame.controls_ ∧
        w'.model_.files_ = w.model_.files_ ∧
        (ke.wVirtualKeyCode = VK_UP ∨ ke.wVirtualKeyCode = VK_PRIOR →
          w'.model_.fPos_ = some (if p = 0 then 0 else p - 1)) ∧
        (ke.wVirtualKeyCode = VK_DOWN ∨ ke.wVirtualKeyCode = VK_NEXT →
          w'.model_.fPos_ =
            some (if p + 28 ≥ w.model_.files_.length then p else p + 1))) := by
  constructor
  · intro id itb hfi
    refine ⟨ProcessKeyEvent_focused env ke w id itb hfi hdown, ?_⟩
    intro hkey hW hc hn ha
    obtain ⟨w', itb', h1, h2, h3, _, _, h6, h7, _⟩ :=
      focused_key_trace env ke w id itb hfi hdown hkey hW hc hn ha
    refine ⟨w', itb', h1, h2, h7, by rw [h7], ?_⟩
    intro id' hne
    rw [h6, find_updateLoop, if_neg]
    show itb'.controlID_ ≠ id'
    rw [h3.2.2.2.2, hfi.2.2.1]
    exact fun h => hne h.symm
  · intro f g p hf hg hfh hgh hp hlt
    have e := ProcessKeyEvent_unfocused env ke w f g hdown hf hg hfh hgh
    have hup : (if p > 0 then udec p else p) = (if p = 0 then 0 else p - 1) := by
      by_cases h0 : p = 0
      · simp [h0]
      · rw [if_pos (Nat.pos_of_ne_zero h0), if_neg h0]
        apply udec_pos (Nat.pos_of_ne_zero h0)
        simp only [SIZE_MOD] at *
        omega
    have hdn : (if uadd p 28 < w.model_.files_.length then uinc p else p) =
        (if p + 28 ≥ w.model_.files_.length then p else p + 1) := by
      rw [uadd_lt hlt]
      by_cases h0 : p + 28 < w.model_.files_.length
      · rw [if_pos h0, if_neg (by omega)]
        apply uinc_lt
        simp only [SIZE_MOD] at *
        omega
      · rw [if_neg h0, if_pos (by omega)]
    by_cases h1 : ke.wVirtualKeyCode = VK_PRIOR ∨ ke.wVirtualKeyCode = VK_OEM_PLUS ∨
        ke.wVirtualKeyCode = VK_UP
    · rw [if_pos h1, scrollUp_eq w p hp] at e
      refine ⟨_, e, scrollRepaint_controls _ w, rfl, ?_, ?_⟩
      · intro _
        show some (if p > 0 then udec p else p) = _
        rw [hup]
      · intro h2
        exfalso
        simp only [VK_PRIOR, VK_OEM_PLUS, VK_UP, VK_DOWN, VK_NEXT] at h1 h2
        omega
    · rw [if_neg h1] at e
      by_cases h2 : ke.wVirtualKeyCode = VK_NEXT ∨ ke.wVirtualKeyCode = VK_OEM_MINUS ∨
          ke.wVirtualKeyCode = VK_DOWN
      · rw [if_pos h2, scrollDown_eq w p hp] at e
        refine ⟨_, e, scrollRepaint_controls _ w, rfl, ?_, ?_⟩
        · intro h3
          exfalso
          simp only [VK_PRIOR, VK_OEM_PLUS, VK_UP, VK_DOWN, VK_NEXT, VK_OEM_MINUS] at h1 h3
          omega
        · intro _
          show some (if uadd p 28 < w.model_.files_.length then uinc p else p) = _
          rw [hdn]
      · rw [if_neg h2] at e
        refine ⟨w, e, rfl, rfl, ?_, ?_⟩
        · intro h3
          exfalso
          simp only [VK_PRIOR, VK_OEM_PLUS, VK_UP] at h1 h3
          omega
        · intro h3
          exfalso
          simp only [VK_NEXT, VK_OEM_MINUS, VK_DOWN] at h2 h3
          omega

/-- C19, at concrete states: the down arrow in Scenario D (fifty files, offset 0) with the
folder input hit, and with no input box hit. -/
theorem keyboard_routing_witness :
    (∃ w' itb',
        FileView.ProcessKeyEvent fiftyEnv (keyDown VK_DOWN (Char.ofNat 0)) fiftyFocused =
          Outcome.ok w' ∧
        getInputTextBox w'.frame "folderInput" = some itb' ∧
        w'.model_ = fiftyFocused.model_ ∧ w'.model_.fPos_ = fiftyFocused.model_.fPos_ ∧
        ∀ id', id' ≠ "folderInput" →
          find w'.frame.controls_ id' = find fiftyFocused.frame.controls_ id') ∧
    (∃ w',
        FileView.ProcessKeyEvent fiftyEnv (keyDown VK_DOWN (Char.ofNat 0)) scenarioD =
          Outcome.ok w' ∧
        w'.frame.controls_ = scenarioD.frame.controls_ ∧
        w'.model_.files_ = scenarioD.model_.files_ ∧
        ((keyDown VK_DOWN (Char.ofNat 0)).wVirtualKeyCode = VK_UP ∨
            (keyDown VK_DOWN (Char.ofNat 0)).wVirtualKeyCode = VK_PRIOR →
          w'.model_.fPos_ = some (if 0 = 0 then 0 else 0 - 1)) ∧
        ((keyDown VK_DOWN (Char.ofNat 0)).wVirtualKeyCode = VK_DOWN ∨
            (keyDown VK_DOWN (Char.ofNat 0)).wVirtualKeyCode = VK_NEXT →
          w'.model_.fPos_ =
            some (if 0 + 28 ≥ scenarioD.model_.files_.length then 0 else 0 + 1))) :=
  ⟨((keyboard_routing fiftyEnv (keyDown VK_DOWN (Char.ofNat 0)) fiftyFocused rfl).1
      "folderInput" exampleFolderBox fiftyFocused_focused).2 (by decide) (by decide)
      (by decide) (by decide) (by decide),
   (keyboard_routing fiftyEnv (keyDown VK_DOWN (Char.ofNat 0)) scenarioD rfl).2
      (InputTextBox.new "folderInput" (10, 6) 100 "C:/src".toList ForegroundColour.BLACK
        BackgroundColour.WHITE)
      (InputTextBox.new "filterInput" (10, 8) 50 ".*".toList ForegroundColour.BLACK
        BackgroundColour.WHITE)
      0 (by rfl) (by rfl) rfl rfl (by rfl) (by decide)⟩

/-! ## Consistency after `Notify` -/

/-- C20. Sync consistency: on a well-formed registry whose filter text compiles, with the
controller as the only observer, `Notify` returns; afterwards the content of the folder
input, the content of the filter input and the state of the check box are equal to the
model's folder, filter and recursive flag, they are the values those controls held
before `Notify`, and the offset `fPos_` of the file list is 0. -/
theorem sync_consistency (env : Env) (w : World) (hb : Base w.frame.controls_)
    (cb : Checkbox) (f g : InputTextBox)
    (hcb : getCheckbox w.frame "recursiveCheck" = some cb)
    (hf : getInputTextBox w.frame "folderInput" = some f)
    (hg : getInputTextBox w.frame "filterInput" = some g)
    (hre : env.regexCompiles g.content_ = true)
    (hobs : w.observers_ = [IObserver.controller]) :
    ∃ w' cb' f' g', Notify env w = Outcome.ok w' ∧
      getCheckbox w'.frame "recursiveCheck" = some cb' ∧
      getInputTextBox w'.frame "folderInput" = some f' ∧
      getInputTextBox w'.frame "filterInput" = some g' ∧
      f'.content_ = w'.model_.folder_ ∧ g'.content_ = w'.model_.regex_ ∧
      cb'.state_ = w'.model_.recursion_ ∧
      f'.content_ = f.content_ ∧ g'.content_ = g.content_ ∧ cb'.state_ = cb.state_ ∧
      w'.model_.fPos_ = some 0 := by
  obtain ⟨fr2, hu, _, hf2, hg2, hcb2⟩ := Update_ok_spec env w hb cb f g hcb hf hg hre
  have hs := Scan_fields env (FileModel.new f.content_ g.content_ cb.state_) f.content_
    g.content_ cb.state_
  refine ⟨_, _, f, g, Notify_single env w _ hobs hu, hcb2, hf2, hg2, ?_, ?_, ?_, rfl, rfl, rfl,
    rfl⟩
  · exact hs.1.symm
  · exact hs.2.1.symm
  · exact hs.2.2.1.symm

/-- C20, at a concrete state: `Notify` in the example layout with the folder input hit. -/
theorem sync_consistency_witness :
    ∃ w' cb' f' g', Notify exampleEnv exampleFocused = Outcome.ok w' ∧
      getCheckbox w'.frame "recursiveCheck" = some cb' ∧
      getInputTextBox w'.frame "folderInput" = some f' ∧
      getInputTextBox w'.frame "filterInput" = some g' ∧
      f'.content_ = w'.model_.folder_ ∧ g'.content_ = w'.model_.regex_ ∧
      cb'.state_ = w'.model_.recursion_ ∧
      f'.content_ = "C:/src".toList ∧ g'.content_ = ".*".toList ∧ cb'.state_ = false ∧
      w'.model_.fPos_ = some 0 :=
  sync_consistency exampleEnv exampleFocused exampleFocused_base
    (Checkbox.new "recursiveCheck" (20, 10) 2 ForegroundColour.BLACK BackgroundColour.WHITE
      false [' '])
    exampleFolderBox
    (InputTextBox.new "filterInput" (10, 8) 50 ".*".toList ForegroundColour.BLACK
      BackgroundColour.WHITE)
    (by rfl) (by rfl) (by rfl) (by decide) (by rfl)

/-! ## Insertion into and replacement in the registry -/

theorem mapInsert_present (controls : List (String × Control)) (id : String)
    (control c : Control) (h : find controls id = some c) :
    mapInsert controls id control = controls := by
  unfold mapInsert
  rw [h]

/-- C21, amended. `AddControlToConsole` has no failure for an id that is already a key of
the registry: for every frame and every check box, text box, input box or file viewer
whose id is already a key, the call returns; it has issued its console call (`Draw`, or
`Fill` for a file viewer) and it leaves the registry exactly as it was, the entry
already stored under that id included. -/
theorem duplicate_insert_ignored (fr : Framework) (control : Widget) (c : Control)
    (h : find fr.controls_ control.toControl.controlID_ = some c)
    (hk : ∀ l, control ≠ Widget.label l) :
    ∃ call, fr.AddControlToConsole control =
        Outcome.ok ⟨fr.controls_, fr.console_ ++ [call]⟩ ∧
      find fr.controls_ control.toControl.controlID_ = some c := by
  cases control with
  | label l => exact absurd rfl (hk l)
  | checkbox b =>
    refine ⟨ConsoleCall.Draw b.xPos_ b.yPos_ b.length_ b.foreground_ b.background_, ?_, h⟩
    simp only [Framework.AddControlToConsole, Widget.toControl, Checkbox.toControl]
    rw [mapInsert_present fr.controls_ b.controlID_ _ c h]
  | textBox t =>
    refine ⟨ConsoleCall.Draw t.xPos_ t.yPos_ t.length_ t.foreground_ t.background_, ?_, h⟩
    simp only [Framework.AddControlToConsole, Widget.toControl, TextBox.toControl]
    rw [mapInsert_present fr.controls_ t.controlID_ _ c h]
  | inputTextBox i =>
    refine ⟨ConsoleCall.Draw i.xPos_ i.yPos_ i.length_ i.foreground_ i.background_, ?_, h⟩
    simp only [Framework.AddControlToConsole, Widget.toControl, InputTextBox.toControl]
    rw [mapInsert_present fr.controls_ i.controlID_ _ c h]
  | fileViewer f =>
    refine ⟨ConsoleCall.Fill f.xPos_ f.height_ f.foreground_ f.background_, ?_, h⟩
    simp only [Framework.AddControlToConsole, Widget.toControl, FileViewer.toControl,
      FileViewer.ofControl]
    rw [mapInsert_present fr.controls_ f.controlID_ _ c h]

/-- C21 amended, at a concrete state: an input box with the id `folderInput` and the
content `other` is added to the frame of the example layout. -/
theorem duplicate_insert_ignored_witness :
    ∃ call, exampleLayout.AddControlToConsole
        (Widget.inputTextBox (InputTextBox.new "folderInput" (10, 6) 100 "other".toList
          ForegroundColour.BLACK BackgroundColour.WHITE)) =
        Outcome.ok ⟨exampleLayout.controls_, exampleLayout.console_ ++ [call]⟩ ∧
      find exampleLayout.controls_ (Widget.inputTextBox (InputTextBox.new "folderInput"
        (10, 6) 100 "other".toList ForegroundColour.BLACK
        BackgroundColour.WHITE)).toControl.controlID_ =
        some (InputTextBox.new "folderInput" (10, 6) 100 "C:/src".toList
          ForegroundColour.BLACK BackgroundColour.WHITE).toControl :=
  duplicate_insert_ignored exampleLayout _ _ (by rfl) (fun l h => by cases h)

/-- C21 as stated fails: the frame of the example layout holds the key `folderInput`;
adding an input box with that id and the content `other` returns, no exception is
thrown, a `Draw` call has been issued, and the registry still holds under `folderInput`
the box with the content `C:/src`. -/
theorem duplicate_insert_counterexample :
    (∃ c, find exampleLayout.controls_ "folderInput" = some c ∧
      c.content_ = "C:/src".toList) ∧
    ∃ fr', exampleLayout.AddControlToConsole
        (Widget.inputTextBox (InputTextBox.new "folderInput" (10, 6) 100 "other".toList
          ForegroundColour.BLACK BackgroundColour.WHITE)) = Outcome.ok fr' ∧
      fr'.controls_ = exampleLayout.controls_ ∧
      fr'.console_ = exampleLayout.console_ ++
        [ConsoleCall.Draw 10 6 100 ForegroundColour.BLACK BackgroundColour.WHITE] ∧
      (∃ c, find fr'.controls_ "folderInput" = some c ∧ c.content_ = "C:/src".toList) ∧
      ∀ e w, exampleLayout.AddControlToConsole
        (Widget.inputTextBox (InputTextBox.new "folderInput" (10, 6) 100 "other".toList
          ForegroundColour.BLACK BackgroundColour.WHITE)) ≠ Outcome.thrown e w := by
  refine ⟨⟨_, by rfl, by rfl⟩, _, by rfl, by rfl, by rfl, ⟨_, by rfl, by rfl⟩, ?_⟩
  intro e w h
  have h2 : exampleLayout.AddControlToConsole
      (Widget.inputTextBox (InputTextBox.new "folderInput" (10, 6) 100 "other".toList
        ForegroundColour.BLACK BackgroundColour.WHITE)) =
      Outcome.ok ⟨exampleLayout.controls_, exampleLayout.console_ ++
        [ConsoleCall.Draw 10 6 100 ForegroundColour.BLACK BackgroundColour.WHITE]⟩ := by
    rfl
  rw [h2] at h
  cases h

theorem updateLoop_of_find_none (control : Control) :
    ∀ controls : List (String × Control), find controls control.controlID_ = none →
      updateLoop control controls = controls := by
  intro controls
  induction controls with
  | nil => intro _; rfl
  | cons kc rest ih =>
    obtain ⟨k, c⟩ := kc
    intro h
    by_cases hk : k = control.controlID_
    · simp [find, hk] at h
    · simp only [find, hk, if_false] at h
      simp only [updateLoop, hk, if_false, ih h]

theorem updateLoop_idem (control : Control) :
    ∀ controls : List (String × Control),
      updateLoop control (updateLoop control controls) = updateLoop control controls := by
  intro controls
  induction controls with
  | nil => rfl
  | cons kc rest ih =>
    obtain ⟨k, c⟩ := kc
    by_cases hk : k = control.controlID_
    · simp [updateLoop, hk]
    · simp [updateLoop, hk, ih]

/-- C22. `Control::Update` overwrites exactly one entry: for every frame and control, if
the control's id is a key, the entry found under that id afterwards is the control
itself (every member equal); the entry found under any other id is unchanged; the keys
are the same, in the same order; if the id is not a key the frame is unchanged; no
console call is made; and updating twice equals updating once. -/
theorem replace_overwrites_one_entry (control : Control) (fr : Framework) :
    (∀ c, find fr.controls_ control.controlID_ = some c →
      find (Control.Update control fr).controls_ control.controlID_ = some control) ∧
    (∀ id, id ≠ control.controlID_ →
      find (Control.Update control fr).controls_ id = find fr.controls_ id) ∧
    (Control.Update control fr).controls_.map Prod.fst = fr.controls_.map Prod.fst ∧
    (find fr.controls_ control.controlID_ = none → Control.Update control fr = fr) ∧
    (Control.Update control fr).console_ = fr.console_ ∧
    Control.Update control (Control.Update control fr) = Control.Update control fr := by
  refine ⟨?_, ?_, updateLoop_keys control fr.controls_, ?_, rfl, ?_⟩
  · intro c h
    show find (updateLoop control fr.controls_) control.controlID_ = some control
    rw [find_updateLoop, if_pos rfl, h]
    rfl
  · intro id h
    show find (updateLoop control fr.controls_) id = _
    rw [find_updateLoop, if_neg (fun e => h e.symm)]
  · intro h
    show Framework.mk (updateLoop control fr.controls_) fr.console_ = fr
    rw [updateLoop_of_find_none control _ h]
  · show Framework.mk (updateLoop control (updateLoop control fr.controls_)) fr.console_ =
      Framework.mk (updateLoop control fr.controls_) fr.console_
    rw [updateLoop_idem]

/-- C22, at a concrete state: the folder input with the content `other` is stored in the
frame of the example layout. -/
theorem replace_overwrites_one_entry_witness :
    find (Control.Update (InputTextBox.new "folderInput" (10, 6) 100 "other".toList
      ForegroundColour.BLACK BackgroundColour.WHITE).toControl exampleLayout).controls_
        "folderInput" =
      some (InputTextBox.new "folderInput" (10, 6) 100 "other".toList
        ForegroundColour.BLACK BackgroundColour.WHITE).toControl :=
  (replace_overwrites_one_entry (InputTextBox.new "folderInput" (10, 6) 100 "other".toList
    ForegroundColour.BLACK BackgroundColour.WHITE).toControl exampleLayout).1
    (InputTextBox.new "folderInput" (10, 6) 100 "C:/src".toList
      ForegroundColour.BLACK BackgroundColour.WHITE).toControl (by rfl)

/-! ## Insertion of a character -/

/-- A key that is none of the seven editing keys and whose character is not printable
changes nothing in the `switch`. -/
theorem keySwitch_other (env : Env) (ke : Keyboard) (itb : InputTextBox) (w : World)
    (hp : isprint ke.AsciiChar = false)
    (hvk : ke.wVirtualKeyCode ≠ VK_BACK ∧ ke.wVirtualKeyCode ≠ VK_DELETE ∧
      ke.wVirtualKeyCode ≠ VK_LEFT ∧ ke.wVirtualKeyCode ≠ VK_RIGHT ∧
      ke.wVirtualKeyCode ≠ VK_END ∧ ke.wVirtualKeyCode ≠ VK_HOME ∧
      ke.wVirtualKeyCode ≠ VK_RETURN) :
    keySwitch env ke itb w = Outcome.ok (itb, false, w) := by
  obtain ⟨h1, h2, h3, h4, h5, h6, h7⟩ := hvk
  unfold keySwitch
  simp only [h1, h2, h3, h4, h5, h6, h7, hp, if_false, Bool.false_eq_true]

/-- C23. Printable insert: for the focused input box (width at least one, cursor `c`
inside the content `s`) and a key-down event whose virtual key code is none of
Backspace, Delete, Left, Right, End, Home and Enter, the event returns; if the character
is printable the box stored holds `s[0:c] ++ [ch] ++ s[c:]`, one character longer, and
the cursor `c + 1`; if it is not printable the box stored holds the content and the
cursor it had. -/
theorem printable_insert (env : Env) (ke : Keyboard) (w : World) (id : String)
    (itb : InputTextBox) (hfi : FocusedInput w id itb) (hdown : ke.bKeyDown = true)
    (hvk : ke.wVirtualKeyCode ≠ VK_BACK ∧ ke.wVirtualKeyCode ≠ VK_DELETE ∧
      ke.wVirtualKeyCode ≠ VK_LEFT ∧ ke.wVirtualKeyCode ≠ VK_RIGHT ∧
      ke.wVirtualKeyCode ≠ VK_END ∧ ke.wVirtualKeyCode ≠ VK_HOME ∧
      ke.wVirtualKeyCode ≠ VK_RETURN)
    (hW : 1 ≤ itb.length_) (hc : itb.cursorPos_ ≤ itb.content_.length)
    (hn : itb.content_.length + 2 < SIZE_MOD) (ha : itb.aperature_ < SIZE_MOD) :
    (isprint ke.AsciiChar = true →
      ∃ w' itb', FileView.ProcessKeyEvent env ke w = Outcome.ok w' ∧
        getInputTextBox w'.frame id = some itb' ∧
        itb'.content_ = itb.content_.take itb.cursorPos_ ++
          ke.AsciiChar :: itb.content_.drop itb.cursorPos_ ∧
        itb'.content_.length = itb.content_.length + 1 ∧
        itb'.cursorPos_ = itb.cursorPos_ + 1) ∧
    (isprint ke.AsciiChar = false →
      ∃ w' itb', FileView.ProcessKeyEvent env ke w = Outcome.ok w' ∧
        getInputTextBox w'.frame id = some itb' ∧
        itb'.content_ = itb.content_ ∧ itb'.cursorPos_ = itb.cursorPos_) := by
  have hlt : itb.cursorPos_ + 1 < SIZE_MOD := by
    simp only [SIZE_MOD] at *
    omega
  have hlen : (itb.content_.take itb.cursorPos_ ++
      ke.AsciiChar :: itb.content_.drop itb.cursorPos_).length = itb.content_.length + 1 := by
    simp only [List.length_append, List.length_take, List.length_cons, List.length_drop]
    omega
  constructor
  · intro hp
    have hk := keySwitch_insert env ke itb w hp hvk hc
    obtain ⟨w1, itb2, h1, h2, h3, h4, _⟩ := focused_step env ke w id itb _ hfi hdown hk
      hfi.2.2.1 hfi.2.1 hW
      (by
        show uinc itb.cursorPos_ ≤ (itb.content_.take itb.cursorPos_ ++
          ke.AsciiChar :: itb.content_.drop itb.cursorPos_).length
        rw [uinc_lt hlt, hlen]
        omega)
      (by
        show (itb.content_.take itb.cursorPos_ ++
          ke.AsciiChar :: itb.content_.drop itb.cursorPos_).length + 1 < SIZE_MOD
        rw [hlen]
        simp only [SIZE_MOD] at *
        omega)
      ha
    refine ⟨w1, itb2, h1, h2.1, h3, ?_, ?_⟩
    · rw [h3]
      exact hlen
    · rw [h4]
      exact uinc_lt hlt
  · intro hp
    have hk := keySwitch_other env ke itb w hp hvk
    obtain ⟨w1, itb2, h1, h2, h3, h4, _⟩ := focused_step env ke w id itb _ hfi hdown hk
      hfi.2.2.1 hfi.2.1 hW hc
      (by
        simp only [SIZE_MOD] at *
        omega)
      ha
    exact ⟨w1, itb2, h1, h2.1, h3, h4⟩

/-- C23, at concrete states: the key `x`, and the function key F1 (no character), in the
focused folder input of the example layout (content `C:/src`, cursor 2). -/
theorem printable_insert_witness :
    (∃ w' itb',
        FileView.ProcessKeyEvent exampleEnv (keyDown 88 'x') exampleFocused = Outcome.ok w' ∧
        getInputTextBox w'.frame "folderInput" = some itb' ∧
        itb'.content_ = exampleFolderBox.content_.take exampleFolderBox.cursorPos_ ++
          'x' :: exampleFolderBox.content_.drop exampleFolderBox.cursorPos_ ∧
        itb'.content_.length = exampleFolderBox.content_.length + 1 ∧
        itb'.cursorPos_ = exampleFolderBox.cursorPos_ + 1) ∧
    (∃ w' itb',
        FileView.ProcessKeyEvent exampleEnv (keyDown 112 (Char.ofNat 0)) exampleFocused =
          Outcome.ok w' ∧
        getInputTextBox w'.frame "folderInput" = some itb' ∧
        itb'.content_ = exampleFolderBox.content_ ∧
        itb'.cursorPos_ = exampleFolderBox.cursorPos_) :=
  ⟨(printable_insert exampleEnv (keyDown 88 'x') exampleFocused "folderInput"
      exampleFolderBox exampleFocused_focused rfl (by decide) (by decide) (by decide)
      (by decide) (by decide)).1 (by decide),
   (printable_insert exampleEnv (keyDown 112 (Char.ofNat 0)) exampleFocused "folderInput"
      exampleFolderBox exampleFocused_focused rfl (by decide) (by decide) (by decide)
      (by decide) (by decide)).2 (by decide)⟩

/-! ## The viewport recomputation: fixed points, closed form, termination -/

/-- An aperture that satisfies the three invariants is a fixed point of the closed
form. -/
theorem closedFormAperture_fixed (a c n W : Nat) (h1 : a ≤ c) (h2 : c - a < W)
    (h3 : n + 1 > W → n + 1 - a ≥ W) : closedFormAperture a c n W = a := by
  unfold closedFormAperture
  simp only
  split
  · rename_i h
    have := h3 h
    omega
  · omega

/-- C24. Idempotent recomputation: for an input box of width at least one whose cursor is
inside its content, the viewport recomputation terminates, and applied to its own
result it terminates and returns that result unchanged; on a box that already satisfies
`aperature_ <= cursorPos_`, `cursorPos_ - aperature_ < length_` and
`len + 1 - aperature_ >= length_` whenever `len + 1 > length_`, it returns the box
unchanged. -/
theorem idempotent_recomputation (itb : InputTextBox) (hW : 1 ≤ itb.length_)
    (hc : itb.cursorPos_ ≤ itb.content_.length)
    (hn : itb.content_.length + 1 < SIZE_MOD) (ha : itb.aperature_ < SIZE_MOD) :
    ∃ itb1, recomputeAperture itb = some itb1 ∧ recomputeAperture itb1 = some itb1 ∧
      (itb.aperature_ ≤ itb.cursorPos_ → itb.cursorPos_ - itb.aperature_ < itb.length_ →
        (itb.content_.length + 1 > itb.length_ →
          itb.content_.length + 1 - itb.aperature_ ≥ itb.length_) →
        recomputeAperture itb = some itb) := by
  have hcf := closedFormAperture_le itb.aperature_ itb.cursorPos_ itb.content_.length
    itb.length_ hW hc
  have h1 := recomputeAperture_eq itb hW hc hn ha
  have ha1 : closedFormAperture itb.aperature_ itb.cursorPos_ itb.content_.length
      itb.length_ < SIZE_MOD := by
    have := hcf.1
    simp only [SIZE_MOD] at *
    omega
  have h2 := recomputeAperture_eq
    { itb with aperature_ := (closedFormAperture itb.aperature_ itb.cursorPos_
        itb.content_.length itb.length_) } hW hc hn ha1
  refine ⟨_, h1, ?_, ?_⟩
  · rw [h2]
    simp only
    rw [closedFormAperture_fixed _ _ _ _ hcf.1 hcf.2.1 hcf.2.2]
  · intro i1 i2 i3
    rw [h1, closedFormAperture_fixed _ _ _ _ i1 i2 i3]

/-- C24, at the field of Scenario A: content `hello`, cursor 5, aperture 0, width 3. -/
theorem idempotent_recomputation_witness :
    ∃ itb1, recomputeAperture scenarioA = some itb1 ∧ recomputeAperture itb1 = some itb1 ∧
      (scenarioA.aperature_ ≤ scenarioA.cursorPos_ →
        scenarioA.cursorPos_ - scenarioA.aperature_ < scenarioA.length_ →
        (scenarioA.content_.length + 1 > scenarioA.length_ →
          scenarioA.content_.length + 1 - scenarioA.aperature_ ≥ scenarioA.length_) →
        recomputeAperture scenarioA = some scenarioA) :=
  idempotent_recomputation scenarioA (by decide) (by decide) (by decide) (by decide)

/-- C26. Closed form of the recomputation: for an input box of width `W >= 1` with cursor
`c <= n = len(content)` and prior aperture `a`, the first loop ends with
`a1 = min(a, c)` (which is `c` when `c < a` and `a` otherwise), the second with
`a2 = max(a1, c + 1 - W)` (truncated subtraction), the third with
`a3 = min(a2, n + 1 - W)` if `n + 1 > W` and `a2` otherwise, and the recomputation
returns the box with the aperture `a3`. -/
theorem recomputation_closed_form (itb : InputTextBox) (hW : 1 ≤ itb.length_)
    (hc : itb.cursorPos_ ≤ itb.content_.length)
    (hn : itb.content_.length + 1 < SIZE_MOD) (ha : itb.aperature_ < SIZE_MOD) :
    whileLoop (fun a => decide (itb.cursorPos_ < a)) udec (itb.aperature_ + 1)
        itb.aperature_ = some (min itb.aperature_ itb.cursorPos_) ∧
    min itb.aperature_ itb.cursorPos_ =
      (if itb.cursorPos_ < itb.aperature_ then itb.cursorPos_ else itb.aperature_) ∧
    whileLoop (fun a => decide (usub itb.cursorPos_ a ≥ itb.length_)) uinc
        (usub itb.cursorPos_ (min itb.aperature_ itb.cursorPos_) + 1)
        (min itb.aperature_ itb.cursorPos_) =
      some (max (min itb.aperature_ itb.cursorPos_) (itb.cursorPos_ + 1 - itb.length_)) ∧
    whileLoop (fun a => decide (usub (uadd itb.content_.length 1) a < itb.length_) &&
          decide (uadd itb.content_.length 1 > itb.length_)) udec
        (max (min itb.aperature_ itb.cursorPos_) (itb.cursorPos_ + 1 - itb.length_) + 1)
        (max (min itb.aperature_ itb.cursorPos_) (itb.cursorPos_ + 1 - itb.length_)) =
      some (if itb.content_.length + 1 > itb.length_ then
          min (max (min itb.aperature_ itb.cursorPos_) (itb.cursorPos_ + 1 - itb.length_))
            (itb.content_.length + 1 - itb.length_)
        else max (min itb.aperature_ itb.cursorPos_) (itb.cursorPos_ + 1 - itb.length_)) ∧
    closedFormAperture itb.aperature_ itb.cursorPos_ itb.content_.length itb.length_ =
      (if itb.content_.length + 1 > itb.length_ then
          min (max (min itb.aperature_ itb.cursorPos_) (itb.cursorPos_ + 1 - itb.length_))
            (itb.content_.length + 1 - itb.length_)
        else max (min itb.aperature_ itb.cursorPos_) (itb.cursorPos_ + 1 - itb.length_)) ∧
    recomputeAperture itb = some { itb with aperature_ :=
      (closedFormAperture itb.aperature_ itb.cursorPos_ itb.content_.length itb.length_) } := by
  have hclt : itb.cursorPos_ < SIZE_MOD := by
    simp only [SIZE_MOD] at *
    omega
  have hsz : uadd itb.content_.length 1 = itb.content_.length + 1 := uadd_lt hn
  refine ⟨loop1_eq itb.cursorPos_ itb.aperature_ ha, ?_, ?_, ?_, rfl,
    recomputeAperture_eq itb hW hc hn ha⟩
  · split <;> omega
  · exact loop2_eq itb.cursorPos_ itb.length_ hW hclt
      (itb.cursorPos_ - min itb.aperature_ itb.cursorPos_)
      (min itb.aperature_ itb.cursorPos_) (by omega)
  · rw [hsz]
    exact loop3_eq (itb.content_.length + 1) itb.length_ hn _ (by omega)

/-- C26, at the field of Scenario A: content `hello`, cursor 5, aperture 0, width 3; the
aperture computed is 3. -/
theorem recomputation_closed_form_witness :
    recomputeAperture scenarioA = some { scenarioA with aperature_ :=
      (closedFormAperture scenarioA.aperature_ scenarioA.cursorPos_
        scenarioA.content_.length scenarioA.length_) } ∧
    closedFormAperture scenarioA.aperature_ scenarioA.cursorPos_
      scenarioA.content_.length scenarioA.length_ = 3 :=
  ⟨(recomputation_closed_form scenarioA (by decide) (by decide) (by decide)
      (by decide)).2.2.2.2.2, by decide⟩

/-- A loop that has ended within some fuel ends with the same state within any larger
fuel. -/
theorem whileLoop_ge {σ : Type} (cond : σ → Bool) (body : σ → σ) (fuel fuel' : Nat)
    (s r : σ) (h : whileLoop cond body fuel s = some r) (hle : fuel ≤ fuel') :
    whileLoop cond body fuel' s = some r := by
  have e : fuel' = fuel + (fuel' - fuel) := by omega
  rw [e]
  exact whileLoop_mono cond body _ fuel s r h

/-- A loop whose condition holds in every state does not end, whatever the fuel. -/
theorem whileLoop_never {σ : Type} (cond : σ → Bool) (body : σ → σ)
    (h : ∀ s, cond s = true) : ∀ (fuel : Nat) (s : σ), whileLoop cond body fuel s = none := by
  intro fuel
  induction fuel with
  | zero => intro s; rfl
  | succ n ih =>
    intro s
    rw [whileLoop_true cond body n s (h s)]
    exact ih (body s)

/-- C27. Termination of the recomputation: for an input box whose cursor is inside its
content, with any prior aperture, if the width is at least one then the first loop ends
within `aperature_` iterations, the second within `cursorPos_` iterations and the third
within `len(content)` iterations (each loop, given fuel for that many iterations and
one more test of its condition, or any larger fuel, returns its final aperture), and the
recomputation returns.  If the width is zero, the condition of the second loop, an
unsigned comparison `>= 0`, holds in every state: that loop never ends and the
recomputation does not return. -/
theorem recomputation_terminates (itb : InputTextBox)
    (hc : itb.cursorPos_ ≤ itb.content_.length)
    (hn : itb.content_.length + 1 < SIZE_MOD) (ha : itb.aperature_ < SIZE_MOD) :
    (1 ≤ itb.length_ →
      ∃ a1 a2 a3,
        (∀ fuel, itb.aperature_ + 1 ≤ fuel →
          whileLoop (fun a => decide (itb.cursorPos_ < a)) udec fuel itb.aperature_ =
            some a1) ∧
        (∀ fuel, itb.cursorPos_ + 1 ≤ fuel →
          whileLoop (fun a => decide (usub itb.cursorPos_ a ≥ itb.length_)) uinc fuel a1 =
            some a2) ∧
        (∀ fuel, itb.content_.length + 1 ≤ fuel →
          whileLoop (fun a => decide (usub (uadd itb.content_.length 1) a < itb.length_) &&
            decide (uadd itb.content_.length 1 > itb.length_)) udec fuel a2 = some a3) ∧
        recomputeAperture itb = some { itb with aperature_ := a3 }) ∧
    (itb.length_ = 0 →
      (∀ fuel s,
        whileLoop (fun a => decide (usub itb.cursorPos_ a ≥ itb.length_)) uinc fuel s =
          none) ∧
      recomputeAperture itb = none) := by
  have hclt : itb.cursorPos_ < SIZE_MOD := by
    simp only [SIZE_MOD] at *
    omega
  have hsz : uadd itb.content_.length 1 = itb.content_.length + 1 := uadd_lt hn
  have l1 := loop1_eq itb.cursorPos_ itb.aperature_ ha
  constructor
  · intro hW
    have l2 := loop2_eq itb.cursorPos_ itb.length_ hW hclt
      (itb.cursorPos_ - min itb.aperature_ itb.cursorPos_)
      (min itb.aperature_ itb.cursorPos_) (by omega)
    have l3 := loop3_eq (itb.content_.length + 1) itb.length_ hn
      (max (min itb.aperature_ itb.cursorPos_) (itb.cursorPos_ + 1 - itb.length_)) (by omega)
    have hu : usub itb.cursorPos_ (min itb.aperature_ itb.cursorPos_) =
        itb.cursorPos_ - min itb.aperature_ itb.cursorPos_ := usub_le (by omega) hclt
    refine ⟨min itb.aperature_ itb.cursorPos_,
      max (min itb.aperature_ itb.cursorPos_) (itb.cursorPos_ + 1 - itb.length_),
      closedFormAperture itb.aperature_ itb.cursorPos_ itb.content_.length itb.length_,
      ?_, ?_, ?_, recomputeAperture_eq itb hW hc hn ha⟩
    · intro fuel hf
      exact whileLoop_ge _ _ _ fuel _ _ l1 hf
    · intro fuel hf
      exact whileLoop_ge _ _ _ fuel _ _ l2 (by rw [hu]; omega)
    · intro fuel hf
      rw [hsz]
      have e : closedFormAperture itb.aperature_ itb.cursorPos_ itb.content_.length
          itb.length_ =
          (if itb.content_.length + 1 > itb.length_ then
            min (max (min itb.aperature_ itb.cursorPos_) (itb.cursorPos_ + 1 - itb.length_))
              (itb.content_.length + 1 - itb.length_)
          else max (min itb.aperature_ itb.cursorPos_) (itb.cursorPos_ + 1 - itb.length_)) :=
        rfl
      rw [e]
      exact whileLoop_ge _ _ _ fuel _ _ l3 (by omega)
  · intro h0
    have hnever : ∀ fuel s,
        whileLoop (fun a => decide (usub itb.cursorPos_ a ≥ itb.length_)) uinc fuel s =
          none :=
      whileLoop_never _ _ (fun s => by simp [h0])
    refine ⟨hnever, ?_⟩
    unfold recomputeAperture
    simp only [l1, hnever, Option.bind]

/-- C27, at concrete fields: the field of Scenario A (content `hello`, cursor 5, aperture
0, width 3), and the same field with width 0. -/
theorem recomputation_terminates_witness :
    (∃ a1 a2 a3,
        (∀ fuel, scenarioA.aperature_ + 1 ≤ fuel →
          whileLoop (fun a => decide (scenarioA.cursorPos_ < a)) udec fuel
            scenarioA.aperature_ = some a1) ∧
        (∀ fuel, scenarioA.cursorPos_ + 1 ≤ fuel →
          whileLoop (fun a => decide (usub scenarioA.cursorPos_ a ≥ scenarioA.length_)) uinc
            fuel a1 = some a2) ∧
        (∀ fuel, scenarioA.content_.length + 1 ≤ fuel →
          whileLoop (fun a =>
            decide (usub (uadd scenarioA.content_.length 1) a < scenarioA.length_) &&
            decide (uadd scenarioA.content_.length 1 > scenarioA.length_)) udec fuel a2 =
              some a3) ∧
        recomputeAperture scenarioA = some { scenarioA with aperature_ := a3 }) ∧
    recomputeAperture (InputTextBox.new "folderInput" (10, 6) 0 "hello".toList
      ForegroundColour.BLACK BackgroundColour.WHITE) = none :=
  ⟨(recomputation_terminates scenarioA (by decide) (by decide) (by decide)).1 (by decide),
   ((recomputation_terminates (InputTextBox.new "folderInput" (10, 6) 0 "hello".toList
      ForegroundColour.BLACK BackgroundColour.WHITE) (by decide) (by decide)
      (by decide)).2 rfl).2⟩

/-! ## The counters of a scan -/

theorem scanEntry_counts (env : Env) (r : List Char) : ∀ (entries : List DirEntry)
    (m : FileModel) (s k : Nat), m.sFiles_ = some s → m.mFiles_ = some k →
    s + entries.length < SIZE_MOD → k + entries.length < SIZE_MOD →
    (entries.foldl (FileModel.scanEntry env r) m).sFiles_ = some (s + entries.length) ∧
    (entries.foldl (FileModel.scanEntry env r) m).mFiles_ =
      some (k + (entries.filter (isMatch env r)).length) ∧
    (entries.foldl (FileModel.scanEntry env r) m).files_ =
      m.files_ ++ (entries.filter (isMatch env r)).map DirEntry.path := by
  intro entries
  induction entries with
  | nil => intro m s k hs hk _ _; simp [hs, hk]
  | cons d rest ih =>
    intro m s k hs hk h1 h2
    simp only [List.length_cons] at h1 h2
    have es : uinc s = s + 1 := uinc_lt (by simp only [SIZE_MOD] at *; omega)
    have ek : uinc k = k + 1 := uinc_lt (by simp only [SIZE_MOD] at *; omega)
    simp only [List.foldl_cons, List.length_cons]
    cases hd : d.is_directory with
    | true =>
      have e : FileModel.scanEntry env r m d = { m with sFiles_ := m.sFiles_.map uinc } := by
        simp [FileModel.scanEntry, hd]
      have hf : isMatch env r d = false := by simp [isMatch, hd]
      obtain ⟨i1, i2, i3⟩ := ih (FileModel.scanEntry env r m d) (s + 1) k
        (by rw [e]; simp [hs, es]) (by rw [e]; exact hk) (by omega) (by omega)
      refine ⟨by rw [i1]; congr 1; omega, ?_, ?_⟩
      · rw [i2, List.filter_cons_of_neg (by simp [hf])]
      · rw [i3, List.filter_cons_of_neg (by simp [hf]), e]
    | false =>
      cases hm : env.regex_match r d.extension with
      | true =>
        have hf : isMatch env r d = true := by simp [isMatch, hd, hm]
        have e1 : (FileModel.scanEntry env r m d).sFiles_ = some (s + 1) := by
          simp [FileModel.scanEntry, hd, hm, hs, es]
        have e2 : (FileModel.scanEntry env r m d).mFiles_ = some (k + 1) := by
          simp [FileModel.scanEntry, hd, hm, hk, ek]
        have e3 : (FileModel.scanEntry env r m d).files_ = m.files_ ++ [d.path] := by
          simp [FileModel.scanEntry, hd, hm]
        obtain ⟨i1, i2, i3⟩ := ih (FileModel.scanEntry env r m d) (s + 1) (k + 1) e1 e2
          (by omega) (by omega)
        refine ⟨by rw [i1]; congr 1; omega, ?_, ?_⟩
        · rw [i2, List.filter_cons_of_pos hf, List.length_cons]
          congr 1
          omega
        · rw [i3, List.filter_cons_of_pos hf, e3]
          simp
      | false =>
        have hf : isMatch env r d = false := by simp [isMatch, hd, hm]
        have e1 : (FileModel.scanEntry env r m d).sFiles_ = some (s + 1) := by
          simp [FileModel.scanEntry, hd, hm, hs, es]
        have e2 : (FileModel.scanEntry env r m d).mFiles_ = some k := by
          simp [FileModel.scanEntry, hd, hm, hk]
        have e3 : (FileModel.scanEntry env r m d).files_ = m.files_ := by
          simp [FileModel.scanEntry, hd, hm]
        obtain ⟨i1, i2, i3⟩ := ih (FileModel.scanEntry env r m d) (s + 1) k e1 e2
          (by omega) (by omega)
        refine ⟨by rw [i1]; congr 1; omega, ?_, ?_⟩
        · rw [i2, List.filter_cons_of_neg (by simp [hf])]
        · rw [i3, List.filter_cons_of_neg (by simp [hf]), e3]

theorem Scan_eq_fold (env : Env) (m : FileModel) (f r : List Char) (recurse : Bool) :
    m.Scan env f r recurse =
      (visited env f recurse).foldl (FileModel.scanEntry env r)
        { m with sFiles_ := some 0, mFiles_ := some 0, startRow_ := some 0,
                 fPos_ := some 0, fSize_ := some [], files_ := [] } := by
  unfold FileModel.Scan visited
  cases recurse <;> simp

/-- C30. Scan counters: for every sequence of visited entries (fewer than `2^64`), every
match predicate and every prior model, after `Scan` the searched count is the number of
entries visited, directories included; the file list is the paths of the entries that
are not directories and whose extension the regex matches, in visiting order; the
matched count is the length of the file list and is at most the searched count; `fPos_`
is 0; and the result is the same whatever file list, counters, size, offset and start row
the model held before. -/
theorem scan_counters (env : Env) (m : FileModel) (f r : List Char) (recurse : Bool)
    (hlen : (visited env f recurse).length < SIZE_MOD) :
    (m.Scan env f r recurse).sFiles_ = some (visited env f recurse).length ∧
    (m.Scan env f r recurse).files_ =
      ((visited env f recurse).filter (isMatch env r)).map DirEntry.path ∧
    (m.Scan env f r recurse).mFiles_ = some (m.Scan env f r recurse).files_.length ∧
    (m.Scan env f r recurse).files_.length ≤ (visited env f recurse).length ∧
    (m.Scan env f r recurse).fPos_ = some 0 ∧
    (∀ fs s k z q row,
      FileModel.Scan env { m with files_ := fs, sFiles_ := s, mFiles_ := k, fSize_ := z,
                                  fPos_ := q, startRow_ := row } f r recurse =
        m.Scan env f r recurse) := by
  have h := scanEntry_counts env r (visited env f recurse)
    { m with sFiles_ := some 0, mFiles_ := some 0, startRow_ := some 0,
             fPos_ := some 0, fSize_ := some [], files_ := [] } 0 0 rfl rfl
    (by omega) (by omega)
  rw [← Scan_eq_fold] at h
  obtain ⟨h1, h2, h3⟩ := h
  have h3' : (m.Scan env f r recurse).files_ =
      ((visited env f recurse).filter (isMatch env r)).map DirEntry.path := by
    rw [h3]
    rfl
  refine ⟨by rw [h1]; simp, h3', ?_, ?_, (Scan_fields env m f r recurse).2.2.2.1, ?_⟩
  · rw [h2, h3']
    simp
  · rw [h3', List.length_map]
    exact List.length_filter_le _ _
  · intro fs s k z q row
    rfl

/-- C30, at the example environment: three entries are visited, one of them a directory,
and the filter `.*` matches both files. -/
theorem scan_counters_witness :
    ((FileModel.new "C:/src".toList ".*".toList false).Scan exampleEnv "C:/src".toList
      ".*".toList false).sFiles_ = some 3 ∧
    ((FileModel.new "C:/src".toList ".*".toList false).Scan exampleEnv "C:/src".toList
      ".*".toList false).files_ = ["a.txt".toList, "b.h".toList] ∧
    ((FileModel.new "C:/src".toList ".*".toList false).Scan exampleEnv "C:/src".toList
      ".*".toList false).mFiles_ = some 2 := by
  obtain ⟨h1, h2, h3, _⟩ := scan_counters exampleEnv
    (FileModel.new "C:/src".toList ".*".toList false) "C:/src".toList ".*".toList false
    (by decide)
  exact ⟨h1.trans (by decide), h2.trans (by decide), h3.trans (by decide)⟩

/-! ## The command line -/

theorem pathSearch_iff (arg : List Char) :
    pathSearch arg = true ↔
      (∃ c rest, arg = c :: rest ∧ 97 ≤ c.toNat ∧ c.toNat ≤ 122) ∨
      (∃ c, c ∈ arg ∧ 65 ≤ c.toNat ∧ c.toNat ≤ 90) := by
  unfold pathSearch
  cases arg with
  | nil => simp
  | cons c rest =>
    simp only [Bool.or_eq_true, Bool.and_eq_true, decide_eq_true_eq, List.any_eq_true,
      List.cons.injEq, exists_and_right]
    constructor
    · rintro (h | ⟨x, hx, h⟩)
      · exact Or.inl ⟨c, ⟨rest, rfl, rfl⟩, h⟩
      · exact Or.inr ⟨x, hx, h⟩
    · rintro (⟨x, ⟨r, hx, _⟩, h⟩ | ⟨x, hx, h⟩)
      · exact Or.inl (hx ▸ h)
      · exact Or.inr ⟨x, hx, h⟩

/-- C25. What the argument parser does with a token other than `-r` at an index other
than 0: the token becomes the start path if and only if it starts with a lowercase
letter or holds an uppercase letter anywhere (the pattern `^[a-z]|[A-Z]` is searched for,
not `^[a-zA-Z]`), and it becomes the filter otherwise; the other two variables are left
as they were. -/
theorem argument_classification (i : Nat) (arg : List Char) (p : Arguments)
    (hi : i ≠ 0) (harg : arg ≠ "-r".toList) :
    (pathSearch arg = true ↔
      (∃ c rest, arg = c :: rest ∧ 97 ≤ c.toNat ∧ c.toNat ≤ 122) ∨
      (∃ c, c ∈ arg ∧ 65 ≤ c.toNat ∧ c.toNat ≤ 90)) ∧
    (pathSearch arg = true → parseArg i arg p = { p with startPath := arg }) ∧
    (pathSearch arg = false → parseArg i arg p = { p with regexFilter := arg }) := by
  have hn : ¬ (arg = "-r".toList ∧ p.recursive = false) := fun h => harg h.1
  refine ⟨pathSearch_iff arg, ?_, ?_⟩
  · intro h
    unfold parseArg
    rw [if_pos hi, if_neg hn, if_pos h]
  · intro h
    unfold parseArg
    rw [if_pos hi, if_neg hn, if_neg (by simp [h])]

/-- C25, at concrete tokens: `src` becomes the start path and `.*\.h` the filter. -/
theorem argument_classification_witness :
    parseArg 1 "src".toList ⟨false, "C:/cwd".toList, ".*".toList⟩ =
      ⟨false, "src".toList, ".*".toList⟩ ∧
    parseArg 2 ".*\\.h".toList ⟨false, "src".toList, ".*".toList⟩ =
      ⟨false, "src".toList, ".*\\.h".toList⟩ :=
  ⟨(argument_classification 1 "src".toList ⟨false, "C:/cwd".toList, ".*".toList⟩
      (by decide) (by decide)).2.1 (by decide),
   (argument_classification 2 ".*\\.h".toList ⟨false, "src".toList, ".*".toList⟩
      (by decide) (by decide)).2.2 (by decide)⟩

/-- C25 as stated fails: the token `\.H` does not start with a letter, yet the parser takes
it as the start path and leaves the filter at `.*`; the application built at that index
is constructed with the start path `\.H`. -/
theorem argument_classification_counterexample :
    ("\\.H".toList.head? = some '\\') ∧ "\\.H".toList ≠ "-r".toList ∧
    pathSearch "\\.H".toList = true ∧
    parseArg 1 "\\.H".toList ⟨false, "C:/cwd".toList, ".*".toList⟩ =
      ⟨false, "\\.H".toList, ".*".toList⟩ ∧
    (MyApp.execute exampleEnv (fun _ => []) "C:/cwd".toList
      ["prog".toList, "\\.H".toList] ⟨[], []⟩).1 =
      [⟨false, "C:/cwd".toList, ".*".toList⟩, ⟨false, "\\.H".toList, ".*".toList⟩] := by
  refine ⟨by rfl, by decide, by rfl, by rfl, by rfl⟩

/-! ## One application per loop index -/

theorem execute_loop_ok (env : Env) (events : Nat → List Event) (i : Nat) (a : List Char)
    (rest : List (List Char)) (p : Arguments) (fr : Framework) (r : Framework × Option String)
    (h : tryApplication env (parseArg i a p).startPath (parseArg i a p).regexFilter
      (parseArg i a p).recursive (events i) fr = Outcome.ok r) :
    MyApp.execute.loop env events (a :: rest) i p fr =
      (parseArg i a p :: (MyApp.execute.loop env events rest (i + 1) (parseArg i a p) r.1).1,
        (MyApp.execute.loop env events rest (i + 1) (parseArg i a p) r.1).2) := by
  show MyApp.execute.next (parseArg i a p)
      (tryApplication env (parseArg i a p).startPath (parseArg i a p).regexFilter
        (parseArg i a p).recursive (events i) fr)
      (fun fr' => MyApp.execute.loop env events rest (i + 1) (parseArg i a p) fr') = _
  rw [h]
  rfl

theorem execute_loop_stop (env : Env) (events : Nat → List Event) (i : Nat) (a : List Char)
    (rest : List (List Char)) (p : Arguments) (fr : Framework)
    (h : ∀ r, tryApplication env (parseArg i a p).startPath (parseArg i a p).regexFilter
      (parseArg i a p).recursive (events i) fr ≠ Outcome.ok r) :
    (MyApp.execute.loop env events (a :: rest) i p fr).1 = [parseArg i a p] ∧
    ∀ fr', (MyApp.execute.loop env events (a :: rest) i p fr).2 ≠ Outcome.ok fr' := by
  show (MyApp.execute.next (parseArg i a p)
      (tryApplication env (parseArg i a p).startPath (parseArg i a p).regexFilter
        (parseArg i a p).recursive (events i) fr)
      (fun fr' => MyApp.execute.loop env events rest (i + 1) (parseArg i a p) fr')).1 = _ ∧
    ∀ fr', (MyApp.execute.next (parseArg i a p)
      (tryApplication env (parseArg i a p).startPath (parseArg i a p).regexFilter
        (parseArg i a p).recursive (events i) fr)
      (fun fr' => MyApp.execute.loop env events rest (i + 1) (parseArg i a p) fr')).2 ≠
        Outcome.ok fr'
  generalize tryApplication env (parseArg i a p).startPath (parseArg i a p).regexFilter
      (parseArg i a p).recursive (events i) fr = o at h
  cases o with
  | ok r => exact absurd rfl (h r)
  | thrown e w => exact ⟨rfl, fun fr' hh => by cases hh⟩
  | undefined => exact ⟨rfl, fun fr' hh => by cases hh⟩
  | diverges => exact ⟨rfl, fun fr' hh => by cases hh⟩

theorem range_map_shift (k i : Nat) (a : List Char) (rest : List (List Char))
    (p : Arguments) :
    (List.range (k + 1)).map (fun j => parseFrom i ((a :: rest).take (j + 1)) p) =
      parseArg i a p ::
        (List.range k).map (fun j => parseFrom (i + 1) (rest.take (j + 1)) (parseArg i a p)) := by
  rw [List.range_succ_eq_map, List.map_cons, List.map_map]
  rfl

theorem execute_loop_spec (env : Env) (events : Nat → List Event) :
    ∀ (args : List (List Char)) (i : Nat) (p : Arguments) (fr : Framework),
    ∃ k, k ≤ args.length ∧ (args ≠ [] → 1 ≤ k) ∧
      (MyApp.execute.loop env events args i p fr).1 =
        (List.range k).map (fun j => parseFrom i (args.take (j + 1)) p) ∧
      ((∃ fr', (MyApp.execute.loop env events args i p fr).2 = Outcome.ok fr') →
        k = args.length) := by
  intro args
  induction args with
  | nil =>
    intro i p fr
    exact ⟨0, Nat.le_refl _, fun h => absurd rfl h, rfl, fun _ => rfl⟩
  | cons a rest ih =>
    intro i p fr
    by_cases hr : ∃ r, tryApplication env (parseArg i a p).startPath
        (parseArg i a p).regexFilter (parseArg i a p).recursive (events i) fr = Outcome.ok r
    · obtain ⟨r, ht⟩ := hr
      obtain ⟨k, hk, _, hl, hok⟩ := ih (i + 1) (parseArg i a p) r.1
      have e := execute_loop_ok env events i a rest p fr r ht
      refine ⟨k + 1, Nat.succ_le_succ hk, fun _ => Nat.succ_le_succ (Nat.zero_le _), ?_, ?_⟩
      · rw [e, range_map_shift]
        exact congrArg (fun l => parseArg i a p :: l) hl
      · intro h
        rw [e] at h
        exact congrArg Nat.succ (hok h)
    · have hs := execute_loop_stop env events i a rest p fr (fun r h => hr ⟨r, h⟩)
      refine ⟨1, Nat.succ_le_succ (Nat.zero_le _), fun _ => Nat.le_refl _, hs.1, ?_⟩
      intro h
      obtain ⟨fr', h⟩ := h
      exact absurd h (hs.2 fr')

theorem parseFrom_first (cwd a0 : List Char) (rest : List (List Char)) :
    parseFrom 0 (a0 :: rest) ⟨false, cwd, ".*".toList⟩ =
      parseFrom 1 rest ⟨false, cwd, ".*".toList⟩ := by
  rfl

/-! ## What one application does on the shared frame -/

theorem scrollLoop_console (files : List (List Char)) (hn : files.length < SIZE_MOD) :
    ∀ (fuel i v row : Nat) (fr : Framework), v ≤ 29 → 30 ≤ fuel + v →
    (scrollLoop files fuel i v row fr).2.console_ =
      fr.console_ ++ repaintCalls files i row (min (29 - v) (files.length - i)) := by
  intro fuel
  induction fuel with
  | zero =>
    intro i v row fr hv hf
    omega
  | succ m ih =>
    intro i v row fr hv hf
    unfold scrollLoop
    by_cases hi : i < files.length
    · rw [if_pos hi]
      by_cases hv28 : v ≤ 28
      · rw [if_pos hv28]
        have hu : uinc i = i + 1 := uinc_lt (by simp only [SIZE_MOD] at *; omega)
        rw [hu, ih (i + 1) (v + 1) (row + 1) _ (by omega) (by omega)]
        have e : min (29 - v) (files.length - i) =
            min (29 - (v + 1)) (files.length - (i + 1)) + 1 := by omega
        rw [e]
        simp [repaintCalls, Framework.Write]
      · rw [if_neg hv28]
        have e : min (29 - v) (files.length - i) = 0 := by omega
        rw [e]
        simp [repaintCalls]
    · rw [if_neg hi]
      have e : min (29 - v) (files.length - i) = 0 := by omega
      rw [e]
      simp [repaintCalls]

theorem scrollRepaint_console (q : Nat) (w : World) (hn : w.model_.files_.length < SIZE_MOD) :
    (scrollRepaint q w).frame.console_ =
      w.frame.console_ ++
        repaintCalls w.model_.files_ q 13 (min 29 (w.model_.files_.length - q)) :=
  scrollLoop_console w.model_.files_ hn 30 q 0 13 w.frame (by omega) (by omega)

theorem repaintCalls_length (files : List (List Char)) :
    ∀ (k i row : Nat), (repaintCalls files i row k).length = 2 * k := by
  intro k
  induction k with
  | zero => intro i row; rfl
  | succ n ih =>
    intro i row
    simp only [repaintCalls, List.length_cons, ih]
    omega

theorem repaintCalls_get (files : List (List Char)) :
    ∀ (k i row r : Nat), r < k →
      (repaintCalls files i row k).get? (2 * r) =
        some (ConsoleCall.Write 1 (row + r) (blanks 200) ForegroundColour.WHITE
          BackgroundColour.BLACK) ∧
      (repaintCalls files i row k).get? (2 * r + 1) =
        some (ConsoleCall.Write 1 (row + r) (files.getD ((i + r) % 4294967296) [])
          ForegroundColour.WHITE BackgroundColour.BLACK) := by
  intro k
  induction k with
  | zero => intro i row r h; omega
  | succ n ih =>
    intro i row r h
    cases r with
    | zero => exact ⟨rfl, rfl⟩
    | succ r =>
      have h1 := ih (i + 1) (row + 1) r (by omega)
      have e1 : 2 * (r + 1) = (2 * r) + 1 + 1 := by omega
      have e3 : row + 1 + r = row + (r + 1) := by omega
      have e4 : i + 1 + r = i + (r + 1) := by omega
      rw [e1]
      simp only [repaintCalls, List.get?_cons_succ]
      rw [← e3, ← e4]
      exact h1

theorem repaintCalls_snoc (files : List (List Char)) :
    ∀ (k i row : Nat), repaintCalls files i row (k + 1) =
      repaintCalls files i row k ++
        [ConsoleCall.Write 1 (row + k) (blanks 200) ForegroundColour.WHITE
          BackgroundColour.BLACK,
         ConsoleCall.Write 1 (row + k) (files.getD ((i + k) % 4294967296) [])
          ForegroundColour.WHITE BackgroundColour.BLACK] := by
  intro k
  induction k with
  | zero => intro i row; rfl
  | succ n ih =>
    intro i row
    have e3 : row + 1 + n = row + (n + 1) := by omega
    have e4 : i + 1 + n = i + (n + 1) := by omega
    rw [repaintCalls, ih (i + 1) (row + 1), e3, e4]
    rfl

theorem shown_append_two (cols x y : Nat) (l : List ConsoleCall) (b c : ConsoleCall) :
    shown cols x y (l ++ [b, c]) =
      (c.charAt cols x y).orElse
        (fun _ => (b.charAt cols x y).orElse (fun _ => shown cols x y l)) := by
  simp [shown, List.foldl_append]

theorem nToWrite_one (content : List Char) (h : content.length < 4294967296) :
    nToWrite 1 content = content.length := by
  unfold nToWrite
  omega

theorem nToWrite_one_min (content : List Char) :
    nToWrite 1 content = min content.length 4294967295 := by
  unfold nToWrite
  omega

/-- On a buffer of `cols` columns, the 200 blanks written from column 1 of a row run over
into the next row, and so does a name of `cols` or more characters: after the two calls
of a repaint iteration for `row`, a cell `x` of the next row with `x + cols <= 200`
shows the character number `cols + x - 1` of the name if the name is that long, and a
blank otherwise. -/
theorem spill_cell (cols x row : Nat) (name : List Char) (l : List ConsoleCall)
    (fg : ForegroundColour) (bg : BackgroundColour)
    (hc : 1 ≤ cols) (hx : x + cols ≤ 200) :
    shown cols x (row + 1)
      (l ++ [ConsoleCall.Write 1 row (blanks 200) fg bg, ConsoleCall.Write 1 row name fg bg]) =
      some ((name.get? (cols + x - 1)).getD ' ') := by
  have e : (row + 1) * cols = row * cols + cols := Nat.succ_mul row cols
  have hbl : (blanks 200).length = 200 := List.length_replicate 200 ' '
  have hb : nToWrite 1 (blanks 200) = 200 :=
    (nToWrite_one (blanks 200) (by rw [hbl]; omega)).trans hbl
  have hnm : nToWrite 1 name = min name.length 4294967295 := nToWrite_one_min name
  have hoff : row * cols + cols + x - (row * cols + 1) = cols + x - 1 := by omega
  rw [shown_append_two]
  have h1 : (ConsoleCall.Write 1 row name fg bg).charAt cols x (row + 1) =
      name.get? (cols + x - 1) := by
    simp only [ConsoleCall.charAt, hnm, e, hoff]
    by_cases h : cols + x - 1 < name.length
    · rw [if_pos (by omega)]
    · rw [if_neg (by omega)]
      exact (List.get?_eq_none.2 (by omega)).symm
  have h2 : (ConsoleCall.Write 1 row (blanks 200) fg bg).charAt cols x (row + 1) =
      some ' ' := by
    simp only [ConsoleCall.charAt, hb, e]
    rw [if_pos (by omega)]
    unfold blanks
    rw [List.get?_eq_getElem?, List.getElem?_replicate, if_pos (by omega)]
  rw [h1, h2]
  cases name.get? (cols + x - 1) <;> rfl

/-- After the two calls of a repaint iteration for `row`, the cells from column 1 on show
the characters of the file name that one `Write` call passes on. -/
theorem last_row_shows (cols j row : Nat) (name blank : List Char) (l : List ConsoleCall)
    (fg : ForegroundColour) (bg : BackgroundColour)
    (hj : j < name.length) (hl : j < 4294967295) :
    shown cols (1 + j) row
      (l ++ [ConsoleCall.Write 1 row blank fg bg, ConsoleCall.Write 1 row name fg bg]) =
      name.get? j := by
  have hnm : nToWrite 1 name = min name.length 4294967295 := nToWrite_one_min name
  rw [shown_append_two]
  have h1 : (ConsoleCall.Write 1 row name fg bg).charAt cols (1 + j) row = name.get? j := by
    simp only [ConsoleCall.charAt, hnm]
    rw [if_pos (by omega)]
    congr 1
    omega
  rw [h1]
  have h2 : name.get? j = some (name.get ⟨j, hj⟩) := List.get?_eq_get hj
  rw [h2]
  rfl

/-- C29, amended.  For a file list of `n < 2^32` items and an offset `q`, a scroll repaint
makes exactly `2 * k` console calls, `k = min(29, n - q)`: for `r = 0 .. k - 1`, in
order, 200 blanks and then the name of file `q + r` are written at column 1 of row
`13 + r`; no call is made for another row.  After it the cell `j` places right of
column 1 of the last of these rows shows character `j` of the last of these names
(`j < 2^32 - 1`, the most one `Write` call passes on).  But on a screen buffer of
`cols >= 1` columns (the program sets 130) what is written from column 1 of the last
row runs over into the next row: if `k >= 1`, every cell `x` of row `13 + k` with
`x + cols <= 200` shows character `cols + x - 1` of the last name when that name is
that long, and a blank otherwise; in particular it shows a blank when the last name
has fewer than `cols + x` characters.  For `n >= 29`, the scroll-down handler at the
offset `n - 29` repaints with the offset `n - 28`, for which `k = 28`. -/
theorem scroll_repaint_rows (q cols : Nat) (w : World)
    (hn : w.model_.files_.length < 4294967296) :
    (scrollRepaint q w).frame.console_ =
      w.frame.console_ ++
        repaintCalls w.model_.files_ q 13 (min 29 (w.model_.files_.length - q)) ∧
    (repaintCalls w.model_.files_ q 13 (min 29 (w.model_.files_.length - q))).length =
      2 * min 29 (w.model_.files_.length - q) ∧
    (∀ r, r < min 29 (w.model_.files_.length - q) →
      (repaintCalls w.model_.files_ q 13 (min 29 (w.model_.files_.length - q))).get? (2 * r) =
        some (ConsoleCall.Write 1 (13 + r) (blanks 200) ForegroundColour.WHITE
          BackgroundColour.BLACK) ∧
      (repaintCalls w.model_.files_ q 13
          (min 29 (w.model_.files_.length - q))).get? (2 * r + 1) =
        some (ConsoleCall.Write 1 (13 + r) (w.model_.files_.getD (q + r) [])
          ForegroundColour.WHITE BackgroundColour.BLACK)) ∧
    (∀ j, 1 ≤ min 29 (w.model_.files_.length - q) →
      j < (w.model_.files_.getD (q + (min 29 (w.model_.files_.length - q) - 1)) []).length →
      j < 4294967295 →
      shown cols (1 + j) (13 + (min 29 (w.model_.files_.length - q) - 1))
          (scrollRepaint q w).frame.console_ =
        (w.model_.files_.getD (q + (min 29 (w.model_.files_.length - q) - 1)) []).get? j) ∧
    (∀ x, 1 ≤ min 29 (w.model_.files_.length - q) → 1 ≤ cols → x + cols ≤ 200 →
      shown cols x (13 + min 29 (w.model_.files_.length - q))
        (scrollRepaint q w).frame.console_ =
        some (((w.model_.files_.getD (q + (min 29 (w.model_.files_.length - q) - 1))
          []).get? (cols + x - 1)).getD ' ')) ∧
    (∀ x, 1 ≤ min 29 (w.model_.files_.length - q) → 1 ≤ cols → x + cols ≤ 200 →
      (w.model_.files_.getD (q + (min 29 (w.model_.files_.length - q) - 1)) []).length <
        cols + x →
      shown cols x (13 + min 29 (w.model_.files_.length - q))
        (scrollRepaint q w).frame.console_ = some ' ') ∧
    (29 ≤ w.model_.files_.length → w.model_.fPos_ = some (w.model_.files_.length - 29) →
      scrollDown w = Outcome.ok (scrollRepaint (w.model_.files_.length - 28) w) ∧
      min 29 (w.model_.files_.length - (w.model_.files_.length - 28)) = 28) := by
  have hn64 : w.model_.files_.length < SIZE_MOD := by
    simp only [SIZE_MOD]
    omega
  have htrace := scrollRepaint_console q w hn64
  have hmod : ∀ r, r < min 29 (w.model_.files_.length - q) →
      (q + r) % 4294967296 = q + r := fun r hr => Nat.mod_eq_of_lt (by omega)
  have hsnoc : 1 ≤ min 29 (w.model_.files_.length - q) →
      (scrollRepaint q w).frame.console_ =
        (w.frame.console_ ++ repaintCalls w.model_.files_ q 13
          (min 29 (w.model_.files_.length - q) - 1)) ++
        [ConsoleCall.Write 1 (13 + (min 29 (w.model_.files_.length - q) - 1)) (blanks 200)
          ForegroundColour.WHITE BackgroundColour.BLACK,
         ConsoleCall.Write 1 (13 + (min 29 (w.model_.files_.length - q) - 1))
          (w.model_.files_.getD (q + (min 29 (w.model_.files_.length - q) - 1)) [])
          ForegroundColour.WHITE BackgroundColour.BLACK] := by
    intro hk
    have e : min 29 (w.model_.files_.length - q) =
        (min 29 (w.model_.files_.length - q) - 1) + 1 := by omega
    rw [htrace]
    conv_lhs => rw [e]
    rw [repaintCalls_snoc, hmod _ (by omega), List.append_assoc]
  have hspill : ∀ x, 1 ≤ min 29 (w.model_.files_.length - q) → 1 ≤ cols → x + cols ≤ 200 →
      shown cols x (13 + min 29 (w.model_.files_.length - q))
        (scrollRepaint q w).frame.console_ =
        some (((w.model_.files_.getD (q + (min 29 (w.model_.files_.length - q) - 1))
          []).get? (cols + x - 1)).getD ' ') := by
    intro x hk hc hx
    rw [hsnoc hk]
    have e : 13 + min 29 (w.model_.files_.length - q) =
        13 + (min 29 (w.model_.files_.length - q) - 1) + 1 := by omega
    rw [e]
    exact spill_cell cols x _ _ _ _ _ hc hx
  refine ⟨htrace, repaintCalls_length _ _ _ _, ?_, ?_, hspill, ?_, ?_⟩
  · intro r hr
    have h := repaintCalls_get w.model_.files_ _ q 13 r hr
    rw [hmod r hr] at h
    exact h
  · intro j hk hj hl
    rw [hsnoc hk]
    exact last_row_shows cols j _ _ _ _ _ _ hj hl
  · intro x hk hc hx hname
    rw [hspill x hk hc hx, List.get?_eq_none.2 (by omega)]
    rfl
  · intro h29 hp
    refine ⟨?_, by omega⟩
    rw [scrollDown_eq w _ hp]
    have e1 : uadd (w.model_.files_.length - 29) 28 = w.model_.files_.length - 29 + 28 :=
      uadd_lt (by simp only [SIZE_MOD]; omega)
    have e2 : uinc (w.model_.files_.length - 29) = w.model_.files_.length - 28 := by
      rw [uinc_lt (by simp only [SIZE_MOD]; omega)]
      omega
    rw [e1, if_pos (by omega), e2]

set_option maxRecDepth 100000 in
/-- C29 amended, at concrete states on a buffer of 130 columns: the repaint with offset 1
of the list of 29 files `0.txt` to `28.txt`, after which column 1 of row 41 shows a
blank; and the repaint with offset 0 of a list that holds one name of 130 characters,
after which column 0 of row 14 shows the last character of that name. -/
theorem scroll_repaint_rows_witness :
    ((scrollRepaint 1 started29).frame.console_ =
      started29.frame.console_ ++
        repaintCalls started29.model_.files_ 1 13
          (min 29 (started29.model_.files_.length - 1)) ∧
    min 29 (started29.model_.files_.length - 1) = 28 ∧
    shown 130 1 (13 + min 29 (started29.model_.files_.length - 1))
      (scrollRepaint 1 started29).frame.console_ = some ' ') ∧
    (min 29 (longNamed.model_.files_.length - 0) = 1 ∧
    (longNamed.model_.files_.getD 0 []).length = 130 ∧
    ((longNamed.model_.files_.getD 0 []).get? 129).getD ' ' = 'z' ∧
    shown 130 0 (13 + min 29 (longNamed.model_.files_.length - 0))
      (scrollRepaint 0 longNamed).frame.console_ =
      some (((longNamed.model_.files_.getD (0 + (min 29 (longNamed.model_.files_.length - 0)
        - 1)) []).get? (130 + 0 - 1)).getD ' ')) := by
  obtain ⟨h1, _, _, _, _, h6, _⟩ := scroll_repaint_rows 1 130 started29 (by decide)
  obtain ⟨_, _, _, _, k5, _, _⟩ := scroll_repaint_rows 0 130 longNamed (by decide)
  exact ⟨⟨h1, by decide, h6 1 (by decide) (by decide) (by decide) (by decide)⟩,
    by rfl, by rfl, by rfl, k5 0 (by decide) (by decide) (by decide)⟩

set_option maxRecDepth 100000 in
/-- C29 as stated fails: the directory holds the 29 files `0.txt` to `28.txt` and the
buffer is 130 columns wide.  At the start (offset 0) row 41 shows `28.txt`.  The down
arrow moves the offset to 1, the largest allowed, and rewrites the 28 rows 13 to 40; row
40 then shows `28.txt`, but row 41, for which no call was made, does not keep that
name: the 200 blanks written from column 1 of row 40 have run over into row 41, whose
cells 1 to 6 now show blanks. -/
theorem stale_row_counterexample :
    started29.model_.files_.length = 29 ∧ started29.model_.fPos_ = some 0 ∧
    (List.range 6).map (fun j => shown 130 (1 + j) 41 started29.frame.console_) =
      "28.txt".toList.map some ∧
    FileView.ProcessKeyEvent twentyNineEnv (keyDown VK_DOWN (Char.ofNat 0)) started29 =
      Outcome.ok scrolled29 ∧
    scrolled29.model_.fPos_ = some 1 ∧
    scrolled29.frame.console_ =
      started29.frame.console_ ++ repaintCalls started29.model_.files_ 1 13 28 ∧
    (List.range 6).map (fun j => shown 130 (1 + j) 40 scrolled29.frame.console_) =
      "28.txt".toList.map some ∧
    (List.range 6).map (fun j => shown 130 (1 + j) 41 scrolled29.frame.console_) =
      List.replicate 6 (some ' ') := by
  refine ⟨by decide, by rfl, by rfl, by rfl, by rfl, by rfl, by rfl, by rfl⟩

end FileBrowser
